import Mathlib

/-!
# Encounter engine of `battle_for_the_sword_coast`

A shallow embedding of `src/engine/encounter.js` and the properties of its
turn-based combat state machine.

Modelling conventions (JavaScript to Lean):

* Hit points, damage, action points and cooldowns are integers (`Int`); counters
  that the source only ever compares with `> 0`, raises with `Math.max` and
  lowers by one are naturals, with `0` standing for an absent field (every read
  in the source treats `undefined` and `0` alike).
* Chances, bonuses and random rolls are rationals (`ℚ`) holding the exact values of
  the doubles of the source; a sum or product of them is rounded to the nearest
  double (`roundDouble`), and `Number` of a run of digits is the nearest double
  (`roundDoubleNat`). Overflow to `Infinity` is outside the model.
* A field whose absence is observable (`tempHp`, `statusIcons`, `_instanceId`,
  optional card data) is an `Option`.
* Objects used as dictionaries are association lists in insertion order; a test
  on `obj[k]` is also truthy for a name inherited from `Object.prototype`
  (`truthyAt`), and an assignment to `__proto__` stores nothing (`objSet`).
* Slot and ability indices are naturals; `placeHeroArg` takes every JavaScript
  value as slot index.  The playfield is a JavaScript array: a list of slots,
  each `null`, a hole of a sparse array, or a hero.
* Lower-casing follows `toLowerCase` on every character whose lower-case form
  contains an ASCII letter (`lower`).
* Mutation is explicit state passing: an operation maps a state to the new state
  and its result object.
* Status icon payloads that only serve presentation (`ts`, `dmg`, `amount`,
  `turns`) and the cosmetic `_griffVariant` are left out.
-/

namespace Encounter

/-! ## Data model -/

/-- An entry of a card's `abilities` array (or the legacy top-level fields of a card). -/
structure Ability where
  name : Option String := none
  ability : Option String := none
  actionType : Option String := none
  hitChance : Option ℚ := none
  critChance : Option ℚ := none
  cooldown : Option Int := none
  actionTarget : Option String := none
  primary : Bool := false
deriving DecidableEq

/-- A hero card definition. -/
structure Card where
  id : String
  name : Option String := none
  hp : Int
  abilities : Option (List Ability) := none
  ability : Option String := none
  actionType : Option String := none
  hitChance : Option ℚ := none
  critChance : Option ℚ := none
  actionTarget : Option String := none
deriving DecidableEq

/-- An entry of a hero's `statusIcons` list. -/
structure StatusIcon where
  id : String
  source : String
  persistent : Bool := false
deriving DecidableEq

/-- A hero placed on the playfield. -/
structure Hero where
  cardId : String
  hp : Int
  base : Card
  tempHp : Option Int := none
  statusIcons : Option (List StatusIcon) := none
  instanceId : Option Nat := none
  defending : Bool := false
  helped : Bool := false
  helpSource : Option String := none
  protectedTurns : Option Int := none
  stunnedTurns : Nat := 0
  enfeebledTurns : Nat := 0
  blindedTurns : Nat := 0
  hitBonus : ℚ := 0
deriving DecidableEq

/-- One element of the playfield array. -/
inductive Slot where
  | null
  | hole
  | hero (h : Hero)
deriving DecidableEq

/-- An entry of an enemy's `attacks` list. -/
structure Attack where
  name : Option String := none
  type : Option String := none
  dmg : Option Int := none
  hitChance : Option ℚ := none
  critChance : Option ℚ := none
  effect : Option String := none
deriving DecidableEq

/-- The enemy: its definition plus the runtime fields. -/
structure Enemy where
  id : Option String := none
  name : Option String := none
  hp : Int
  maxHp : Option Int := none
  attack : Option Int := none
  attacks : Option (List Attack) := none
  stunnedTurns : Nat := 0
  nextAttackHalved : Bool := false
deriving DecidableEq

/-- An entry of `pendingEffects`. -/
structure PendingEffect where
  type : String
  id : String
  slot : Nat
  dmg : Int
  trigger : String
  times : Option Int := none
  sourceName : String
deriving DecidableEq

/-- A summon definition. -/
structure SummonDef where
  id : String
  restriction : Option String := none
  cooldown : Option Int := none
  ability : Option String := none
deriving DecidableEq

/-- Modelled from the spec: the random source of the missing `engine/rng.js`
("`draw() → float in [0,1)`, `drawInt(n) → integer in [0,n)`"), as the two
sequences of outcomes it is going to produce.  A raw integer outcome `k` is read
as `k % n`, which is `k` itself for an outcome already in `[0,n)`; an exhausted
sequence yields `0`. -/
structure Rng where
  rolls : List ℚ
  ints : List Nat
deriving DecidableEq

/-- The key of `abilityCooldowns`: the string `inst + ':ability' + aiKey`, where
`aiKey` is `'primary'` (`none`) or a decimal ability index. -/
structure AbilityKey where
  inst : String
  ai : Option Nat
deriving DecidableEq

/-- The `targetIndex` argument: `null`, a number, or the string `'all'`. -/
inductive Target where
  | none
  | idx (i : Nat)
  | all
deriving DecidableEq

/-- The encounter state. -/
structure State where
  enemy : Enemy
  rng : Rng
  hand : Option (List Card)
  turn : Nat
  apPerTurn : Int
  ap : Int
  playfield : List Slot
  exhaustedThisEncounter : List Card
  summonUsed : List (String × Bool)
  summonCooldowns : List (String × Int)
  supportUsed : List (String × Bool)
  abilityCooldowns : List (AbilityKey × Int)
  pendingEffects : List PendingEffect
  nextHeroInstanceId : Nat
  formation : Option Nat
  nextAttackMultiplier : Option Int
deriving DecidableEq

/-- A `hit` event of `enemyAct`. -/
structure HitEvent where
  slot : Nat
  dmg : Int
  tempTaken : Int
  hpTaken : Int
  remainingHp : Int
  died : Bool
  heroName : Option String
  attackType : String
  attack : Option Nat
  attackName : Option String
  isProtected : Bool := false
  missed : Bool := false
  crit : Option Bool := none
  baseDmg : Option Int := none
deriving DecidableEq

/-- The typed records of the `events` array. -/
inductive Event where
  | hit (e : HitEvent)
  | enemyDamage (id : String) (slot : Nat) (dmg : Int) (enemyHp : Int) (sourceName : String)
  | heroStunned (slot : Nat) (heroName : Option String)
  | heroEnfeebled (slot : Nat) (heroName : Option String)
  | heroBlinded (slot : Nat) (heroName : Option String)
  | stunned
deriving DecidableEq

/-- The operation-specific fields of a successful support result. -/
inductive SupportInfo where
  | refreshed (summon : String)
  | plain
  | scheduled
  | rally (apGranted : Int) (cooldown : Int) (key : AbilityKey)
  | assist (target : Nat) (hitBonus : ℚ) (key : AbilityKey)
  | target (t : Nat)
  | brer (dmg : Int) (enemyHp : Int)
  | delayed (dmg : Int) (enemyHp : Int)
  | kiefer (stunned : Bool) (roll : Nat)
deriving DecidableEq

/-- The result object of a player operation.  `threw` stands for a JavaScript
exception escaping the call. -/
inductive Result where
  | fail (reason : String)
  | threw
  | ok
  | placed (slot : Nat)
  | attackMissed (enemyHp : Int)
  | attackHit (dmg : Int) (enemyHp : Int) (crit : Bool) (baseDmg : Int)
  | healParty (healed : Int) (targets : List (Nat × Int × Int))
  | healSingle (healed : Int) (slot : Nat) (hp : Int)
  | support (slot : Nat) (id : String) (info : SupportInfo)
deriving DecidableEq

/-- The `success` field of a result object. -/
def Result.success : Result → Bool
  | .fail _ => false
  | .threw => false
  | _ => true

/-- The result object says `success:false`. -/
def Result.failed : Result → Bool
  | .fail _ => true
  | _ => false

/-- The result of `enemyAct`. -/
structure ActResult where
  did : String
  events : List Event
deriving DecidableEq

/-! ## Small helpers for JavaScript idioms -/

/-- The hero held by a slot, if any (`null` and holes are falsy). -/
def Slot.hero? : Slot → Option Hero
  | .hero h => some h
  | _ => none

/-- The hero read from `state.playfield[i]`, if the slot holds one. -/
def getHero (s : State) (i : Nat) : Option Hero :=
  s.playfield[i]?.bind Slot.hero?

/-- Assignment `arr[i] = v` on a JavaScript array: in place when `i` is inside, else the
array grows and the skipped indices are holes. -/
def setSlot (pf : List Slot) (i : Nat) (v : Slot) : List Slot :=
  if i < pf.length then pf.set i v
  else pf ++ List.replicate (i - pf.length) Slot.hole ++ [v]

/-- The loop `playfield.forEach(h => { if (h) ... })` for a per-hero mutation. -/
def mapHeroes (f : Hero → Hero) (pf : List Slot) : List Slot :=
  pf.map fun sl => match sl with
    | .hero h => .hero (f h)
    | other => other

/-- Lookup `dict[k]` among the keys the table holds itself. A table kept in a plain object
also answers for the names inherited from `Object.prototype`: the tests that read the truth
value of such a lookup go through `truthyAt`; the numeric reads (`cd > 0`) are false on an
inherited value, as on an absent one. The keys of `abilityCooldowns` contain `:ability` and
are never inherited names. -/
def dictGet {κ α : Type} [DecidableEq κ] (d : List (κ × α)) (k : κ) : Option α :=
  match d with
  | [] => none
  | (k', v) :: rest => if k' = k then some v else dictGet rest k

/-- Assignment `dict[k] = v`: in place for an existing key, appended for a new one. -/
def dictSet {κ α : Type} [DecidableEq κ] (d : List (κ × α)) (k : κ) (v : α) : List (κ × α) :=
  match d with
  | [] => [(k, v)]
  | (k', v') :: rest => if k' = k then (k, v) :: rest else (k', v') :: dictSet rest k v

/-- The property names every plain object inherits from `Object.prototype`: a lookup
`obj[k]` of one of them finds a function (for `__proto__` the prototype object) although the
object has no such key of its own. -/
def protoKeys : List String :=
  ["constructor", "__proto__", "hasOwnProperty", "isPrototypeOf", "propertyIsEnumerable",
   "toLocaleString", "toString", "valueOf", "__defineGetter__", "__defineSetter__",
   "__lookupGetter__", "__lookupSetter__"]

/-- The truth value of `obj[k]` on a table of booleans kept in a plain object: the stored
value for an own key, and truthy for a name inherited from `Object.prototype`; `__proto__`
always reads the prototype. -/
def truthyAt (d : List (String × Bool)) (k : String) : Bool :=
  if k = "__proto__" then true
  else
    match dictGet d k with
    | some b => b
    | none => decide (k ∈ protoKeys)

/-- Assignment `obj[k] = v` of a boolean or a number on a plain object: as `dictSet`, except
that the assignment to `__proto__` stores nothing. -/
def objSet {α : Type} (d : List (String × α)) (k : String) (v : α) : List (String × α) :=
  if k = "__proto__" then d else dictSet d k v

/-- The loop `Object.keys(cd).forEach(k => { if (cd[k] > 0) cd[k]--; })`. -/
def decCooldowns {κ : Type} (d : List (κ × Int)) : List (κ × Int) :=
  d.map fun kv => if kv.2 > 0 then (kv.1, kv.2 - 1) else kv

/-- Lower-casing of a list of characters as `toLowerCase` does it, for every character whose
lower-case form contains an ASCII letter: the letters `A`-`Z`, the Kelvin sign U+212A (to `k`)
and the dotted capital I U+0130 (to `i` followed by U+0307). The other characters are kept:
their lower-case forms hold no ASCII character, so the comparisons with the ASCII words of
the source come out the same. -/
def lowerChars : List Char → List Char
  | [] => []
  | c :: cs =>
    (if c.toNat = 0x212A then ['k']
     else if c.toNat = 0x130 then ['i', Char.ofNat 0x307]
     else [c.toLower]) ++ lowerChars cs

/-- Lower-casing `String(x).toLowerCase()`. -/
def lower (s : String) : String := String.mk (lowerChars s.toList)

/-- The number of binary digits of `n` (`fuel` bounds the recursion; `n` itself is enough). -/
def bitLength : Nat → Nat → Nat
  | 0, _ => 0
  | fuel + 1, n => if n = 0 then 0 else bitLength fuel (n / 2) + 1

/-- The value `Number(digits)` of a run of decimal digits of value `n`: the IEEE-754 double
nearest to `n`, ties to the even significand. Below `2^53` it is `n` itself. The values from
`2^1024 - 2^970` on, which become `Infinity`, are outside the model. -/
def roundDoubleNat (n : Nat) : Nat :=
  if n < 2 ^ 53 then n
  else
    let ulp : Nat := 2 ^ (bitLength n n - 53)
    let f : Nat := n / ulp
    let r : Nat := n % ulp
    let m : Nat :=
      if 2 * r < ulp then f else if ulp < 2 * r then f + 1 else if f % 2 = 0 then f else f + 1
    m * ulp

/-- The exponent `⌊log₂ (n / d)⌋` of a positive fraction. -/
def floorLog2 (n d : Nat) : Int :=
  let a : Int := bitLength n n
  let b : Int := bitLength d d
  if d * 2 ^ (a - b).toNat ≤ n * 2 ^ (b - a).toNat then a - b else a - b - 1

/-- The IEEE-754 double nearest to a rational (ties to the even significand, subnormals
included; overflow to `Infinity` is outside the model): the result of a floating-point
operation whose exact result is `q`. The chances, bonuses and rolls of the model hold the
exact values of the doubles of the code. -/
def roundDouble (q : ℚ) : ℚ :=
  if q = 0 then 0
  else
    let n : Nat := q.num.natAbs
    let e : Int := max (floorLog2 n q.den) (-1022)
    let up : Nat := 2 ^ (52 - e).toNat
    let down : Nat := 2 ^ (e - 52).toNat
    let f : Nat := (n * up) / (q.den * down)
    let r : Nat := (n * up) % (q.den * down)
    let m : Nat :=
      if 2 * r < q.den * down then f
      else if q.den * down < 2 * r then f + 1
      else if f % 2 = 0 then f else f + 1
    (if q < 0 then -1 else 1) * ((m * down : Nat) : ℚ) / ((up : Nat) : ℚ)

/-- The double written `0.20` in the source. -/
def double02 : ℚ := 3602879701896397 / 18014398509481984

/-- The text contains the pattern as a substring. -/
def hasSub (pat : List Char) : List Char → Bool
  | [] => pat.isEmpty
  | c :: cs => pat.isPrefixOf (c :: cs) || hasSub pat cs

/-- The test `text.includes(pat)`, and `/pat/.test(text)` for a literal pattern. -/
def includes (text pat : String) : Bool := hasSub pat.toList text.toList

/-- The value `Math.ceil(d / 2)` on an integer. -/
def ceilHalf (d : Int) : Int := (d + 1) / 2

/-- The idiom `x.name ? x.name : null`. -/
def truthyName (n : Option String) : Option String :=
  match n with
  | some t => if t = "" then none else some t
  | none => none

/-- The draw `rng.rand()`, and `Math.random()` where the source falls back to it. -/
def Rng.rand (r : Rng) : ℚ × Rng :=
  match r.rolls with
  | [] => (0, r)
  | x :: xs => (x, { r with rolls := xs })

/-- The source's `rng.int(n)`, and `Math.floor(Math.random()*n)` where it falls back. -/
def Rng.int (r : Rng) (n : Nat) : Nat × Rng :=
  match r.ints with
  | [] => (0, r)
  | k :: ks => (k % n, { r with ints := ks })

/-- Scan for runs of decimal digits: `cur` is the run being read, `last` the last
finished one. -/
def scanDigits : List Char → Option Nat → Option Nat → Option Nat
  | [], cur, last => if cur.isSome then cur else last
  | c :: cs, cur, last =>
    if c.isDigit then scanDigits cs (some (cur.getD 0 * 10 + (c.toNat - 48))) last
    else scanDigits cs none (if cur.isSome then cur else last)

/-- The value of the first run of decimal digits (`text.match(/(\d+)/)`). -/
def firstNumber : List Char → Option Nat → Option Nat
  | [], cur => cur
  | c :: cs, cur =>
    if c.isDigit then firstNumber cs (some (cur.getD 0 * 10 + (c.toNat - 48)))
    else if cur.isSome then cur else firstNumber cs none

/-! ## The engine -/

/-- The source's `startEncounter(enemyDef, deck, rng, opts)`; `apPerTurn` is `opts.apPerTurn`. -/
def startEncounter (enemyDef : Enemy) (hand : Option (List Card)) (rng : Rng)
    (apPerTurn : Option Int) : State :=
  let per : Int := match apPerTurn with
    | some n => if n = 0 then 3 else n
    | none => 3
  { enemy := { enemyDef with maxHp := some (enemyDef.maxHp.getD enemyDef.hp) }
    rng := rng
    hand := hand
    turn := 0
    apPerTurn := per
    ap := per
    playfield := [Slot.null, Slot.null, Slot.null]
    exhaustedThisEncounter := []
    summonUsed := []
    summonCooldowns := []
    supportUsed := []
    abilityCooldowns := []
    pendingEffects := []
    nextHeroInstanceId := 1
    formation := none
    nextAttackMultiplier := none }

/-- Whether `state.playfield[i]` is truthy. -/
def occupied (s : State) (i : Nat) : Bool := (getHero s i).isSome

/-- The choice `choices[rng.int(choices.length)]`. -/
def pickFrom (rng : Rng) (choices : List Nat) : Option Nat × Rng :=
  let (k, rng') := rng.int choices.length
  (choices[k]?, rng')

/-- The search `playfield.findIndex(h => h && h.helped)`, counting from `i`. -/
def findHelped : List Slot → Nat → Option Nat
  | [], _ => none
  | .hero h :: rest, i => if h.helped then some i else findHelped rest (i + 1)
  | _ :: rest, i => findHelped rest (i + 1)

/-- The source's `_selectSingleTargetIndex(state, state.rng)`: the target slot
(`none` for `-1`) and the random source after the call. -/
def _selectSingleTargetIndex (s : State) : Option Nat × Rng :=
  if s.formation = some 3 then
    if occupied s 0 then (some 0, s.rng)
    else if occupied s 1 then (some 1, s.rng)
    else if occupied s 2 then (some 2, s.rng)
    else (none, s.rng)
  else if s.formation = some 2 then
    if occupied s 0 then (some 0, s.rng)
    else
      let choices := [1, 2].filter (occupied s)
      if choices.length > 0 then pickFrom s.rng choices else (none, s.rng)
  else
    match findHelped s.playfield 0 with
    | some i => (some i, s.rng)
    | none =>
      let front := [0, 1].filter (occupied s)
      if front.length > 0 then pickFrom s.rng front
      else if occupied s 2 then (some 2, s.rng)
      else (none, s.rng)

/-- The source's `parseDamageFromAbility(primary)` on an ability object: `Number` of the last
run of digits of its text, `0` without one. -/
def parseDamageFromAbility (a : Ability) : Nat :=
  roundDoubleNat ((scanDigits (a.ability.getD "").toList none none).getD 0)

/-- The source's `getPrimaryAbility(obj)`. -/
def getPrimaryAbility (c : Card) : Ability :=
  match c.abilities with
  | some (a :: rest) =>
    match (a :: rest).find? (fun x => x.primary) with
    | some p => p
    | none => a
  | _ =>
    { ability := c.ability, actionType := c.actionType, hitChance := c.hitChance,
      critChance := c.critChance }

/-- The ability an action uses: `hero.base.abilities[abilityIndex]` for a numeric
index naming an entry, else the primary ability. -/
def chosenAbility (h : Hero) (abilityIndex : Option Nat) : Ability :=
  match abilityIndex, h.base.abilities with
  | some i, some abs =>
    match abs[i]? with
    | some a => a
    | none => getPrimaryAbility h.base
  | _, _ => getPrimaryAbility h.base

/-- Whether a heal is party-wide: `targetIndex === 'all'`, the primary ability's
text matching `/all|party|everyone|entire/i`, or an `actionTarget` of `'party'` on
the ability or the card. -/
def isPartyHeal (hero : Hero) (target : Target) : Bool :=
  let primary := getPrimaryAbility hero.base
  let abilityText := lower (primary.ability.getD "")
  target = Target.all
    || (includes abilityText "all" || includes abilityText "party"
        || includes abilityText "everyone" || includes abilityText "entire")
    || primary.actionTarget = some "party"
    || hero.base.actionTarget = some "party"

/-- The hit points after a heal: `Math.min(h.base.hp, h.hp + healAmount)`. -/
def healedHp (h : Hero) (healAmount : Int) : Int := min h.base.hp (h.hp + healAmount)

/-- The `healedSlots` list of a party heal, for the slots from index `i` on. -/
def healedSlotsFrom (healAmount : Int) : List Slot → Nat → List (Nat × Int × Int)
  | [], _ => []
  | .hero h :: rest, i =>
    if healedHp h healAmount - h.hp > 0 then
      (i, healedHp h healAmount - h.hp, healedHp h healAmount) :: healedSlotsFrom healAmount rest (i + 1)
    else healedSlotsFrom healAmount rest (i + 1)
  | _ :: rest, i => healedSlotsFrom healAmount rest (i + 1)

/-- The source's `resolveHeal(state, slotIndex, amount, targetIndex)`. -/
def resolveHeal (s : State) (slotIndex : Nat) (amount : Nat) (target : Target) :
    State × Result :=
  match getHero s slotIndex with
  | none => (s, .fail "no hero")
  | some hero =>
    let healAmount : Int := if amount = 0 then 1 else (amount : Int)
    if isPartyHeal hero target then
      let healedSlots := healedSlotsFrom healAmount s.playfield 0
      let pf := mapHeroes (fun h => { h with hp := healedHp h healAmount }) s.playfield
      ({ s with playfield := pf, ap := s.ap - 1 }, .healParty healAmount healedSlots)
    else
      let tIdx : Nat := match target with
        | .idx t => if occupied s t then t else slotIndex
        | _ => slotIndex
      let tgt : Hero := (getHero s tIdx).getD hero
      let newHp := healedHp tgt healAmount
      ({ s with playfield := s.playfield.set tIdx (.hero { tgt with hp := newHp }), ap := s.ap - 1 },
        .healSingle (newHp - tgt.hp) tIdx newHp)

/-- Whether `h.protected && h.protected.turns > 0`. -/
def protectedActive (h : Hero) : Bool :=
  match h.protectedTurns with
  | some t => decide (t > 0)
  | none => false

/-- The damage block shared by single-target and area resolution: temp HP absorbs
first, the rest goes to `hp`.  Returns the hero after the damage, `tempTaken` and
`hpTaken`. -/
def absorbDamage (h : Hero) (dmg : Int) : Hero × Int × Int :=
  let r : Hero × Int × Int :=
    match h.tempHp with
    | some t =>
      if t > 0 then ({ h with tempHp := some (t - min t dmg) }, min t dmg, dmg - min t dmg)
      else (h, 0, dmg)
    | none => (h, 0, dmg)
  if r.2.2 > 0 then ({ r.1 with hp := r.1.hp - r.2.2 }, r.2.1, r.2.2) else (r.1, r.2.1, 0)

/-- The hit event of a protected hero (`dmg: 0`, `protected: true`). -/
def protectedEvent (idx : Nat) (h : Hero) (attackType : String) (attackIndex : Nat)
    (attackName : String) : HitEvent :=
  { slot := idx, dmg := 0, tempTaken := 0, hpTaken := 0, remainingHp := h.hp, died := false,
    heroName := truthyName h.base.name, attackType := attackType,
    attack := some (attackIndex + 1), attackName := truthyName (some attackName),
    isProtected := true }

/-- The hit event of a missed attack (`dmg: 0`, `missed: true`). -/
def missedEvent (idx : Nat) (h : Hero) (attackType : String) (attackIndex : Nat)
    (attackName : String) : HitEvent :=
  { slot := idx, dmg := 0, tempTaken := 0, hpTaken := 0, remainingHp := h.hp, died := false,
    heroName := truthyName h.base.name, attackType := attackType,
    attack := some (attackIndex + 1), attackName := truthyName (some attackName),
    missed := true }

/-- Apply `dmg` points of damage reported as `shown` to the unprotected hero `h` of
slot `idx`: absorb, remove the hero if it died, and build the hit event. -/
def damageHero (s : State) (idx : Nat) (h : Hero) (dmg shown : Int) (attackType : String)
    (attackIndex : Nat) (attackName : String) : State × HitEvent :=
  let r := absorbDamage h dmg
  let died : Bool := decide (r.1.hp ≤ 0)
  let s' : State :=
    if died then
      { s with exhaustedThisEncounter := s.exhaustedThisEncounter ++ [h.base],
               playfield := s.playfield.set idx Slot.null }
    else { s with playfield := s.playfield.set idx (.hero r.1) }
  (s', { slot := idx, dmg := shown, tempTaken := r.2.1, hpTaken := r.2.2,
         remainingHp := if died then 0 else r.1.hp, died := died,
         heroName := truthyName h.base.name, attackType := attackType,
         attack := some (attackIndex + 1), attackName := truthyName (some attackName) })

/-- The source's `resolveSingleTargetAttack(state, dmg, attackIndex, attackName)`. -/
def resolveSingleTargetAttack (s : State) (dmg : Int) (attackIndex : Nat) (attackName : String) :
    State × List HitEvent :=
  let sel := _selectSingleTargetIndex s
  let s1 : State := { s with rng := sel.2 }
  match sel.1 with
  | none => (s1, [])
  | some idx =>
    match getHero s1 idx with
    | none => (s1, [])
    | some h =>
      if protectedActive h then (s1, [protectedEvent idx h "single" attackIndex attackName])
      else
        let r := damageHero s1 idx h dmg dmg "single" attackIndex attackName
        (r.1, [r.2])

/-- One iteration of the loop of `resolveAoEAttack`, for slot `i`. -/
def aoeStep (baseDmg : Int) (attackIndex : Nat) (attackName : String)
    (acc : State × List HitEvent) (i : Nat) : State × List HitEvent :=
  if acc.1.formation = some 3 ∧ i = 2 then acc
  else
    match getHero acc.1 i with
    | none => acc
    | some h =>
      if protectedActive h then
        (acc.1, acc.2 ++ [protectedEvent i h "aoe" attackIndex attackName])
      else
        let remaining := if h.defending then ceilHalf baseDmg else baseDmg
        let r := damageHero acc.1 i h remaining baseDmg "aoe" attackIndex attackName
        (r.1, acc.2 ++ [r.2])

/-- The source's `resolveAoEAttack(state, baseDmg, attackIndex, attackName)`. -/
def resolveAoEAttack (s : State) (baseDmg : Int) (attackIndex : Nat) (attackName : String) :
    State × List HitEvent :=
  (List.range s.playfield.length).foldl (aoeStep baseDmg attackIndex attackName) (s, [])

/-- Remove the first card with the given id from the hand (`findIndex` + `splice`). -/
def removeFirstById (id : String) : List Card → List Card
  | [] => []
  | c :: cs => if c.id = id then cs else c :: removeFirstById id cs

/-- The source's `placeHero(state, slotIndex, card)` for a `slotIndex` that is a natural
number; `placeHeroArg` below covers every JavaScript value of `slotIndex` and agrees with
this function on the natural numbers. -/
def placeHero (s : State) (slotIndex : Nat) (card : Option Card) : State × Result :=
  match card with
  | none => (s, .fail "no card")
  | some c =>
    if slotIndex ≥ s.playfield.length then (s, .fail "invalid slot")
    else if s.playfield[slotIndex]? ≠ some Slot.null then (s, .fail "slot occupied")
    else
      let hero : Hero :=
        { cardId := c.id, hp := c.hp, base := c, tempHp := some 0, statusIcons := some [],
          instanceId := some s.nextHeroInstanceId }
      ({ s with nextHeroInstanceId := s.nextHeroInstanceId + 1,
                playfield := s.playfield.set slotIndex (.hero hero),
                hand := s.hand.map (removeFirstById c.id) },
        .placed slotIndex)

/-- A JavaScript value passed as `slotIndex`: a finite number, `NaN`, an infinity, or a
value that is not of type `number` (`undefined`, `null`, a string, ...). -/
inductive SlotArg where
  | num (q : ℚ)
  | nan
  | posInf
  | negInf
  | notNumber
  deriving DecidableEq

/-- The source's `placeHero(state, slotIndex, card)` for an arbitrary `slotIndex` value: the
test `typeof slotIndex !== 'number' || slotIndex < 0 || slotIndex >= state.playfield.length`
lets `NaN` and the fractions below the length through, where `state.playfield[slotIndex]`
is `undefined`, which is not `null`. -/
def placeHeroArg (s : State) (slotIndex : SlotArg) (card : Option Card) : State × Result :=
  match card with
  | none => (s, .fail "no card")
  | some c =>
    match slotIndex with
    | .notNumber => (s, .fail "invalid slot")
    | .posInf => (s, .fail "invalid slot")
    | .negInf => (s, .fail "invalid slot")
    | .nan => (s, .fail "slot occupied")
    | .num q =>
      if q < 0 ∨ q ≥ (s.playfield.length : ℚ) then (s, .fail "invalid slot")
      else if q.den ≠ 1 then (s, .fail "slot occupied")
      else placeHero s q.num.toNat (some c)

/-- The value of `state.nextAttackMultiplier || 1`. -/
def attackMultiplier (s : State) : Int :=
  match s.nextAttackMultiplier with
  | some m => if m = 0 then 1 else m
  | none => 1

/-- The hit chance `playHeroAttack` rolls against: the ability's `hitChance`
(default 1), raised by a positive `hitBonus` up to 1, halved when blinded; the sum and the
product are those of doubles. -/
def heroHitChance (hero : Hero) (primary : Ability) : ℚ :=
  let base : ℚ := primary.hitChance.getD 1
  let boosted : ℚ :=
    if hero.hitBonus > 0 then min 1 (roundDouble (base + hero.hitBonus)) else base
  if hero.blindedTurns > 0 then roundDouble (boosted * (1 / 2)) else boosted

/-- The source's `playHeroAttack(state, slotIndex, abilityIndex)`. -/
def playHeroAttack (s : State) (slotIndex : Nat) (abilityIndex : Option Nat) : State × Result :=
  if s.ap ≤ 0 then (s, .fail "no AP")
  else
    match getHero s slotIndex with
    | none => (s, .fail "no hero")
    | some hero =>
      if hero.stunnedTurns > 0 then (s, .fail "stunned")
      else
        let primary := chosenAbility hero abilityIndex
        let baseDmg : Int := (parseDamageFromAbility primary : Int)
        let mult := attackMultiplier s
        let critChance : ℚ := primary.critChance.getD 0
        let hit := s.rng.rand
        let consumed : Option Int := if mult ≠ 1 then some 1 else s.nextAttackMultiplier
        if ¬ (hit.1 < heroHitChance hero primary) then
          ({ s with ap := s.ap - 1, rng := hit.2, nextAttackMultiplier := consumed },
            .attackMissed s.enemy.hp)
        else
          let crit := hit.2.rand
          let isCrit : Bool := decide (crit.1 < critChance)
          let full : Int := baseDmg * mult * (if isCrit then 2 else 1)
          let dmg : Int := if hero.enfeebledTurns > 0 then full / 2 else full
          ({ s with ap := s.ap - 1, rng := crit.2, nextAttackMultiplier := consumed,
                    enemy := { s.enemy with hp := s.enemy.hp - dmg } },
            .attackHit dmg (s.enemy.hp - dmg) isCrit baseDmg)

/-- Append an icon to `hero.statusIcons` (created when absent). -/
def pushIcon (h : Hero) (icon : StatusIcon) : Hero :=
  { h with statusIcons := some (h.statusIcons.getD [] ++ [icon]) }

/-- The source's `defendHero(state, slotIndex)`. -/
def defendHero (s : State) (slotIndex : Nat) : State × Result :=
  if s.ap ≤ 0 then (s, .fail "no AP")
  else
    match getHero s slotIndex with
    | none => (s, .fail "no hero")
    | some hero =>
      if hero.stunnedTurns > 0 then (s, .fail "stunned")
      else
        let h' := pushIcon { hero with defending := true } { id := "defend", source := "player" }
        ({ s with playfield := s.playfield.set slotIndex (.hero h'), ap := s.ap - 1 }, .ok)

/-- The source's `replaceHero(state, slotIndex, newCard)`. -/
def replaceHero (s : State) (slotIndex : Nat) (newCard : Option Card) : State × Result :=
  match getHero s slotIndex with
  | none =>
    match newCard with
    | none => (s, .threw)
    | some c =>
      ({ s with playfield := setSlot s.playfield slotIndex
                  (.hero { cardId := c.id, hp := c.hp, base := c }) },
        .placed slotIndex)
  | some old =>
    if s.ap ≤ 0 then (s, .fail "no AP")
    else
      let hand' := s.hand.map fun hd => hd ++ [{ old.base with hp := old.hp }]
      match newCard with
      | none => ({ s with hand := hand' }, .threw)
      | some c =>
        let repl : Hero :=
          { cardId := c.id, hp := c.hp, base := c, statusIcons := some [],
            instanceId := some s.nextHeroInstanceId }
        ({ s with hand := hand', nextHeroInstanceId := s.nextHeroInstanceId + 1,
                  playfield := s.playfield.set slotIndex (.hero repl), ap := s.ap - 1 },
          .ok)

/-- The hero id used for dispatch: `hero.base.id` when truthy, else `hero.cardId`. -/
def heroId (hero : Hero) : String :=
  if hero.base.id ≠ "" then hero.base.id else hero.cardId

/-- The action type `playHeroAction` dispatches on. -/
def actionTypeOf (hero : Hero) (primary : Ability) : String :=
  let ability := lower (primary.ability.getD "")
  let explicit : Option String :=
    match primary.actionType with
    | some t => if t = "" then none else some (lower t)
    | none => none
  let inferred : String :=
    match explicit with
    | some t => t
    | none =>
      if includes ability "heal" || includes ability "cure" || includes ability "restore"
          || includes ability "regen" then "healer"
      else "dps"
  if heroId hero ≠ "" ∧ (heroId hero = "bjurganmyr" ∨ heroId hero = "miley") then "support"
  else inferred

/-- The index of the primary ability inside `hero.base.abilities`
(`abilities.indexOf(getPrimaryAbility(hero.base))`), when there is one. -/
def primaryIndex (c : Card) : Option Nat :=
  match c.abilities with
  | some (a :: rest) =>
    match (a :: rest).findIdx? (fun x => x.primary) with
    | some i => some i
    | none => some 0
  | _ => none

/-- The per-hero, per-ability cooldown key built by scout's support. -/
def abilityKeyOf (hero : Hero) (slotIndex : Nat) (abilityIndex : Option Nat) : AbilityKey :=
  { inst := if hero.cardId ≠ "" then hero.cardId else toString slotIndex
    ai := match abilityIndex with
      | some i => some i
      | none => primaryIndex hero.base }

/-- Whether `state.abilityCooldowns[key]` is a positive counter. -/
def onCooldown (s : State) (key : AbilityKey) : Bool :=
  match dictGet s.abilityCooldowns key with
  | some v => decide (v > 0)
  | none => false

/-- A `delayedDamage` entry triggering after the enemy's turn. -/
def delayedDamage (id : String) (slot : Nat) (dmg : Int) (times : Option Int)
    (sourceName : String) : PendingEffect :=
  { type := "delayedDamage", id := id, slot := slot, dmg := dmg, trigger := "afterEnemy",
    times := times, sourceName := sourceName }

/-- Charge one AP and mark the support id as used this round. -/
def chargeSupport (s : State) (id : String) : State :=
  { s with ap := s.ap - 1, supportUsed := dictSet s.supportUsed id true }

/-- The name scout's support goes by: the chosen ability's `name`, else its text,
lower-cased; empty without either. -/
def scoutAbilityName (chosen : Ability) : String :=
  match truthyName chosen.name with
  | some n => lower n
  | none =>
    match truthyName chosen.ability with
    | some a => lower a
    | none => ""

/-- Scout's rally: refused on cooldown, else +1 AP and the cooldown `cdVal`. -/
def scoutRally (s : State) (slotIndex : Nat) (key : AbilityKey) (cdVal : Int) : State × Result :=
  if onCooldown s key then (s, .fail "cooldown")
  else
    ({ s with ap := s.ap + 1, supportUsed := dictSet s.supportUsed "scout" true,
              abilityCooldowns := dictSet s.abilityCooldowns key cdVal },
      .support slotIndex "scout" (.rally 1 cdVal key))

/-- Scout's assist: needs an occupied target, whose hit chance it raises by 0.20 (a sum of
doubles). -/
def scoutAssist (s : State) (slotIndex : Nat) (key : AbilityKey) (chosen : Ability)
    (target : Target) : State × Result :=
  match target with
  | .idx t =>
    match getHero s t with
    | some tgt =>
      let tgt' := pushIcon { tgt with hitBonus := roundDouble (tgt.hitBonus + double02) }
        { id := "assist", source := "scout" }
      let cdVal : Int := chosen.cooldown.getD 0
      let s1 := chargeSupport { s with playfield := s.playfield.set t (.hero tgt') } "scout"
      ({ s1 with abilityCooldowns :=
                   if cdVal > 0 then dictSet s1.abilityCooldowns key cdVal
                   else s1.abilityCooldowns },
        .support slotIndex "scout" (.assist t double02 key))
    | none => (s, .fail "target_required")
  | _ => (s, .fail "target_required")

/-- The `scout` block of the support branch; `none` when it falls through to the
blocks after it. -/
def scoutSupport (s : State) (slotIndex : Nat) (hero : Hero) (target : Target)
    (abilityIndex : Option Nat) : Option (State × Result) :=
  let chosen := chosenAbility hero abilityIndex
  let aname := scoutAbilityName chosen
  let key := abilityKeyOf hero slotIndex abilityIndex
  if includes aname "rally" then some (scoutRally s slotIndex key (chosen.cooldown.getD 3))
  else if includes aname "assist" then some (scoutAssist s slotIndex key chosen target)
  else if aname = "" then some (scoutRally s slotIndex key 3)
  else none

/-- Willis's support: needs an occupied target, which it protects for one turn. -/
def willisSupport (s : State) (slotIndex : Nat) (target : Target) : State × Result :=
  match target with
  | .idx t =>
    match getHero s t with
    | some tgt =>
      let tgt' := pushIcon { tgt with protectedTurns := some 1 }
        { id := "protected", source := "willis" }
      (chargeSupport { s with playfield := s.playfield.set t (.hero tgt') } "willis",
        .support slotIndex "willis" (.target t))
    | none => (s, .fail "target_required")
  | _ => (s, .fail "target_required")

/-- Immediate damage to the enemy (clamped at 0) followed by a delayed-damage entry
repeating after each of the next two enemy turns: bjurganmyr and miley. -/
def delayedSupport (s : State) (slotIndex : Nat) (id hname : String) : State × Result :=
  let hp' : Int := max 0 (s.enemy.hp - 8)
  (chargeSupport { s with enemy := { s.enemy with hp := hp' },
                          pendingEffects := s.pendingEffects ++
                            [delayedDamage id slotIndex 8 (some 2) hname] } id,
    .support slotIndex id (.delayed 8 hp'))

/-- Kiefer's support: always charged and marked used; a roll of 1 in 4 stuns the
enemy for 3 turns. -/
def kieferSupport (s : State) (slotIndex : Nat) : State × Result :=
  let s1 := chargeSupport s "kiefer"
  let draw := s1.rng.int 4
  let roll := draw.1 + 1
  if roll = 1 then
    ({ s1 with rng := draw.2, enemy := { s1.enemy with stunnedTurns := 3 } },
      .support slotIndex "kiefer" (.kiefer true roll))
  else ({ s1 with rng := draw.2 }, .support slotIndex "kiefer" (.kiefer false roll))

/-- The support blocks after scout's: willis, brer, bjurganmyr, miley, kiefer, and
the default failure. -/
def lateSupport (s : State) (slotIndex : Nat) (hid hname : String) (target : Target) :
    State × Result :=
  if hid = "willis" then willisSupport s slotIndex target
  else if hid = "brer" then
    let hp' : Int := max 0 (s.enemy.hp - 5)
    (chargeSupport { s with enemy := { s.enemy with hp := hp', nextAttackHalved := true } } "brer",
      .support slotIndex "brer" (.brer 5 hp'))
  else if hid = "bjurganmyr" then delayedSupport s slotIndex "bjurganmyr" hname
  else if hid = "miley" then delayedSupport s slotIndex "miley" hname
  else if hid = "kiefer" then kieferSupport s slotIndex
  else (s, .fail "no support action")

/-- The support blocks before scout's: shalendra, piter and lumalia; `none` when
the hero is none of them. -/
def earlySupport (s : State) (slotIndex : Nat) (hero : Hero) (hid hname : String) :
    Option (State × Result) :=
  if hid = "shalendra" then
    some (chargeSupport { s with summonUsed := dictSet s.summonUsed "volo" false,
                                 summonCooldowns := dictSet s.summonCooldowns "volo" 0 }
        "shalendra",
      .support slotIndex "shalendra" (.refreshed "volo"))
  else if hid = "piter" then
    let h' := pushIcon { hero with helped := true, helpSource := some "piter" }
      { id := "help", source := "piter" }
    some (chargeSupport { s with playfield := s.playfield.set slotIndex (.hero h') } "piter",
      .support slotIndex "piter" .plain)
  else if hid = "lumalia" then
    let h' := pushIcon hero { id := "lumalia", source := "lumalia" }
    some (chargeSupport { s with pendingEffects :=
                                   s.pendingEffects ++
                                     [delayedDamage "lumalia" slotIndex 6 none hname],
                                 playfield := s.playfield.set slotIndex (.hero h') } "lumalia",
      .support slotIndex "lumalia" .scheduled)
  else none

/-- The `support` branch of `playHeroAction`: the once-per-round gate, then the
blocks of the named support heroes in source order. -/
def supportAction (s : State) (slotIndex : Nat) (hero : Hero) (target : Target)
    (abilityIndex : Option Nat) : State × Result :=
  let hid := heroId hero
  let hname : String :=
    match truthyName hero.base.name with
    | some n => n
    | none => hid
  if hid ≠ "" ∧ truthyAt s.supportUsed hid = true then (s, .fail "used_this_round")
  else
    match earlySupport s slotIndex hero hid hname with
    | some r => r
    | none =>
      match (if hid = "scout" then scoutSupport s slotIndex hero target abilityIndex else none) with
      | some r => r
      | none => lateSupport s slotIndex hid hname target

/-- The source's `playHeroAction(state, slotIndex, targetIndex, abilityIndex)`. -/
def playHeroAction (s : State) (slotIndex : Nat) (target : Target) (abilityIndex : Option Nat) :
    State × Result :=
  if s.ap ≤ 0 then (s, .fail "no AP")
  else
    match getHero s slotIndex with
    | none => (s, .fail "no hero")
    | some hero =>
      if hero.stunnedTurns > 0 then (s, .fail "stunned")
      else
        let primary := chosenAbility hero abilityIndex
        let amount := parseDamageFromAbility primary
        let actionType := actionTypeOf hero primary
        if actionType = "dps" ∨ actionType = "attack" then playHeroAttack s slotIndex abilityIndex
        else if actionType = "healer" ∨ actionType = "heal" then
          resolveHeal s slotIndex amount target
        else if actionType = "support" then supportAction s slotIndex hero target abilityIndex
        else (s, .fail "unsupported actionType")

/-- Start of the enemy turn, first pass: lower positive `stunnedTurns` and
`enfeebledTurns` by one. -/
def decStunEnfeeble (h : Hero) : Hero :=
  { h with stunnedTurns := h.stunnedTurns - 1, enfeebledTurns := h.enfeebledTurns - 1 }

/-- Start of the enemy turn, second pass: lower a positive `blindedTurns` by one. -/
def decBlind (h : Hero) : Hero :=
  { h with blindedTurns := h.blindedTurns - 1 }

/-- Lower `protected.turns` by one and delete an expired protection. -/
def decProtection (h : Hero) : Hero :=
  match h.protectedTurns with
  | some t => if t - 1 ≤ 0 then { h with protectedTurns := none } else { h with protectedTurns := some (t - 1) }
  | none => h

/-- Whether a `lumalia` pending effect remains for slot `i`. -/
def hasPendingLumalia (pending : List PendingEffect) (i : Nat) : Bool :=
  pending.any fun pe => decide (pe.id = "lumalia") && decide (pe.slot = i)

/-- The icon filter of the stunned branch of `enemyAct`. -/
def keepIconStunned (pending : List PendingEffect) (i : Nat) (h : Hero) (si : StatusIcon) : Bool :=
  if si.id = "" then false
  else if si.id = "defend" then h.defending
  else if si.id = "help" then h.helped
  else if si.id = "assist" then decide (h.hitBonus > 0)
  else if si.id = "protected" then h.protectedTurns.isSome
  else if si.id = "stunned" then decide (h.stunnedTurns > 0)
  else if si.id = "enfeebled" then decide (h.enfeebledTurns > 0)
  else if si.id = "lumalia" then hasPendingLumalia pending i
  else si.persistent

/-- The icon filter of the normal branch of `enemyAct`. -/
def keepIconNormal (pending : List PendingEffect) (i : Nat) (h : Hero) (si : StatusIcon) : Bool :=
  if si.id = "" then false
  else if si.id = "defend" then h.defending
  else if si.id = "help" then h.helped
  else if si.id = "assist" then decide (h.hitBonus > 0)
  else if si.id = "protected" then h.protectedTurns.isSome
  else if si.id = "stunned" then decide (h.stunnedTurns > 0)
  else if si.id = "enfeebled" then decide (h.enfeebledTurns > 0)
  else if si.id = "blind" ∨ si.id = "blinded" then decide (h.blindedTurns > 0)
  else if si.id = "lumalia" then hasPendingLumalia pending i
  else si.persistent

/-- Reconcile the status icons of every hero with a filter that sees the hero and
its slot index (counted from `i`). -/
def syncIconsFrom (keep : Nat → Hero → StatusIcon → Bool) : List Slot → Nat → List Slot
  | [], _ => []
  | .hero h :: rest, i =>
    .hero { h with statusIcons := h.statusIcons.map fun icons => icons.filter (keep i h) }
      :: syncIconsFrom keep rest (i + 1)
  | other :: rest, i => other :: syncIconsFrom keep rest (i + 1)

/-- The accumulator of pending-effect processing: enemy hit points, the events
produced, and the entries kept. -/
structure PendingAcc where
  enemyHp : Int
  events : List Event
  remaining : List PendingEffect
deriving DecidableEq

/-- The requeued copy of a repeating effect, if `times` is a number above 1. -/
def requeue (eff : PendingEffect) : List PendingEffect :=
  match eff.times with
  | some n => if n > 1 then [{ eff with times := some (n - 1) }] else []
  | none => []

/-- One pending effect in the stunned branch: the requeue test stands outside the
`delayedDamage` test. -/
def pendingStepStunned (acc : PendingAcc) (eff : PendingEffect) : PendingAcc :=
  if eff.trigger = "afterEnemy" then
    let acc1 : PendingAcc :=
      if eff.type = "delayedDamage" then
        { acc with enemyHp := max 0 (acc.enemyHp - eff.dmg),
                   events := acc.events ++
                     [Event.enemyDamage eff.id eff.slot eff.dmg (max 0 (acc.enemyHp - eff.dmg))
                       eff.sourceName] }
      else acc
    { acc1 with remaining := acc1.remaining ++ requeue eff }
  else { acc with remaining := acc.remaining ++ [eff] }

/-- One pending effect in the normal branch: the requeue test stands inside the
`delayedDamage` test. -/
def pendingStepNormal (acc : PendingAcc) (eff : PendingEffect) : PendingAcc :=
  if eff.trigger = "afterEnemy" then
    if eff.type = "delayedDamage" then
      { acc with enemyHp := max 0 (acc.enemyHp - eff.dmg),
                 events := acc.events ++
                   [Event.enemyDamage eff.id eff.slot eff.dmg (max 0 (acc.enemyHp - eff.dmg))
                     eff.sourceName],
                 remaining := acc.remaining ++ requeue eff }
    else acc
  else { acc with remaining := acc.remaining ++ [eff] }

/-- Reset AP, lower the cooldowns and clear `defending`, `helped` and `hitBonus`:
the part of the housekeeping that precedes the pending effects. -/
def resetRound (s : State) : State :=
  { s with ap := s.apPerTurn,
           summonCooldowns := decCooldowns s.summonCooldowns,
           abilityCooldowns := decCooldowns s.abilityCooldowns,
           playfield :=
             mapHeroes (fun h => { h with hitBonus := 0 })
               (mapHeroes (fun h => { h with helped := false })
                 (mapHeroes (fun h => { h with defending := false }) s.playfield)) }

/-- The end-of-turn housekeeping of the stunned branch, given the events so far. -/
def housekeepingStunned (s : State) (events : List Event) : State × List Event :=
  let s1 := resetRound s
  let acc := s1.pendingEffects.foldl pendingStepStunned
    { enemyHp := s1.enemy.hp, events := events, remaining := [] }
  let pf := mapHeroes decProtection s1.playfield
  ({ s1 with enemy := { s1.enemy with hp := acc.enemyHp },
             pendingEffects := acc.remaining,
             playfield := syncIconsFrom (keepIconStunned acc.remaining) pf 0,
             supportUsed := [] },
    acc.events)

/-- The end-of-turn housekeeping of the normal branch, given the events so far. -/
def housekeepingNormal (s : State) (events : List Event) : State × List Event :=
  let s1 := resetRound s
  let acc := s1.pendingEffects.foldl pendingStepNormal
    { enemyHp := s1.enemy.hp, events := events, remaining := [] }
  let pf := mapHeroes decProtection s1.playfield
  ({ s1 with enemy := { s1.enemy with hp := acc.enemyHp },
             pendingEffects := acc.remaining,
             playfield := syncIconsFrom (keepIconNormal acc.remaining) pf 0,
             supportUsed := [] },
    acc.events)

/-- The roll `checkHit(state, chance)`: the outcome and the random source after it. -/
def checkHit (rng : Rng) (chance : Option ℚ) : Bool × Rng :=
  let r := rng.rand
  (decide (r.1 < chance.getD 1), r.2)

/-- The roll `checkCrit(state, chance)`: the outcome and the random source after it. -/
def checkCrit (rng : Rng) (chance : Option ℚ) : Bool × Rng :=
  let r := rng.rand
  (decide (r.1 < chance.getD 0), r.2)

/-- Roll for a crit, then resolve a single-target hit with the (doubled on crit)
damage; the events carry `crit` and `baseDmg` and the given attack type. -/
def critThenResolve (s : State) (atk : Attack) (baseDmg : Int) (atkIndex : Nat)
    (attackName : String) (attackType : String) : State × List HitEvent :=
  let c := checkCrit s.rng atk.critChance
  let usedDmg : Int := if c.1 then baseDmg * 2 else baseDmg
  let r := resolveSingleTargetAttack { s with rng := c.2 } usedDmg atkIndex attackName
  (r.1, r.2.map fun ev =>
    { ev with attackType := attackType, crit := some c.1, baseDmg := some baseDmg })

/-- One of the two sub-attacks of a `multi` attack. -/
def multiStep (atk : Attack) (baseDmg : Int) (atkIndex : Nat) (attackName : String)
    (acc : State × List HitEvent) : State × List HitEvent :=
  let hit := checkHit acc.1.rng atk.hitChance
  let s1 : State := { acc.1 with rng := hit.2 }
  if ¬ hit.1 then
    let sel := _selectSingleTargetIndex s1
    let s2 : State := { s1 with rng := sel.2 }
    match sel.1 with
    | none => (s2, acc.2)
    | some idx =>
      match getHero s2 idx with
      | none => (s2, acc.2)
      | some h => (s2, acc.2 ++ [missedEvent idx h "multi" atkIndex attackName])
  else
    let r := critThenResolve s1 atk baseDmg atkIndex attackName "multi"
    (r.1, acc.2 ++ r.2)

/-- The `single` (default) branch of the attack resolution of `enemyAct`. -/
def singleAttack (s : State) (atk : Attack) (baseDmg : Int) (atkIndex : Nat)
    (attackName : String) : State × List HitEvent :=
  let sel := _selectSingleTargetIndex s
  let s1 : State := { s with rng := sel.2 }
  match sel.1 with
  | none => (s1, [])
  | some idx =>
    match getHero s1 idx with
    | none => (s1, [])
    | some h =>
      if h.defending then
        let dodge := s1.rng.rand
        let s2 : State := { s1 with rng := dodge.2 }
        if dodge.1 < 1 / 2 then (s2, [missedEvent idx h "single" atkIndex attackName])
        else critThenResolve s2 atk baseDmg atkIndex attackName "single"
      else
        let hit := checkHit s1.rng atk.hitChance
        let s2 : State := { s1 with rng := hit.2 }
        if ¬ hit.1 then (s2, [missedEvent idx h "single" atkIndex attackName])
        else critThenResolve s2 atk baseDmg atkIndex attackName "single"

/-- The icon source of an enemy effect: `state.enemy.id || state.enemy.name || 'enemy'`. -/
def enemySource (e : Enemy) : String :=
  match truthyName e.id with
  | some i => i
  | none =>
    match truthyName e.name with
    | some n => n
    | none => "enemy"

/-- Apply the attack's effect for one event: a non-missed hit that took hp or temp
hp, on a hero still in its slot. -/
def effectStep (eff : String) (acc : State × List Event) (ev : HitEvent) : State × List Event :=
  if ¬ ev.missed ∧ (ev.hpTaken > 0 ∨ ev.tempTaken > 0) then
    match getHero acc.1 ev.slot with
    | none => acc
    | some h =>
      let src := enemySource acc.1.enemy
      let r1 : Hero × List Event :=
        if eff = "stun" then
          (pushIcon { h with stunnedTurns := max 1 h.stunnedTurns } { id := "stunned", source := src },
            [Event.heroStunned ev.slot (truthyName h.base.name)])
        else (h, [])
      let r2 : Hero × List Event :=
        if eff = "enfeeble" then
          (pushIcon { r1.1 with enfeebledTurns := max 1 r1.1.enfeebledTurns }
              { id := "enfeebled", source := src },
            r1.2 ++ [Event.heroEnfeebled ev.slot (truthyName h.base.name)])
        else r1
      let r3 : Hero × List Event :=
        if eff = "blind" then
          (pushIcon { r2.1 with blindedTurns := max 1 r2.1.blindedTurns }
              { id := "blind", source := src },
            r2.2 ++ [Event.heroBlinded ev.slot (truthyName h.base.name)])
        else r2
      ({ acc.1 with playfield := acc.1.playfield.set ev.slot (.hero r3.1) }, acc.2 ++ r3.2)
  else acc

/-- The attack of the enemy's turn: pick an attack, resolve it by type and apply
its effect.  Returns the state and the events so far. -/
def attackPhase (s : State) : State × List Event :=
  match s.enemy.attacks with
  | some (a :: rest) =>
    let picks := a :: rest
    let draw := s.rng.int picks.length
    let atkIndex := draw.1
    let atk : Attack := picks[atkIndex]?.getD {}
    let attackName : String :=
      match truthyName atk.name with
      | some n => n
      | none => "Attack " ++ toString (atkIndex + 1)
    let type : String := lower ((truthyName atk.type).getD "single")
    let baseDmg0 : Int :=
      match atk.dmg with
      | some d => d
      | none =>
        match s.enemy.attack with
        | some d => if d = 0 then 1 else d
        | none => 1
    let baseDmg : Int := if s.enemy.nextAttackHalved then ceilHalf baseDmg0 else baseDmg0
    let s1 : State := { s with rng := draw.2, enemy := { s.enemy with nextAttackHalved := false } }
    let hits : State × List HitEvent :=
      if type = "aoe" then resolveAoEAttack s1 baseDmg atkIndex attackName
      else if type = "multi" then
        multiStep atk baseDmg atkIndex attackName
          (multiStep atk baseDmg atkIndex attackName (s1, []))
      else singleAttack s1 atk baseDmg atkIndex attackName
    match truthyName atk.effect with
    | some e =>
      hits.2.foldl (effectStep (lower e)) (hits.1, hits.2.map Event.hit)
    | none => (hits.1, hits.2.map Event.hit)
  | _ => (s, [])

/-- The source's `enemyAct(state)`. -/
def enemyAct (s : State) : State × ActResult :=
  let s1 : State :=
    { s with turn := s.turn + 1,
             playfield := mapHeroes decBlind (mapHeroes decStunEnfeeble s.playfield) }
  if s1.enemy.stunnedTurns > 0 then
    let s2 : State := { s1 with enemy := { s1.enemy with stunnedTurns := s1.enemy.stunnedTurns - 1 } }
    let r := housekeepingStunned s2 []
    (r.1, { did := "enemyStunned", events := Event.stunned :: r.2 })
  else
    let coin := s1.rng.int 2
    let r := attackPhase { s1 with rng := coin.2 }
    let r' := housekeepingNormal r.1 r.2
    (r'.1, { did := "enemyAct", events := r'.2 })

/-- Heal every hero of the party by `v`, up to its base hit points. -/
def healAll (v : Int) (pf : List Slot) : List Slot :=
  mapHeroes (fun h => { h with hp := min h.base.hp (h.hp + v) }) pf

/-- The index of the lowest-hp hero as `filter(h=>h).reduce((a,b)=> a.hp < b.hp ? a : b)`
finds it, scanning from index `i` with the best candidate so far. -/
def lowestHpFrom : List Slot → Nat → Option (Nat × Hero) → Option (Nat × Hero)
  | [], _, best => best
  | .hero h :: rest, i, best =>
    match best with
    | none => lowestHpFrom rest (i + 1) (some (i, h))
    | some (j, a) => lowestHpFrom rest (i + 1) (if a.hp < h.hp then some (j, a) else some (i, h))
  | _ :: rest, i, best => lowestHpFrom rest (i + 1) best

/-- Whether the summon's restriction contains the phrase (case-insensitively). -/
def restrictionHas (d : SummonDef) (phrase : String) : Bool :=
  match truthyName d.restriction with
  | some r => includes (lower r) phrase
  | none => false

/-- The effect of a summon by id, before it is marked used; `none` when blackrazor
finds no hero to target. -/
def summonEffect (s : State) (d : SummonDef) (target : Target) : Option State :=
  if d.id = "garon" then some { s with playfield := healAll 1 s.playfield }
  else if d.id = "volo" then some { s with nextAttackMultiplier := some 2 }
  else if d.id = "blackrazor" then
    let explicit : Option (Nat × Hero) :=
      match target with
      | .idx t => (getHero s t).map fun h => (t, h)
      | _ => none
    let chosen : Option (Nat × Hero) :=
      match explicit with
      | some p => some p
      | none => lowestHpFrom s.playfield 0 none
    match chosen with
    | some (i, h) =>
      some { s with playfield :=
               s.playfield.set i (.hero { h with tempHp := some (h.tempHp.getD 0 + 30) }) }
    | none => none
  else if d.id = "whelm" then
    some { s with enemy := { s.enemy with stunnedTurns := max 2 s.enemy.stunnedTurns } }
  else if d.id = "wave" then
    let mx : Int :=
      match s.enemy.maxHp with
      | some m => if m = 0 then s.enemy.hp else m
      | none => s.enemy.hp
    some { s with enemy := { s.enemy with hp := max 0 (s.enemy.hp - mx / 2) } }
  else
    match (firstNumber (d.ability.getD "").toList none).map roundDoubleNat with
    | some v => if v = 0 then some s else some { s with playfield := healAll (v : Int) s.playfield }
    | none => some s

/-- Mark a summon after its effect: locked for the encounter under a "once per
encounter" or "once per run" restriction, else put on its numeric cooldown if any. -/
def markSummon (s1 : State) (d : SummonDef) : State :=
  if restrictionHas d "once per encounter" ∨ restrictionHas d "once per run" then
    { s1 with summonUsed := objSet s1.summonUsed d.id true,
              summonCooldowns := objSet s1.summonCooldowns d.id 9999 }
  else
    match d.cooldown with
    | some c => if c ≠ 0 then { s1 with summonCooldowns := objSet s1.summonCooldowns d.id c } else s1
    | none => s1

/-- The source's `useSummon(state, summonDef, targetIndex)`. -/
def useSummon (s : State) (summonDef : Option SummonDef) (target : Target) : State × Result :=
  match summonDef with
  | none => (s, .fail "invalid")
  | some d =>
    if d.id = "" then (s, .fail "invalid")
    else if restrictionHas d "once per encounter" ∧ truthyAt s.summonUsed d.id = true then
      (s, .fail "used")
    else if (dictGet s.summonCooldowns d.id).getD 0 > 0 then (s, .fail "cooldown")
    else
      match summonEffect s d target with
      | none => (s, .fail "no_target")
      | some s1 => (markSummon s1 d, .ok)

/-- The source's `isFinished(state)`: the `winner` field. -/
def isFinished (s : State) : Option String :=
  if s.enemy.hp ≤ 0 then some "player"
  else if s.playfield.any (fun sl => sl.hero?.isSome) then none
  else if s.turn > 0 then some "enemy"
  else none

/-! ## Concrete scenarios -/

/-- A fighter whose only ability reads "Deal 5 damage" and always hits. -/
def fighter : Card :=
  { id := "fighter", name := some "Fighter", hp := 12,
    abilities := some [{ ability := some "Deal 5 damage", actionType := some "dps",
                         hitChance := some 1 }] }

/-- A rogue with base damage 4 that always hits and always crits. -/
def rogue : Card :=
  { id := "rogue", name := some "Rogue", hp := 9,
    abilities := some [{ ability := some "Stab for 4", actionType := some "dps",
                         hitChance := some 1, critChance := some 1 }] }

/-- An encounter against an enemy with 20 hit points, the fighter placed in slot 0. -/
def fighterState : State :=
  (placeHero (startEncounter { hp := 20 } (some [fighter]) { rolls := [0, 0], ints := [] } none)
    0 (some fighter)).1

/-- The same encounter with the rogue in slot 0. -/
def rogueState : State :=
  (placeHero (startEncounter { hp := 20 } (some [rogue]) { rolls := [0, 0], ints := [] } none)
    0 (some rogue)).1

/-- The fighter's encounter after volo's summon has doubled the next attack. -/
def doubledState : State :=
  (useSummon fighterState (some { id := "volo" }) Target.none).1

/-- The double written `0.1`. -/
def double01 : ℚ := 3602879701896397 / 36028797018963968

/-- The double written `0.3`. -/
def double03 : ℚ := 5404319552844595 / 18014398509481984

/-- An archer with base damage 3 and hit chance 0.1. -/
def archer : Card :=
  { id := "archer", name := some "Archer", hp := 7,
    abilities := some [{ ability := some "Deal 3 damage", actionType := some "dps",
                         hitChance := some double01 }] }

/-- The archer in slot 0 with the hit bonus 0.2 of an assist, the hit roll coming out as
0.3. -/
def assistedState : State :=
  { startEncounter { hp := 20 } (some []) { rolls := [double03, 0], ints := [] } none with
    playfield := [Slot.hero { cardId := "archer", hp := 7, base := archer, tempHp := some 0,
                              statusIcons := some [], instanceId := some 1,
                              hitBonus := double02 },
                  Slot.null, Slot.null] }

/-- The rogue's encounter with the rogue enfeebled for one turn. -/
def enfeebledRogueState : State :=
  { rogueState with
    playfield := mapHeroes (fun h => { h with enfeebledTurns := 1 }) rogueState.playfield }

/-- The result is that of a rally: a support result carrying `apGranted`. -/
def Result.isRally : Result → Bool
  | .support _ _ (.rally _ _ _) => true
  | _ => false

/-- What a support outcome does to AP: nothing is said of a failure; a rally adds
one; every other success takes one. -/
def ApSpec (s : State) (r : State × Result) : Prop :=
  r.2.success = true →
    (r.1.ap = s.ap - 1 ∧ r.2.isRally = false) ∨ (r.1.ap = s.ap + 1 ∧ r.2.isRally = true)

/-- A scout whose primary ability is Rally (cooldown 2) and whose second is Assist. -/
def scout : Card :=
  { id := "scout", name := some "Scout", hp := 8,
    abilities := some [{ name := some "Rally", ability := some "Grant 1 AP", actionType := some "support",
                         cooldown := some 2, primary := true },
                       { name := some "Assist", ability := some "Ally gains +20% to hit",
                         actionType := some "support" }] }

/-- An encounter with the scout in slot 0 and the fighter in slot 1. -/
def scoutState : State :=
  (placeHero (placeHero
      (startEncounter { hp := 20 } (some [scout, fighter]) { rolls := [0, 0], ints := [] } none)
      0 (some scout)).1 1 (some fighter)).1

/-- Failure atomicity of an outcome `r` of an operation on `s`: a result object with
`success:false` comes with the state unchanged. -/
def Atomic (s : State) (r : State × Result) : Prop :=
  r.2.failed = true → r.1 = s

/-- Willis: a support hero whose protection needs a target. -/
def willis : Card :=
  { id := "willis", name := some "Willis", hp := 10,
    abilities := some [{ name := some "Shield", ability := some "Protect an ally",
                         actionType := some "support" }] }

/-- An encounter with willis in slot 0 and the fighter in slot 1. -/
def willisState : State :=
  (placeHero (placeHero
      (startEncounter { hp := 20 } (some [willis, fighter]) { rolls := [0, 0], ints := [] } none)
      0 (some willis)).1 1 (some fighter)).1

/-! ## Runs of the state machine -/

/-- A call of a public operation with its arguments.  `setFormation` is the write
`encounter.formation = f` that the battle screen performs on the state. -/
inductive Op where
  | placeHero (i : Nat) (c : Option Card)
  | replaceHero (i : Nat) (c : Option Card)
  | defendHero (i : Nat)
  | playHeroAttack (i : Nat) (ai : Option Nat)
  | playHeroAction (i : Nat) (t : Target) (ai : Option Nat)
  | useSummon (d : Option SummonDef) (t : Target)
  | enemyAct
  | setFormation (f : Nat)
deriving DecidableEq

/-- The state after one call. -/
def step (s : State) : Op → State
  | .placeHero i c => (placeHero s i c).1
  | .replaceHero i c => (replaceHero s i c).1
  | .defendHero i => (defendHero s i).1
  | .playHeroAttack i ai => (playHeroAttack s i ai).1
  | .playHeroAction i t ai => (playHeroAction s i t ai).1
  | .useSummon d t => (useSummon s d t).1
  | .enemyAct => (enemyAct s).1
  | .setFormation f => { s with formation := some f }

/-- The state after a sequence of calls. -/
def run (s : State) (ops : List Op) : State := ops.foldl step s

/-- The state `s'` differs from `s` at most in the random source, the playfield and
the exhausted list: what resolving hits on heroes may touch. -/
def SameBut (s s' : State) : Prop :=
  s' = { s with rng := s'.rng, playfield := s'.playfield,
                exhaustedThisEncounter := s'.exhaustedThisEncounter }

/-- An outcome keeps `apPerTurn` and lowers `ap` by at most one. -/
def ApKeeps (s : State) (r : State × Result) : Prop :=
  r.1.apPerTurn = s.apPerTurn ∧ s.ap - 1 ≤ r.1.ap

/-! ## The hero hit-point invariant -/

/-- A hero's hit points are positive and at most those of its base definition. -/
def HeroOk (h : Hero) : Prop := 0 < h.hp ∧ h.hp ≤ h.base.hp

/-- Every hero on the playfield satisfies `HeroOk`. -/
def PartyOk (pf : List Slot) : Prop := ∀ h, Slot.hero h ∈ pf → HeroOk h

/-- Every card a call hands to `placeHero` or `replaceHero` has `hp > 0`. -/
def Op.cardsOk : Op → Bool
  | .placeHero _ (some c) => decide (0 < c.hp)
  | .replaceHero _ (some c) => decide (0 < c.hp)
  | _ => true

/-- An ogre with 30 hit points whose only attack is a single-target hit for 5. -/
def ogre : Enemy :=
  { id := some "ogre", name := some "Ogre", hp := 30,
    attacks := some [{ name := some "Club", type := some "single", dmg := some 5 }] }

/-- The calls of a short fight: place the fighter, let the ogre act, heal with a
summon, let the ogre act again. -/
def skirmish : List Op :=
  [Op.placeHero 0 (some fighter), Op.enemyAct,
   Op.useSummon (some { id := "garon" }) Target.none, Op.enemyAct]

/-- The fighter as it stands after the skirmish: hit for 5, healed by 1, hit for 5. -/
def woundedFighter : Hero :=
  { cardId := "fighter", hp := 3, base := fighter, tempHp := some 0, statusIcons := some [],
    instanceId := some 1 }

/-! ## Deaths during the enemy's turn -/

/-- The slots of the hit events marked `died: true`, in order. -/
def diedSlotsH (evs : List HitEvent) : List Nat :=
  (evs.filter fun e => e.died).map fun e => e.slot

/-- The slots of the events of type `hit` marked `died: true`, in order. -/
def diedSlots (evs : List Event) : List Nat :=
  evs.filterMap fun ev =>
    match ev with
    | .hit e => if e.died then some e.slot else none
    | _ => none

/-- The base definitions of the heroes that `s` holds in the given slots. -/
def basesAt (s : State) (slots : List Nat) : List Card :=
  slots.filterMap fun i => (getHero s i).map fun h => h.base

/-- Between `a` and `b` exactly the heroes of the slots `ds` died: their base
definitions were appended to the exhausted list in that order, their slots hold no
hero any more, no slot is listed twice, and every other slot holds a hero with the
same base definition as before, or no hero as before. -/
structure DeathLog (a : State) (ds : List Nat) (b : State) : Prop where
  exhausted : b.exhaustedThisEncounter = a.exhaustedThisEncounter ++ basesAt a ds
  died : ∀ i ∈ ds, (getHero a i).isSome = true ∧ getHero b i = none
  kept : ∀ i, i ∉ ds →
    (getHero b i).map (fun h => h.base) = (getHero a i).map (fun h => h.base)
  nodup : ds.Nodup

/-- A stretch of hit resolution from `a` to `b` that produced the hit events `evs`:
the deaths are those the events mark, and a `died` event reports `remainingHp` 0. -/
def Logged (a : State) (evs : List HitEvent) (b : State) : Prop :=
  DeathLog a (diedSlotsH evs) b ∧ ∀ e ∈ evs, e.died = true → e.remainingHp = 0

/-- A step of a loop over the playfield appends hit events and is logged. -/
def StepLogged {α : Type} (f : State × List HitEvent → α → State × List HitEvent) : Prop :=
  ∀ acc a, ∃ new, (f acc a).2 = acc.2 ++ new ∧ Logged acc.1 new (f acc a).1

/-- No event of the list has type `hit`. -/
def NoHits (evs : List Event) : Prop := ∀ e, Event.hit e ∉ evs

/-- A step of a loop that appends events other than hits and lets no hero die. -/
def StepQuiet {α : Type} (f : State × List Event → α → State × List Event) : Prop :=
  ∀ acc a, ∃ extra, (f acc a).2 = acc.2 ++ extra ∧ NoHits extra ∧ DeathLog acc.1 [] (f acc a).1

/-- The fighter's encounter with the ogre after two enemy turns: the fighter is down
to 2 hit points. -/
def nearDeathState : State :=
  run (startEncounter ogre (some [fighter]) { rolls := [], ints := [] } none)
    [Op.placeHero 0 (some fighter), Op.enemyAct, Op.enemyAct]

/-- A card with 20 base hit points. -/
def tank : Card := { id := "tank", name := some "Tank", hp := 20 }

/-- A state whose slot 0 holds the given hero, alone on the playfield. -/
def loneHeroState (h : Hero) : State :=
  { startEncounter ogre (some []) { rolls := [], ints := [] } none with
    playfield := [Slot.hero h, Slot.null, Slot.null] }

/-- The tank at full health with 10 temp HP. -/
def shieldedTank : Hero := { cardId := "tank", hp := 20, base := tank, tempHp := some 10 }

/-- The tank at 10 of 20 hit points without temp HP. -/
def hurtTank : Hero := { cardId := "tank", hp := 10, base := tank, tempHp := some 0 }

/-! ## Targeting -/

/-- Slot `i` holds a hero marked `helped`. -/
def helpedAt (s : State) (i : Nat) : Bool :=
  match getHero s i with
  | some h => h.helped
  | none => false

/-- A fresh encounter after `replaceHero(state, 5, fighter)`: the playfield has grown to six
slots and its only hero stands in slot 5. -/
def farState : State :=
  run (startEncounter ogre (some [fighter]) { rolls := [], ints := [] } none)
    [Op.replaceHero 5 (some fighter)]

/-- A playfield with a helped hero in the back slot and another hero in front. -/
def helpedBackState : State :=
  { startEncounter ogre (some []) { rolls := [], ints := [1] } none with
    playfield := [Slot.hero hurtTank, Slot.null, Slot.hero { shieldedTank with helped := true }] }

/-- Two heroes in the front line under the default formation: the tank in slot 0 is
defending, the fighter in slot 1 is not.  The random source will pick index 0 at the
first target selection and index 1 at the second; both rolls come out as 1. -/
def dodgeState : State :=
  { startEncounter ogre (some []) { rolls := [1, 1], ints := [0, 1] } none with
    playfield := [Slot.hero { hurtTank with defending := true },
                  Slot.hero { cardId := "fighter", hp := 12, base := fighter, tempHp := some 0 },
                  Slot.null] }

/-- The ogre's club: a single-target attack for 5. -/
def club : Attack := { name := some "Club", type := some "single", dmg := some 5 }

/-- The state `dodgeState` at the start of the enemy's turn: two more integer draws
(the unused coin and the attack index) precede the two target selections. -/
def dodgeTurnState : State :=
  { dodgeState with rng := { rolls := [1, 1], ints := [0, 0, 0, 1] } }

/-- The slots of the events of type `hit`, in order. -/
def hitSlots (evs : List Event) : List Nat :=
  evs.filterMap fun ev =>
    match ev with
    | .hit e => some e.slot
    | _ => none

/-! ## Area attacks, slot by slot -/

/-- Slot `i` is exempt from area attacks: formation 3 and the back slot. -/
def aoeExempt (s : State) (i : Nat) : Bool :=
  decide (s.formation = some 3 ∧ i = 2)

/-- The damage an area attack of base damage `d` applies to a hero: half, rounded up,
when defending. -/
def aoeDamage (h : Hero) (d : Int) : Int := if h.defending then ceilHalf d else d

/-- The hit event an area attack produces for slot `i` of `s`, if any. -/
def aoeEventFor (s : State) (d : Int) (ai : Nat) (nm : String) (i : Nat) : Option HitEvent :=
  if aoeExempt s i then none
  else
    match getHero s i with
    | none => none
    | some h =>
      if protectedActive h then some (protectedEvent i h "aoe" ai nm)
      else some (damageHero s i h (aoeDamage h d) d "aoe" ai nm).2

/-- What slot `i` of `s` holds after an area attack. -/
def aoeSlotFor (s : State) (d : Int) (i : Nat) : Option Slot :=
  if aoeExempt s i then s.playfield[i]?
  else
    match getHero s i with
    | none => s.playfield[i]?
    | some h =>
      if protectedActive h then s.playfield[i]?
      else if (absorbDamage h (aoeDamage h d)).1.hp ≤ 0 then some Slot.null
      else some (Slot.hero (absorbDamage h (aoeDamage h d)).1)

/-- A full playfield: a defending tank (hp 10), a protected tank with 10 temp HP, and
the fighter in the back slot. -/
def aoeState : State :=
  { startEncounter ogre (some []) { rolls := [], ints := [] } none with
    playfield := [Slot.hero { hurtTank with defending := true },
                  Slot.hero { shieldedTank with protectedTurns := some 1 },
                  Slot.hero { cardId := "fighter", hp := 12, base := fighter, tempHp := some 0 }] }

/-! ## The stunned enemy turn and the housekeeping -/

/-- The event has type `enemyDamage`. -/
def Event.isEnemyDamage : Event → Bool
  | .enemyDamage _ _ _ _ _ => true
  | _ => false

/-- An encounter in which the ogre is stunned for one turn and the fighter holds
slot 0. -/
def stunnedOgreState : State :=
  { fighterState with enemy := { ogre with stunnedTurns := 1, maxHp := some 30 } }

/-- The tank as a blinding hit leaves it: `blindedTurns` 1 and the `blind` icon. -/
def blindedTank : Hero :=
  { hurtTank with blindedTurns := 1, statusIcons := some [{ id := "blind", source := "ogre" }] }

/-- A pending effect of another type than `delayedDamage`, triggering after the
enemy's turn, with two repeats left. -/
def oddEffect : PendingEffect :=
  { type := "mark", id := "mark", slot := 0, dmg := 0, trigger := "afterEnemy", times := some 2,
    sourceName := "Mark" }

/-! ## Pending effects over the turns -/

/-- The pending effects after an enemy turn in which every entry fired. -/
def requeueAll : List PendingEffect → List PendingEffect
  | [] => []
  | e :: rest => requeue e ++ requeueAll rest

/-- Take `d` from `hp`, clamped at 0, `k` times over. -/
def clampTimes : Nat → Int → Int → Int
  | 0, _, hp => hp
  | k + 1, d, hp => clampTimes k d (max 0 (hp - d))

/-- The state after `k` enemy turns in a row. -/
def enemyTurns (k : Nat) (s : State) : State := run s (List.replicate k Op.enemyAct)

/-- The legendary bjurganmyr. -/
def bjurganmyr : Card := { id := "bjurganmyr", name := some "Bjurganmyr", hp := 15 }

/-- Lumalia, a support hero. -/
def lumalia : Card :=
  { id := "lumalia", name := some "Lumalia", hp := 9,
    abilities := some [{ ability := some "Radiant mark", actionType := some "support" }] }

/-- An encounter against an enemy with 30 hit points and no attacks, after the hero of
the given card, alone in slot 0, used its action once. -/
def afterSupport (c : Card) : State :=
  (playHeroAction
    (placeHero (startEncounter { hp := 30 } (some [c]) { rolls := [], ints := [] } none)
      0 (some c)).1 0 Target.none none).1

/-! ## The once-per-round support gate -/

/-- An outcome keeps every mark of `supportUsed`. -/
def KeepsMarks (s : State) (r : State × Result) : Prop :=
  ∀ X, dictGet s.supportUsed X = some true → dictGet r.1.supportUsed X = some true

/-- A successful support leaves the acting hero's id marked in `supportUsed`. -/
def MarksOwn (hid : String) (r : State × Result) : Prop :=
  r.2.success = true → hid ≠ "" ∧ dictGet r.1.supportUsed hid = some true

/-- Piter, a support hero. -/
def piter : Card :=
  { id := "piter", name := some "Piter", hp := 9,
    abilities := some [{ ability := some "Help", actionType := some "support" }] }

/-- An encounter against an enemy without attacks, piter alone in slot 0. -/
def piterState : State :=
  (placeHero (startEncounter { hp := 30 } (some [piter]) { rolls := [], ints := [] } none)
    0 (some piter)).1

/-! ## Scout's rally -/

/-- Whether scout's support treats the chosen ability as a rally: its name (or text)
matches `/rally/`, or it has neither name nor text. -/
def isRallyAbility (chosen : Ability) : Bool :=
  includes (scoutAbilityName chosen) "rally" || decide (scoutAbilityName chosen = "")

/-- The cooldown a rally sets: the ability's `cooldown` field, or 3 without one, for an
ability matching `/rally/`; always 3 in the fallback for an ability with no name or text. -/
def rallyCooldown (chosen : Ability) : Int :=
  if includes (scoutAbilityName chosen) "rally" then chosen.cooldown.getD 3 else 3

/-- A scout whose only ability has neither name nor text, with a cooldown field of 5. -/
def namelessScout : Card :=
  { id := "scout", name := some "Scout", hp := 8,
    abilities := some [{ actionType := some "support", cooldown := some 5, primary := true }] }

/-! ## Protection -/

/-- The hit points, temporary hit points and protection counter of a hero. -/
def vitals (h : Hero) : Int × Option Int × Option Int := (h.hp, h.tempHp, h.protectedTurns)

/-- Slot `k` holds a hero with hit points `v.1`, temp HP `v.2.1` and an active
protection of `v.2.2` turns. -/
def Shielded (k : Nat) (v : Int × Option Int × Int) (s : State) : Prop :=
  0 < v.2.2 ∧ (getHero s k).map vitals = some (v.1, v.2.1, some v.2.2)

/-- A hit event that, if it is for slot `k`, reports no damage: `dmg` 0, nothing taken,
not died, and either `protected: true` or `missed: true`. -/
def NoHarm (k : Nat) (e : HitEvent) : Prop :=
  e.slot = k → e.dmg = 0 ∧ e.tempTaken = 0 ∧ e.hpTaken = 0 ∧ e.died = false ∧
    ((e.isProtected = true ∧ e.missed = false) ∨ (e.missed = true ∧ e.isProtected = false))

/-- An outcome of hit resolution that keeps slot `k` shielded and reports no harm to it. -/
def Shields (k : Nat) (v : Int × Option Int × Int) (r : State × List HitEvent) : Prop :=
  Shielded k v r.1 ∧ ∀ e ∈ r.2, NoHarm k e

/-- Willis's encounter after its support on slot 1 (the fighter), against the ogre. -/
def protectedState : State :=
  (playHeroAction
    { willisState with enemy := { hp := 30, attacks := some [{ name := some "Club", dmg := some 4 }] },
                       rng := { rolls := [0, 1], ints := [0, 0, 1, 1] } }
    0 (Target.idx 1) none).1

/-! ## Summons -/

/-- The summon `wave`, usable once per encounter. -/
def wave : SummonDef :=
  { id := "wave", restriction := some "Once per encounter", ability := some "Halve the enemy" }

/-! ## Healing -/

/-- The slot a single-target heal lands on: `targetIndex` when it is a number naming an
occupied slot, else the caster's slot. -/
def healTarget (s : State) (slotIndex : Nat) (target : Target) : Nat :=
  match target with
  | .idx t => if occupied s t then t else slotIndex
  | _ => slotIndex

/-- A healer whose ability heals one ally by 3. -/
def cleric : Card :=
  { id := "cleric", name := some "Cleric", hp := 9,
    abilities := some [{ ability := some "Restore 3 HP", actionType := some "healer" }] }

/-- A healer whose ability heals the whole party by 2. -/
def bard : Card :=
  { id := "bard", name := some "Bard", hp := 8,
    abilities := some [{ ability := some "Heal the party for 2", actionType := some "healer" }] }

/-- A healer whose ability text holds no number. -/
def acolyte : Card :=
  { id := "acolyte", name := some "Acolyte", hp := 7,
    abilities := some [{ ability := some "Mend a wound", actionType := some "healer" }] }

/-- A state with the given caster at full health in slot 0 and the hurt tank
(10 of 20 hit points) in slot 1. -/
def wardState (caster : Card) : State :=
  { startEncounter ogre (some []) { rolls := [], ints := [] } none with
    playfield := [Slot.hero { cardId := caster.id, hp := caster.hp, base := caster, tempHp := some 0,
                              statusIcons := some [], instanceId := some 1 },
                  Slot.hero hurtTank, Slot.null] }

/-! ## Replacing heroes -/

/-- A fresh encounter against the ogre with the fighter and the rogue in hand and an
empty playfield. -/
def emptyField : State :=
  startEncounter ogre (some [fighter, rogue]) { rolls := [], ints := [] } none

/-- A dragon whose only attack is a breath over the whole playfield for 20. -/
def dragon : Enemy :=
  { id := some "dragon", name := some "Dragon", hp := 40,
    attacks := some [{ name := some "Breath", type := some "aoe", dmg := some 20 }] }

/-- A fresh encounter after `replaceHero(state, 5, fighter)` and the dragon's turn: the
breath has killed the fighter, so slot 5 of the six-slot playfield holds `null`. -/
def scorchedField : State :=
  run (startEncounter dragon (some [fighter, rogue]) { rolls := [], ints := [] } none)
    [Op.replaceHero 5 (some fighter), Op.enemyAct]

/-! ## Action dispatch -/

/-- The action type inferred from an ability's text: `healer` when it matches
`/heal|cure|restore|regen/`, else `dps`. -/
def inferredType (a : Ability) : String :=
  if includes (lower (a.ability.getD "")) "heal" || includes (lower (a.ability.getD "")) "cure"
      || includes (lower (a.ability.getD "")) "restore"
      || includes (lower (a.ability.getD "")) "regen" then "healer"
  else "dps"

/-- The hero ids with a support block in `playHeroAction`. -/
def supportIds : List String :=
  ["shalendra", "piter", "lumalia", "scout", "willis", "brer", "bjurganmyr", "miley", "kiefer"]

/-- A card whose ability declares an action type the engine does not know. -/
def sentinel : Card :=
  { id := "sentinel", name := some "Sentinel", hp := 10,
    abilities := some [{ ability := some "Hold the line", actionType := some "tank" }] }

/-- A support card whose id has no support block. -/
def herald : Card :=
  { id := "herald", name := some "Herald", hp := 10,
    abilities := some [{ ability := some "Inspire", actionType := some "support" }] }

/-- A card whose ability writes its action type in capitals, the last letter as the
Kelvin sign U+212A, which `toLowerCase` turns into `k`. -/
def shouter : Card :=
  { id := "shouter", name := some "Shouter", hp := 10,
    abilities := some [{ ability := some "Deal 2 damage", actionType := some "ATTAC\u212A",
                         hitChance := some 1 }] }

/-- A support card whose id is the name of a property every object inherits. -/
def builder : Card :=
  { id := "constructor", name := some "Builder", hp := 10,
    abilities := some [{ ability := some "Raise a wall", actionType := some "support" }] }

/-! ## Magnitude parsing -/

/-- Modelled from the spec: the value of an integer literal, a run of decimal digits
read in base ten. -/
def digitsValue (run : List Char) : Nat :=
  run.foldl (fun n c => n * 10 + (c.toNat - 48)) 0

/-- The card `replaceHero` returns to the hand for the outgoing hero: its base definition
with `hp` overwritten by the current hit points. -/
def returnedCard (old : Hero) : Card := { old.base with hp := old.hp }

/-- The hurt tank (10 of 20 hit points) swapped out for the rogue and placed again in
slot 2 from the card returned to the hand. -/
def roundTripState : State :=
  (placeHero (replaceHero (wardState cleric) 1 (some rogue)).1 2 (some (returnedCard hurtTank))).1

/-! ## Status effects of enemy attacks -/

/-- The status counters of a hero: `stunnedTurns`, `enfeebledTurns`, `blindedTurns`. -/
def counters (h : Hero) : Nat × Nat × Nat := (h.stunnedTurns, h.enfeebledTurns, h.blindedTurns)

/-- The status counters of the hero in slot `k`, if the slot holds one. -/
def cview (s : State) (k : Nat) : Option (Nat × Nat × Nat) := (getHero s k).map counters

/-- The name (`base.name` or null) of the hero in slot `k`, if the slot holds one. -/
def nview (s : State) (k : Nat) : Option (Option String) :=
  (getHero s k).map fun h => truthyName h.base.name

/-- The test an enemy attack's effect makes on a hit event: not missed, and hp or
temp HP taken. -/
def qualifies (ev : HitEvent) : Bool :=
  !ev.missed && (decide (ev.hpTaken > 0) || decide (ev.tempTaken > 0))

/-- The counters after the effect `eff` is applied: the matching one raised to at least 1. -/
def raised (eff : String) (c : Nat × Nat × Nat) : Nat × Nat × Nat :=
  (if eff = "stun" then max 1 c.1 else c.1,
   if eff = "enfeeble" then max 1 c.2.1 else c.2.1,
   if eff = "blind" then max 1 c.2.2 else c.2.2)

/-- The counters after the decrement at the start of the enemy's turn. -/
def lowered (c : Nat × Nat × Nat) : Nat × Nat × Nat := (c.1 - 1, c.2.1 - 1, c.2.2 - 1)

/-- Whether the hit events hold a qualifying hit on slot `k`. -/
def struckH (k : Nat) (hits : List HitEvent) : Bool :=
  hits.any fun e => decide (e.slot = k) && qualifies e

/-- The events the effect `eff` appends for one hit on the hero named `name` in `slot`. -/
def statusEvent (eff : String) (slot : Nat) (name : Option String) : List Event :=
  (if eff = "stun" then [Event.heroStunned slot name] else [])
    ++ (if eff = "enfeeble" then [Event.heroEnfeebled slot name] else [])
    ++ (if eff = "blind" then [Event.heroBlinded slot name] else [])

/-- One status event per qualifying hit whose slot holds a hero, in the order of the hits;
`names` gives the name of the hero of each occupied slot. -/
def statusEventsFor (eff : String) (names : Nat → Option (Option String)) :
    List HitEvent → List Event
  | [] => []
  | ev :: rest =>
    (if qualifies ev then
      match names ev.slot with
      | some nm => statusEvent eff ev.slot nm
      | none => []
    else []) ++ statusEventsFor eff names rest

/-- The attack `enemyAct` picks on a non-stunned turn: `attacks[rng.int(attacks.length)]`
drawn after the first draw of the turn. -/
def chosenAttack (s : State) : Option Attack :=
  match s.enemy.attacks with
  | some (a :: rest) => some ((a :: rest)[((s.rng.int 2).2.int (a :: rest).length).1]?.getD {})
  | _ => none

/-- Hit resolution from `a` to `b` keeps the status counters of every hero still standing,
and adds no hero. -/
def Keeps (a b : State) : Prop :=
  ∀ k h', getHero b k = some h' → ∃ h, getHero a k = some h ∧ counters h' = counters h

/-- The state `s'` has the same status counters as `s`, slot by slot. -/
def CSame (s s' : State) : Prop := ∀ k, cview s' k = cview s k

/-- An ogre whose club stuns. -/
def stunningOgre : Enemy :=
  { id := some "ogre", name := some "Ogre", hp := 30,
    attacks := some [{ name := some "Club", type := some "single", dmg := some 5,
                       effect := some "Stun" }] }

/-- The fighter in slot 0 facing the stunning ogre, every roll a hit. -/
def stunFight : State :=
  (placeHero (startEncounter stunningOgre (some [fighter]) { rolls := [0, 1], ints := [] } none)
    0 (some fighter)).1

/-- An operation of the player's turn that does not replace the hero of slot `k`. -/
def Op.spares (k : Nat) : Op → Bool
  | .enemyAct => false
  | .replaceHero i _ => decide (i ≠ k)
  | _ => true

/-- Every hero on the playfield has each status counter at most 1. -/
def CountersOk (s : State) : Prop :=
  ∀ k h, getHero s k = some h →
    h.stunnedTurns ≤ 1 ∧ h.enfeebledTurns ≤ 1 ∧ h.blindedTurns ≤ 1

/-! ## The states the housekeeping receives -/

/-- Every pending effect is a delayed-damage entry triggering after the enemy's turn. -/
def PendingOk (s : State) : Prop :=
  ∀ e ∈ s.pendingEffects, e.type = "delayedDamage" ∧ e.trigger = "afterEnemy"

/-- No status icon of the hero is marked `persistent`. -/
def Plain (h : Hero) : Prop := ∀ si ∈ h.statusIcons.getD [], si.persistent = false

/-- No status icon of any hero on the playfield is marked `persistent`. -/
def IconsOk (pf : List Slot) : Prop := ∀ h, Slot.hero h ∈ pf → Plain h

/-- A state on which the two copies of the housekeeping cannot tell themselves apart: every
pending effect triggering after the enemy's turn is a `delayedDamage`, and a `blind` or
`blinded` icon is marked `persistent` exactly when its hero is still blinded. The states the
stunned branch hands to its housekeeping are of this kind: their heroes have
`blindedTurns = 0` and no icon marked `persistent`. -/
def Receivable (x : State) : Prop :=
  (∀ e ∈ x.pendingEffects, e.trigger = "afterEnemy" → e.type = "delayedDamage") ∧
  (∀ k h, getHero x k = some h → ∀ si ∈ h.statusIcons.getD [],
    (si.id = "blind" ∨ si.id = "blinded") → si.persistent = decide (h.blindedTurns > 0))

/-- The state the stunned branch of `enemyAct` hands to its housekeeping: the turn counted,
the heroes' status counters lowered, the enemy's `stunnedTurns` lowered. -/
def stunnedInput (s : State) : State :=
  { s with turn := s.turn + 1,
           playfield := mapHeroes decBlind (mapHeroes decStunEnfeeble s.playfield),
           enemy := { s.enemy with stunnedTurns := s.enemy.stunnedTurns - 1 } }

/-- The state the normal branch of `enemyAct` hands to its housekeeping, with the events of
the attack. -/
def normalInput (s : State) : State × List Event :=
  attackPhase { s with turn := s.turn + 1,
                       playfield := mapHeroes decBlind (mapHeroes decStunEnfeeble s.playfield),
                       rng := (s.rng.int 2).2 }

/-- The fields of a hero the housekeeping resets or expires: `defending`, `helped`,
`hitBonus` and the protection. -/
def flags (h : Hero) : Bool × Bool × ℚ × Option Int :=
  (h.defending, h.helped, h.hitBonus, h.protectedTurns)

/-- An encounter in which lumalia's delayed damage is pending, the fighter stands in slot 1
and the enemy is stunned by whelm's summon. -/
def stunnedRound : State :=
  run (startEncounter ogre (some [lumalia, fighter]) { rolls := [], ints := [] } none)
    [Op.placeHero 0 (some lumalia), Op.placeHero 1 (some fighter),
     Op.playHeroAction 0 Target.none none, Op.defendHero 1,
     Op.useSummon (some { id := "whelm" }) Target.none]

/-! ## Arithmetic of the damage formulas -/

theorem floor_half (n : Int) : ⌊(n : ℚ) / 2⌋ = n / 2 := by
  have h := Rat.floor_intCast_div_natCast n 2
  simpa using h

theorem floor_prod (b m : Int) (c : Bool) :
    ⌊((b : ℚ) * (m : ℚ) * (if c then 2 else 1))⌋ = b * m * (if c then 2 else 1) := by
  cases c
  · simp only [Bool.false_eq_true, if_false, mul_one]
    exact_mod_cast @Int.floor_intCast ℚ _ _ (b * m)
  · simp only [if_true]
    exact_mod_cast @Int.floor_intCast ℚ _ _ (b * m * 2)

/-! ## C1: damage of a hero attack that hits -/

/-- C1. For every encounter state with `ap > 0` and a non-stunned hero in the acting
slot, when the hit roll of `playHeroAttack` succeeds the reported `dmg` is
`floor(base * multiplier * (2 if crit else 1))`, floored-halved once more when the
hero is enfeebled, where `base` is the magnitude parsed from the chosen ability and
`multiplier` is `state.nextAttackMultiplier`, or 1 when that is absent or 0; the enemy's hp
afterwards is its hp before minus `dmg` (no clamping) and is what `enemyHp` reports. -/
theorem playHeroAttack_hit_damage (s : State) (slot : Nat) (ai : Option Nat) (hero : Hero)
    (hap : 0 < s.ap) (hh : getHero s slot = some hero) (hst : hero.stunnedTurns = 0)
    (hhit : s.rng.rand.1 < heroHitChance hero (chosenAbility hero ai)) :
    let base : Int := (parseDamageFromAbility (chosenAbility hero ai) : Int)
    let mult : Int :=
      match s.nextAttackMultiplier with
      | some m => if m = 0 then 1 else m
      | none => 1
    let crit : Bool := decide (s.rng.rand.2.rand.1 < (chosenAbility hero ai).critChance.getD 0)
    let full : Int := ⌊((base : ℚ) * (mult : ℚ) * (if crit then 2 else 1))⌋
    let dmg : Int := if hero.enfeebledTurns > 0 then ⌊(full : ℚ) / 2⌋ else full
    (playHeroAttack s slot ai).2 = Result.attackHit dmg (s.enemy.hp - dmg) crit base ∧
    (playHeroAttack s slot ai).1.enemy.hp = s.enemy.hp - dmg := by
  intro base mult crit full dmg
  have hm : mult = attackMultiplier s := rfl
  have hfull : full = base * attackMultiplier s * (if crit then 2 else 1) := by
    rw [← hm]
    exact floor_prod _ _ _
  have hdmg : dmg = if hero.enfeebledTurns > 0 then full / 2 else full := by
    simp only [dmg, floor_half]
  have hap' : ¬ s.ap ≤ 0 := not_le.mpr hap
  simp only [playHeroAttack, hap', hh, hst, if_false, lt_irrefl, hhit, not_true_eq_false]
  rw [hdmg, hfull]
  exact ⟨rfl, rfl⟩

set_option maxRecDepth 100000 in
/-- The scenarios of C1: enemy hp 20 and "Deal 5 damage" with hit chance 1 give
`dmg` 5 and `enemyHp` 15; base 4 with a crit gives 8, and 4 when also enfeebled; after
volo's summon the multiplier is 2 and the fighter deals 10; and with hit chance 0.1 raised by
an assist of 0.2 the roll 0.3 is a hit, the sum of the two doubles lying above it. -/
theorem playHeroAttack_hit_damage_witness :
    (playHeroAttack fighterState 0 none).2 = Result.attackHit 5 15 false 5 ∧
    (playHeroAttack rogueState 0 none).2 = Result.attackHit 8 12 true 4 ∧
    (playHeroAttack enfeebledRogueState 0 none).2 = Result.attackHit 4 16 true 4 ∧
    (playHeroAttack doubledState 0 none).2 = Result.attackHit 10 10 false 5 ∧
    (playHeroAttack assistedState 0 none).2 = Result.attackHit 3 17 false 3 := by
  have h1 := (playHeroAttack_hit_damage fighterState 0 none
    { cardId := "fighter", hp := 12, base := fighter, tempHp := some 0, statusIcons := some [],
      instanceId := some 1 }
    (by decide) (by decide) (by decide) (by decide)).1
  have h2 := (playHeroAttack_hit_damage rogueState 0 none
    { cardId := "rogue", hp := 9, base := rogue, tempHp := some 0, statusIcons := some [],
      instanceId := some 1 }
    (by decide) (by decide) (by decide) (by decide)).1
  have h3 := (playHeroAttack_hit_damage enfeebledRogueState 0 none
    { cardId := "rogue", hp := 9, base := rogue, tempHp := some 0, statusIcons := some [],
      instanceId := some 1, enfeebledTurns := 1 }
    (by decide) (by decide) (by decide) (by decide)).1
  have h4 := (playHeroAttack_hit_damage doubledState 0 none
    { cardId := "fighter", hp := 12, base := fighter, tempHp := some 0, statusIcons := some [],
      instanceId := some 1 }
    (by decide) (by decide) (by decide) (by decide)).1
  have h5 := (playHeroAttack_hit_damage assistedState 0 none
    { cardId := "archer", hp := 7, base := archer, tempHp := some 0, statusIcons := some [],
      instanceId := some 1, hitBonus := double02 }
    (by decide) rfl (by decide) (by with_unfolding_all decide)).1
  refine ⟨h1.trans ?_, h2.trans ?_, h3.trans ?_, h4.trans ?_, h5.trans ?_⟩ <;>
    simp only [floor_prod, floor_half] <;> decide

/-! ## C2: AP conservation -/

theorem playHeroAttack_ap (s : State) (i : Nat) (ai : Option Nat)
    (h : (playHeroAttack s i ai).2.success = true) : (playHeroAttack s i ai).1.ap = s.ap - 1 := by
  by_cases h1 : s.ap ≤ 0
  · simp [playHeroAttack, h1, Result.success] at h
  · cases hh : getHero s i with
    | none => simp [playHeroAttack, h1, hh, Result.success] at h
    | some hero =>
      by_cases h3 : hero.stunnedTurns > 0
      · simp [playHeroAttack, h1, hh, h3, Result.success] at h
      · by_cases h4 : s.rng.rand.1 < heroHitChance hero (chosenAbility hero ai) <;>
          simp [playHeroAttack, h1, hh, h3, h4]

theorem resolveHeal_ap (s : State) (i : Nat) (amount : Nat) (t : Target)
    (h : (resolveHeal s i amount t).2.success = true) : (resolveHeal s i amount t).1.ap = s.ap - 1 := by
  cases hh : getHero s i with
  | none => simp [resolveHeal, hh, Result.success] at h
  | some hero =>
    by_cases hp : isPartyHeal hero t = true <;> simp [resolveHeal, hh, hp]

theorem scoutRally_ap (s : State) (i : Nat) (key : AbilityKey) (cd : Int) :
    ApSpec s (scoutRally s i key cd) := by
  unfold ApSpec scoutRally; split <;> simp [Result.success, Result.isRally]

theorem scoutAssist_ap (s : State) (i : Nat) (key : AbilityKey) (c : Ability) (t : Target) :
    ApSpec s (scoutAssist s i key c t) := by
  unfold ApSpec scoutAssist; repeat' split
  all_goals simp [Result.success, Result.isRally, chargeSupport]

theorem earlySupport_ap (s : State) (i : Nat) (hero : Hero) (hid hname : String)
    (r : State × Result) (hr : earlySupport s i hero hid hname = some r) : ApSpec s r := by
  revert hr; unfold earlySupport ApSpec; simp only
  repeat' split
  all_goals (intro hr; simp at hr; try subst hr)
  all_goals simp [Result.success, Result.isRally, chargeSupport]

theorem scoutSupport_ap (s : State) (i : Nat) (hero : Hero) (t : Target) (ai : Option Nat)
    (r : State × Result) (hr : scoutSupport s i hero t ai = some r) : ApSpec s r := by
  revert hr; unfold scoutSupport; simp only
  repeat' split
  all_goals (intro hr; simp at hr; try subst hr)
  · exact scoutRally_ap _ _ _ _
  · exact scoutAssist_ap _ _ _ _ _
  · exact scoutRally_ap _ _ _ _

theorem lateSupport_ap (s : State) (i : Nat) (hid hname : String) (t : Target) :
    ApSpec s (lateSupport s i hid hname t) := by
  unfold lateSupport willisSupport delayedSupport kieferSupport ApSpec
  simp only
  repeat' split
  all_goals simp [Result.success, Result.isRally, chargeSupport]

theorem supportAction_ap (s : State) (i : Nat) (hero : Hero) (t : Target) (ai : Option Nat) :
    ApSpec s (supportAction s i hero t ai) := by
  unfold supportAction
  simp only
  split
  · simp [ApSpec, Result.success]
  · split
    · rename_i r hr
      exact earlySupport_ap _ _ _ _ _ _ hr
    · split
      · rename_i r hr
        split at hr
        · exact scoutSupport_ap _ _ _ _ _ _ hr
        · simp at hr
      · exact lateSupport_ap _ _ _ _ _

theorem playHeroAttack_not_rally (s : State) (i : Nat) (ai : Option Nat) :
    (playHeroAttack s i ai).2.isRally = false := by
  unfold playHeroAttack
  dsimp only
  repeat' split
  all_goals rfl

theorem resolveHeal_not_rally (s : State) (i : Nat) (amount : Nat) (t : Target) :
    (resolveHeal s i amount t).2.isRally = false := by
  unfold resolveHeal
  repeat' split
  all_goals rfl

theorem playHeroAction_ap (s : State) (i : Nat) (t : Target) (ai : Option Nat) :
    ApSpec s (playHeroAction s i t ai) := by
  unfold playHeroAction
  split
  · simp [ApSpec, Result.success]
  · split
    · simp [ApSpec, Result.success]
    · split
      · simp [ApSpec, Result.success]
      · simp only
        split
        · exact fun h => Or.inl ⟨playHeroAttack_ap s i ai h, playHeroAttack_not_rally s i ai⟩
        · split
          · exact fun h => Or.inl ⟨resolveHeal_ap s i _ t h, resolveHeal_not_rally s i _ t⟩
          · split
            · exact supportAction_ap _ _ _ _ _
            · simp [ApSpec, Result.success]

theorem defendHero_ap (s : State) (i : Nat) (h : (defendHero s i).2.success = true) :
    (defendHero s i).1.ap = s.ap - 1 := by
  revert h; unfold defendHero
  repeat' split
  all_goals simp [Result.success]

theorem replaceHero_ap (s : State) (i : Nat) (c : Option Card)
    (h : (replaceHero s i c).2.success = true) :
    (replaceHero s i c).1.ap = if occupied s i then s.ap - 1 else s.ap := by
  revert h; unfold replaceHero occupied
  repeat' split
  all_goals simp_all [Result.success]

theorem placeHero_ap (s : State) (i : Nat) (c : Option Card) :
    (placeHero s i c).1.ap = s.ap := by
  unfold placeHero
  repeat' split
  all_goals rfl

/-- C2. AP conservation: a successful `defendHero`, a successful `playHeroAttack` (hit
or miss), every successful `playHeroAction` other than a rally (attack, single-target
or party heal, every support) and a successful `replaceHero` on an occupied slot leave
`ap` exactly one lower; a successful rally leaves it exactly one higher; a successful
`placeHero` and a successful `replaceHero` into a slot without a hero leave it
unchanged. -/
theorem ap_conservation (s : State) :
    (∀ i, (defendHero s i).2.success = true → (defendHero s i).1.ap = s.ap - 1) ∧
    (∀ i ai, (playHeroAttack s i ai).2.success = true →
      (playHeroAttack s i ai).1.ap = s.ap - 1) ∧
    (∀ i t ai, (playHeroAction s i t ai).2.success = true →
      (playHeroAction s i t ai).1.ap =
        if (playHeroAction s i t ai).2.isRally then s.ap + 1 else s.ap - 1) ∧
    (∀ i c, occupied s i = true → (replaceHero s i c).2.success = true →
      (replaceHero s i c).1.ap = s.ap - 1) ∧
    (∀ i c, occupied s i = false → (replaceHero s i c).2.success = true →
      (replaceHero s i c).1.ap = s.ap) ∧
    (∀ i c, (placeHero s i c).2.success = true → (placeHero s i c).1.ap = s.ap) := by
  refine ⟨defendHero_ap s, playHeroAttack_ap s, ?_, ?_, ?_, fun i c _ => placeHero_ap s i c⟩
  · intro i t ai h
    rcases playHeroAction_ap s i t ai h with ⟨h1, h2⟩ | ⟨h1, h2⟩ <;> simp [h1, h2]
  · intro i c ho h
    simpa [ho] using replaceHero_ap s i c h
  · intro i c ho h
    simpa [ho] using replaceHero_ap s i c h

/-- Instances of C2: defending, attacking, an assist and a replacement each take one
of the three AP; the scout's rally gives one; a placement is free. -/
theorem ap_conservation_witness :
    (defendHero fighterState 0).1.ap = 3 - 1 ∧
    (playHeroAttack fighterState 0 none).1.ap = 3 - 1 ∧
    (playHeroAction scoutState 0 Target.none none).1.ap = 3 + 1 ∧
    (playHeroAction scoutState 0 (Target.idx 1) (some 1)).1.ap = 3 - 1 ∧
    (replaceHero fighterState 0 (some rogue)).1.ap = 3 - 1 ∧
    (replaceHero fighterState 1 (some rogue)).1.ap = 3 ∧
    (placeHero fighterState 1 (some rogue)).1.ap = 3 := by
  refine ⟨?_, ?_, ?_, ?_, ?_, ?_, ?_⟩
  · exact (ap_conservation fighterState).1 0 (by decide)
  · exact (ap_conservation fighterState).2.1 0 none (by decide)
  · exact ((ap_conservation scoutState).2.2.1 0 Target.none none (by decide)).trans (by decide)
  · exact ((ap_conservation scoutState).2.2.1 0 (Target.idx 1) (some 1) (by decide)).trans
      (by decide)
  · exact (ap_conservation fighterState).2.2.2.1 0 (some rogue) (by decide) (by decide)
  · exact (ap_conservation fighterState).2.2.2.2.1 1 (some rogue) (by decide) (by decide)
  · exact (ap_conservation fighterState).2.2.2.2.2 1 (some rogue) (by decide)

/-! ## C4: failure atomicity -/

theorem placeHero_atomic (s : State) (i : Nat) (c : Option Card) : Atomic s (placeHero s i c) := by
  unfold Atomic placeHero
  dsimp only
  repeat' split
  all_goals simp [Result.failed]

theorem replaceHero_atomic (s : State) (i : Nat) (c : Option Card) :
    Atomic s (replaceHero s i c) := by
  unfold Atomic replaceHero
  dsimp only
  repeat' split
  all_goals simp [Result.failed]

theorem defendHero_atomic (s : State) (i : Nat) : Atomic s (defendHero s i) := by
  unfold Atomic defendHero
  dsimp only
  repeat' split
  all_goals simp [Result.failed]

theorem playHeroAttack_atomic (s : State) (i : Nat) (ai : Option Nat) :
    Atomic s (playHeroAttack s i ai) := by
  unfold Atomic playHeroAttack
  dsimp only
  repeat' split
  all_goals simp [Result.failed]

theorem resolveHeal_atomic (s : State) (i : Nat) (amount : Nat) (t : Target) :
    Atomic s (resolveHeal s i amount t) := by
  unfold Atomic resolveHeal
  dsimp only
  repeat' split
  all_goals simp [Result.failed]

theorem scoutRally_atomic (s : State) (i : Nat) (key : AbilityKey) (cd : Int) :
    Atomic s (scoutRally s i key cd) := by
  unfold Atomic scoutRally; split <;> simp [Result.failed]

theorem scoutAssist_atomic (s : State) (i : Nat) (key : AbilityKey) (c : Ability) (t : Target) :
    Atomic s (scoutAssist s i key c t) := by
  unfold Atomic scoutAssist; repeat' split
  all_goals simp [Result.failed]

theorem earlySupport_atomic (s : State) (i : Nat) (hero : Hero) (hid hname : String)
    (r : State × Result) (hr : earlySupport s i hero hid hname = some r) : Atomic s r := by
  revert hr; unfold earlySupport Atomic; simp only
  repeat' split
  all_goals (intro hr; simp at hr; try subst hr)
  all_goals simp [Result.failed]

theorem scoutSupport_atomic (s : State) (i : Nat) (hero : Hero) (t : Target) (ai : Option Nat)
    (r : State × Result) (hr : scoutSupport s i hero t ai = some r) : Atomic s r := by
  revert hr; unfold scoutSupport; simp only
  repeat' split
  all_goals (intro hr; simp at hr; try subst hr)
  · exact scoutRally_atomic _ _ _ _
  · exact scoutAssist_atomic _ _ _ _ _
  · exact scoutRally_atomic _ _ _ _

theorem lateSupport_atomic (s : State) (i : Nat) (hid hname : String) (t : Target) :
    Atomic s (lateSupport s i hid hname t) := by
  unfold lateSupport willisSupport delayedSupport kieferSupport Atomic
  simp only
  repeat' split
  all_goals simp [Result.failed]

theorem supportAction_atomic (s : State) (i : Nat) (hero : Hero) (t : Target) (ai : Option Nat) :
    Atomic s (supportAction s i hero t ai) := by
  unfold supportAction
  simp only
  split
  · simp [Atomic]
  · split
    · rename_i r hr
      exact earlySupport_atomic _ _ _ _ _ _ hr
    · split
      · rename_i r hr
        split at hr
        · exact scoutSupport_atomic _ _ _ _ _ _ hr
        · simp at hr
      · exact lateSupport_atomic _ _ _ _ _

theorem playHeroAction_atomic (s : State) (i : Nat) (t : Target) (ai : Option Nat) :
    Atomic s (playHeroAction s i t ai) := by
  unfold playHeroAction
  split
  · simp [Atomic]
  · split
    · simp [Atomic]
    · split
      · simp [Atomic]
      · simp only
        split
        · exact playHeroAttack_atomic s i ai
        · split
          · exact resolveHeal_atomic s i _ t
          · split
            · exact supportAction_atomic _ _ _ _ _
            · simp [Atomic]

theorem useSummon_atomic (s : State) (d : Option SummonDef) (t : Target) :
    Atomic s (useSummon s d t) := by
  unfold Atomic useSummon
  repeat' split
  all_goals simp [Result.failed]

theorem playHeroAction_support (s : State) (i : Nat) (t : Target) (ai : Option Nat) (hero : Hero)
    (hap : 0 < s.ap) (hh : getHero s i = some hero) (hst : hero.stunnedTurns = 0)
    (hty : actionTypeOf hero (chosenAbility hero ai) = "support") :
    playHeroAction s i t ai = supportAction s i hero t ai := by
  have hap' : ¬ s.ap ≤ 0 := not_le.mpr hap
  simp [playHeroAction, hap', hh, hst, hty]

theorem willis_needs_target (s : State) (i : Nat) (ai : Option Nat) (hero : Hero)
    (hid : heroId hero = "willis") :
    (supportAction s i hero Target.none ai).2.failed = true := by
  unfold supportAction
  simp only [hid]
  split
  · rfl
  · simp [earlySupport, lateSupport, willisSupport, Result.failed]

theorem assist_needs_target (s : State) (i : Nat) (ai : Option Nat) (hero : Hero)
    (hid : heroId hero = "scout")
    (hr : includes (scoutAbilityName (chosenAbility hero ai)) "rally" = false)
    (ha : includes (scoutAbilityName (chosenAbility hero ai)) "assist" = true) :
    (supportAction s i hero Target.none ai).2.failed = true := by
  unfold supportAction
  simp only [hid]
  split
  · rfl
  · simp [earlySupport, scoutSupport, hr, ha, scoutAssist, Result.failed]

theorem playHeroAction_failed_of_support_failed (s : State) (i : Nat) (t : Target)
    (ai : Option Nat) (hero : Hero) (hh : getHero s i = some hero)
    (hty : actionTypeOf hero (chosenAbility hero ai) = "support")
    (hf : (supportAction s i hero t ai).2.failed = true) :
    (playHeroAction s i t ai).2.failed = true := by
  by_cases hap : s.ap ≤ 0
  · simp [playHeroAction, hap, Result.failed]
  · by_cases hst : hero.stunnedTurns > 0
    · simp [playHeroAction, hap, hh, hst, Result.failed]
    · rw [playHeroAction_support s i t ai hero (not_le.mp hap) hh (by omega) hty]
      exact hf

/-- C4. Failure atomicity: whenever `placeHero`, `replaceHero`, `defendHero`,
`playHeroAttack`, `playHeroAction` or `useSummon` returns `success:false`, the
encounter state is exactly what it was before the call.  In particular a support
`playHeroAction(slot)` without a target by willis, or by scout's assist, fails and
mutates nothing. -/
theorem failure_atomicity (s : State) :
    (∀ i c, (placeHero s i c).2.failed = true → (placeHero s i c).1 = s) ∧
    (∀ i c, (replaceHero s i c).2.failed = true → (replaceHero s i c).1 = s) ∧
    (∀ i, (defendHero s i).2.failed = true → (defendHero s i).1 = s) ∧
    (∀ i ai, (playHeroAttack s i ai).2.failed = true → (playHeroAttack s i ai).1 = s) ∧
    (∀ i t ai, (playHeroAction s i t ai).2.failed = true → (playHeroAction s i t ai).1 = s) ∧
    (∀ d t, (useSummon s d t).2.failed = true → (useSummon s d t).1 = s) ∧
    (∀ i ai hero, getHero s i = some hero →
      actionTypeOf hero (chosenAbility hero ai) = "support" → heroId hero = "willis" →
      (playHeroAction s i Target.none ai).2.failed = true ∧
        (playHeroAction s i Target.none ai).1 = s) ∧
    (∀ i ai hero, getHero s i = some hero →
      actionTypeOf hero (chosenAbility hero ai) = "support" → heroId hero = "scout" →
      includes (scoutAbilityName (chosenAbility hero ai)) "rally" = false →
      includes (scoutAbilityName (chosenAbility hero ai)) "assist" = true →
      (playHeroAction s i Target.none ai).2.failed = true ∧
        (playHeroAction s i Target.none ai).1 = s) := by
  refine ⟨placeHero_atomic s, replaceHero_atomic s, defendHero_atomic s, playHeroAttack_atomic s,
    playHeroAction_atomic s, useSummon_atomic s, ?_, ?_⟩
  · intro i ai hero hh hty hid
    have hf := playHeroAction_failed_of_support_failed s i Target.none ai hero hh hty
      (willis_needs_target s i ai hero hid)
    exact ⟨hf, playHeroAction_atomic s i Target.none ai hf⟩
  · intro i ai hero hh hty hid hr ha
    have hf := playHeroAction_failed_of_support_failed s i Target.none ai hero hh hty
      (assist_needs_target s i ai hero hid hr ha)
    exact ⟨hf, playHeroAction_atomic s i Target.none ai hf⟩

/-- Instances of C4: placing on an occupied slot, attacking from an empty slot, and
willis's and scout's assist support called without a target all fail and leave the
state as it was. -/
theorem failure_atomicity_witness :
    (placeHero fighterState 0 (some rogue)).2 = Result.fail "slot occupied" ∧
    (placeHero fighterState 0 (some rogue)).1 = fighterState ∧
    (playHeroAttack fighterState 1 none).2 = Result.fail "no hero" ∧
    (playHeroAttack fighterState 1 none).1 = fighterState ∧
    (playHeroAction willisState 0 Target.none none).2 = Result.fail "target_required" ∧
    (playHeroAction willisState 0 Target.none none).1 = willisState ∧
    (playHeroAction scoutState 0 Target.none (some 1)).2 = Result.fail "target_required" ∧
    (playHeroAction scoutState 0 Target.none (some 1)).1 = scoutState := by
  refine ⟨by decide, ?_, by decide, ?_, by decide, ?_, by decide, ?_⟩
  · exact (failure_atomicity fighterState).1 0 (some rogue) (by decide)
  · exact (failure_atomicity fighterState).2.2.2.1 1 none (by decide)
  · exact ((failure_atomicity willisState).2.2.2.2.2.2.1 0 none
      { cardId := "willis", hp := 10, base := willis, tempHp := some 0, statusIcons := some [],
        instanceId := some 1 } (by decide) (by decide) (by decide)).2
  · exact ((failure_atomicity scoutState).2.2.2.2.2.2.2 0 (some 1)
      { cardId := "scout", hp := 8, base := scout, tempHp := some 0, statusIcons := some [],
        instanceId := some 1 } (by decide) (by decide) (by decide) (by decide) (by decide)).2

/-! ## Frame of the hit resolution -/

theorem SameBut.refl (s : State) : SameBut s s := rfl

theorem SameBut.trans {a b c : State} (h1 : SameBut a b) (h2 : SameBut b c) : SameBut a c := by
  unfold SameBut at *
  rw [h2, h1]

theorem SameBut.of_rng (s : State) (r : Rng) : SameBut s { s with rng := r } := rfl

theorem SameBut.set_playfield (s : State) (pf : List Slot) :
    SameBut s { s with playfield := pf } := rfl

theorem damageHero_sameBut (s : State) (idx : Nat) (h : Hero) (dmg shown : Int) (ty : String)
    (ai : Nat) (nm : String) : SameBut s (damageHero s idx h dmg shown ty ai nm).1 := by
  unfold damageHero
  dsimp only
  split <;> rfl

theorem resolveSingleTargetAttack_sameBut (s : State) (dmg : Int) (ai : Nat) (nm : String) :
    SameBut s (resolveSingleTargetAttack s dmg ai nm).1 := by
  unfold resolveSingleTargetAttack
  dsimp only
  split
  · rfl
  · split
    · rfl
    · split
      · rfl
      · dsimp only
        exact (SameBut.of_rng s _).trans (damageHero_sameBut _ _ _ _ _ _ _ _)

theorem aoeStep_sameBut (d : Int) (ai : Nat) (nm : String) (acc : State × List HitEvent)
    (i : Nat) : SameBut acc.1 (aoeStep d ai nm acc i).1 := by
  unfold aoeStep
  split
  · rfl
  · split
    · rfl
    · split
      · rfl
      · dsimp only
        exact damageHero_sameBut _ _ _ _ _ _ _ _

theorem foldl_sameBut {α β : Type} (f : State × β → α → State × β)
    (hf : ∀ acc a, SameBut acc.1 (f acc a).1) (l : List α) (acc : State × β) :
    SameBut acc.1 (l.foldl f acc).1 := by
  induction l generalizing acc with
  | nil => rfl
  | cons a l ih => exact (hf acc a).trans (ih (f acc a))

theorem resolveAoEAttack_sameBut (s : State) (d : Int) (ai : Nat) (nm : String) :
    SameBut s (resolveAoEAttack s d ai nm).1 :=
  foldl_sameBut _ (aoeStep_sameBut d ai nm) _ (s, [])

theorem critThenResolve_sameBut (s : State) (atk : Attack) (d : Int) (ai : Nat) (nm ty : String) :
    SameBut s (critThenResolve s atk d ai nm ty).1 := by
  unfold critThenResolve
  dsimp only
  exact (SameBut.of_rng s _).trans (resolveSingleTargetAttack_sameBut _ _ _ _)

theorem multiStep_sameBut (atk : Attack) (d : Int) (ai : Nat) (nm : String)
    (acc : State × List HitEvent) : SameBut acc.1 (multiStep atk d ai nm acc).1 := by
  unfold multiStep
  dsimp only
  split
  · split
    · rfl
    · split <;> rfl
  · dsimp only
    exact (SameBut.of_rng acc.1 _).trans (critThenResolve_sameBut _ _ _ _ _ _)

theorem singleAttack_sameBut (s : State) (atk : Attack) (d : Int) (ai : Nat) (nm : String) :
    SameBut s (singleAttack s atk d ai nm).1 := by
  unfold singleAttack
  dsimp only
  split
  · rfl
  · split
    · rfl
    · split
      · split
        · rfl
        · exact (SameBut.of_rng s _).trans (critThenResolve_sameBut _ _ _ _ _ _)
      · split
        · rfl
        · exact (SameBut.of_rng s _).trans (critThenResolve_sameBut _ _ _ _ _ _)

theorem effectStep_sameBut (eff : String) (acc : State × List Event) (ev : HitEvent) :
    SameBut acc.1 (effectStep eff acc ev).1 := by
  unfold effectStep
  split
  · split <;> rfl
  · rfl

/-- The attack phase leaves everything but the random source, the playfield, the
exhausted list and the enemy's one-shot halving flag as it was. -/
theorem attackPhase_frame (s : State) :
    ∃ b, SameBut { s with enemy := { s.enemy with nextAttackHalved := b } } (attackPhase s).1 := by
  unfold attackPhase
  split
  · refine ⟨false, ?_⟩
    dsimp only
    have hhits : ∀ (hits : State × List HitEvent) (e : Option String),
        SameBut { s with enemy := { s.enemy with nextAttackHalved := false } } hits.1 →
        SameBut { s with enemy := { s.enemy with nextAttackHalved := false } }
          (match e with
            | some e => hits.2.foldl (effectStep (lower e)) (hits.1, hits.2.map Event.hit)
            | none => (hits.1, hits.2.map Event.hit)).1 := by
      intro hits e hh
      cases e with
      | none => exact hh
      | some e => exact hh.trans (foldl_sameBut _ (effectStep_sameBut _) _ _)
    apply hhits
    split
    · exact (SameBut.of_rng _ _).trans (resolveAoEAttack_sameBut _ _ _ _)
    · split
      · exact ((SameBut.of_rng _ _).trans (multiStep_sameBut _ _ _ _ _)).trans
          (multiStep_sameBut _ _ _ _ _)
      · exact (SameBut.of_rng _ _).trans (singleAttack_sameBut _ _ _ _ _)
  · exact ⟨s.enemy.nextAttackHalved, rfl⟩

/-! ## C3: action points never go negative -/

theorem placeHero_apKeeps (s : State) (i : Nat) (c : Option Card) :
    ApKeeps s (placeHero s i c) := by
  unfold ApKeeps placeHero
  dsimp only
  repeat' split
  all_goals (constructor <;> first | rfl | (dsimp only; omega))

theorem replaceHero_apKeeps (s : State) (i : Nat) (c : Option Card) :
    ApKeeps s (replaceHero s i c) := by
  unfold ApKeeps replaceHero
  dsimp only
  repeat' split
  all_goals (constructor <;> first | rfl | (dsimp only; omega))

theorem defendHero_apKeeps (s : State) (i : Nat) : ApKeeps s (defendHero s i) := by
  unfold ApKeeps defendHero
  dsimp only
  repeat' split
  all_goals (constructor <;> first | rfl | (dsimp only; omega))

theorem playHeroAttack_apKeeps (s : State) (i : Nat) (ai : Option Nat) :
    ApKeeps s (playHeroAttack s i ai) := by
  unfold ApKeeps playHeroAttack
  dsimp only
  repeat' split
  all_goals (constructor <;> first | rfl | (dsimp only; omega))

theorem resolveHeal_apKeeps (s : State) (i : Nat) (amount : Nat) (t : Target) :
    ApKeeps s (resolveHeal s i amount t) := by
  unfold ApKeeps resolveHeal
  dsimp only
  repeat' split
  all_goals (constructor <;> first | rfl | (dsimp only; omega))

theorem scoutRally_apKeeps (s : State) (i : Nat) (key : AbilityKey) (cd : Int) :
    ApKeeps s (scoutRally s i key cd) := by
  unfold ApKeeps scoutRally
  split <;> (constructor <;> first | rfl | (dsimp only; omega))

theorem scoutAssist_apKeeps (s : State) (i : Nat) (key : AbilityKey) (c : Ability) (t : Target) :
    ApKeeps s (scoutAssist s i key c t) := by
  unfold ApKeeps scoutAssist
  repeat' split
  all_goals (constructor <;> first | rfl | (dsimp only [chargeSupport]; omega))

theorem earlySupport_apKeeps (s : State) (i : Nat) (hero : Hero) (hid hname : String)
    (r : State × Result) (hr : earlySupport s i hero hid hname = some r) : ApKeeps s r := by
  revert hr; unfold earlySupport ApKeeps; simp only
  repeat' split
  all_goals (intro hr; simp at hr; try subst hr)
  all_goals (constructor <;> first | rfl | (dsimp only [chargeSupport]; omega))

theorem scoutSupport_apKeeps (s : State) (i : Nat) (hero : Hero) (t : Target) (ai : Option Nat)
    (r : State × Result) (hr : scoutSupport s i hero t ai = some r) : ApKeeps s r := by
  revert hr; unfold scoutSupport; simp only
  repeat' split
  all_goals (intro hr; simp at hr; try subst hr)
  · exact scoutRally_apKeeps _ _ _ _
  · exact scoutAssist_apKeeps _ _ _ _ _
  · exact scoutRally_apKeeps _ _ _ _

theorem lateSupport_apKeeps (s : State) (i : Nat) (hid hname : String) (t : Target) :
    ApKeeps s (lateSupport s i hid hname t) := by
  unfold lateSupport willisSupport delayedSupport kieferSupport ApKeeps
  simp only
  repeat' split
  all_goals (constructor <;> first | rfl | (dsimp only [chargeSupport]; omega))

theorem supportAction_apKeeps (s : State) (i : Nat) (hero : Hero) (t : Target)
    (ai : Option Nat) : ApKeeps s (supportAction s i hero t ai) := by
  unfold supportAction
  simp only
  split
  · exact ⟨rfl, by dsimp only; omega⟩
  · split
    · rename_i r hr
      exact earlySupport_apKeeps _ _ _ _ _ _ hr
    · split
      · rename_i r hr
        split at hr
        · exact scoutSupport_apKeeps _ _ _ _ _ _ hr
        · simp at hr
      · exact lateSupport_apKeeps _ _ _ _ _

theorem playHeroAction_apKeeps (s : State) (i : Nat) (t : Target) (ai : Option Nat) :
    ApKeeps s (playHeroAction s i t ai) := by
  unfold playHeroAction
  split
  · exact ⟨rfl, by dsimp only; omega⟩
  · split
    · exact ⟨rfl, by dsimp only; omega⟩
    · split
      · exact ⟨rfl, by dsimp only; omega⟩
      · simp only
        split
        · exact playHeroAttack_apKeeps s i ai
        · split
          · exact resolveHeal_apKeeps s i _ t
          · split
            · exact supportAction_apKeeps _ _ _ _ _
            · exact ⟨rfl, by dsimp only; omega⟩

theorem summonEffect_ap (s : State) (d : SummonDef) (t : Target) (s1 : State)
    (h : summonEffect s d t = some s1) : s1.apPerTurn = s.apPerTurn ∧ s1.ap = s.ap := by
  revert h; unfold summonEffect
  dsimp only
  repeat' split
  all_goals (intro h; simp at h; try subst h)
  all_goals exact ⟨rfl, rfl⟩

theorem markSummon_ap (s : State) (d : SummonDef) :
    (markSummon s d).apPerTurn = s.apPerTurn ∧ (markSummon s d).ap = s.ap := by
  unfold markSummon
  repeat' split
  all_goals exact ⟨rfl, rfl⟩

theorem useSummon_ap (s : State) (d : Option SummonDef) (t : Target) :
    (useSummon s d t).1.apPerTurn = s.apPerTurn ∧ (useSummon s d t).1.ap = s.ap := by
  unfold useSummon
  repeat' split
  all_goals first
    | exact ⟨rfl, rfl⟩
    | (rename_i h
       exact ⟨(markSummon_ap _ _).1.trans (summonEffect_ap _ _ _ _ h).1,
         (markSummon_ap _ _).2.trans (summonEffect_ap _ _ _ _ h).2⟩)

theorem housekeepingStunned_ap (s : State) (evs : List Event) :
    (housekeepingStunned s evs).1.ap = s.apPerTurn ∧
    (housekeepingStunned s evs).1.apPerTurn = s.apPerTurn := ⟨rfl, rfl⟩

theorem housekeepingNormal_ap (s : State) (evs : List Event) :
    (housekeepingNormal s evs).1.ap = s.apPerTurn ∧
    (housekeepingNormal s evs).1.apPerTurn = s.apPerTurn := ⟨rfl, rfl⟩

theorem SameBut.apPerTurn_eq {a b : State} (h : SameBut a b) : b.apPerTurn = a.apPerTurn := by
  unfold SameBut at h
  rw [h]

theorem attackPhase_apPerTurn (s : State) : (attackPhase s).1.apPerTurn = s.apPerTurn := by
  obtain ⟨b, hb⟩ := attackPhase_frame s
  exact hb.apPerTurn_eq

theorem enemyAct_ap (s : State) :
    (enemyAct s).1.ap = s.apPerTurn ∧ (enemyAct s).1.apPerTurn = s.apPerTurn := by
  unfold enemyAct
  dsimp only
  split
  · exact ⟨rfl, rfl⟩
  · refine ⟨?_, ?_⟩
    · exact (housekeepingNormal_ap _ _).1.trans (attackPhase_apPerTurn _)
    · exact (housekeepingNormal_ap _ _).2.trans (attackPhase_apPerTurn _)

/-- An operation that checks `ap <= 0` first and charges at most one AP keeps a
non-negative `ap` non-negative. -/
theorem ap_nonneg_of_guard (s : State) (r : State × Result) (hk : ApKeeps s r)
    (hg : s.ap ≤ 0 → r.1.ap = s.ap) (h : 0 ≤ s.ap) : 0 ≤ r.1.ap := by
  by_cases h0 : s.ap ≤ 0
  · rw [hg h0]; exact h
  · have := hk.2; omega

theorem replaceHero_guard (s : State) (i : Nat) (c : Option Card) (h : s.ap ≤ 0) :
    (replaceHero s i c).1.ap = s.ap := by
  unfold replaceHero
  dsimp only
  split
  · split <;> rfl
  · rw [if_pos h]

theorem defendHero_guard (s : State) (i : Nat) (h : s.ap ≤ 0) : (defendHero s i).1.ap = s.ap := by
  simp [defendHero, h]

theorem playHeroAttack_guard (s : State) (i : Nat) (ai : Option Nat) (h : s.ap ≤ 0) :
    (playHeroAttack s i ai).1.ap = s.ap := by
  simp [playHeroAttack, h]

theorem playHeroAction_guard (s : State) (i : Nat) (t : Target) (ai : Option Nat)
    (h : s.ap ≤ 0) : (playHeroAction s i t ai).1.ap = s.ap := by
  simp [playHeroAction, h]

/-- Every call keeps `apPerTurn` and keeps a non-negative `ap` non-negative. -/
theorem step_ap (s : State) (op : Op) (h : 0 ≤ s.ap ∧ 0 ≤ s.apPerTurn) :
    0 ≤ (step s op).ap ∧ 0 ≤ (step s op).apPerTurn := by
  cases op with
  | placeHero i c =>
    have hk := placeHero_apKeeps s i c
    have ha := placeHero_ap s i c
    exact ⟨by show 0 ≤ (placeHero s i c).1.ap; rw [ha]; exact h.1,
      by show 0 ≤ (placeHero s i c).1.apPerTurn; rw [hk.1]; exact h.2⟩
  | replaceHero i c =>
    have hk := replaceHero_apKeeps s i c
    exact ⟨ap_nonneg_of_guard s _ hk (replaceHero_guard s i c) h.1,
      by show 0 ≤ (replaceHero s i c).1.apPerTurn; rw [hk.1]; exact h.2⟩
  | defendHero i =>
    have hk := defendHero_apKeeps s i
    exact ⟨ap_nonneg_of_guard s _ hk (defendHero_guard s i) h.1,
      by show 0 ≤ (defendHero s i).1.apPerTurn; rw [hk.1]; exact h.2⟩
  | playHeroAttack i ai =>
    have hk := playHeroAttack_apKeeps s i ai
    exact ⟨ap_nonneg_of_guard s _ hk (playHeroAttack_guard s i ai) h.1,
      by show 0 ≤ (playHeroAttack s i ai).1.apPerTurn; rw [hk.1]; exact h.2⟩
  | playHeroAction i t ai =>
    have hk := playHeroAction_apKeeps s i t ai
    exact ⟨ap_nonneg_of_guard s _ hk (playHeroAction_guard s i t ai) h.1,
      by show 0 ≤ (playHeroAction s i t ai).1.apPerTurn; rw [hk.1]; exact h.2⟩
  | useSummon d t =>
    have hk := useSummon_ap s d t
    exact ⟨by show 0 ≤ (useSummon s d t).1.ap; rw [hk.2]; exact h.1,
      by show 0 ≤ (useSummon s d t).1.apPerTurn; rw [hk.1]; exact h.2⟩
  | enemyAct =>
    have hk := enemyAct_ap s
    exact ⟨by show 0 ≤ (enemyAct s).1.ap; rw [hk.1]; exact h.2,
      by show 0 ≤ (enemyAct s).1.apPerTurn; rw [hk.2]; exact h.2⟩
  | setFormation f => exact h

theorem run_ap (ops : List Op) (s : State) (h : 0 ≤ s.ap ∧ 0 ≤ s.apPerTurn) :
    0 ≤ (run s ops).ap ∧ 0 ≤ (run s ops).apPerTurn := by
  induction ops generalizing s with
  | nil => exact h
  | cons op ops ih => exact ih (step s op) (step_ap s op h)

/-- C3. `ap` is never negative: in every state reached from `startEncounter` with a
positive `apPerTurn` (or the default) by any sequence of `placeHero`, `replaceHero`,
`defendHero`, `playHeroAttack`, `playHeroAction`, `useSummon` and `enemyAct` calls
with arbitrary arguments, `ap >= 0`. -/
theorem ap_never_negative (enemyDef : Enemy) (hand : Option (List Card)) (rng : Rng)
    (apPerTurn : Option Int) (hpos : ∀ n, apPerTurn = some n → 0 < n) (ops : List Op) :
    0 ≤ (run (startEncounter enemyDef hand rng apPerTurn) ops).ap := by
  refine (run_ap ops _ ?_).1
  have h3 : 0 ≤ (startEncounter enemyDef hand rng apPerTurn).apPerTurn := by
    unfold startEncounter
    dsimp only
    cases apPerTurn with
    | none => decide
    | some n =>
      have := hpos n rfl
      dsimp only
      split <;> omega
  exact ⟨h3, h3⟩

/-- An instance of C3: with two AP per turn, the fighter attacks three times (the
third call fails for lack of AP), the enemy acts, and the fighter defends; `ap` ends
at 1. -/
theorem ap_never_negative_witness :
    0 ≤ (run (startEncounter { hp := 20 } (some [fighter]) { rolls := [], ints := [] } (some 2))
      [Op.placeHero 0 (some fighter), Op.playHeroAttack 0 none, Op.playHeroAttack 0 none,
       Op.playHeroAttack 0 none, Op.enemyAct, Op.defendHero 0]).ap ∧
    (run (startEncounter { hp := 20 } (some [fighter]) { rolls := [], ints := [] } (some 2))
      [Op.placeHero 0 (some fighter), Op.playHeroAttack 0 none, Op.playHeroAttack 0 none,
       Op.playHeroAttack 0 none, Op.enemyAct, Op.defendHero 0]).ap = 1 :=
  ⟨ap_never_negative { hp := 20 } (some [fighter]) { rolls := [], ints := [] } (some 2)
      (by intro n hn; cases hn; decide) _, by decide⟩

/-! ## C5: the hero hit-point invariant -/

theorem PartyOk.hero_of_get {s : State} {i : Nat} {h : Hero} (hp : PartyOk s.playfield)
    (hg : getHero s i = some h) : HeroOk h := by
  unfold getHero at hg
  cases hs : s.playfield[i]? with
  | none => simp [hs] at hg
  | some sl =>
    rw [hs] at hg
    cases sl with
    | null => simp [Slot.hero?] at hg
    | hole => simp [Slot.hero?] at hg
    | hero h' =>
      simp [Slot.hero?] at hg
      subst hg
      exact hp h' (List.mem_iff_getElem?.mpr ⟨i, hs⟩)

theorem PartyOk.set {pf : List Slot} {h : Hero} (hp : PartyOk pf) (hh : HeroOk h) (i : Nat) :
    PartyOk (pf.set i (.hero h)) := by
  intro h' hm
  rcases List.mem_or_eq_of_mem_set hm with hm | he
  · exact hp h' hm
  · cases he; exact hh

theorem PartyOk.set_null {pf : List Slot} (hp : PartyOk pf) (i : Nat) :
    PartyOk (pf.set i Slot.null) := by
  intro h' hm
  rcases List.mem_or_eq_of_mem_set hm with hm | he
  · exact hp h' hm
  · cases he

theorem PartyOk.setSlot {pf : List Slot} {h : Hero} (hp : PartyOk pf) (hh : HeroOk h) (i : Nat) :
    PartyOk (setSlot pf i (.hero h)) := by
  unfold Encounter.setSlot
  split
  · exact hp.set hh i
  · intro h' hm
    simp only [List.mem_append, List.mem_replicate, List.mem_singleton] at hm
    rcases hm with (hm | ⟨_, he⟩) | he
    · exact hp h' hm
    · cases he
    · cases he; exact hh

theorem PartyOk.mapHeroes {pf : List Slot} {f : Hero → Hero} (hf : ∀ h, HeroOk h → HeroOk (f h))
    (hp : PartyOk pf) : PartyOk (mapHeroes f pf) := by
  intro h' hm
  unfold Encounter.mapHeroes at hm
  rw [List.mem_map] at hm
  obtain ⟨sl, hsl, he⟩ := hm
  cases sl with
  | null => cases he
  | hole => cases he
  | hero h =>
    simp only [Slot.hero.injEq] at he
    subst he
    exact hf h (hp h hsl)

theorem PartyOk.syncIconsFrom {pf : List Slot} (keep : Nat → Hero → StatusIcon → Bool) (i : Nat)
    (hp : PartyOk pf) : PartyOk (syncIconsFrom keep pf i) := by
  induction pf generalizing i with
  | nil => intro h' hm; cases hm
  | cons sl rest ih =>
    have hrest : PartyOk rest := fun h hm => hp h (List.mem_cons_of_mem _ hm)
    cases sl with
    | null =>
      intro h' hm
      simp only [Encounter.syncIconsFrom, List.mem_cons] at hm
      rcases hm with he | hm
      · cases he
      · exact ih (i + 1) hrest h' hm
    | hole =>
      intro h' hm
      simp only [Encounter.syncIconsFrom, List.mem_cons] at hm
      rcases hm with he | hm
      · cases he
      · exact ih (i + 1) hrest h' hm
    | hero h =>
      intro h' hm
      simp only [Encounter.syncIconsFrom, List.mem_cons] at hm
      rcases hm with he | hm
      · simp only [Slot.hero.injEq] at he
        subst he
        exact hp h (List.mem_cons_self _ _)
      · exact ih (i + 1) hrest h' hm

theorem absorbDamage_hp_le (h : Hero) (dmg : Int) :
    (absorbDamage h dmg).1.hp ≤ h.hp ∧ (absorbDamage h dmg).1.base = h.base := by
  unfold absorbDamage
  dsimp only
  cases h.tempHp with
  | none =>
    dsimp only
    split
    · exact ⟨by dsimp only; omega, rfl⟩
    · exact ⟨le_refl _, rfl⟩
  | some t =>
    dsimp only
    by_cases ht : t > 0
    · simp only [ht, if_true]
      split
      · exact ⟨by dsimp only; omega, rfl⟩
      · exact ⟨le_refl _, rfl⟩
    · simp only [ht, if_false]
      split
      · exact ⟨by dsimp only; omega, rfl⟩
      · exact ⟨le_refl _, rfl⟩

theorem damageHero_partyOk (s : State) (idx : Nat) (h : Hero) (dmg shown : Int) (ty : String)
    (ai : Nat) (nm : String) (hp : PartyOk s.playfield) (hh : HeroOk h) :
    PartyOk (damageHero s idx h dmg shown ty ai nm).1.playfield := by
  unfold damageHero
  dsimp only
  by_cases hd : (absorbDamage h dmg).1.hp ≤ 0
  · simp only [hd, decide_True, if_true]
    exact hp.set_null idx
  · simp only [hd, decide_False, Bool.false_eq_true, if_false]
    have := absorbDamage_hp_le h dmg
    refine hp.set ⟨by omega, ?_⟩ idx
    rw [this.2]
    exact le_trans this.1 hh.2

theorem foldl_inv {α β : Type} (P : State → Prop) (f : State × β → α → State × β)
    (hf : ∀ acc a, P acc.1 → P (f acc a).1) (l : List α) (acc : State × β) (h : P acc.1) :
    P (l.foldl f acc).1 := by
  induction l generalizing acc with
  | nil => exact h
  | cons a l ih => exact ih (f acc a) (hf acc a h)

theorem resolveSingleTargetAttack_partyOk (s : State) (dmg : Int) (ai : Nat) (nm : String)
    (hp : PartyOk s.playfield) : PartyOk (resolveSingleTargetAttack s dmg ai nm).1.playfield := by
  unfold resolveSingleTargetAttack
  dsimp only
  split
  · exact hp
  · split
    · exact hp
    · rename_i hg
      split
      · exact hp
      · dsimp only
        exact damageHero_partyOk _ _ _ _ _ _ _ _ hp (PartyOk.hero_of_get hp hg)

theorem aoeStep_partyOk (d : Int) (ai : Nat) (nm : String) (acc : State × List HitEvent)
    (i : Nat) (hp : PartyOk acc.1.playfield) : PartyOk (aoeStep d ai nm acc i).1.playfield := by
  unfold aoeStep
  split
  · exact hp
  · split
    · exact hp
    · rename_i hg
      split
      · exact hp
      · dsimp only
        exact damageHero_partyOk _ _ _ _ _ _ _ _ hp (PartyOk.hero_of_get hp hg)

theorem resolveAoEAttack_partyOk (s : State) (d : Int) (ai : Nat) (nm : String)
    (hp : PartyOk s.playfield) : PartyOk (resolveAoEAttack s d ai nm).1.playfield :=
  foldl_inv (fun s => PartyOk s.playfield) _ (aoeStep_partyOk d ai nm) _ (s, []) hp

theorem critThenResolve_partyOk (s : State) (atk : Attack) (d : Int) (ai : Nat) (nm ty : String)
    (hp : PartyOk s.playfield) : PartyOk (critThenResolve s atk d ai nm ty).1.playfield := by
  unfold critThenResolve
  dsimp only
  exact resolveSingleTargetAttack_partyOk _ _ _ _ hp

theorem multiStep_partyOk (atk : Attack) (d : Int) (ai : Nat) (nm : String)
    (acc : State × List HitEvent) (hp : PartyOk acc.1.playfield) :
    PartyOk (multiStep atk d ai nm acc).1.playfield := by
  unfold multiStep
  dsimp only
  split
  · split
    · exact hp
    · split <;> exact hp
  · dsimp only
    exact critThenResolve_partyOk _ _ _ _ _ _ hp

theorem singleAttack_partyOk (s : State) (atk : Attack) (d : Int) (ai : Nat) (nm : String)
    (hp : PartyOk s.playfield) : PartyOk (singleAttack s atk d ai nm).1.playfield := by
  unfold singleAttack
  dsimp only
  split
  · exact hp
  · split
    · exact hp
    · split
      · split
        · exact hp
        · exact critThenResolve_partyOk _ _ _ _ _ _ hp
      · split
        · exact hp
        · exact critThenResolve_partyOk _ _ _ _ _ _ hp

theorem effectStep_partyOk (eff : String) (acc : State × List Event) (ev : HitEvent)
    (hp : PartyOk acc.1.playfield) : PartyOk (effectStep eff acc ev).1.playfield := by
  unfold effectStep
  split
  · split
    · exact hp
    · rename_i h hg
      have hh : HeroOk h := PartyOk.hero_of_get hp hg
      dsimp only
      refine hp.set ?_ _
      repeat' split
      all_goals exact hh
  · exact hp

theorem attackPhase_partyOk (s : State) (hp : PartyOk s.playfield) :
    PartyOk (attackPhase s).1.playfield := by
  unfold attackPhase
  split
  · dsimp only
    have hhits : ∀ (hits : State × List HitEvent) (e : Option String),
        PartyOk hits.1.playfield →
        PartyOk (match e with
            | some e => hits.2.foldl (effectStep (lower e)) (hits.1, hits.2.map Event.hit)
            | none => (hits.1, hits.2.map Event.hit)).1.playfield := by
      intro hits e hh
      cases e with
      | none => exact hh
      | some e =>
        exact foldl_inv (fun s => PartyOk s.playfield) _ (effectStep_partyOk _) _ _ hh
    apply hhits
    split
    · exact resolveAoEAttack_partyOk _ _ _ _ hp
    · split
      · exact multiStep_partyOk _ _ _ _ _ (multiStep_partyOk _ _ _ _ _ hp)
      · exact singleAttack_partyOk _ _ _ _ _ hp
  · exact hp

theorem decProtection_ok (h : Hero) (hh : HeroOk h) : HeroOk (decProtection h) := by
  unfold decProtection
  repeat' split
  all_goals exact hh

theorem resetRound_partyOk (s : State) (hp : PartyOk s.playfield) :
    PartyOk (resetRound s).playfield := by
  unfold resetRound
  exact PartyOk.mapHeroes (fun _ hh => hh)
    (PartyOk.mapHeroes (fun _ hh => hh) (PartyOk.mapHeroes (fun _ hh => hh) hp))

theorem housekeepingStunned_partyOk (s : State) (evs : List Event) (hp : PartyOk s.playfield) :
    PartyOk (housekeepingStunned s evs).1.playfield := by
  unfold housekeepingStunned
  exact PartyOk.syncIconsFrom _ _ (PartyOk.mapHeroes decProtection_ok (resetRound_partyOk s hp))

theorem housekeepingNormal_partyOk (s : State) (evs : List Event) (hp : PartyOk s.playfield) :
    PartyOk (housekeepingNormal s evs).1.playfield := by
  unfold housekeepingNormal
  exact PartyOk.syncIconsFrom _ _ (PartyOk.mapHeroes decProtection_ok (resetRound_partyOk s hp))

theorem enemyAct_partyOk (s : State) (hp : PartyOk s.playfield) :
    PartyOk (enemyAct s).1.playfield := by
  have h1 : PartyOk (mapHeroes decBlind (mapHeroes decStunEnfeeble s.playfield)) :=
    PartyOk.mapHeroes (fun _ hh => hh) (PartyOk.mapHeroes (fun _ hh => hh) hp)
  unfold enemyAct
  dsimp only
  split
  · exact housekeepingStunned_partyOk _ _ h1
  · exact housekeepingNormal_partyOk _ _ (attackPhase_partyOk _ h1)

theorem placeHero_partyOk (s : State) (i : Nat) (c : Option Card)
    (hc : (Op.placeHero i c).cardsOk = true) (hp : PartyOk s.playfield) :
    PartyOk (placeHero s i c).1.playfield := by
  unfold placeHero
  cases c with
  | none => exact hp
  | some c =>
    have hc' : 0 < c.hp := by simpa [Op.cardsOk] using hc
    dsimp only
    repeat' split
    · exact hp
    · exact hp
    · exact hp.set ⟨hc', le_refl _⟩ i

theorem replaceHero_partyOk (s : State) (i : Nat) (c : Option Card)
    (hc : (Op.replaceHero i c).cardsOk = true) (hp : PartyOk s.playfield) :
    PartyOk (replaceHero s i c).1.playfield := by
  unfold replaceHero
  cases c with
  | none =>
    dsimp only
    repeat' split
    all_goals exact hp
  | some c =>
    have hc' : 0 < c.hp := by simpa [Op.cardsOk] using hc
    dsimp only
    repeat' split
    · exact hp.setSlot ⟨hc', le_refl _⟩ i
    · exact hp
    · exact hp.set ⟨hc', le_refl _⟩ i

theorem defendHero_partyOk (s : State) (i : Nat) (hp : PartyOk s.playfield) :
    PartyOk (defendHero s i).1.playfield := by
  unfold defendHero
  split
  · exact hp
  · split
    · exact hp
    · rename_i hero hg
      split
      · exact hp
      · dsimp only
        have hh : HeroOk hero := PartyOk.hero_of_get hp hg
        refine hp.set ?_ i
        exact hh

theorem playHeroAttack_playfield (s : State) (i : Nat) (ai : Option Nat) :
    (playHeroAttack s i ai).1.playfield = s.playfield := by
  unfold playHeroAttack
  dsimp only
  repeat' split
  all_goals rfl

theorem healedHp_ok (h : Hero) (amt : Int) (ha : 0 < amt) (hh : HeroOk h) :
    HeroOk { h with hp := healedHp h amt } := by
  unfold HeroOk healedHp
  dsimp only
  have h1 := hh.1
  have h2 := hh.2
  exact ⟨lt_min (by omega) (by omega), min_le_left _ _⟩

theorem resolveHeal_partyOk (s : State) (i : Nat) (amount : Nat) (t : Target)
    (hp : PartyOk s.playfield) : PartyOk (resolveHeal s i amount t).1.playfield := by
  have hamt : (0 : Int) < (if amount = 0 then 1 else (amount : Int)) := by
    split <;> omega
  unfold resolveHeal
  split
  · exact hp
  · rename_i hero hg
    dsimp only
    split
    · exact PartyOk.mapHeroes (fun h hh => healedHp_ok h _ hamt hh) hp
    · have htgt : ∀ k, HeroOk ((getHero s k).getD hero) := by
        intro k
        cases hq : getHero s k with
        | none => exact PartyOk.hero_of_get hp hg
        | some x => exact PartyOk.hero_of_get hp hq
      exact hp.set (healedHp_ok _ _ hamt (htgt _)) _

theorem scoutAssist_partyOk (s : State) (i : Nat) (key : AbilityKey) (c : Ability) (t : Target)
    (hp : PartyOk s.playfield) : PartyOk (scoutAssist s i key c t).1.playfield := by
  unfold scoutAssist
  split
  · split
    · rename_i tgt hg
      dsimp only [chargeSupport]
      have hh : HeroOk tgt := PartyOk.hero_of_get hp hg
      refine hp.set ?_ _
      exact hh
    · exact hp
  · exact hp

theorem scoutRally_playfield (s : State) (i : Nat) (key : AbilityKey) (cd : Int) :
    (scoutRally s i key cd).1.playfield = s.playfield := by
  unfold scoutRally
  split <;> rfl

theorem earlySupport_partyOk (s : State) (i : Nat) (hero : Hero) (hid hname : String)
    (r : State × Result) (hr : earlySupport s i hero hid hname = some r)
    (hh : HeroOk hero) (hp : PartyOk s.playfield) : PartyOk r.1.playfield := by
  revert hr; unfold earlySupport; simp only
  repeat' split
  all_goals (intro hr; simp at hr; try subst hr)
  · exact hp
  · dsimp only [chargeSupport]
    refine hp.set ?_ i
    exact hh
  · dsimp only [chargeSupport]
    refine hp.set ?_ i
    exact hh

theorem scoutSupport_partyOk (s : State) (i : Nat) (hero : Hero) (t : Target) (ai : Option Nat)
    (r : State × Result) (hr : scoutSupport s i hero t ai = some r)
    (hp : PartyOk s.playfield) : PartyOk r.1.playfield := by
  revert hr; unfold scoutSupport; simp only
  repeat' split
  all_goals (intro hr; simp at hr; try subst hr)
  · rw [scoutRally_playfield]; exact hp
  · exact scoutAssist_partyOk _ _ _ _ _ hp
  · rw [scoutRally_playfield]; exact hp

theorem willisSupport_partyOk (s : State) (i : Nat) (t : Target)
    (hp : PartyOk s.playfield) : PartyOk (willisSupport s i t).1.playfield := by
  unfold willisSupport
  split
  · split
    · rename_i tgt hg
      dsimp only [chargeSupport]
      have hh : HeroOk tgt := PartyOk.hero_of_get hp hg
      refine hp.set ?_ _
      exact hh
    · exact hp
  · exact hp

theorem lateSupport_partyOk (s : State) (i : Nat) (hid hname : String) (t : Target)
    (hp : PartyOk s.playfield) : PartyOk (lateSupport s i hid hname t).1.playfield := by
  unfold lateSupport
  split
  · exact willisSupport_partyOk _ _ _ hp
  · unfold delayedSupport kieferSupport
    dsimp only
    repeat' split
    all_goals exact hp

theorem supportAction_partyOk (s : State) (i : Nat) (hero : Hero) (t : Target)
    (ai : Option Nat) (hh : HeroOk hero) (hp : PartyOk s.playfield) :
    PartyOk (supportAction s i hero t ai).1.playfield := by
  unfold supportAction
  simp only
  split
  · exact hp
  · split
    · rename_i r hr
      exact earlySupport_partyOk _ _ _ _ _ _ hr hh hp
    · split
      · rename_i r hr
        split at hr
        · exact scoutSupport_partyOk _ _ _ _ _ _ hr hp
        · simp at hr
      · exact lateSupport_partyOk _ _ _ _ _ hp

theorem playHeroAction_partyOk (s : State) (i : Nat) (t : Target) (ai : Option Nat)
    (hp : PartyOk s.playfield) : PartyOk (playHeroAction s i t ai).1.playfield := by
  unfold playHeroAction
  split
  · exact hp
  · split
    · exact hp
    · rename_i hero hg
      split
      · exact hp
      · simp only
        split
        · rw [playHeroAttack_playfield]; exact hp
        · split
          · exact resolveHeal_partyOk s i _ t hp
          · split
            · exact supportAction_partyOk _ _ _ _ _ (PartyOk.hero_of_get hp hg) hp
            · exact hp

theorem lowestHpFrom_mem (pf : List Slot) (i : Nat) (best : Option (Nat × Hero)) (j : Nat)
    (h : Hero) (hl : lowestHpFrom pf i best = some (j, h)) :
    Slot.hero h ∈ pf ∨ ∃ j', best = some (j', h) := by
  induction pf generalizing i best with
  | nil => exact Or.inr ⟨j, hl⟩
  | cons sl rest ih =>
    cases sl with
    | null =>
      rcases ih (i + 1) best hl with hm | hb
      · exact Or.inl (List.mem_cons_of_mem _ hm)
      · exact Or.inr hb
    | hole =>
      rcases ih (i + 1) best hl with hm | hb
      · exact Or.inl (List.mem_cons_of_mem _ hm)
      · exact Or.inr hb
    | hero a =>
      cases best with
      | none =>
        rcases ih (i + 1) (some (i, a)) hl with hm | ⟨j', hb⟩
        · exact Or.inl (List.mem_cons_of_mem _ hm)
        · simp only [Option.some.injEq, Prod.mk.injEq] at hb
          rw [← hb.2]
          exact Or.inl (List.mem_cons_self _ _)
      | some b =>
        obtain ⟨bj, bh⟩ := b
        simp only [lowestHpFrom] at hl
        rcases ih (i + 1) _ hl with hm | ⟨j', hb⟩
        · exact Or.inl (List.mem_cons_of_mem _ hm)
        · split at hb
          · exact Or.inr ⟨j', hb⟩
          · simp only [Option.some.injEq, Prod.mk.injEq] at hb
            rw [← hb.2]
            exact Or.inl (List.mem_cons_self _ _)

theorem healAll_partyOk (v : Int) (hv : 0 < v) (pf : List Slot) (hp : PartyOk pf) :
    PartyOk (healAll v pf) :=
  PartyOk.mapHeroes (fun h hh => healedHp_ok h v hv hh) hp

theorem summonEffect_partyOk (s : State) (d : SummonDef) (t : Target) (s1 : State)
    (h : summonEffect s d t = some s1) (hp : PartyOk s.playfield) : PartyOk s1.playfield := by
  revert h; unfold summonEffect
  split
  · intro h; simp at h; subst h
    exact healAll_partyOk 1 (by decide) _ hp
  · split
    · intro h; simp at h; subst h; exact hp
    · split
      · dsimp only
        split
        · rename_i i hero hch
          intro h; simp at h; subst h
          refine hp.set ?_ i
          have hin : HeroOk hero := by
            split at hch
            · rename_i p hex
              simp only [Option.some.injEq] at hch
              subst hch
              split at hex
              · rename_i tt
                cases hg : getHero s tt with
                | none => simp [hg] at hex
                | some hh =>
                  simp [hg] at hex
                  rw [← hex.2]
                  exact PartyOk.hero_of_get hp hg
              · simp at hex
            · rcases lowestHpFrom_mem _ _ _ _ _ hch with hm | ⟨_, hb⟩
              · exact hp _ hm
              · simp at hb
          exact hin
        · intro h; simp at h
      · split
        · intro h; simp at h; subst h; exact hp
        · split
          · intro h; simp at h; subst h; exact hp
          · split
            · rename_i v hv
              split
              · intro h; simp at h; subst h; exact hp
              · rename_i hv0
                intro h; simp at h; subst h
                exact healAll_partyOk _ (by omega) _ hp
            · intro h; simp at h; subst h; exact hp

theorem markSummon_playfield (s : State) (d : SummonDef) :
    (markSummon s d).playfield = s.playfield := by
  unfold markSummon
  repeat' split
  all_goals rfl

theorem useSummon_partyOk (s : State) (d : Option SummonDef) (t : Target)
    (hp : PartyOk s.playfield) : PartyOk (useSummon s d t).1.playfield := by
  unfold useSummon
  repeat' split
  all_goals first
    | exact hp
    | (rename_i h
       dsimp only
       rw [markSummon_playfield]
       exact summonEffect_partyOk _ _ _ _ h hp)

theorem step_partyOk (s : State) (op : Op) (hc : op.cardsOk = true) (hp : PartyOk s.playfield) :
    PartyOk (step s op).playfield := by
  cases op with
  | placeHero i c => exact placeHero_partyOk s i c hc hp
  | replaceHero i c => exact replaceHero_partyOk s i c hc hp
  | defendHero i => exact defendHero_partyOk s i hp
  | playHeroAttack i ai =>
    show PartyOk (playHeroAttack s i ai).1.playfield
    rw [playHeroAttack_playfield]; exact hp
  | playHeroAction i t ai => exact playHeroAction_partyOk s i t ai hp
  | useSummon d t => exact useSummon_partyOk s d t hp
  | enemyAct => exact enemyAct_partyOk s hp
  | setFormation f => exact hp

theorem run_partyOk (ops : List Op) (s : State) (hc : ∀ op ∈ ops, op.cardsOk = true)
    (hp : PartyOk s.playfield) : PartyOk (run s ops).playfield := by
  induction ops generalizing s with
  | nil => exact hp
  | cons op ops ih =>
    exact ih (step s op) (fun o ho => hc o (List.mem_cons_of_mem _ ho))
      (step_partyOk s op (hc op (List.mem_cons_self _ _)) hp)

/-- C5. Hero HP invariant: when every card handed to `placeHero` and `replaceHero` has
`hp > 0`, then in every state reached from `startEncounter` through the public
operations every hero on the playfield satisfies `0 < hp <= base.hp`; in particular no
hero with `hp <= 0` remains on the playfield.  (It holds for every enemy attack
damage, so also for the non-negative ones of the claim.) -/
theorem hero_hp_invariant (enemyDef : Enemy) (hand : Option (List Card)) (rng : Rng)
    (apPerTurn : Option Int) (ops : List Op) (hc : ∀ op ∈ ops, op.cardsOk = true)
    (i : Nat) (h : Hero)
    (hg : getHero (run (startEncounter enemyDef hand rng apPerTurn) ops) i = some h) :
    0 < h.hp ∧ h.hp ≤ h.base.hp := by
  have hstart : PartyOk (startEncounter enemyDef hand rng apPerTurn).playfield := by
    intro h' hm
    simp [startEncounter] at hm
  exact PartyOk.hero_of_get (run_partyOk ops _ hc hstart) hg

/-- An instance of C5: after the skirmish the fighter (base hp 12) stands in slot 0
with 3 hit points. -/
theorem hero_hp_invariant_witness :
    getHero (run (startEncounter ogre (some [fighter]) { rolls := [], ints := [] } none) skirmish) 0
      = some woundedFighter ∧
    0 < woundedFighter.hp ∧ woundedFighter.hp ≤ woundedFighter.base.hp :=
  ⟨by decide,
    hero_hp_invariant ogre (some [fighter]) { rolls := [], ints := [] } none skirmish
      (by decide) 0 woundedFighter (by decide)⟩

/-! ## C6: death removal -/

theorem getHero_set (s : State) (pf : List Slot) (i j : Nat) (v : Slot)
    (hpf : pf = s.playfield.set i v) (hi : i < s.playfield.length) :
    (pf[j]?.bind Slot.hero?) = if i = j then v.hero? else getHero s j := by
  subst hpf
  unfold getHero
  by_cases hij : i = j
  · subst hij
    simp [hi]
  · simp [hij, List.getElem?_set_ne hij]

theorem lt_length_of_getHero {s : State} {i : Nat} {h : Hero} (hg : getHero s i = some h) :
    i < s.playfield.length := by
  unfold getHero at hg
  by_contra hlt
  have : s.playfield[i]? = none := List.getElem?_eq_none (not_lt.mp hlt)
  simp [this] at hg

theorem DeathLog.deaths_of_same {a b : State}
    (hex : b.exhaustedThisEncounter = a.exhaustedThisEncounter)
    (hget : ∀ i, (getHero b i).map (fun h => h.base) = (getHero a i).map (fun h => h.base)) :
    DeathLog a [] b :=
  { exhausted := by simp [hex, basesAt]
    died := by intro i hi; cases hi
    kept := fun i _ => hget i
    nodup := List.nodup_nil }

theorem DeathLog.deaths_refl (a : State) : DeathLog a [] a := DeathLog.deaths_of_same rfl fun _ => rfl

theorem DeathLog.deaths_trans {a b c : State} {d1 d2 : List Nat} (h1 : DeathLog a d1 b)
    (h2 : DeathLog b d2 c) : DeathLog a (d1 ++ d2) c := by
  have hdisj : ∀ i, i ∈ d2 → i ∉ d1 := by
    intro i hi2 hi1
    have hb := (h1.died i hi1).2
    have hs := (h2.died i hi2).1
    rw [hb] at hs
    simp at hs
  refine { exhausted := ?_, died := ?_, kept := ?_, nodup := ?_ }
  · rw [h2.exhausted, h1.exhausted, List.append_assoc]
    congr 1
    unfold basesAt
    rw [List.filterMap_append]
    congr 1
    apply List.filterMap_congr
    intro i hi
    exact h1.kept i (hdisj i hi)
  · intro i hi
    rcases List.mem_append.mp hi with hi1 | hi2
    · refine ⟨(h1.died i hi1).1, ?_⟩
      by_cases hi2 : i ∈ d2
      · exact (h2.died i hi2).2
      · have hk := h2.kept i hi2
        rw [(h1.died i hi1).2] at hk
        cases hc : getHero c i with
        | none => rfl
        | some x => simp [hc] at hk
    · refine ⟨?_, (h2.died i hi2).2⟩
      have hk := h1.kept i (hdisj i hi2)
      have hs := (h2.died i hi2).1
      cases ha : getHero a i with
      | none =>
        rw [ha] at hk
        cases hb : getHero b i with
        | none => rw [hb] at hs; simp at hs
        | some x => simp [hb] at hk
      | some x => rfl
  · intro i hi
    have hi1 : i ∉ d1 := fun h => hi (List.mem_append.mpr (Or.inl h))
    have hi2 : i ∉ d2 := fun h => hi (List.mem_append.mpr (Or.inr h))
    rw [h2.kept i hi2, h1.kept i hi1]
  · rw [List.nodup_append]
    exact ⟨h1.nodup, h2.nodup, fun i hi1 hi2 => hdisj i hi2 hi1⟩

theorem diedSlotsH_append (e1 e2 : List HitEvent) :
    diedSlotsH (e1 ++ e2) = diedSlotsH e1 ++ diedSlotsH e2 := by
  simp [diedSlotsH]

theorem Logged.logged_refl (a : State) : Logged a [] a :=
  ⟨DeathLog.deaths_refl a, by intro e he; cases he⟩

theorem Logged.logged_trans {a b c : State} {e1 e2 : List HitEvent} (h1 : Logged a e1 b)
    (h2 : Logged b e2 c) : Logged a (e1 ++ e2) c := by
  refine ⟨?_, ?_⟩
  · rw [diedSlotsH_append]
    exact h1.1.deaths_trans h2.1
  · intro e he
    rcases List.mem_append.mp he with h | h
    · exact h1.2 e h
    · exact h2.2 e h

theorem Logged.logged_of_same {a b : State} (evs : List HitEvent)
    (hev : ∀ e ∈ evs, e.died = false)
    (hex : b.exhaustedThisEncounter = a.exhaustedThisEncounter)
    (hget : ∀ i, (getHero b i).map (fun h => h.base) = (getHero a i).map (fun h => h.base)) :
    Logged a evs b := by
  have hd : diedSlotsH evs = [] := by
    unfold diedSlotsH
    rw [List.filter_eq_nil_iff.mpr]
    · rfl
    · intro e he
      simp [hev e he]
  refine ⟨?_, ?_⟩
  · rw [hd]; exact DeathLog.deaths_of_same hex hget
  · intro e he hdied
    rw [hev e he] at hdied
    cases hdied

theorem getHero_of_set {s s' : State} {i : Nat} {v : Slot} (j : Nat)
    (hpf : s'.playfield = s.playfield.set i v) (hi : i < s.playfield.length) :
    getHero s' j = if i = j then v.hero? else getHero s j := by
  unfold getHero
  rw [hpf]
  by_cases hij : i = j
  · subst hij
    simp [hi]
  · simp [hij, List.getElem?_set_ne hij]

theorem damageHero_logged (s : State) (idx : Nat) (h : Hero) (dmg shown : Int) (ty : String)
    (ai : Nat) (nm : String) (hg : getHero s idx = some h) :
    Logged s [(damageHero s idx h dmg shown ty ai nm).2] (damageHero s idx h dmg shown ty ai nm).1 := by
  have hi := lt_length_of_getHero hg
  by_cases hd : (absorbDamage h dmg).1.hp ≤ 0
  · have hst : (damageHero s idx h dmg shown ty ai nm).1 =
        { s with exhaustedThisEncounter := s.exhaustedThisEncounter ++ [h.base],
                 playfield := s.playfield.set idx Slot.null } := by
      simp [damageHero, hd]
    have hdied : (damageHero s idx h dmg shown ty ai nm).2.died = true := by
      simp [damageHero, hd]
    have hslot : (damageHero s idx h dmg shown ty ai nm).2.slot = idx := rfl
    have hrem : (damageHero s idx h dmg shown ty ai nm).2.remainingHp = 0 := by
      simp [damageHero, hd]
    have hds : diedSlotsH [(damageHero s idx h dmg shown ty ai nm).2] = [idx] := by
      simp [diedSlotsH, hdied, hslot]
    refine ⟨?_, ?_⟩
    · rw [hds, hst]
      refine { exhausted := ?_, died := ?_, kept := ?_, nodup := ?_ }
      · simp [basesAt, hg]
      · intro i hi'
        simp only [List.mem_singleton] at hi'
        subst hi'
        refine ⟨by simp [hg], ?_⟩
        rw [getHero_of_set i rfl hi]
        simp [Slot.hero?]
      · intro i hi'
        simp only [List.mem_singleton] at hi'
        rw [getHero_of_set i rfl hi]
        simp [Ne.symm hi']
      · simp
    · intro e he _
      simp only [List.mem_singleton] at he
      rw [he]; exact hrem
  · have hst : (damageHero s idx h dmg shown ty ai nm).1 =
        { s with playfield := s.playfield.set idx (.hero (absorbDamage h dmg).1) } := by
      simp [damageHero, hd]
    have hdied : (damageHero s idx h dmg shown ty ai nm).2.died = false := by
      simp [damageHero, hd]
    refine Logged.logged_of_same _ ?_ ?_ ?_
    · intro e he
      simp only [List.mem_singleton] at he
      rw [he]; exact hdied
    · rw [hst]
    · intro i
      rw [hst, getHero_of_set i rfl hi]
      by_cases hij : idx = i
      · subst hij
        simp [hg, Slot.hero?, (absorbDamage_hp_le h dmg).2]
      · simp [hij]

theorem Logged.logged_of_rng {s : State} (r : Rng) {evs : List HitEvent} {b : State}
    (h : Logged { s with rng := r } evs b) : Logged s evs b :=
  ⟨{ exhausted := h.1.exhausted, died := h.1.died, kept := h.1.kept, nodup := h.1.nodup }, h.2⟩

theorem logged_protected (s : State) (idx : Nat) (h : Hero) (ty : String) (ai : Nat)
    (nm : String) : Logged s [protectedEvent idx h ty ai nm] s :=
  Logged.logged_of_same _ (by intro e he; simp only [List.mem_singleton] at he; rw [he]; rfl) rfl
    fun _ => rfl

theorem logged_missed (s : State) (idx : Nat) (h : Hero) (ty : String) (ai : Nat)
    (nm : String) : Logged s [missedEvent idx h ty ai nm] s :=
  Logged.logged_of_same _ (by intro e he; simp only [List.mem_singleton] at he; rw [he]; rfl) rfl
    fun _ => rfl

theorem resolveSingleTargetAttack_logged (s : State) (dmg : Int) (ai : Nat) (nm : String) :
    Logged s (resolveSingleTargetAttack s dmg ai nm).2 (resolveSingleTargetAttack s dmg ai nm).1 := by
  unfold resolveSingleTargetAttack
  dsimp only
  split
  · exact Logged.logged_of_rng _ (Logged.logged_refl _)
  · split
    · exact Logged.logged_of_rng _ (Logged.logged_refl _)
    · rename_i hg
      split
      · exact Logged.logged_of_rng _ (logged_protected _ _ _ _ _ _)
      · dsimp only
        exact Logged.logged_of_rng _ (damageHero_logged _ _ _ _ _ _ _ _ hg)

theorem foldl_logged {α : Type} (f : State × List HitEvent → α → State × List HitEvent)
    (hf : StepLogged f) (l : List α) (acc : State × List HitEvent) :
    ∃ new, (l.foldl f acc).2 = acc.2 ++ new ∧ Logged acc.1 new (l.foldl f acc).1 := by
  induction l generalizing acc with
  | nil => exact ⟨[], by simp, Logged.logged_refl _⟩
  | cons a l ih =>
    obtain ⟨n1, h1, l1⟩ := hf acc a
    obtain ⟨n2, h2, l2⟩ := ih (f acc a)
    refine ⟨n1 ++ n2, ?_, l1.logged_trans l2⟩
    rw [List.foldl_cons, h2, h1, List.append_assoc]

theorem aoeStep_logged (d : Int) (ai : Nat) (nm : String) : StepLogged (aoeStep d ai nm) := by
  intro acc i
  unfold aoeStep
  split
  · exact ⟨[], by simp, Logged.logged_refl _⟩
  · split
    · exact ⟨[], by simp, Logged.logged_refl _⟩
    · rename_i hg
      split
      · exact ⟨_, rfl, logged_protected _ _ _ _ _ _⟩
      · exact ⟨_, rfl, damageHero_logged _ _ _ _ _ _ _ _ hg⟩

theorem resolveAoEAttack_logged (s : State) (d : Int) (ai : Nat) (nm : String) :
    Logged s (resolveAoEAttack s d ai nm).2 (resolveAoEAttack s d ai nm).1 := by
  obtain ⟨new, h1, h2⟩ := foldl_logged _ (aoeStep_logged d ai nm) (List.range s.playfield.length) (s, [])
  unfold resolveAoEAttack
  rw [h1]
  simpa using h2

theorem diedSlotsH_map (g : HitEvent → HitEvent)
    (hg : ∀ e, (g e).died = e.died ∧ (g e).slot = e.slot) (evs : List HitEvent) :
    diedSlotsH (evs.map g) = diedSlotsH evs := by
  induction evs with
  | nil => rfl
  | cons e rest ih =>
    unfold diedSlotsH at ih ⊢
    simp only [List.map_cons, List.filter_cons, (hg e).1]
    split
    · simp only [List.map_cons, (hg e).2, ih]
    · exact ih

theorem Logged.map {a b : State} {evs : List HitEvent} (g : HitEvent → HitEvent)
    (hg : ∀ e, (g e).died = e.died ∧ (g e).slot = e.slot ∧ (g e).remainingHp = e.remainingHp)
    (h : Logged a evs b) : Logged a (evs.map g) b := by
  refine ⟨?_, ?_⟩
  · rw [diedSlotsH_map g (fun e => ⟨(hg e).1, (hg e).2.1⟩)]
    exact h.1
  · intro e he hd
    obtain ⟨e0, he0, rfl⟩ := List.mem_map.mp he
    rw [(hg e0).2.2]
    exact h.2 e0 he0 (by rw [← (hg e0).1]; exact hd)

theorem critThenResolve_logged (s : State) (atk : Attack) (d : Int) (ai : Nat) (nm ty : String) :
    Logged s (critThenResolve s atk d ai nm ty).2 (critThenResolve s atk d ai nm ty).1 := by
  unfold critThenResolve
  dsimp only
  exact Logged.logged_of_rng _
    (Logged.map _ (fun e => ⟨rfl, rfl, rfl⟩) (resolveSingleTargetAttack_logged _ _ _ _))

theorem multiStep_logged (atk : Attack) (d : Int) (ai : Nat) (nm : String)
    (acc : State × List HitEvent) :
    ∃ new, (multiStep atk d ai nm acc).2 = acc.2 ++ new ∧
      Logged acc.1 new (multiStep atk d ai nm acc).1 := by
  unfold multiStep
  dsimp only
  split
  · split
    · exact ⟨[], by simp, Logged.logged_of_rng _ (Logged.logged_of_rng _ (Logged.logged_refl _))⟩
    · split
      · exact ⟨[], by simp, Logged.logged_of_rng _ (Logged.logged_of_rng _ (Logged.logged_refl _))⟩
      · exact ⟨_, rfl, Logged.logged_of_rng _ (Logged.logged_of_rng _ (logged_missed _ _ _ _ _ _))⟩
  · exact ⟨_, rfl, Logged.logged_of_rng _ (critThenResolve_logged _ _ _ _ _ _)⟩

theorem singleAttack_logged (s : State) (atk : Attack) (d : Int) (ai : Nat) (nm : String) :
    Logged s (singleAttack s atk d ai nm).2 (singleAttack s atk d ai nm).1 := by
  unfold singleAttack
  dsimp only
  split
  · exact Logged.logged_of_rng _ (Logged.logged_refl _)
  · split
    · exact Logged.logged_of_rng _ (Logged.logged_refl _)
    · split
      · split
        · exact Logged.logged_of_rng _ (Logged.logged_of_rng _ (logged_missed _ _ _ _ _ _))
        · exact Logged.logged_of_rng _ (Logged.logged_of_rng _ (critThenResolve_logged _ _ _ _ _ _))
      · split
        · exact Logged.logged_of_rng _ (Logged.logged_of_rng _ (logged_missed _ _ _ _ _ _))
        · exact Logged.logged_of_rng _ (Logged.logged_of_rng _ (critThenResolve_logged _ _ _ _ _ _))

theorem Logged.then_quiet {a b c : State} {evs : List HitEvent} (h : Logged a evs b)
    (hq : DeathLog b [] c) : Logged a evs c := by
  refine ⟨?_, h.2⟩
  have := h.1.deaths_trans hq
  rwa [List.append_nil] at this

theorem Logged.after_quiet {a b c : State} {evs : List HitEvent} (hq : DeathLog a [] b)
    (h : Logged b evs c) : Logged a evs c :=
  ⟨hq.deaths_trans h.1, h.2⟩

theorem noHits_nil : NoHits [] := fun _ he => by cases he

theorem foldl_quiet {α : Type} (f : State × List Event → α → State × List Event)
    (hf : StepQuiet f) (l : List α) (acc : State × List Event) :
    ∃ extra, (l.foldl f acc).2 = acc.2 ++ extra ∧ NoHits extra ∧
      DeathLog acc.1 [] (l.foldl f acc).1 := by
  induction l generalizing acc with
  | nil => exact ⟨[], by simp, noHits_nil, DeathLog.deaths_refl _⟩
  | cons a l ih =>
    obtain ⟨n1, h1, q1, l1⟩ := hf acc a
    obtain ⟨n2, h2, q2, l2⟩ := ih (f acc a)
    refine ⟨n1 ++ n2, ?_, ?_, l1.deaths_trans l2⟩
    · rw [List.foldl_cons, h2, h1, List.append_assoc]
    · intro e he
      rcases List.mem_append.mp he with h | h
      · exact q1 e h
      · exact q2 e h

theorem effectStep_quiet (eff : String) : StepQuiet (effectStep eff) := by
  intro acc ev
  unfold effectStep
  split
  · split
    · exact ⟨[], by simp, noHits_nil, DeathLog.deaths_refl _⟩
    · rename_i h hg
      have hi := lt_length_of_getHero hg
      dsimp only
      refine ⟨_, rfl, ?_, DeathLog.deaths_of_same rfl ?_⟩
      · intro e he
        repeat' split at he
        all_goals simp at he
      · intro i
        rw [getHero_of_set i rfl hi]
        by_cases hij : ev.slot = i
        · subst hij
          simp only [if_true, hg, Slot.hero?, Option.map_some']
          repeat' split
          all_goals rfl
        · simp [hij]
  · exact ⟨[], by simp, noHits_nil, DeathLog.deaths_refl _⟩

theorem base_mapHeroes (f : Hero → Hero) (pf : List Slot) (i : Nat)
    (hf : ∀ h, (f h).base = h.base) :
    ((mapHeroes f pf)[i]?.bind Slot.hero?).map (fun h => h.base) =
      (pf[i]?.bind Slot.hero?).map (fun h => h.base) := by
  unfold mapHeroes
  rw [List.getElem?_map]
  cases pf[i]? with
  | none => rfl
  | some sl =>
    cases sl with
    | null => rfl
    | hole => rfl
    | hero h => simp [Slot.hero?, hf h]

theorem base_syncIconsFrom (keep : Nat → Hero → StatusIcon → Bool) (pf : List Slot) (k i : Nat) :
    ((syncIconsFrom keep pf k)[i]?.bind Slot.hero?).map (fun h => h.base) =
      (pf[i]?.bind Slot.hero?).map (fun h => h.base) := by
  induction pf generalizing k i with
  | nil => rfl
  | cons sl rest ih =>
    cases sl with
    | null =>
      cases i with
      | zero => simp [syncIconsFrom, Slot.hero?]
      | succ i => simpa [syncIconsFrom] using ih (k + 1) i
    | hole =>
      cases i with
      | zero => simp [syncIconsFrom, Slot.hero?]
      | succ i => simpa [syncIconsFrom] using ih (k + 1) i
    | hero h =>
      cases i with
      | zero => simp [syncIconsFrom, Slot.hero?]
      | succ i => simpa [syncIconsFrom] using ih (k + 1) i

theorem resetRound_base (s : State) (i : Nat) :
    ((resetRound s).playfield[i]?.bind Slot.hero?).map (fun h => h.base) =
      (s.playfield[i]?.bind Slot.hero?).map (fun h => h.base) := by
  unfold resetRound
  dsimp only
  rw [base_mapHeroes, base_mapHeroes, base_mapHeroes]
  all_goals (intro h; rfl)

theorem decProtection_base (h : Hero) : (decProtection h).base = h.base := by
  unfold decProtection
  repeat' split
  all_goals rfl

theorem housekeepingStunned_quiet (s : State) (evs : List Event) :
    DeathLog s [] (housekeepingStunned s evs).1 := by
  refine DeathLog.deaths_of_same rfl ?_
  intro i
  unfold housekeepingStunned getHero
  dsimp only
  rw [base_syncIconsFrom, base_mapHeroes _ _ _ decProtection_base, resetRound_base]

theorem housekeepingNormal_quiet (s : State) (evs : List Event) :
    DeathLog s [] (housekeepingNormal s evs).1 := by
  refine DeathLog.deaths_of_same rfl ?_
  intro i
  unfold housekeepingNormal getHero
  dsimp only
  rw [base_syncIconsFrom, base_mapHeroes _ _ _ decProtection_base, resetRound_base]

theorem noHits_append {a b : List Event} (ha : NoHits a) (hb : NoHits b) : NoHits (a ++ b) := by
  intro e he
  rcases List.mem_append.mp he with h | h
  · exact ha e h
  · exact hb e h

theorem pendingNormal_events (l : List PendingEffect) (acc : PendingAcc) :
    ∃ extra, (l.foldl pendingStepNormal acc).events = acc.events ++ extra ∧ NoHits extra := by
  induction l generalizing acc with
  | nil => exact ⟨[], by simp, noHits_nil⟩
  | cons eff l ih =>
    obtain ⟨x2, h2, q2⟩ := ih (pendingStepNormal acc eff)
    have h1 : ∃ x1, (pendingStepNormal acc eff).events = acc.events ++ x1 ∧ NoHits x1 := by
      unfold pendingStepNormal
      split
      · split
        · exact ⟨_, rfl, by intro e he; simp at he⟩
        · exact ⟨[], by simp, noHits_nil⟩
      · exact ⟨[], by simp, noHits_nil⟩
    obtain ⟨x1, h1, q1⟩ := h1
    exact ⟨x1 ++ x2, by rw [List.foldl_cons, h2, h1, List.append_assoc], noHits_append q1 q2⟩

theorem pendingStunned_events (l : List PendingEffect) (acc : PendingAcc) :
    ∃ extra, (l.foldl pendingStepStunned acc).events = acc.events ++ extra ∧ NoHits extra := by
  induction l generalizing acc with
  | nil => exact ⟨[], by simp, noHits_nil⟩
  | cons eff l ih =>
    obtain ⟨x2, h2, q2⟩ := ih (pendingStepStunned acc eff)
    have h1 : ∃ x1, (pendingStepStunned acc eff).events = acc.events ++ x1 ∧ NoHits x1 := by
      unfold pendingStepStunned
      split
      · split
        · exact ⟨_, rfl, by intro e he; simp at he⟩
        · exact ⟨[], by simp, noHits_nil⟩
      · exact ⟨[], by simp, noHits_nil⟩
    obtain ⟨x1, h1, q1⟩ := h1
    exact ⟨x1 ++ x2, by rw [List.foldl_cons, h2, h1, List.append_assoc], noHits_append q1 q2⟩

theorem housekeepingNormal_events (s : State) (evs : List Event) :
    ∃ extra, (housekeepingNormal s evs).2 = evs ++ extra ∧ NoHits extra :=
  pendingNormal_events _ _

theorem housekeepingStunned_events (s : State) (evs : List Event) :
    ∃ extra, (housekeepingStunned s evs).2 = evs ++ extra ∧ NoHits extra :=
  pendingStunned_events _ _

/-- The attack phase is logged: its events are the hit events followed by events of
other types, and the deaths are those the hit events mark. -/
theorem attackPhase_logged (s : State) :
    ∃ hits extra, (attackPhase s).2 = hits.map Event.hit ++ extra ∧ NoHits extra ∧
      Logged s hits (attackPhase s).1 := by
  unfold attackPhase
  split
  · dsimp only
    have hhits : ∀ (hits : State × List HitEvent) (e : Option String),
        Logged s hits.2 hits.1 →
        ∃ hs extra,
          (match e with
            | some e => hits.2.foldl (effectStep (lower e)) (hits.1, hits.2.map Event.hit)
            | none => (hits.1, hits.2.map Event.hit)).2 = hs.map Event.hit ++ extra ∧
          NoHits extra ∧
          Logged s hs (match e with
            | some e => hits.2.foldl (effectStep (lower e)) (hits.1, hits.2.map Event.hit)
            | none => (hits.1, hits.2.map Event.hit)).1 := by
      intro hits e hh
      cases e with
      | none => exact ⟨hits.2, [], by simp, noHits_nil, hh⟩
      | some e =>
        obtain ⟨extra, h1, q1, l1⟩ :=
          foldl_quiet _ (effectStep_quiet (lower e)) hits.2 (hits.1, hits.2.map Event.hit)
        exact ⟨hits.2, extra, h1, q1, hh.then_quiet l1⟩
    apply hhits
    have hq : ∀ (r : Rng) (e : Enemy) (evs : List HitEvent) (b : State),
        Logged { s with rng := r, enemy := e } evs b → Logged s evs b := by
      intro r e evs b h
      exact ⟨{ exhausted := h.1.exhausted, died := h.1.died, kept := h.1.kept,
               nodup := h.1.nodup }, h.2⟩
    split
    · exact hq _ _ _ _ (resolveAoEAttack_logged _ _ _ _)
    · split
      · obtain ⟨n1, h1, l1⟩ := multiStep_logged _ _ _ _ _
        obtain ⟨n2, h2, l2⟩ := multiStep_logged _ _ _ _ _
        rw [h2, h1]
        exact hq _ _ _ _ (by simpa using l1.logged_trans l2)
      · exact hq _ _ _ _ (singleAttack_logged _ _ _ _ _)
  · exact ⟨[], [], rfl, noHits_nil, Logged.logged_refl _⟩

theorem diedSlots_hits (hits : List HitEvent) (extra : List Event) (hx : NoHits extra) :
    diedSlots (hits.map Event.hit ++ extra) = diedSlotsH hits := by
  have h2 : diedSlots extra = [] := by
    unfold diedSlots
    rw [List.filterMap_eq_nil_iff]
    intro ev hev
    cases ev with
    | hit e => exact absurd hev (hx e)
    | _ => rfl
  have h1 : diedSlots (hits.map Event.hit) = diedSlotsH hits := by
    induction hits with
    | nil => rfl
    | cons e rest ih =>
      unfold diedSlots diedSlotsH at ih ⊢
      simp only [List.map_cons, List.filterMap_cons, List.filter_cons]
      split <;> simp_all
  unfold diedSlots at h1 h2 ⊢
  rw [List.filterMap_append, h1, h2, List.append_nil]

/-- The whole enemy turn is logged: its events are hit events followed by events of
other types (after the leading `stunned` event, if any), and the deaths are those
the hit events mark. -/
theorem enemyAct_logged (s : State) :
    ∃ hits, diedSlots (enemyAct s).2.events = diedSlotsH hits ∧
      (∀ e, Event.hit e ∈ (enemyAct s).2.events → e ∈ hits) ∧
      Logged s hits (enemyAct s).1 := by
  have hpre : ∀ (t : Nat), DeathLog s []
      { s with turn := t,
               playfield := mapHeroes decBlind (mapHeroes decStunEnfeeble s.playfield) } := by
    intro t
    refine DeathLog.deaths_of_same rfl ?_
    intro i
    unfold getHero
    dsimp only
    rw [base_mapHeroes, base_mapHeroes]
    all_goals (intro h; rfl)
  unfold enemyAct
  dsimp only
  split
  · obtain ⟨extra, h1, q1⟩ := housekeepingStunned_events
      { s with turn := s.turn + 1,
               playfield := mapHeroes decBlind (mapHeroes decStunEnfeeble s.playfield),
               enemy := { s.enemy with stunnedTurns := s.enemy.stunnedTurns - 1 } } []
    refine ⟨[], ?_, ?_, ?_⟩
    · rw [h1]
      have hx : NoHits (Event.stunned :: ([] ++ extra)) := by
        intro e he
        simp only [List.nil_append, List.mem_cons] at he
        rcases he with he | he
        · cases he
        · exact q1 e he
      simpa using diedSlots_hits [] _ hx
    · intro e he
      rw [h1] at he
      simp only [List.nil_append, List.mem_cons] at he
      rcases he with he | he
      · cases he
      · exact absurd he (q1 e)
    · refine Logged.after_quiet (hpre (s.turn + 1)) ?_
      refine ⟨?_, by intro e he; cases he⟩
      have hk := housekeepingStunned_quiet
        { s with turn := s.turn + 1,
                 playfield := mapHeroes decBlind (mapHeroes decStunEnfeeble s.playfield),
                 enemy := { s.enemy with stunnedTurns := s.enemy.stunnedTurns - 1 } } []
      exact { exhausted := hk.exhausted, died := hk.died, kept := hk.kept, nodup := hk.nodup }
  · obtain ⟨hits, x1, h1, q1, l1⟩ := attackPhase_logged
      { s with turn := s.turn + 1,
               playfield := mapHeroes decBlind (mapHeroes decStunEnfeeble s.playfield),
               rng := (s.rng.int 2).2 }
    obtain ⟨x2, h2, q2⟩ := housekeepingNormal_events
      (attackPhase
        { s with turn := s.turn + 1,
                 playfield := mapHeroes decBlind (mapHeroes decStunEnfeeble s.playfield),
                 rng := (s.rng.int 2).2 }).1
      (attackPhase
        { s with turn := s.turn + 1,
                 playfield := mapHeroes decBlind (mapHeroes decStunEnfeeble s.playfield),
                 rng := (s.rng.int 2).2 }).2
    refine ⟨hits, ?_, ?_, ?_⟩
    · rw [h2, h1, List.append_assoc]
      exact diedSlots_hits hits _ (noHits_append q1 q2)
    · intro e he
      rw [h2, h1, List.append_assoc] at he
      rcases List.mem_append.mp he with h | h
      · obtain ⟨e0, he0, heq⟩ := List.mem_map.mp h
        cases heq
        exact he0
      · exact absurd h (noHits_append q1 q2 e)
    · refine Logged.after_quiet (hpre (s.turn + 1)) ?_
      refine (Logged.then_quiet ?_ (housekeepingNormal_quiet _ _))
      exact ⟨{ exhausted := l1.1.exhausted, died := l1.1.died, kept := l1.1.kept,
               nodup := l1.1.nodup }, l1.2⟩

/-- C6. Death removal.  For every `enemyAct` call: the base definitions appended to
`exhaustedThisEncounter` are exactly those of the heroes in the slots of the hit
events marked `died: true`, in event order and once each (no slot dies twice, nothing
else is appended); every such slot held a hero before and holds none afterwards, and
its event reports `remainingHp` 0; every other slot keeps its hero (or stays without
one).  For every single damage application (single, multi and aoe all go through it):
`died` holds exactly when the hero's hp after the damage is `<= 0`; then the slot is
set to `null` and the base definition is appended once, otherwise the damaged hero
stays in its slot and nothing is appended. -/
theorem death_removal (s : State) :
    (enemyAct s).1.exhaustedThisEncounter =
      s.exhaustedThisEncounter ++ basesAt s (diedSlots (enemyAct s).2.events) ∧
    (diedSlots (enemyAct s).2.events).Nodup ∧
    (∀ i ∈ diedSlots (enemyAct s).2.events,
      (getHero s i).isSome = true ∧ getHero (enemyAct s).1 i = none) ∧
    (∀ i, i ∉ diedSlots (enemyAct s).2.events →
      (getHero (enemyAct s).1 i).map (fun h => h.base) = (getHero s i).map (fun h => h.base)) ∧
    (∀ e, Event.hit e ∈ (enemyAct s).2.events → e.died = true → e.remainingHp = 0) ∧
    (∀ (st : State) (idx : Nat) (h : Hero) (dmg shown : Int) (ty : String) (ai : Nat)
        (nm : String), getHero st idx = some h →
      (damageHero st idx h dmg shown ty ai nm).2.died = decide ((absorbDamage h dmg).1.hp ≤ 0) ∧
      ((absorbDamage h dmg).1.hp ≤ 0 →
        (damageHero st idx h dmg shown ty ai nm).1.playfield = st.playfield.set idx Slot.null ∧
        (damageHero st idx h dmg shown ty ai nm).1.exhaustedThisEncounter =
          st.exhaustedThisEncounter ++ [h.base] ∧
        (damageHero st idx h dmg shown ty ai nm).2.remainingHp = 0) ∧
      (0 < (absorbDamage h dmg).1.hp →
        (damageHero st idx h dmg shown ty ai nm).1.playfield =
          st.playfield.set idx (Slot.hero (absorbDamage h dmg).1) ∧
        (damageHero st idx h dmg shown ty ai nm).1.exhaustedThisEncounter =
          st.exhaustedThisEncounter)) := by
  obtain ⟨hits, hd, hmem, hlog⟩ := enemyAct_logged s
  refine ⟨?_, ?_, ?_, ?_, ?_, ?_⟩
  · rw [hd]; exact hlog.1.exhausted
  · rw [hd]; exact hlog.1.nodup
  · rw [hd]; exact hlog.1.died
  · rw [hd]; exact hlog.1.kept
  · intro e he hdied
    exact hlog.2 e (hmem e he) hdied
  · intro st idx h dmg shown ty ai nm _
    refine ⟨rfl, ?_, ?_⟩
    · intro hle
      simp [damageHero, hle]
    · intro hpos
      have hle : ¬ (absorbDamage h dmg).1.hp ≤ 0 := not_le.mpr hpos
      simp [damageHero, hle]

/-- An instance of C6: the third hit of the ogre kills the fighter; slot 0 is then
empty, the fighter's card is the one entry of the exhausted list, and the one hit
event of the turn is for slot 0 and marked as a death. -/
theorem death_removal_witness :
    diedSlots (enemyAct nearDeathState).2.events = [0] ∧
    (enemyAct nearDeathState).1.exhaustedThisEncounter = [fighter] ∧
    getHero (enemyAct nearDeathState).1 0 = none :=
  ⟨by decide, (death_removal nearDeathState).1.trans (by decide),
    ((death_removal nearDeathState).2.2.1 0 (by decide)).2⟩

/-! ## C7: temp HP absorbs first -/

theorem absorbDamage_spec (h : Hero) (d : Int) (hd : 0 ≤ d) (ht : 0 ≤ h.tempHp.getD 0) :
    (absorbDamage h d).2.1 = min (h.tempHp.getD 0) d ∧
    (absorbDamage h d).2.2 = d - min (h.tempHp.getD 0) d ∧
    (absorbDamage h d).1.tempHp.getD 0 = h.tempHp.getD 0 - min (h.tempHp.getD 0) d ∧
    (absorbDamage h d).1.hp = h.hp - (d - min (h.tempHp.getD 0) d) := by
  unfold absorbDamage
  cases htm : h.tempHp with
  | none =>
    simp only [Option.getD_none]
    have hm : min (0 : Int) d = 0 := min_eq_left hd
    by_cases hpos : d > 0
    · simp [hpos, hm, htm]
    · have : d = 0 := by omega
      subst this
      simp [htm]
  | some t =>
    rw [htm] at ht
    simp only [Option.getD_some] at ht ⊢
    by_cases htp : t > 0
    · simp only [htp, if_true]
      by_cases hr : d - min t d > 0
      · simp [hr]
      · have hle : min t d ≤ d := min_le_right _ _
        have : d - min t d = 0 := by omega
        simp [this]
    · have ht0 : t = 0 := by omega
      subst ht0
      have hm : min (0 : Int) d = 0 := min_eq_left hd
      by_cases hpos : d > 0
      · simp [hpos, hm, htm]
      · have : d = 0 := by omega
        subst this
        simp [htm]

/-- C7. Temp HP absorption order: an unprotected hero with temp HP `t >= 0` and hit
points `hp` that is the target of a single-target hit of `d >= 0` damage gets one hit
event with `tempTaken = min(t, d)` and `hpTaken = d - tempTaken`; its temp HP becomes
`t - tempTaken` and its hp `hp - hpTaken`; it dies exactly when that is `<= 0`
(`remainingHp` 0) and otherwise stays in its slot with those values. -/
theorem temp_hp_absorption (s : State) (d : Int) (ai : Nat) (nm : String) (idx : Nat) (h : Hero)
    (hd : 0 ≤ d) (hsel : (_selectSingleTargetIndex s).1 = some idx)
    (hg : getHero s idx = some h) (hnp : protectedActive h = false)
    (ht : 0 ≤ h.tempHp.getD 0) :
    ∃ ev, (resolveSingleTargetAttack s d ai nm).2 = [ev] ∧ ev.slot = idx ∧ ev.dmg = d ∧
      ev.tempTaken = min (h.tempHp.getD 0) d ∧
      ev.hpTaken = d - ev.tempTaken ∧
      (absorbDamage h d).1.tempHp.getD 0 = h.tempHp.getD 0 - ev.tempTaken ∧
      (absorbDamage h d).1.hp = h.hp - ev.hpTaken ∧
      ev.died = decide (h.hp - ev.hpTaken ≤ 0) ∧
      ev.remainingHp = (if h.hp - ev.hpTaken ≤ 0 then 0 else h.hp - ev.hpTaken) ∧
      (0 < h.hp - ev.hpTaken →
        getHero (resolveSingleTargetAttack s d ai nm).1 idx = some (absorbDamage h d).1) := by
  obtain ⟨h1, h2, h3, h4⟩ := absorbDamage_spec h d hd ht
  have hg' : getHero { s with rng := (_selectSingleTargetIndex s).2 } idx = some h := hg
  have hi := lt_length_of_getHero hg
  refine ⟨(damageHero { s with rng := (_selectSingleTargetIndex s).2 } idx h d d "single" ai nm).2,
    ?_, rfl, rfl, ?_, ?_, ?_, ?_, ?_, ?_, ?_⟩
  · simp [resolveSingleTargetAttack, hsel, hg', hnp]
  · exact h1
  · show (absorbDamage h d).2.2 = d - (absorbDamage h d).2.1
    rw [h2, h1]
  · show _ = _ - (absorbDamage h d).2.1
    rw [h3, h1]
  · show _ = _ - (absorbDamage h d).2.2
    rw [h4, h2]
  · show decide ((absorbDamage h d).1.hp ≤ 0) = decide (h.hp - (absorbDamage h d).2.2 ≤ 0)
    rw [h4, h2]
  · show (if decide ((absorbDamage h d).1.hp ≤ 0) = true then 0 else (absorbDamage h d).1.hp) =
      if h.hp - (absorbDamage h d).2.2 ≤ 0 then 0 else h.hp - (absorbDamage h d).2.2
    rw [h4, h2]
    simp
  · intro hpos
    have hpos' : 0 < h.hp - (absorbDamage h d).2.2 := hpos
    rw [h2, ← h4] at hpos'
    have hle : ¬ (absorbDamage h d).1.hp ≤ 0 := not_le.mpr hpos'
    have hst : (resolveSingleTargetAttack s d ai nm).1.playfield =
        s.playfield.set idx (Slot.hero (absorbDamage h d).1) := by
      simp [resolveSingleTargetAttack, hsel, hg', hnp, damageHero, hle]
    rw [getHero_of_set idx hst hi]
    simp [Slot.hero?]

/-- The scenarios of C7: temp HP 10, hp 20 and damage 15 leave temp HP 0 and hp 15;
temp HP 0, hp 10 and damage 6 give `hpTaken` 6, `remainingHp` 4 and no death. -/
theorem temp_hp_absorption_witness :
    (getHero (resolveSingleTargetAttack (loneHeroState shieldedTank) 15 0 "Club").1 0
      = some { shieldedTank with tempHp := some 0, hp := 15 }) ∧
    ((resolveSingleTargetAttack (loneHeroState hurtTank) 6 0 "Club").2.map
      fun ev => (ev.hpTaken, ev.remainingHp, ev.died)) = [(6, 4, false)] := by
  obtain ⟨ev, _, _, _, h4, h5, _, _, _, _, h10⟩ :=
    temp_hp_absorption (loneHeroState shieldedTank) 15 0 "Club" 0 shieldedTank
      (by decide) (by decide) (by decide) (by decide) (by decide)
  obtain ⟨ev', g1, _, _, g4, g5, _, _, g8, g9, _⟩ :=
    temp_hp_absorption (loneHeroState hurtTank) 6 0 "Club" 0 hurtTank
      (by decide) (by decide) (by decide) (by decide) (by decide)
  refine ⟨(h10 (by rw [h5, h4]; decide)).trans (by decide), ?_⟩
  rw [g1]
  have e1 : ev'.hpTaken = 6 := by rw [g5, g4]; decide
  have e2 : ev'.died = false := by rw [g8, e1]; decide
  have e3 : ev'.remainingHp = 4 := by rw [g9, e1]; decide
  simp [e1, e2, e3]

/-! ## C8: targeting policy -/

theorem pickFrom_mem (rng : Rng) (choices : List Nat) (hne : choices ≠ []) :
    ∃ c, c ∈ choices ∧ (pickFrom rng choices).1 = some c := by
  have hlen : 0 < choices.length := List.length_pos.mpr hne
  unfold pickFrom Rng.int
  cases rng.ints with
  | nil =>
    dsimp only
    exact ⟨choices[0], List.getElem_mem _, List.getElem?_eq_getElem hlen⟩
  | cons k ks =>
    dsimp only
    have hk : k % choices.length < choices.length := Nat.mod_lt _ hlen
    exact ⟨choices[k % choices.length], List.getElem_mem _, List.getElem?_eq_getElem hk⟩

theorem findHelped_some (pf : List Slot) (k i : Nat) (hf : findHelped pf k = some i) :
    ∃ j h, i = k + j ∧ pf[j]? = some (Slot.hero h) ∧ h.helped = true ∧
      ∀ j' h', j' < j → pf[j']? = some (Slot.hero h') → h'.helped = false := by
  induction pf generalizing k with
  | nil => simp [findHelped] at hf
  | cons sl rest ih =>
    have hstep : findHelped rest (k + 1) = some i →
        (∀ h', sl = Slot.hero h' → h'.helped = false) →
        ∃ j h, i = k + j ∧ (sl :: rest)[j]? = some (Slot.hero h) ∧ h.helped = true ∧
          ∀ j' h', j' < j → (sl :: rest)[j']? = some (Slot.hero h') → h'.helped = false := by
      intro hr hsl
      obtain ⟨j, h, e1, e2, e3, e4⟩ := ih (k + 1) hr
      refine ⟨j + 1, h, by omega, by simpa using e2, e3, ?_⟩
      intro j' h' hlt hget
      cases j' with
      | zero =>
        simp only [List.getElem?_cons_zero, Option.some.injEq] at hget
        exact hsl h' hget
      | succ j' =>
        simp only [List.getElem?_cons_succ] at hget
        exact e4 j' h' (by omega) hget
    cases sl with
    | null => exact hstep (by simpa [findHelped] using hf) (by intro h' he; cases he)
    | hole => exact hstep (by simpa [findHelped] using hf) (by intro h' he; cases he)
    | hero h =>
      by_cases hh : h.helped = true
      · simp only [findHelped, hh, if_true, Option.some.injEq] at hf
        refine ⟨0, h, by omega, by simp, hh, ?_⟩
        intro j' h' hlt
        omega
      · simp only [findHelped, hh, Bool.false_eq_true, if_false] at hf
        refine hstep hf ?_
        intro h' he
        cases he
        simpa using hh

theorem findHelped_none (pf : List Slot) (k : Nat) (hf : findHelped pf k = none) :
    ∀ (j : Nat) (h : Hero), pf[j]? = some (Slot.hero h) → h.helped = false := by
  induction pf generalizing k with
  | nil => intro j h hget; simp at hget
  | cons sl rest ih =>
    intro j h hget
    cases sl with
    | null =>
      cases j with
      | zero => simp at hget
      | succ j => exact ih (k + 1) (by simpa [findHelped] using hf) j h (by simpa using hget)
    | hole =>
      cases j with
      | zero => simp at hget
      | succ j => exact ih (k + 1) (by simpa [findHelped] using hf) j h (by simpa using hget)
    | hero h0 =>
      by_cases hh : h0.helped = true
      · simp [findHelped, hh] at hf
      · simp only [findHelped, hh, Bool.false_eq_true, if_false] at hf
        cases j with
        | zero =>
          simp only [List.getElem?_cons_zero, Option.some.injEq, Slot.hero.injEq] at hget
          subst hget
          simpa using hh
        | succ j => exact ih (k + 1) hf j h (by simpa using hget)

theorem getHero_eq_some_iff (s : State) (i : Nat) (h : Hero) :
    getHero s i = some h ↔ s.playfield[i]? = some (Slot.hero h) := by
  unfold getHero
  cases s.playfield[i]? with
  | none => simp
  | some sl => cases sl <;> simp [Slot.hero?]

theorem helpedAt_of_findHelped (s : State) (i : Nat) (hf : findHelped s.playfield 0 = some i) :
    helpedAt s i = true ∧ ∀ j, j < i → helpedAt s j = false := by
  obtain ⟨j, h, e1, e2, e3, e4⟩ := findHelped_some _ _ _ hf
  have hij : i = j := by omega
  subst hij
  refine ⟨?_, ?_⟩
  · unfold helpedAt
    rw [(getHero_eq_some_iff s i h).mpr e2]
    exact e3
  · intro j' hlt
    unfold helpedAt
    cases hg : getHero s j' with
    | none => rfl
    | some h' => exact e4 j' h' hlt ((getHero_eq_some_iff s j' h').mp hg)

theorem helpedAt_of_findHelped_none (s : State) (hf : findHelped s.playfield 0 = none) (i : Nat) :
    helpedAt s i = false := by
  unfold helpedAt
  cases hg : getHero s i with
  | none => rfl
  | some h => exact findHelped_none _ _ hf i h ((getHero_eq_some_iff s i h).mp hg)

theorem occupied_of_helpedAt (s : State) (i : Nat) (h : helpedAt s i = true) :
    occupied s i = true := by
  unfold helpedAt at h
  unfold occupied
  cases hg : getHero s i with
  | none => rw [hg] at h; cases h
  | some x => rfl

theorem empty_iff_three (s : State) (hlen : s.playfield.length = 3) :
    (∀ i, getHero s i = none) ↔
      occupied s 0 = false ∧ occupied s 1 = false ∧ occupied s 2 = false := by
  constructor
  · intro h
    simp [occupied, h]
  · rintro ⟨h0, h1, h2⟩ i
    have hcase : i = 0 ∨ i = 1 ∨ i = 2 ∨ 3 ≤ i := by omega
    rcases hcase with rfl | rfl | rfl | hge
    · simpa [occupied] using h0
    · simpa [occupied] using h1
    · simpa [occupied] using h2
    · unfold getHero
      rw [List.getElem?_eq_none (by omega)]
      rfl

theorem occupied_lt (s : State) (i : Nat) (h : occupied s i = true) : i < s.playfield.length := by
  unfold occupied at h
  cases hg : getHero s i with
  | none => rw [hg] at h; cases h
  | some x => exact lt_length_of_getHero hg

theorem pickFrom_filter (s : State) (l : List Nat) (hne : l.filter (occupied s) ≠ []) :
    ∃ c, c ∈ l ∧ occupied s c = true ∧ (pickFrom s.rng (l.filter (occupied s))).1 = some c := by
  obtain ⟨c, hc, hp⟩ := pickFrom_mem s.rng _ hne
  rw [List.mem_filter] at hc
  exact ⟨c, hc.1, hc.2, hp⟩

theorem select_formation3 (s : State) (hf : s.formation = some 3) :
    _selectSingleTargetIndex s =
      (if occupied s 0 then some 0 else if occupied s 1 then some 1
        else if occupied s 2 then some 2 else none, s.rng) := by
  unfold _selectSingleTargetIndex
  rw [if_pos hf]
  repeat' split
  all_goals rfl

theorem select_formation2 (s : State) (hf : s.formation = some 2) :
    _selectSingleTargetIndex s =
      if occupied s 0 then (some 0, s.rng)
      else if [1, 2].filter (occupied s) ≠ [] then pickFrom s.rng ([1, 2].filter (occupied s))
      else (none, s.rng) := by
  unfold _selectSingleTargetIndex
  have h3 : ¬ s.formation = some 3 := by rw [hf]; decide
  rw [if_neg h3, if_pos hf]
  split
  · rfl
  · by_cases hne : [1, 2].filter (occupied s) = []
    · simp [hne]
    · have : 0 < ([1, 2].filter (occupied s)).length := List.length_pos.mpr hne
      simp [hne, this]

theorem select_default (s : State) (h3 : s.formation ≠ some 3) (h2 : s.formation ≠ some 2) :
    _selectSingleTargetIndex s =
      match findHelped s.playfield 0 with
      | some i => (some i, s.rng)
      | none =>
        if [0, 1].filter (occupied s) ≠ [] then pickFrom s.rng ([0, 1].filter (occupied s))
        else if occupied s 2 then (some 2, s.rng) else (none, s.rng) := by
  unfold _selectSingleTargetIndex
  rw [if_neg h3, if_neg h2]
  split
  · rfl
  · by_cases hne : [0, 1].filter (occupied s) = []
    · simp [hne]
    · have : 0 < ([0, 1].filter (occupied s)).length := List.length_pos.mpr hne
      simp [hne, this]

theorem filter_pair_ne_nil (p : Nat → Bool) (a b : Nat) :
    [a, b].filter p ≠ [] ↔ (p a = true ∨ p b = true) := by
  cases ha : p a <;> cases hb : p b <;> simp [List.filter, ha, hb]

/-- The target is always an occupied slot. -/
theorem select_occupied (s : State) (i : Nat) (h : (_selectSingleTargetIndex s).1 = some i) :
    occupied s i = true := by
  by_cases h3 : s.formation = some 3
  · rw [select_formation3 s h3] at h
    dsimp only at h
    repeat' split at h
    all_goals first
      | (simp only [Option.some.injEq] at h; subst h; assumption)
      | cases h
  · by_cases h2 : s.formation = some 2
    · rw [select_formation2 s h2] at h
      repeat' split at h
      · simp only [Option.some.injEq] at h; subst h; assumption
      · rename_i hne
        obtain ⟨c, _, hc, hp⟩ := pickFrom_filter s [1, 2] hne
        rw [hp] at h
        simp only [Option.some.injEq] at h; subst h; exact hc
      · cases h
    · rw [select_default s h3 h2] at h
      split at h
      · rename_i i' hf
        simp only [Option.some.injEq] at h; subst h
        exact occupied_of_helpedAt s _ (helpedAt_of_findHelped s _ hf).1
      · repeat' split at h
        · rename_i hne
          obtain ⟨c, _, hc, hp⟩ := pickFrom_filter s [0, 1] hne
          rw [hp] at h
          simp only [Option.some.injEq] at h; subst h; exact hc
        · simp only [Option.some.injEq] at h; subst h; assumption
        · cases h

/-- With three slots, no target is found exactly when no slot holds a hero. -/
theorem select_none_iff (s : State) (hlen : s.playfield.length = 3) :
    (_selectSingleTargetIndex s).1 = none ↔ ∀ i, getHero s i = none := by
  rw [empty_iff_three s hlen]
  constructor
  · intro h
    by_cases h3 : s.formation = some 3
    · rw [select_formation3 s h3] at h
      dsimp only at h
      cases h0 : occupied s 0 <;> cases h1 : occupied s 1 <;> cases h2 : occupied s 2 <;>
        simp [h0, h1, h2] at h ⊢
    · by_cases h2 : s.formation = some 2
      · rw [select_formation2 s h2] at h
        by_cases h0 : occupied s 0 = true
        · simp [h0] at h
        · by_cases hne : [1, 2].filter (occupied s) ≠ []
          · obtain ⟨c, _, _, hp⟩ := pickFrom_filter s [1, 2] hne
            simp [h0, hne, hp] at h
          · have := (filter_pair_ne_nil (occupied s) 1 2).not.mp hne
            simp at this
            simp [h0, this]
      · rw [select_default s h3 h2] at h
        split at h
        · cases h
        · by_cases hne : [0, 1].filter (occupied s) ≠ []
          · obtain ⟨c, _, _, hp⟩ := pickFrom_filter s [0, 1] hne
            simp [hne, hp] at h
          · have hfr := (filter_pair_ne_nil (occupied s) 0 1).not.mp hne
            simp at hfr
            rw [if_neg hne] at h
            cases h2' : occupied s 2
            · simp [hfr]
            · simp [h2'] at h
  · rintro ⟨h0, h1, h2⟩
    cases hsel : (_selectSingleTargetIndex s).1 with
    | none => rfl
    | some i =>
      have ho := select_occupied s i hsel
      have hlt := occupied_lt s i ho
      have hcase : i = 0 ∨ i = 1 ∨ i = 2 := by omega
      rcases hcase with rfl | rfl | rfl
      · rw [h0] at ho; cases ho
      · rw [h1] at ho; cases ho
      · rw [h2] at ho; cases ho

theorem int_one (r : Rng) : (r.int 1).1 = 0 := by
  unfold Rng.int
  split
  · rfl
  · exact Nat.mod_one _

theorem int_two_lt (r : Rng) : (r.int 2).1 < 2 := by
  unfold Rng.int
  split
  · exact Nat.zero_lt_two
  · exact Nat.mod_lt _ Nat.zero_lt_two

theorem pickFrom_one (r : Rng) (a : Nat) : pickFrom r [a] = (some a, (r.int 1).2) := by
  unfold pickFrom
  simp only [List.length_singleton]
  have h := int_one r
  rw [show (r.int 1) = ((r.int 1).1, (r.int 1).2) from rfl, h]
  rfl

theorem pickFrom_two (r : Rng) (a : Nat) :
    pickFrom r [a, a + 1] = (some (a + (r.int 2).1), (r.int 2).2) := by
  unfold pickFrom
  have h := int_two_lt r
  have hc : (r.int 2).1 = 0 ∨ (r.int 2).1 = 1 := by omega
  show ([a, a + 1][(r.int 2).1]?, (r.int 2).2) = _
  rcases hc with h0 | h1
  · rw [h0]; rfl
  · rw [h1]; rfl

theorem select_none_general (s : State) :
    (_selectSingleTargetIndex s).1 = none ↔
      (occupied s 0 = false ∧ occupied s 1 = false ∧ occupied s 2 = false ∧
        (s.formation ≠ some 3 → s.formation ≠ some 2 → ∀ i, helpedAt s i = false)) := by
  by_cases h3 : s.formation = some 3
  · rw [select_formation3 s h3]
    cases h0 : occupied s 0 <;> cases h1 : occupied s 1 <;> cases h2 : occupied s 2 <;>
      simp [h3]
  · by_cases h2 : s.formation = some 2
    · rw [select_formation2 s h2]
      cases h0 : occupied s 0 <;> cases h1 : occupied s 1 <;> cases h2' : occupied s 2 <;>
        simp [h2, List.filter, h1, h2', pickFrom_one, pickFrom_two]
    · rw [select_default s h3 h2]
      cases hf : findHelped s.playfield 0 with
      | some i =>
        have hi := (helpedAt_of_findHelped s i hf).1
        constructor
        · intro h
          cases h
        · rintro ⟨_, _, _, hall⟩
          rw [hall h3 h2 i] at hi
          cases hi
      | none =>
        have hall := helpedAt_of_findHelped_none s hf
        cases h0 : occupied s 0 <;> cases h1 : occupied s 1 <;> cases h2' : occupied s 2 <;>
          simp [h3, h2, List.filter, h0, h1, h2', pickFrom_one, pickFrom_two, hall]

/-- C8 (as amended). Targeting policy. Formation 3: the lowest occupied slot among 0, 1 and
2, without a draw. Formation 2: slot 0 if occupied, else a random-source choice among the
occupied slots of 1 and 2: with both occupied the slot `1 + rng.int(2)`, with one occupied
that slot after the draw `rng.int(1)`. Otherwise: the first slot holding a helped hero if
any, else a random-source choice among the occupied front slots 0 and 1 (with both occupied
the slot `rng.int(2)`), else slot 2 if occupied. The result is `-1` (`none`) exactly when
none of the slots 0, 1 and 2 holds a hero and, under the default formation, no slot holds a
helped hero; on a playfield of three slots that is exactly when the playfield holds no
hero. A result other than `-1` is always the index of an occupied slot. -/
theorem targeting_policy (s : State) :
    (s.formation = some 3 →
      (_selectSingleTargetIndex s).2 = s.rng ∧
      ∀ i, (_selectSingleTargetIndex s).1 = some i ↔
        (i < 3 ∧ occupied s i = true ∧ ∀ j, j < i → occupied s j = false)) ∧
    (s.formation = some 2 →
      (occupied s 0 = true → _selectSingleTargetIndex s = (some 0, s.rng)) ∧
      (occupied s 0 = false → occupied s 1 = true → occupied s 2 = true →
        _selectSingleTargetIndex s = (some (1 + (s.rng.int 2).1), (s.rng.int 2).2)) ∧
      (occupied s 0 = false → occupied s 1 = true → occupied s 2 = false →
        _selectSingleTargetIndex s = (some 1, (s.rng.int 1).2)) ∧
      (occupied s 0 = false → occupied s 1 = false → occupied s 2 = true →
        _selectSingleTargetIndex s = (some 2, (s.rng.int 1).2)) ∧
      (occupied s 0 = false → occupied s 1 = false → occupied s 2 = false →
        _selectSingleTargetIndex s = (none, s.rng))) ∧
    (s.formation ≠ some 3 → s.formation ≠ some 2 →
      (∀ i, helpedAt s i = true → (∀ j, j < i → helpedAt s j = false) →
        _selectSingleTargetIndex s = (some i, s.rng)) ∧
      ((∀ i, helpedAt s i = false) →
        (occupied s 0 = true → occupied s 1 = true →
          _selectSingleTargetIndex s = (some (s.rng.int 2).1, (s.rng.int 2).2)) ∧
        (occupied s 0 = true → occupied s 1 = false →
          _selectSingleTargetIndex s = (some 0, (s.rng.int 1).2)) ∧
        (occupied s 0 = false → occupied s 1 = true →
          _selectSingleTargetIndex s = (some 1, (s.rng.int 1).2)) ∧
        (occupied s 0 = false → occupied s 1 = false →
          _selectSingleTargetIndex s = (if occupied s 2 then some 2 else none, s.rng)))) ∧
    ((s.rng.int 2).1 < 2) ∧
    ((_selectSingleTargetIndex s).1 = none ↔
      (occupied s 0 = false ∧ occupied s 1 = false ∧ occupied s 2 = false ∧
        (s.formation ≠ some 3 → s.formation ≠ some 2 → ∀ i, helpedAt s i = false))) ∧
    (s.playfield.length = 3 →
      ((_selectSingleTargetIndex s).1 = none ↔ ∀ i, getHero s i = none)) ∧
    (∀ i, (_selectSingleTargetIndex s).1 = some i → occupied s i = true) := by
  refine ⟨?_, ?_, ?_, int_two_lt s.rng, select_none_general s, select_none_iff s,
    select_occupied s⟩
  · intro h3
    rw [select_formation3 s h3]
    refine ⟨rfl, ?_⟩
    intro i
    dsimp only
    constructor
    · intro h
      cases h0 : occupied s 0 <;> cases h1 : occupied s 1 <;> cases h2 : occupied s 2 <;>
        simp [h0, h1, h2] at h <;> subst h <;>
        refine ⟨by omega, by assumption, ?_⟩ <;> intro j hj <;>
        first
          | omega
          | (have hc : j = 0 ∨ j = 1 := by omega
             rcases hc with rfl | rfl <;> assumption)
          | (have hc : j = 0 := by omega
             subst hc; assumption)
    · rintro ⟨hlt, ho, hlow⟩
      have hcase : i = 0 ∨ i = 1 ∨ i = 2 := by omega
      rcases hcase with rfl | rfl | rfl
      · simp [ho]
      · simp [ho, hlow 0 (by omega)]
      · simp [ho, hlow 0 (by omega), hlow 1 (by omega)]
  · intro h2
    rw [select_formation2 s h2]
    refine ⟨fun h0 => by simp [h0], ?_, ?_, ?_, ?_⟩
    · intro h0 h1 h2'
      simp [List.filter, h0, h1, h2', pickFrom_two]
    · intro h0 h1 h2'
      simp [List.filter, h0, h1, h2', pickFrom_one]
    · intro h0 h1 h2'
      simp [List.filter, h0, h1, h2', pickFrom_one]
    · intro h0 h1 h2'
      simp [List.filter, h0, h1, h2']
  · intro h3 h2
    rw [select_default s h3 h2]
    refine ⟨?_, ?_⟩
    · intro i hi hlow
      cases hf : findHelped s.playfield 0 with
      | none =>
        have := helpedAt_of_findHelped_none s hf i
        rw [hi] at this; cases this
      | some i' =>
        obtain ⟨hi', hlow'⟩ := helpedAt_of_findHelped s i' hf
        have : i' = i := by
          rcases Nat.lt_trichotomy i' i with hlt | heq | hgt
          · have := hlow i' hlt
            rw [hi'] at this; cases this
          · exact heq
          · have := hlow' i hgt
            rw [hi] at this; cases this
        rw [this]
    · intro hno
      have hf : findHelped s.playfield 0 = none := by
        cases hf : findHelped s.playfield 0 with
        | none => rfl
        | some i' =>
          have := (helpedAt_of_findHelped s i' hf).1
          rw [hno i'] at this; cases this
      rw [hf]
      dsimp only
      refine ⟨?_, ?_, ?_, ?_⟩
      · intro h0 h1
        have h := pickFrom_two s.rng 0
        simp only [Nat.zero_add] at h
        simp [List.filter, h0, h1, h]
      · intro h0 h1
        simp [List.filter, h0, h1, pickFrom_one]
      · intro h0 h1
        simp [List.filter, h0, h1, pickFrom_one]
      · intro h0 h1
        simp [List.filter, h0, h1]
        split <;> rfl

/-- Instances of C8 with a draw: under the default formation with heroes in slots 0 and 1
and none helped, the draw 0 selects slot 0 and the draw 1 selects slot 1, each consuming one
number of the random source; and with a helped hero in slot 2 the target is slot 2 without
a draw. -/
theorem targeting_policy_witness :
    _selectSingleTargetIndex dodgeState = (some 0, { rolls := [1, 1], ints := [1] }) ∧
    _selectSingleTargetIndex { dodgeState with rng := { rolls := [], ints := [3, 0] } } =
      (some 1, { rolls := [], ints := [0] }) ∧
    _selectSingleTargetIndex helpedBackState = (some 2, helpedBackState.rng) :=
  ⟨(((targeting_policy dodgeState).2.2.1 (by decide) (by decide)).2
      (helpedAt_of_findHelped_none dodgeState (by decide))).1 (by decide) (by decide),
    (((targeting_policy { dodgeState with rng := { rolls := [], ints := [3, 0] } }).2.2.1
      (by decide) (by decide)).2
      (helpedAt_of_findHelped_none _ (by decide))).1 (by decide) (by decide),
    ((targeting_policy helpedBackState).2.2.1 (by decide) (by decide)).1 2
      (by decide) (by decide)⟩

/-- C8 fails on the code for a playfield of more than three slots. `replaceHero(state, 5,
card)` on a fresh encounter puts a hero in slot 5 of a playfield grown to six slots; the
playfield is not empty, yet under every formation the selection returns `-1`, neither the
lowest occupied slot nor the index of an occupied slot. -/
theorem targeting_misses_far_slot :
    (∀ i, getHero (startEncounter ogre (some [fighter]) { rolls := [], ints := [] } none) i
      = none) ∧
    farState.playfield.length = 6 ∧
    occupied farState 5 = true ∧
    (_selectSingleTargetIndex farState).1 = none ∧
    (_selectSingleTargetIndex { farState with formation := some 2 }).1 = none ∧
    (_selectSingleTargetIndex { farState with formation := some 3 }).1 = none := by
  refine ⟨?_, by decide, by decide, by decide, by decide, by decide⟩
  intro i
  have hcase : i = 0 ∨ i = 1 ∨ i = 2 ∨ 3 ≤ i := by omega
  rcases hcase with rfl | rfl | rfl | hge
  · rfl
  · rfl
  · rfl
  · unfold getHero
    rw [List.getElem?_eq_none (by simpa [startEncounter] using hge)]
    rfl

/-! ## C9: the single-target attack selects its target twice -/

/-- C9 fails on the code.  In `dodgeState` the single-target branch selects slot 0,
whose hero is defending, and makes the 50% dodge roll for it; the roll does not miss,
and `resolveSingleTargetAttack` then selects a target again and damages the hero of
slot 1, who is not defending and for whom no hit roll was made: the hit event is for
slot 1 while the defending hero of slot 0 is untouched. -/
theorem single_attack_retargets :
    (_selectSingleTargetIndex dodgeState).1 = some 0 ∧
    (getHero dodgeState 0).map (fun h => h.defending) = some true ∧
    (getHero dodgeState 1).map (fun h => h.defending) = some false ∧
    (singleAttack dodgeState club 5 0 "Club").2.map (fun ev => (ev.slot, ev.hpTaken, ev.missed))
      = [(1, 5, false)] ∧
    (getHero (singleAttack dodgeState club 5 0 "Club").1 0).map (fun h => h.hp) = some 10 ∧
    (getHero (singleAttack dodgeState club 5 0 "Club").1 1).map (fun h => h.hp) = some 7 ∧
    hitSlots (enemyAct dodgeTurnState).2.events = [1] ∧
    (getHero (enemyAct dodgeTurnState).1 1).map (fun h => h.hp) = some 7 := by
  refine ⟨by decide, by decide, by decide, ?_, ?_, ?_, ?_, ?_⟩ <;> with_unfolding_all decide

/-! ## C10 and C11: area attacks -/

theorem damageHero_slots (s : State) (idx : Nat) (h : Hero) (dmg shown : Int) (ty : String)
    (ai : Nat) (nm : String) (hi : idx < s.playfield.length) :
    (damageHero s idx h dmg shown ty ai nm).1.playfield[idx]? =
      (if (absorbDamage h dmg).1.hp ≤ 0 then some Slot.null
       else some (Slot.hero (absorbDamage h dmg).1)) ∧
    (∀ j, j ≠ idx → (damageHero s idx h dmg shown ty ai nm).1.playfield[j]? = s.playfield[j]?) ∧
    (damageHero s idx h dmg shown ty ai nm).1.formation = s.formation ∧
    (damageHero s idx h dmg shown ty ai nm).1.rng = s.rng := by
  by_cases hd : (absorbDamage h dmg).1.hp ≤ 0
  · simp [damageHero, hd, hi]
    intro j hj
    exact List.getElem?_set_ne (Ne.symm hj)
  · simp [damageHero, hd, hi]
    intro j hj
    exact List.getElem?_set_ne (Ne.symm hj)

/-- One loop iteration of the area attack, on an accumulator that agrees with `s` on
slot `i` and on the formation. -/
theorem aoeStep_spec (s : State) (d : Int) (ai : Nat) (nm : String)
    (acc : State × List HitEvent) (i : Nat)
    (hform : acc.1.formation = s.formation) (hslot : acc.1.playfield[i]? = s.playfield[i]?) :
    (aoeStep d ai nm acc i).2 = acc.2 ++ (aoeEventFor s d ai nm i).toList ∧
    (aoeStep d ai nm acc i).1.formation = s.formation ∧
    (aoeStep d ai nm acc i).1.rng = acc.1.rng ∧
    (aoeStep d ai nm acc i).1.playfield[i]? = aoeSlotFor s d i ∧
    (∀ j, j ≠ i → (aoeStep d ai nm acc i).1.playfield[j]? = acc.1.playfield[j]?) := by
  have hget : getHero acc.1 i = getHero s i := by
    unfold getHero; rw [hslot]
  by_cases hex : s.formation = some 3 ∧ i = 2
  · have hex' : acc.1.formation = some 3 ∧ i = 2 := by rw [hform]; exact hex
    have e1 : aoeStep d ai nm acc i = acc := by unfold aoeStep; rw [if_pos hex']
    have e2 : aoeEventFor s d ai nm i = none := by simp [aoeEventFor, aoeExempt, hex]
    have e3 : aoeSlotFor s d i = s.playfield[i]? := by simp [aoeSlotFor, aoeExempt, hex]
    rw [e1, e2, e3]
    exact ⟨by simp, hform, rfl, hslot, fun _ _ => rfl⟩
  · have hex' : ¬ (acc.1.formation = some 3 ∧ i = 2) := by rw [hform]; exact hex
    have hxb : aoeExempt s i = false := by simp [aoeExempt, hex]
    cases hg : getHero s i with
    | none =>
      have e1 : aoeStep d ai nm acc i = acc := by
        unfold aoeStep; rw [if_neg hex', hget, hg]
      have e2 : aoeEventFor s d ai nm i = none := by simp [aoeEventFor, hxb, hg]
      have e3 : aoeSlotFor s d i = s.playfield[i]? := by simp [aoeSlotFor, hxb, hg]
      rw [e1, e2, e3]
      exact ⟨by simp, hform, rfl, hslot, fun _ _ => rfl⟩
    | some h =>
      by_cases hp : protectedActive h = true
      · have e1 : aoeStep d ai nm acc i =
            (acc.1, acc.2 ++ [protectedEvent i h "aoe" ai nm]) := by
          unfold aoeStep; rw [if_neg hex', hget, hg]; simp [hp]
        have e2 : aoeEventFor s d ai nm i = some (protectedEvent i h "aoe" ai nm) := by
          simp [aoeEventFor, hxb, hg, hp]
        have e3 : aoeSlotFor s d i = s.playfield[i]? := by simp [aoeSlotFor, hxb, hg, hp]
        rw [e1, e2, e3]
        exact ⟨by simp, hform, rfl, hslot, fun _ _ => rfl⟩
      · have e1 : aoeStep d ai nm acc i =
            ((damageHero acc.1 i h (aoeDamage h d) d "aoe" ai nm).1,
              acc.2 ++ [(damageHero acc.1 i h (aoeDamage h d) d "aoe" ai nm).2]) := by
          unfold aoeStep; rw [if_neg hex', hget, hg]; simp [hp, aoeDamage]
        have e2 : aoeEventFor s d ai nm i =
            some (damageHero acc.1 i h (aoeDamage h d) d "aoe" ai nm).2 := by
          simp [aoeEventFor, hxb, hg, hp, damageHero]
        have e3 : aoeSlotFor s d i =
            (if (absorbDamage h (aoeDamage h d)).1.hp ≤ 0 then some Slot.null
             else some (Slot.hero (absorbDamage h (aoeDamage h d)).1)) := by
          simp [aoeSlotFor, hxb, hg, hp]
        have hi : i < acc.1.playfield.length := by
          rw [← hget] at hg
          exact lt_length_of_getHero hg
        obtain ⟨h1, h2, h3, h4⟩ := damageHero_slots acc.1 i h (aoeDamage h d) d "aoe" ai nm hi
        rw [e1, e2, e3]
        exact ⟨by simp, h3.trans hform, h4, h1, h2⟩

theorem aoeFold_spec (s : State) (d : Int) (ai : Nat) (nm : String) (l : List Nat)
    (hnd : l.Nodup) (acc : State × List HitEvent)
    (hform : acc.1.formation = s.formation)
    (hslot : ∀ i ∈ l, acc.1.playfield[i]? = s.playfield[i]?) :
    (l.foldl (aoeStep d ai nm) acc).2 = acc.2 ++ l.filterMap (aoeEventFor s d ai nm) ∧
    (l.foldl (aoeStep d ai nm) acc).1.rng = acc.1.rng ∧
    (∀ j ∈ l, (l.foldl (aoeStep d ai nm) acc).1.playfield[j]? = aoeSlotFor s d j) ∧
    (∀ j, j ∉ l → (l.foldl (aoeStep d ai nm) acc).1.playfield[j]? = acc.1.playfield[j]?) := by
  induction l generalizing acc with
  | nil =>
    refine ⟨by simp, rfl, ?_, fun _ _ => rfl⟩
    intro j hj
    cases hj
  | cons i rest ih =>
    have hnd' := List.nodup_cons.mp hnd
    obtain ⟨s1, s2, s3, s4, s5⟩ :=
      aoeStep_spec s d ai nm acc i hform (hslot i (List.mem_cons_self _ _))
    have hslot' : ∀ k ∈ rest, (aoeStep d ai nm acc i).1.playfield[k]? = s.playfield[k]? := by
      intro k hk
      have hki : k ≠ i := fun h => hnd'.1 (h ▸ hk)
      rw [s5 k hki]
      exact hslot k (List.mem_cons_of_mem _ hk)
    obtain ⟨r1, r2, r3, r4⟩ := ih hnd'.2 (aoeStep d ai nm acc i) s2 hslot'
    rw [List.foldl_cons]
    refine ⟨?_, ?_, ?_, ?_⟩
    · rw [r1, s1, List.append_assoc]
      congr 1
      cases hev : aoeEventFor s d ai nm i <;> simp [List.filterMap_cons, hev]
    · rw [r2, s3]
    · intro j hj
      rcases List.mem_cons.mp hj with rfl | hj'
      · rw [r4 j hnd'.1]; exact s4
      · exact r3 j hj'
    · intro j hj
      have hji : j ≠ i := fun h => hj (h ▸ List.mem_cons_self _ _)
      have hjr : j ∉ rest := fun h => hj (List.mem_cons_of_mem _ h)
      rw [r4 j hjr, s5 j hji]

/-- The area attack, slot by slot: its events are those of the slots in order, the
random source is not consulted, and every slot ends as its own step leaves it. -/
theorem resolveAoEAttack_spec (s : State) (d : Int) (ai : Nat) (nm : String) :
    (resolveAoEAttack s d ai nm).2 =
      (List.range s.playfield.length).filterMap (aoeEventFor s d ai nm) ∧
    (resolveAoEAttack s d ai nm).1.rng = s.rng ∧
    (∀ j, (resolveAoEAttack s d ai nm).1.playfield[j]? = aoeSlotFor s d j) := by
  obtain ⟨r1, r2, r3, r4⟩ := aoeFold_spec s d ai nm (List.range s.playfield.length)
    (List.nodup_range _) (s, []) rfl (fun _ _ => rfl)
  unfold resolveAoEAttack
  refine ⟨by simpa using r1, r2, ?_⟩
  intro j
  by_cases hj : j < s.playfield.length
  · exact r3 j (List.mem_range.mpr hj)
  · rw [r4 j (by simpa using hj)]
    have hnone : s.playfield[j]? = none := List.getElem?_eq_none (not_lt.mp hj)
    have hg : getHero s j = none := by unfold getHero; rw [hnone]; rfl
    unfold aoeSlotFor
    rw [hg]
    simp

theorem ceilHalf_eq_ceil (d : Int) : ceilHalf d = ⌈(d : ℚ) / 2⌉ := by
  symm
  rw [Int.ceil_eq_iff]
  unfold ceilHalf
  have h1 : 2 * ((d + 1) / 2) - 1 ≤ d := by omega
  have h2 : d ≤ 2 * ((d + 1) / 2) := by omega
  have h1' : (2 : ℚ) * (((d + 1) / 2 : Int) : ℚ) - 1 ≤ (d : ℚ) := by exact_mod_cast h1
  have h2' : (d : ℚ) ≤ 2 * (((d + 1) / 2 : Int) : ℚ) := by exact_mod_cast h2
  constructor <;> linarith

theorem ceilHalf_nonneg (d : Int) (hd : 0 ≤ d) : 0 ≤ ceilHalf d := by
  unfold ceilHalf; omega

theorem absorbDamage_general (h : Hero) (d : Int) (hd : 0 ≤ d) :
    (absorbDamage h d).2.1 = (if 0 < h.tempHp.getD 0 then min (h.tempHp.getD 0) d else 0) ∧
    (absorbDamage h d).2.2 = d - (absorbDamage h d).2.1 ∧
    (absorbDamage h d).1.hp = h.hp - (absorbDamage h d).2.2 ∧
    (absorbDamage h d).1.tempHp.getD 0 = h.tempHp.getD 0 - (absorbDamage h d).2.1 := by
  by_cases ht : 0 ≤ h.tempHp.getD 0
  · obtain ⟨h1, h2, h3, h4⟩ := absorbDamage_spec h d hd ht
    have hm : (if 0 < h.tempHp.getD 0 then min (h.tempHp.getD 0) d else 0) =
        min (h.tempHp.getD 0) d := by
      split
      · rfl
      · have : h.tempHp.getD 0 = 0 := by omega
        rw [this, min_eq_left hd]
    rw [hm, h1, h2, h3, h4]
    exact ⟨rfl, rfl, rfl, rfl⟩
  · have hneg : h.tempHp.getD 0 < 0 := not_le.mp ht
    have hif : ¬ 0 < h.tempHp.getD 0 := by omega
    rw [if_neg hif]
    unfold absorbDamage
    cases htm : h.tempHp with
    | none => rw [htm] at hneg; simp at hneg
    | some t =>
      rw [htm] at hneg
      simp only [Option.getD_some] at hneg
      have htp : ¬ t > 0 := by omega
      by_cases hpos : d > 0
      · simp [htp, hpos, htm]
      · have : d = 0 := by omega
        subst this
        simp [htp, htm]

theorem filterMap_slots (f : Nat → Option HitEvent) (p : Nat → Bool)
    (hf : ∀ i, (f i).map (fun ev => ev.slot) = if p i then some i else none) (l : List Nat) :
    (l.filterMap f).map (fun ev => ev.slot) = l.filter p := by
  induction l with
  | nil => rfl
  | cons i rest ih =>
    have := hf i
    cases hfi : f i with
    | none =>
      rw [hfi] at this
      have hp : p i = false := by
        cases hpi : p i
        · rfl
        · rw [hpi] at this; simp at this
      simp [List.filterMap_cons, hfi, List.filter_cons, hp, ih]
    | some ev =>
      rw [hfi] at this
      have hp : p i = true ∧ ev.slot = i := by
        cases hpi : p i
        · rw [hpi] at this; simp at this
        · rw [hpi] at this; simpa using this
      simp [List.filterMap_cons, hfi, List.filter_cons, hp.1, hp.2, ih]

theorem aoeEventFor_slot (s : State) (d : Int) (ai : Nat) (nm : String) (i : Nat) :
    (aoeEventFor s d ai nm i).map (fun ev => ev.slot) =
      if (occupied s i && !aoeExempt s i) then some i else none := by
  unfold aoeEventFor occupied
  cases hx : aoeExempt s i
  · cases hg : getHero s i with
    | none => simp
    | some h =>
      by_cases hp : protectedActive h = true
      · simp [hp, protectedEvent]
      · simp [hp, damageHero]
  · simp

theorem aoe_slots (s : State) (d : Int) (ai : Nat) (nm : String) :
    (resolveAoEAttack s d ai nm).2.map (fun ev => ev.slot) =
      (List.range s.playfield.length).filter (fun i => occupied s i && !aoeExempt s i) := by
  rw [(resolveAoEAttack_spec s d ai nm).1]
  exact filterMap_slots _ _ (aoeEventFor_slot s d ai nm) _

theorem aoe_event_mem (s : State) (d : Int) (ai : Nat) (nm : String) (i : Nat) (ev : HitEvent)
    (hi : i < s.playfield.length) (hev : aoeEventFor s d ai nm i = some ev) :
    ev ∈ (resolveAoEAttack s d ai nm).2 := by
  rw [(resolveAoEAttack_spec s d ai nm).1, List.mem_filterMap]
  exact ⟨i, List.mem_range.mpr hi, hev⟩

theorem aoe_getHero (s : State) (d : Int) (ai : Nat) (nm : String) (j : Nat) :
    getHero (resolveAoEAttack s d ai nm).1 j = (aoeSlotFor s d j).bind Slot.hero? := by
  unfold getHero
  rw [(resolveAoEAttack_spec s d ai nm).2.2 j]

/-- C10. AoE damage rule.  An area attack of base damage `d >= 0` consults no random
roll.  For every occupied slot that is not exempt: a hero with `protected.turns > 0`
keeps its hp and temp HP and gets the event with `dmg` 0 and `protected` true; any
other hero takes `d`, or `ceil(d/2)` when defending, the halving coming first: temp
HP (when positive) absorbs `min(tempHp, that amount)` and hp loses the rest, and the
hero leaves its slot exactly when its hp thereby drops to `<= 0`. -/
theorem aoe_damage_rule (s : State) (d : Int) (ai : Nat) (nm : String) (hd : 0 ≤ d) (i : Nat)
    (h : Hero) (hg : getHero s i = some h) (hne : aoeExempt s i = false) :
    (resolveAoEAttack s d ai nm).1.rng = s.rng ∧
    (protectedActive h = true →
      protectedEvent i h "aoe" ai nm ∈ (resolveAoEAttack s d ai nm).2 ∧
      (protectedEvent i h "aoe" ai nm).dmg = 0 ∧
      (protectedEvent i h "aoe" ai nm).isProtected = true ∧
      getHero (resolveAoEAttack s d ai nm).1 i = some h) ∧
    (protectedActive h = false →
      ∃ ev, ev ∈ (resolveAoEAttack s d ai nm).2 ∧ ev.slot = i ∧ ev.isProtected = false ∧
        ev.tempTaken =
          (if 0 < h.tempHp.getD 0
            then min (h.tempHp.getD 0) (if h.defending then ⌈(d : ℚ) / 2⌉ else d) else 0) ∧
        ev.hpTaken = (if h.defending then ⌈(d : ℚ) / 2⌉ else d) - ev.tempTaken ∧
        ev.tempTaken + ev.hpTaken = (if h.defending then ⌈(d : ℚ) / 2⌉ else d) ∧
        getHero (resolveAoEAttack s d ai nm).1 i =
          (if h.hp - ev.hpTaken ≤ 0 then none
           else some (absorbDamage h (if h.defending then ⌈(d : ℚ) / 2⌉ else d)).1) ∧
        (absorbDamage h (if h.defending then ⌈(d : ℚ) / 2⌉ else d)).1.hp = h.hp - ev.hpTaken ∧
        (absorbDamage h (if h.defending then ⌈(d : ℚ) / 2⌉ else d)).1.tempHp.getD 0 =
          h.tempHp.getD 0 - ev.tempTaken) := by
  have hi := lt_length_of_getHero hg
  refine ⟨(resolveAoEAttack_spec s d ai nm).2.1, ?_, ?_⟩
  · intro hp
    refine ⟨aoe_event_mem s d ai nm i _ hi (by simp [aoeEventFor, hne, hg, hp]), rfl, rfl, ?_⟩
    rw [aoe_getHero]
    have : aoeSlotFor s d i = s.playfield[i]? := by simp [aoeSlotFor, hne, hg, hp]
    rw [this]
    exact hg
  · intro hp
    have heff : (if h.defending then ⌈(d : ℚ) / 2⌉ else d) = aoeDamage h d := by
      unfold aoeDamage
      rw [ceilHalf_eq_ceil]
    rw [heff]
    have heff0 : 0 ≤ aoeDamage h d := by
      unfold aoeDamage
      split
      · exact ceilHalf_nonneg d hd
      · exact hd
    obtain ⟨a1, a2, a3, a4⟩ := absorbDamage_general h (aoeDamage h d) heff0
    refine ⟨(damageHero s i h (aoeDamage h d) d "aoe" ai nm).2,
      aoe_event_mem s d ai nm i _ hi (by simp [aoeEventFor, hne, hg, hp]), rfl, rfl, a1, a2, ?_,
      ?_, a3, a4⟩
    · show (absorbDamage h (aoeDamage h d)).2.1 + (absorbDamage h (aoeDamage h d)).2.2 = _
      rw [a2]; omega
    · rw [aoe_getHero]
      show _ = if h.hp - (absorbDamage h (aoeDamage h d)).2.2 ≤ 0 then none else _
      rw [← a3]
      by_cases hdead : (absorbDamage h (aoeDamage h d)).1.hp ≤ 0
      · simp [aoeSlotFor, hne, hg, hp, hdead, Slot.hero?]
      · simp [aoeSlotFor, hne, hg, hp, hdead, Slot.hero?]

/-- An instance of C10: an area attack for 5 on `aoeState` leaves the defending tank
(hp 10) with 7, takes nothing from the protected tank, and leaves the fighter (hp 12)
with 7. -/
theorem aoe_damage_rule_witness :
    (getHero (resolveAoEAttack aoeState 5 0 "Quake").1 0).map (fun h => h.hp) = some 7 ∧
    getHero (resolveAoEAttack aoeState 5 0 "Quake").1 1 = getHero aoeState 1 ∧
    (getHero (resolveAoEAttack aoeState 5 0 "Quake").1 2).map (fun h => h.hp) = some 7 := by
  have h1 := (aoe_damage_rule aoeState 5 0 "Quake" (by decide) 1
    { shieldedTank with protectedTurns := some 1 } (by decide) (by decide)).2.1 (by decide)
  exact ⟨by decide, h1.2.2.2.trans (by decide), by decide⟩

/-- C11. Formation 3 AoE immunity.  The hit events of an area attack are one per
occupied slot that is not exempt, in slot order; the exempt slot is slot 2 under
formation 3 and none otherwise.  Under formation 3 no hit event is for slot 2 and slot
2 is left exactly as it was, occupied or not. -/
theorem formation3_aoe_immunity (s : State) (d : Int) (ai : Nat) (nm : String) :
    (resolveAoEAttack s d ai nm).2.map (fun ev => ev.slot) =
      (List.range s.playfield.length).filter
        (fun i => occupied s i && !decide (s.formation = some 3 ∧ i = 2)) ∧
    (∀ i, ((resolveAoEAttack s d ai nm).2.map (fun ev => ev.slot)).count i =
      if occupied s i = true ∧ ¬ (s.formation = some 3 ∧ i = 2) then 1 else 0) ∧
    (s.formation = some 3 →
      (∀ ev ∈ (resolveAoEAttack s d ai nm).2, ev.slot ≠ 2) ∧
      (resolveAoEAttack s d ai nm).1.playfield[2]? = s.playfield[2]?) := by
  have hs := aoe_slots s d ai nm
  unfold aoeExempt at hs
  refine ⟨hs, ?_, ?_⟩
  · intro i
    rw [hs, List.count_eq_of_nodup ((List.nodup_range _).filter _)]
    by_cases ho : occupied s i = true
    · have hlt := occupied_lt s i ho
      by_cases hx : s.formation = some 3 ∧ i = 2
      · simp [List.mem_filter, ho, hx]
      · simp [List.mem_filter, ho, hx, hlt]
    · simp [List.mem_filter, ho]
  · intro h3
    refine ⟨?_, ?_⟩
    · intro ev hev h2
      have hm : ev.slot ∈ (resolveAoEAttack s d ai nm).2.map (fun ev => ev.slot) :=
        List.mem_map.mpr ⟨ev, hev, rfl⟩
      rw [hs, List.mem_filter, h2] at hm
      simp [h3] at hm
    · rw [(resolveAoEAttack_spec s d ai nm).2.2 2]
      simp [aoeSlotFor, aoeExempt, h3]

/-- An instance of C11: on the full playfield `aoeState` an area attack produces hit
events for slots 0, 1, 2 under the default formation and for slots 0, 1 only under
formation 3, which leaves the fighter of slot 2 as it was. -/
theorem formation3_aoe_immunity_witness :
    (resolveAoEAttack aoeState 5 0 "Quake").2.map (fun ev => ev.slot) = [0, 1, 2] ∧
    (resolveAoEAttack { aoeState with formation := some 3 } 5 0 "Quake").2.map
      (fun ev => ev.slot) = [0, 1] ∧
    (resolveAoEAttack { aoeState with formation := some 3 } 5 0 "Quake").1.playfield[2]?
      = aoeState.playfield[2]? :=
  ⟨(formation3_aoe_immunity aoeState 5 0 "Quake").1.trans (by decide),
    (formation3_aoe_immunity { aoeState with formation := some 3 } 5 0 "Quake").1.trans
      (by decide),
    ((formation3_aoe_immunity { aoeState with formation := some 3 } 5 0 "Quake").2.2 rfl).2⟩

/-! ## C12: the stunned enemy turn -/

theorem view_mapHeroes {α : Type} (g : Hero → α) (f : Hero → Hero) (pf : List Slot) (i : Nat)
    (hf : ∀ h, g (f h) = g h) :
    ((mapHeroes f pf)[i]?.bind Slot.hero?).map g = (pf[i]?.bind Slot.hero?).map g := by
  unfold mapHeroes
  rw [List.getElem?_map]
  cases pf[i]? with
  | none => rfl
  | some sl =>
    cases sl with
    | null => rfl
    | hole => rfl
    | hero h => simp [Slot.hero?, hf h]

theorem view_syncIconsFrom {α : Type} (g : Hero → α)
    (hg : ∀ (h : Hero) (icons : Option (List StatusIcon)), g { h with statusIcons := icons } = g h)
    (keep : Nat → Hero → StatusIcon → Bool) (pf : List Slot) (k i : Nat) :
    ((syncIconsFrom keep pf k)[i]?.bind Slot.hero?).map g = (pf[i]?.bind Slot.hero?).map g := by
  induction pf generalizing k i with
  | nil => rfl
  | cons sl rest ih =>
    cases sl with
    | null =>
      cases i with
      | zero => simp [syncIconsFrom, Slot.hero?]
      | succ i => simpa [syncIconsFrom] using ih (k + 1) i
    | hole =>
      cases i with
      | zero => simp [syncIconsFrom, Slot.hero?]
      | succ i => simpa [syncIconsFrom] using ih (k + 1) i
    | hero h =>
      cases i with
      | zero => simp [syncIconsFrom, Slot.hero?, hg]
      | succ i => simpa [syncIconsFrom] using ih (k + 1) i

theorem decProtection_vitals (h : Hero) :
    ((decProtection h).hp, (decProtection h).tempHp) = (h.hp, h.tempHp) := by
  unfold decProtection
  repeat' split
  all_goals rfl

/-- The housekeeping of either branch changes no hero's hp or temp HP. -/
theorem housekeeping_vitals (s : State) (evs : List Event) (i : Nat) :
    (getHero (housekeepingStunned s evs).1 i).map (fun h => (h.hp, h.tempHp)) =
      (getHero s i).map (fun h => (h.hp, h.tempHp)) ∧
    (getHero (housekeepingNormal s evs).1 i).map (fun h => (h.hp, h.tempHp)) =
      (getHero s i).map (fun h => (h.hp, h.tempHp)) := by
  have hreset : ((resetRound s).playfield[i]?.bind Slot.hero?).map (fun h => (h.hp, h.tempHp)) =
      (s.playfield[i]?.bind Slot.hero?).map (fun h => (h.hp, h.tempHp)) := by
    unfold resetRound
    dsimp only
    rw [view_mapHeroes, view_mapHeroes, view_mapHeroes]
    all_goals (intro h; rfl)
  constructor
  · unfold housekeepingStunned getHero
    dsimp only
    rw [view_syncIconsFrom (fun h => (h.hp, h.tempHp)) (fun _ _ => rfl),
      view_mapHeroes _ _ _ _ decProtection_vitals, hreset]
  · unfold housekeepingNormal getHero
    dsimp only
    rw [view_syncIconsFrom (fun h => (h.hp, h.tempHp)) (fun _ _ => rfl),
      view_mapHeroes _ _ _ _ decProtection_vitals, hreset]

theorem prelude_vitals (pf : List Slot) (i : Nat) :
    ((mapHeroes decBlind (mapHeroes decStunEnfeeble pf))[i]?.bind Slot.hero?).map
      (fun h => (h.hp, h.tempHp)) = (pf[i]?.bind Slot.hero?).map (fun h => (h.hp, h.tempHp)) := by
  rw [view_mapHeroes, view_mapHeroes]
  all_goals (intro h; rfl)

theorem pendingStunned_kinds (l : List PendingEffect) (acc : PendingAcc) :
    ∃ extra, (l.foldl pendingStepStunned acc).events = acc.events ++ extra ∧
      ∀ e ∈ extra, e.isEnemyDamage = true := by
  induction l generalizing acc with
  | nil => exact ⟨[], by simp, fun e he => by cases he⟩
  | cons eff l ih =>
    obtain ⟨x2, h2, q2⟩ := ih (pendingStepStunned acc eff)
    have h1 : ∃ x1, (pendingStepStunned acc eff).events = acc.events ++ x1 ∧
        ∀ e ∈ x1, e.isEnemyDamage = true := by
      unfold pendingStepStunned
      split
      · split
        · refine ⟨_, rfl, ?_⟩
          intro e he
          simp only [List.mem_singleton] at he
          rw [he]; rfl
        · exact ⟨[], by simp, fun e he => by cases he⟩
      · exact ⟨[], by simp, fun e he => by cases he⟩
    obtain ⟨x1, h1, q1⟩ := h1
    refine ⟨x1 ++ x2, by rw [List.foldl_cons, h2, h1, List.append_assoc], ?_⟩
    intro e he
    rcases List.mem_append.mp he with h | h
    · exact q1 e h
    · exact q2 e h

/-- C12. Stunned enemy turn: when `enemy.stunnedTurns > 0`, `enemyAct` raises `turn`
by one, lowers `enemy.stunnedTurns` by exactly one, performs no attack (no random
draw, no hero's hp or temp HP changes, no hero leaves the playfield or is exhausted),
resets `ap` to `apPerTurn`, and returns `did = 'enemyStunned'` with the `stunned`
event first, followed only by `enemyDamage` events. -/
theorem stunned_enemy_turn (s : State) (hst : 0 < s.enemy.stunnedTurns) :
    (enemyAct s).1.turn = s.turn + 1 ∧
    (enemyAct s).1.enemy.stunnedTurns + 1 = s.enemy.stunnedTurns ∧
    (enemyAct s).1.ap = s.apPerTurn ∧
    (enemyAct s).1.rng = s.rng ∧
    (enemyAct s).1.exhaustedThisEncounter = s.exhaustedThisEncounter ∧
    (∀ i, (getHero (enemyAct s).1 i).map (fun h => (h.hp, h.tempHp)) =
      (getHero s i).map (fun h => (h.hp, h.tempHp))) ∧
    (enemyAct s).2.did = "enemyStunned" ∧
    ∃ rest, (enemyAct s).2.events = Event.stunned :: rest ∧
      ∀ e ∈ rest, e.isEnemyDamage = true := by
  have hbranch : enemyAct s =
      ((housekeepingStunned
          { s with turn := s.turn + 1,
                   playfield := mapHeroes decBlind (mapHeroes decStunEnfeeble s.playfield),
                   enemy := { s.enemy with stunnedTurns := s.enemy.stunnedTurns - 1 } } []).1,
        { did := "enemyStunned",
          events := Event.stunned ::
            (housekeepingStunned
              { s with turn := s.turn + 1,
                       playfield := mapHeroes decBlind (mapHeroes decStunEnfeeble s.playfield),
                       enemy := { s.enemy with stunnedTurns := s.enemy.stunnedTurns - 1 } } []).2 }) := by
    unfold enemyAct
    dsimp only
    rw [if_pos hst]
  rw [hbranch]
  refine ⟨rfl, ?_, rfl, rfl, rfl, ?_, rfl, ?_⟩
  · show s.enemy.stunnedTurns - 1 + 1 = s.enemy.stunnedTurns
    omega
  · intro i
    rw [(housekeeping_vitals _ _ i).1]
    exact prelude_vitals s.playfield i
  · obtain ⟨extra, h1, q1⟩ := pendingStunned_kinds
      (resetRound
        { s with turn := s.turn + 1,
                 playfield := mapHeroes decBlind (mapHeroes decStunEnfeeble s.playfield),
                 enemy := { s.enemy with stunnedTurns := s.enemy.stunnedTurns - 1 } }).pendingEffects
      { enemyHp := s.enemy.hp, events := [], remaining := [] }
    refine ⟨extra, ?_, q1⟩
    exact congrArg (List.cons Event.stunned) h1

/-- The scenario of C12: with `stunnedTurns` 1 the ogre skips its turn; the counter
becomes 0, `ap` is `apPerTurn` again, and the one event is `stunned`. -/
theorem stunned_enemy_turn_witness :
    (enemyAct stunnedOgreState).1.enemy.stunnedTurns = 0 ∧
    (enemyAct stunnedOgreState).1.ap = stunnedOgreState.apPerTurn ∧
    (enemyAct stunnedOgreState).2 = { did := "enemyStunned", events := [Event.stunned] } := by
  have h := stunned_enemy_turn stunnedOgreState (by decide)
  exact ⟨by have := h.2.1; simpa [stunnedOgreState] using this, h.2.2.1, by decide⟩

/-! ## The two copies of the housekeeping, off the path of the engine -/

/-- The two copies of the housekeeping are not the same function. The icon filter of the
stunned branch has no case for `blind`: on a state whose hero has `blindedTurns` 1 and the
`blind` icon, the stunned branch's copy drops the icon and the normal branch's keeps it. The
requeue test also sits at different depths: an `afterEnemy` effect that is not a
`delayedDamage`, with `times` 2, is requeued by the stunned branch's copy and dropped by the
normal one. The engine hands neither kind of state to the stunned branch's copy: it queues
delayed damage only, and a hero is blinded only by an attack, which the stunned branch does
not make. -/
theorem housekeeping_copies_differ_off_path :
    (getHero (housekeepingStunned (loneHeroState blindedTank) []).1 0).map
      (fun h => h.statusIcons) = some (some []) ∧
    (getHero (housekeepingNormal (loneHeroState blindedTank) []).1 0).map
      (fun h => h.statusIcons) = some (some [{ id := "blind", source := "ogre" }]) ∧
    (housekeepingStunned { loneHeroState hurtTank with pendingEffects := [oddEffect] } []).1.pendingEffects
      = [{ oddEffect with times := some 1 }] ∧
    (housekeepingNormal { loneHeroState hurtTank with pendingEffects := [oddEffect] } []).1.pendingEffects
      = [] := by
  refine ⟨?_, ?_, ?_, ?_⟩ <;> decide

/-! ## C14: pending effects fire once per enemy turn -/

theorem SameBut.fields {a b : State} (h : SameBut a b) :
    b.enemy = a.enemy ∧ b.pendingEffects = a.pendingEffects ∧ b.summonUsed = a.summonUsed ∧
    b.summonCooldowns = a.summonCooldowns ∧ b.abilityCooldowns = a.abilityCooldowns ∧
    b.supportUsed = a.supportUsed ∧ b.ap = a.ap ∧ b.turn = a.turn ∧ b.hand = a.hand ∧
    b.nextHeroInstanceId = a.nextHeroInstanceId ∧ b.formation = a.formation ∧
    b.nextAttackMultiplier = a.nextAttackMultiplier := by
  unfold SameBut at h
  rw [h]
  exact ⟨rfl, rfl, rfl, rfl, rfl, rfl, rfl, rfl, rfl, rfl, rfl, rfl⟩

/-- What the attack phase leaves alone. -/
theorem attackPhase_fields (s : State) :
    (attackPhase s).1.enemy.hp = s.enemy.hp ∧
    (attackPhase s).1.enemy.stunnedTurns = s.enemy.stunnedTurns ∧
    (attackPhase s).1.enemy.attacks = s.enemy.attacks ∧
    (attackPhase s).1.pendingEffects = s.pendingEffects ∧
    (attackPhase s).1.summonUsed = s.summonUsed ∧
    (attackPhase s).1.summonCooldowns = s.summonCooldowns ∧
    (attackPhase s).1.abilityCooldowns = s.abilityCooldowns ∧
    (attackPhase s).1.supportUsed = s.supportUsed ∧
    (attackPhase s).1.hand = s.hand ∧
    (attackPhase s).1.nextHeroInstanceId = s.nextHeroInstanceId ∧
    (attackPhase s).1.formation = s.formation ∧
    (attackPhase s).1.nextAttackMultiplier = s.nextAttackMultiplier ∧
    (attackPhase s).1.turn = s.turn := by
  obtain ⟨b, hb⟩ := attackPhase_frame s
  obtain ⟨h1, h2, h3, h4, h5, h6, h7, h8, h9, h10, h11, h12⟩ := hb.fields
  rw [h1, h2, h3, h4, h5, h6, h8, h9, h10, h11, h12]
  exact ⟨rfl, rfl, rfl, rfl, rfl, rfl, rfl, rfl, rfl, rfl, rfl, rfl, rfl⟩

theorem pendingNormal_fold (l : List PendingEffect)
    (hl : ∀ e ∈ l, e.type = "delayedDamage" ∧ e.trigger = "afterEnemy") (acc : PendingAcc) :
    (l.foldl pendingStepNormal acc).enemyHp = l.foldl (fun hp e => max 0 (hp - e.dmg)) acc.enemyHp ∧
    (l.foldl pendingStepNormal acc).remaining = acc.remaining ++ requeueAll l := by
  induction l generalizing acc with
  | nil => simp [requeueAll]
  | cons e rest ih =>
    have he := hl e (List.mem_cons_self _ _)
    have hstep : pendingStepNormal acc e =
        { acc with enemyHp := max 0 (acc.enemyHp - e.dmg),
                   events := acc.events ++
                     [Event.enemyDamage e.id e.slot e.dmg (max 0 (acc.enemyHp - e.dmg)) e.sourceName],
                   remaining := acc.remaining ++ requeue e } := by
      unfold pendingStepNormal
      rw [if_pos he.2, if_pos he.1]
    obtain ⟨i1, i2⟩ := ih (fun x hx => hl x (List.mem_cons_of_mem _ hx)) (pendingStepNormal acc e)
    rw [List.foldl_cons, i1, i2, hstep]
    simp [requeueAll]

theorem pendingStunned_fold (l : List PendingEffect)
    (hl : ∀ e ∈ l, e.type = "delayedDamage" ∧ e.trigger = "afterEnemy") (acc : PendingAcc) :
    (l.foldl pendingStepStunned acc).enemyHp = l.foldl (fun hp e => max 0 (hp - e.dmg)) acc.enemyHp ∧
    (l.foldl pendingStepStunned acc).remaining = acc.remaining ++ requeueAll l := by
  induction l generalizing acc with
  | nil => simp [requeueAll]
  | cons e rest ih =>
    have he := hl e (List.mem_cons_self _ _)
    have hstep : pendingStepStunned acc e =
        { acc with enemyHp := max 0 (acc.enemyHp - e.dmg),
                   events := acc.events ++
                     [Event.enemyDamage e.id e.slot e.dmg (max 0 (acc.enemyHp - e.dmg)) e.sourceName],
                   remaining := acc.remaining ++ requeue e } := by
      unfold pendingStepStunned
      rw [if_pos he.2, if_pos he.1]
    obtain ⟨i1, i2⟩ := ih (fun x hx => hl x (List.mem_cons_of_mem _ hx)) (pendingStepStunned acc e)
    rw [List.foldl_cons, i1, i2, hstep]
    simp [requeueAll]

/-- One enemy turn, stunned or not, on a list of delayed-damage entries: each takes
its damage from the enemy's hp, clamped at 0, in order, and is requeued or dropped. -/
theorem enemyAct_pending (s : State)
    (hl : ∀ e ∈ s.pendingEffects, e.type = "delayedDamage" ∧ e.trigger = "afterEnemy") :
    (enemyAct s).1.enemy.hp =
      s.pendingEffects.foldl (fun hp e => max 0 (hp - e.dmg)) s.enemy.hp ∧
    (enemyAct s).1.pendingEffects = requeueAll s.pendingEffects := by
  unfold enemyAct
  dsimp only
  split
  · unfold housekeepingStunned
    dsimp only
    obtain ⟨i1, i2⟩ := pendingStunned_fold s.pendingEffects hl
      { enemyHp := s.enemy.hp, events := [], remaining := [] }
    exact ⟨i1, by simpa using i2⟩
  · unfold housekeepingNormal
    dsimp only
    obtain ⟨f1, _, _, f4, _⟩ := attackPhase_fields
      { s with turn := s.turn + 1,
               playfield := mapHeroes decBlind (mapHeroes decStunEnfeeble s.playfield),
               rng := (s.rng.int 2).2 }
    have hres : ∀ t : State, (resetRound t).pendingEffects = t.pendingEffects ∧
        (resetRound t).enemy = t.enemy := fun _ => ⟨rfl, rfl⟩
    rw [(hres _).1, (hres _).2, f4, f1]
    obtain ⟨i1, i2⟩ := pendingNormal_fold s.pendingEffects hl
      { enemyHp := s.enemy.hp,
        events := (attackPhase
          { s with turn := s.turn + 1,
                   playfield := mapHeroes decBlind (mapHeroes decStunEnfeeble s.playfield),
                   rng := (s.rng.int 2).2 }).2,
        remaining := [] }
    exact ⟨i1, by simpa using i2⟩

theorem enemyTurns_succ (k : Nat) (s : State) :
    enemyTurns (k + 1) s = enemyTurns k (enemyAct s).1 := by
  unfold enemyTurns run
  rw [List.replicate_succ, List.foldl_cons]
  rfl

theorem enemyTurns_no_pending (k : Nat) (s : State) (hp : s.pendingEffects = []) :
    (enemyTurns k s).enemy.hp = s.enemy.hp ∧ (enemyTurns k s).pendingEffects = [] := by
  induction k generalizing s with
  | zero => exact ⟨rfl, hp⟩
  | succ k ih =>
    rw [enemyTurns_succ]
    obtain ⟨h1, h2⟩ := enemyAct_pending s (by rw [hp]; intro e he; cases he)
    rw [hp] at h1 h2
    obtain ⟨i1, i2⟩ := ih (enemyAct s).1 h2
    exact ⟨i1.trans h1, i2⟩

theorem enemyTurns_single (k : Nat) :
    ∀ (s : State) (e : PendingEffect) (n : Nat), 1 ≤ n → e.type = "delayedDamage" →
      e.trigger = "afterEnemy" → (e.times = some (n : Int) ∨ (n = 1 ∧ e.times = none)) →
      s.pendingEffects = [e] →
      (enemyTurns k s).enemy.hp = clampTimes (min k n) e.dmg s.enemy.hp ∧
      (1 ≤ k → (enemyTurns k s).pendingEffects =
        if k < n then [{ e with times := some ((n : Int) - (k : Int)) }] else []) := by
  induction k with
  | zero =>
    intro s e n _ _ _ _ _
    refine ⟨?_, fun h => absurd h (by decide)⟩
    rw [Nat.zero_min]
    rfl
  | succ k ih =>
    intro s e n hn hty htr htimes hp
    rw [enemyTurns_succ]
    obtain ⟨h1, h2⟩ := enemyAct_pending s (by
      rw [hp]; intro x hx
      simp only [List.mem_singleton] at hx
      rw [hx]; exact ⟨hty, htr⟩)
    rw [hp] at h1 h2
    simp only [List.foldl_cons, List.foldl_nil, requeueAll, List.append_nil] at h1 h2
    by_cases hn1 : n = 1
    · subst hn1
      have hq : requeue e = [] := by
        unfold requeue
        rcases htimes with ht | ⟨_, ht⟩
        · rw [ht]; simp
        · rw [ht]
      rw [hq] at h2
      obtain ⟨i1, i2⟩ := enemyTurns_no_pending k _ h2
      refine ⟨?_, fun _ => ?_⟩
      · rw [i1, h1]
        have : min (k + 1) 1 = 1 := by omega
        rw [this]
        rfl
      · rw [i2, if_neg (by omega)]
    · have hn2 : 2 ≤ n := by omega
      have ht : e.times = some (n : Int) := by
        rcases htimes with ht | ⟨h1', _⟩
        · exact ht
        · exact absurd h1' hn1
      have hq : requeue e = [{ e with times := some ((n : Int) - 1) }] := by
        unfold requeue
        rw [ht]
        have : (n : Int) > 1 := by omega
        simp [this]
      rw [hq] at h2
      have hcast : ((n - 1 : Nat) : Int) = (n : Int) - 1 := by omega
      obtain ⟨i1, i2⟩ := ih (enemyAct s).1 { e with times := some ((n : Int) - 1) } (n - 1)
        (by omega) hty htr (Or.inl (by rw [hcast])) h2
      refine ⟨?_, fun _ => ?_⟩
      · rw [i1, h1]
        have : min (k + 1) n = min k (n - 1) + 1 := by omega
        rw [this]
        rfl
      · by_cases hk : 1 ≤ k
        · rw [i2 hk]
          by_cases hlt : k < n - 1
          · rw [if_pos hlt, if_pos (by omega)]
            have : ((n - 1 : Nat) : Int) - (k : Int) = (n : Int) - ((k + 1 : Nat) : Int) := by omega
            simp only [this]
          · rw [if_neg hlt, if_neg (by omega)]
        · have hk0 : k = 0 := by omega
          subst hk0
          rw [if_pos (by omega)]
          show (enemyAct s).1.pendingEffects = _
          rw [h2]
          simp

/-- C14. Pending effects fire exactly once per enemy turn.  In an `enemyAct` call,
stunned or not, every delayed-damage entry triggering after the enemy takes its damage
from the enemy's hp, clamped at 0, in queue order, and is kept with `times` lowered by
one when `times` is above 1 and dropped otherwise.  Hence a single entry with damage
`d` and repeat count `n` (`n = 1` when `times` is absent) has taken `d`, clamped,
`min(k, n)` times after `k` enemy turns, and is gone from `pendingEffects` from the
`n`-th turn on. -/
theorem pending_effects_fire :
    (∀ s : State,
      (∀ e ∈ s.pendingEffects, e.type = "delayedDamage" ∧ e.trigger = "afterEnemy") →
      (enemyAct s).1.enemy.hp =
        s.pendingEffects.foldl (fun hp e => max 0 (hp - e.dmg)) s.enemy.hp ∧
      (enemyAct s).1.pendingEffects = requeueAll s.pendingEffects) ∧
    (∀ (k : Nat) (s : State) (e : PendingEffect) (n : Nat), 1 ≤ n →
      e.type = "delayedDamage" → e.trigger = "afterEnemy" →
      (e.times = some (n : Int) ∨ (n = 1 ∧ e.times = none)) →
      s.pendingEffects = [e] →
      (enemyTurns k s).enemy.hp = clampTimes (min k n) e.dmg s.enemy.hp ∧
      (1 ≤ k → (enemyTurns k s).pendingEffects =
        if k < n then [{ e with times := some ((n : Int) - (k : Int)) }] else [])) :=
  ⟨enemyAct_pending, enemyTurns_single⟩

/-- The scenarios of C14 against an enemy with 30 hit points: bjurganmyr deals 8 at
once (22 left) and 8 after each of the next two enemy turns (14, then 6), nothing on
the third; lumalia deals 6 after the next enemy turn only (24 left). -/
theorem pending_effects_fire_witness :
    (afterSupport bjurganmyr).enemy.hp = 22 ∧
    (enemyTurns 1 (afterSupport bjurganmyr)).enemy.hp = 14 ∧
    (enemyTurns 2 (afterSupport bjurganmyr)).enemy.hp = 6 ∧
    (enemyTurns 3 (afterSupport bjurganmyr)).enemy.hp = 6 ∧
    (enemyTurns 2 (afterSupport bjurganmyr)).pendingEffects = [] ∧
    (enemyTurns 1 (afterSupport lumalia)).enemy.hp = 24 ∧
    (enemyTurns 2 (afterSupport lumalia)).enemy.hp = 24 ∧
    (enemyTurns 1 (afterSupport lumalia)).pendingEffects = [] := by
  have hb := fun k => pending_effects_fire.2 k (afterSupport bjurganmyr)
    (delayedDamage "bjurganmyr" 0 8 (some 2) "Bjurganmyr") 2 (by decide) rfl rfl
    (Or.inl rfl) (by decide)
  have hl := fun k => pending_effects_fire.2 k (afterSupport lumalia)
    (delayedDamage "lumalia" 0 6 none "Lumalia") 1 (by decide) rfl rfl
    (Or.inr ⟨rfl, rfl⟩) (by decide)
  refine ⟨by decide, (hb 1).1.trans (by decide), (hb 2).1.trans (by decide),
    (hb 3).1.trans (by decide), ((hb 2).2 (by decide)).trans (by decide),
    (hl 1).1.trans (by decide), (hl 2).1.trans (by decide),
    ((hl 1).2 (by decide)).trans (by decide)⟩

/-! ## C15: the once-per-round support gate -/

theorem dictGet_dictSet_self {κ α : Type} [DecidableEq κ] (d : List (κ × α)) (k : κ) (v : α) :
    dictGet (dictSet d k v) k = some v := by
  induction d with
  | nil => simp [dictSet, dictGet]
  | cons kv rest ih =>
    obtain ⟨k', v'⟩ := kv
    by_cases hk : k' = k
    · simp [dictSet, dictGet, hk]
    · simp [dictSet, dictGet, hk, ih]

theorem dictGet_dictSet_ne {κ α : Type} [DecidableEq κ] (d : List (κ × α)) (k x : κ) (v : α)
    (hx : k ≠ x) : dictGet (dictSet d k v) x = dictGet d x := by
  induction d with
  | nil => simp [dictSet, dictGet, hx]
  | cons kv rest ih =>
    obtain ⟨k', v'⟩ := kv
    by_cases hk : k' = k
    · subst hk
      simp [dictSet, dictGet, hx]
    · by_cases hkx : k' = x
      · subst hkx
        simp [dictSet, dictGet, hk]
      · simp [dictSet, dictGet, hk, hkx, ih]

theorem dictGet_dictSet_true (d : List (String × Bool)) (k x : String)
    (h : dictGet d x = some true) : dictGet (dictSet d k true) x = some true := by
  by_cases hkx : k = x
  · subst hkx; exact dictGet_dictSet_self d k true
  · rw [dictGet_dictSet_ne d k x true hkx]; exact h

theorem chargeSupport_marks (s : State) (id : String) :
    dictGet (chargeSupport s id).supportUsed id = some true ∧
    ∀ X, dictGet s.supportUsed X = some true →
      dictGet (chargeSupport s id).supportUsed X = some true :=
  ⟨dictGet_dictSet_self _ _ _, fun X h => dictGet_dictSet_true _ _ X h⟩

theorem scoutRally_marks (s : State) (i : Nat) (key : AbilityKey) (cd : Int) :
    MarksOwn "scout" (scoutRally s i key cd) ∧ KeepsMarks s (scoutRally s i key cd) := by
  unfold scoutRally MarksOwn KeepsMarks
  split
  · exact ⟨by simp [Result.success], fun _ h => h⟩
  · exact ⟨fun _ => ⟨by decide, dictGet_dictSet_self _ _ _⟩,
      fun X h => dictGet_dictSet_true _ _ X h⟩

theorem scoutAssist_marks (s : State) (i : Nat) (key : AbilityKey) (c : Ability) (t : Target) :
    MarksOwn "scout" (scoutAssist s i key c t) ∧ KeepsMarks s (scoutAssist s i key c t) := by
  unfold scoutAssist MarksOwn KeepsMarks
  repeat' split
  · exact ⟨fun _ => ⟨by decide, dictGet_dictSet_self _ _ _⟩,
      fun X h => dictGet_dictSet_true _ _ X h⟩
  · exact ⟨by simp [Result.success], fun _ h => h⟩
  · exact ⟨by simp [Result.success], fun _ h => h⟩

theorem earlySupport_marks (s : State) (i : Nat) (hero : Hero) (hid hname : String)
    (r : State × Result) (hr : earlySupport s i hero hid hname = some r) :
    MarksOwn hid r ∧ KeepsMarks s r := by
  revert hr; unfold earlySupport MarksOwn KeepsMarks; simp only
  repeat' split
  all_goals (intro hr; simp at hr; try subst hr)
  all_goals (rename_i hid'; subst hid')
  all_goals exact ⟨fun _ => ⟨by decide, dictGet_dictSet_self _ _ _⟩,
      fun X h => dictGet_dictSet_true _ _ X h⟩

theorem scoutSupport_marks (s : State) (i : Nat) (hero : Hero) (t : Target) (ai : Option Nat)
    (r : State × Result) (hr : scoutSupport s i hero t ai = some r) :
    MarksOwn "scout" r ∧ KeepsMarks s r := by
  revert hr; unfold scoutSupport; simp only
  repeat' split
  all_goals (intro hr; simp at hr; try subst hr)
  · exact scoutRally_marks _ _ _ _
  · exact scoutAssist_marks _ _ _ _ _
  · exact scoutRally_marks _ _ _ _

theorem lateSupport_marks (s : State) (i : Nat) (hid hname : String) (t : Target) :
    MarksOwn hid (lateSupport s i hid hname t) ∧ KeepsMarks s (lateSupport s i hid hname t) := by
  unfold lateSupport
  split
  · rename_i h; subst h
    unfold willisSupport MarksOwn KeepsMarks
    repeat' split
    · exact ⟨fun _ => ⟨by decide, dictGet_dictSet_self _ _ _⟩,
        fun X h => dictGet_dictSet_true _ _ X h⟩
    · exact ⟨by simp [Result.success], fun _ h => h⟩
    · exact ⟨by simp [Result.success], fun _ h => h⟩
  · split
    · rename_i h; subst h
      exact ⟨fun _ => ⟨by decide, dictGet_dictSet_self _ _ _⟩,
        fun X h => dictGet_dictSet_true _ _ X h⟩
    · split
      · rename_i h; subst h
        exact ⟨fun _ => ⟨by decide, dictGet_dictSet_self _ _ _⟩,
          fun X h => dictGet_dictSet_true _ _ X h⟩
      · split
        · rename_i h; subst h
          exact ⟨fun _ => ⟨by decide, dictGet_dictSet_self _ _ _⟩,
            fun X h => dictGet_dictSet_true _ _ X h⟩
        · split
          · rename_i h; subst h
            unfold kieferSupport MarksOwn KeepsMarks
            dsimp only
            split
            · exact ⟨fun _ => ⟨by decide, dictGet_dictSet_self _ _ _⟩,
                fun X h => dictGet_dictSet_true _ _ X h⟩
            · exact ⟨fun _ => ⟨by decide, dictGet_dictSet_self _ _ _⟩,
                fun X h => dictGet_dictSet_true _ _ X h⟩
          · exact ⟨by simp [MarksOwn, Result.success], fun _ h => h⟩

theorem supportAction_marks (s : State) (i : Nat) (hero : Hero) (t : Target) (ai : Option Nat) :
    MarksOwn (heroId hero) (supportAction s i hero t ai) ∧
    KeepsMarks s (supportAction s i hero t ai) := by
  unfold supportAction
  simp only
  split
  · exact ⟨by simp [MarksOwn, Result.success], fun _ h => h⟩
  · split
    · rename_i r hr
      exact earlySupport_marks _ _ _ _ _ _ hr
    · split
      · rename_i r hr
        split at hr
        · rename_i hsc
          rw [hsc]
          exact scoutSupport_marks _ _ _ _ _ _ hr
        · simp at hr
      · exact lateSupport_marks _ _ _ _ _

theorem placeHero_supportUsed (s : State) (i : Nat) (c : Option Card) :
    (placeHero s i c).1.supportUsed = s.supportUsed ∧
    (placeHero s i c).1.abilityCooldowns = s.abilityCooldowns ∧
    (placeHero s i c).1.summonUsed = s.summonUsed := by
  unfold placeHero
  dsimp only
  repeat' split
  all_goals exact ⟨rfl, rfl, rfl⟩

theorem replaceHero_supportUsed (s : State) (i : Nat) (c : Option Card) :
    (replaceHero s i c).1.supportUsed = s.supportUsed ∧
    (replaceHero s i c).1.abilityCooldowns = s.abilityCooldowns ∧
    (replaceHero s i c).1.summonUsed = s.summonUsed := by
  unfold replaceHero
  dsimp only
  repeat' split
  all_goals exact ⟨rfl, rfl, rfl⟩

theorem defendHero_supportUsed (s : State) (i : Nat) :
    (defendHero s i).1.supportUsed = s.supportUsed ∧
    (defendHero s i).1.abilityCooldowns = s.abilityCooldowns ∧
    (defendHero s i).1.summonUsed = s.summonUsed := by
  unfold defendHero
  dsimp only
  repeat' split
  all_goals exact ⟨rfl, rfl, rfl⟩

theorem playHeroAttack_supportUsed (s : State) (i : Nat) (ai : Option Nat) :
    (playHeroAttack s i ai).1.supportUsed = s.supportUsed ∧
    (playHeroAttack s i ai).1.abilityCooldowns = s.abilityCooldowns ∧
    (playHeroAttack s i ai).1.summonUsed = s.summonUsed := by
  unfold playHeroAttack
  dsimp only
  repeat' split
  all_goals exact ⟨rfl, rfl, rfl⟩

theorem resolveHeal_supportUsed (s : State) (i : Nat) (amount : Nat) (t : Target) :
    (resolveHeal s i amount t).1.supportUsed = s.supportUsed ∧
    (resolveHeal s i amount t).1.abilityCooldowns = s.abilityCooldowns ∧
    (resolveHeal s i amount t).1.summonUsed = s.summonUsed := by
  unfold resolveHeal
  dsimp only
  repeat' split
  all_goals exact ⟨rfl, rfl, rfl⟩

theorem summonEffect_supportUsed (s : State) (d : SummonDef) (t : Target) (s1 : State)
    (h : summonEffect s d t = some s1) :
    s1.supportUsed = s.supportUsed ∧ s1.abilityCooldowns = s.abilityCooldowns ∧
    s1.summonUsed = s.summonUsed ∧ s1.summonCooldowns = s.summonCooldowns := by
  revert h; unfold summonEffect
  dsimp only
  repeat' split
  all_goals (intro h; simp at h; try subst h)
  all_goals exact ⟨rfl, rfl, rfl, rfl⟩

theorem markSummon_supportUsed (s : State) (d : SummonDef) :
    (markSummon s d).supportUsed = s.supportUsed ∧
    (markSummon s d).abilityCooldowns = s.abilityCooldowns := by
  unfold markSummon
  repeat' split
  all_goals exact ⟨rfl, rfl⟩

theorem useSummon_supportUsed (s : State) (d : Option SummonDef) (t : Target) :
    (useSummon s d t).1.supportUsed = s.supportUsed ∧
    (useSummon s d t).1.abilityCooldowns = s.abilityCooldowns := by
  unfold useSummon
  repeat' split
  all_goals first
    | exact ⟨rfl, rfl⟩
    | (rename_i h
       exact ⟨(markSummon_supportUsed _ _).1.trans (summonEffect_supportUsed _ _ _ _ h).1,
         (markSummon_supportUsed _ _).2.trans (summonEffect_supportUsed _ _ _ _ h).2.1⟩)

theorem playHeroAction_keepsMarks (s : State) (i : Nat) (t : Target) (ai : Option Nat) :
    KeepsMarks s (playHeroAction s i t ai) := by
  unfold playHeroAction
  dsimp only
  repeat' split
  all_goals first
    | exact fun _ h => h
    | exact (supportAction_marks _ _ _ _ _).2
    | (intro X h; rw [(playHeroAttack_supportUsed _ _ _).1]; exact h)
    | (intro X h; rw [(resolveHeal_supportUsed _ _ _ _).1]; exact h)

theorem step_keepsMarks (s : State) (op : Op) (hop : op ≠ Op.enemyAct) (X : String)
    (h : dictGet s.supportUsed X = some true) :
    dictGet (step s op).supportUsed X = some true := by
  cases op with
  | placeHero i c => simp only [step]; rw [(placeHero_supportUsed _ _ _).1]; exact h
  | replaceHero i c => simp only [step]; rw [(replaceHero_supportUsed _ _ _).1]; exact h
  | defendHero i => simp only [step]; rw [(defendHero_supportUsed _ _).1]; exact h
  | playHeroAttack i ai => simp only [step]; rw [(playHeroAttack_supportUsed _ _ _).1]; exact h
  | playHeroAction i t ai => exact playHeroAction_keepsMarks s i t ai X h
  | useSummon d t => simp only [step]; rw [(useSummon_supportUsed _ _ _).1]; exact h
  | enemyAct => exact absurd rfl hop
  | setFormation f => exact h

theorem run_keepsMarks (ops : List Op) (s : State) (hops : ∀ op ∈ ops, op ≠ Op.enemyAct)
    (X : String) (h : dictGet s.supportUsed X = some true) :
    dictGet (run s ops).supportUsed X = some true := by
  induction ops generalizing s with
  | nil => exact h
  | cons op rest ih =>
    have h1 := step_keepsMarks s op (hops op (List.mem_cons_self _ _)) X h
    exact ih (step s op) (fun o ho => hops o (List.mem_cons_of_mem _ ho)) h1

theorem truthyAt_of_mark (d : List (String × Bool)) (k : String)
    (h : dictGet d k = some true) : truthyAt d k = true := by
  unfold truthyAt
  split
  · rfl
  · rw [h]

theorem truthyAt_unmarked (d : List (String × Bool)) (k : String) (hk : k ∉ protoKeys)
    (h : dictGet d k ≠ some true) : truthyAt d k = false := by
  unfold truthyAt
  have hp : k ≠ "__proto__" := by
    intro e
    apply hk
    rw [e]
    decide
  rw [if_neg hp]
  cases hd : dictGet d k with
  | none => simpa using hk
  | some b =>
    cases b with
    | false => rfl
    | true => exact absurd hd h

theorem truthyAt_nil (k : String) (hk : k ∉ protoKeys) : truthyAt [] k = false :=
  truthyAt_unmarked [] k hk (by simp [dictGet])

theorem truthyAt_proto (d : List (String × Bool)) (k : String) (hk : k ∈ protoKeys)
    (h : dictGet d k = none) : truthyAt d k = true := by
  unfold truthyAt
  split
  · rfl
  · rw [h]
    simpa using hk

theorem supportAction_gate_truthy (s : State) (i : Nat) (hero : Hero) (t : Target)
    (ai : Option Nat) (hne : heroId hero ≠ "") (h : truthyAt s.supportUsed (heroId hero) = true) :
    supportAction s i hero t ai = (s, Result.fail "used_this_round") := by
  unfold supportAction
  simp only
  rw [if_pos ⟨hne, h⟩]

theorem supportAction_gate (s : State) (i : Nat) (hero : Hero) (t : Target) (ai : Option Nat)
    (hne : heroId hero ≠ "") (h : dictGet s.supportUsed (heroId hero) = some true) :
    supportAction s i hero t ai = (s, Result.fail "used_this_round") :=
  supportAction_gate_truthy s i hero t ai hne (truthyAt_of_mark _ _ h)

theorem enemyAct_supportUsed (s : State) : (enemyAct s).1.supportUsed = [] := by
  unfold enemyAct
  dsimp only
  split <;> rfl

theorem earlySupport_open (s : State) (i : Nat) (hero : Hero) (hid hname : String)
    (r : State × Result) (hr : earlySupport s i hero hid hname = some r) :
    r.2 ≠ Result.fail "used_this_round" := by
  revert hr; unfold earlySupport; simp only
  repeat' split
  all_goals (intro hr; simp at hr; try subst hr)
  all_goals simp

theorem scoutSupport_open (s : State) (i : Nat) (hero : Hero) (t : Target) (ai : Option Nat)
    (r : State × Result) (hr : scoutSupport s i hero t ai = some r) :
    r.2 ≠ Result.fail "used_this_round" := by
  revert hr; unfold scoutSupport scoutRally scoutAssist; simp only
  repeat' split
  all_goals (intro hr; simp at hr; try subst hr)
  all_goals simp

theorem lateSupport_open (s : State) (i : Nat) (hid hname : String) (t : Target) :
    (lateSupport s i hid hname t).2 ≠ Result.fail "used_this_round" := by
  unfold lateSupport willisSupport delayedSupport kieferSupport
  dsimp only
  repeat' split
  all_goals simp

theorem supportAction_open (s : State) (i : Nat) (hero : Hero) (t : Target) (ai : Option Nat)
    (h : s.supportUsed = []) (hp : heroId hero ∉ protoKeys) :
    (supportAction s i hero t ai).2 ≠ Result.fail "used_this_round" := by
  unfold supportAction
  simp only [h]
  rw [if_neg (by simp [truthyAt_nil _ hp])]
  split
  · rename_i r hr
    exact earlySupport_open _ _ _ _ _ _ hr
  · split
    · rename_i r hr
      split at hr
      · exact scoutSupport_open _ _ _ _ _ _ hr
      · simp at hr
    · exact lateSupport_open _ _ _ _ _

theorem playHeroAction_support_inv (s : State) (i : Nat) (t : Target) (ai : Option Nat)
    (hero : Hero) (hh : getHero s i = some hero)
    (hty : actionTypeOf hero (chosenAbility hero ai) = "support")
    (hok : (playHeroAction s i t ai).2.success = true) :
    0 < s.ap ∧ hero.stunnedTurns = 0 ∧ playHeroAction s i t ai = supportAction s i hero t ai := by
  by_cases hap : s.ap ≤ 0
  · simp [playHeroAction, hap, Result.success] at hok
  · by_cases hst : hero.stunnedTurns > 0
    · simp [playHeroAction, hap, hh, hst, Result.success] at hok
    · have h0 : hero.stunnedTurns = 0 := by omega
      exact ⟨not_le.mp hap, h0, playHeroAction_support s i t ai hero (not_le.mp hap) hh h0 hty⟩

theorem playHeroAction_gated (s : State) (i : Nat) (t : Target) (ai : Option Nat)
    (hero : Hero) (hh : getHero s i = some hero)
    (hty : actionTypeOf hero (chosenAbility hero ai) = "support")
    (hne : heroId hero ≠ "") (h : dictGet s.supportUsed (heroId hero) = some true) :
    playHeroAction s i t ai =
      (s, Result.fail (if s.ap ≤ 0 then "no AP" else if hero.stunnedTurns > 0 then "stunned"
        else "used_this_round")) := by
  by_cases hap : s.ap ≤ 0
  · simp [playHeroAction, hap]
  · by_cases hst : hero.stunnedTurns > 0
    · simp [playHeroAction, hap, hh, hst]
    · have h0 : hero.stunnedTurns = 0 := by omega
      rw [playHeroAction_support s i t ai hero (not_le.mp hap) hh h0 hty,
        supportAction_gate s i hero t ai hne h, if_neg hap, if_neg hst]

theorem supportAction_accepts (s : State) (i : Nat) (hero : Hero) (t : Target) (ai : Option Nat)
    (h : s.supportUsed = [])
    (hid : heroId hero ∈ ["shalendra", "piter", "lumalia", "brer", "bjurganmyr", "miley", "kiefer"]) :
    (supportAction s i hero t ai).2.success = true := by
  have hp : heroId hero ∉ protoKeys := by
    simp only [List.mem_cons, List.mem_singleton, List.not_mem_nil, or_false] at hid
    rcases hid with hid | hid | hid | hid | hid | hid | hid <;> rw [hid] <;> decide
  unfold supportAction
  simp only [h]
  rw [if_neg (by simp [truthyAt_nil _ hp])]
  simp only [List.mem_cons, List.mem_singleton, List.not_mem_nil, or_false] at hid
  rcases hid with hid | hid | hid | hid | hid | hid | hid <;> rw [hid]
  · simp [earlySupport, Result.success]
  · simp [earlySupport, Result.success]
  · simp [earlySupport, Result.success]
  · simp [earlySupport, lateSupport, Result.success]
  · simp [earlySupport, lateSupport, delayedSupport, Result.success]
  · simp [earlySupport, lateSupport, delayedSupport, Result.success]
  · have hk : ∀ s1 : State, (kieferSupport s1 i).2.success = true := by
      intro s1
      unfold kieferSupport
      dsimp only
      split <;> rfl
    simpa [earlySupport, lateSupport] using hk s

theorem willis_accepts (s : State) (i : Nat) (hero : Hero) (t : Nat) (tgt : Hero)
    (ai : Option Nat) (h : s.supportUsed = []) (hid : heroId hero = "willis")
    (ht : getHero s t = some tgt) :
    (supportAction s i hero (Target.idx t) ai).2.success = true := by
  have hp : heroId hero ∉ protoKeys := by rw [hid]; decide
  unfold supportAction
  simp only [h]
  rw [if_neg (by simp [truthyAt_nil _ hp]), hid]
  simp [earlySupport, lateSupport, willisSupport, ht, Result.success]

/-- C15 (as amended): once a hero's support has succeeded, every later support attempt by a
hero of the same id is refused without any change of state for as long as no enemy turn
intervenes, whatever the slot, target and ability index and whatever other calls are made
in between. The reason is `used_this_round` when the attempt reaches the gate (AP left, hero
not stunned); with no AP left it is `'no AP'`, and for a stunned hero with AP `'stunned'`,
these tests coming first. Every `enemyAct`, stunned or not, empties `supportUsed`; after it
a support attempt by a hero standing unstunned with AP available is accepted again for
shalendra, piter, lumalia, brer, bjurganmyr, miley and kiefer, and for willis on an
occupied target. -/
theorem support_gate :
    (∀ (s : State) (i : Nat) (t : Target) (ai : Option Nat) (hero : Hero),
      getHero s i = some hero →
      actionTypeOf hero (chosenAbility hero ai) = "support" →
      (playHeroAction s i t ai).2.success = true →
      ∀ ops : List Op, (∀ op ∈ ops, op ≠ Op.enemyAct) →
      ∀ (j : Nat) (t' : Target) (ai' : Option Nat) (hero' : Hero),
        getHero (run (playHeroAction s i t ai).1 ops) j = some hero' →
        heroId hero' = heroId hero →
        actionTypeOf hero' (chosenAbility hero' ai') = "support" →
        playHeroAction (run (playHeroAction s i t ai).1 ops) j t' ai' =
          (run (playHeroAction s i t ai).1 ops,
            Result.fail
              (if (run (playHeroAction s i t ai).1 ops).ap ≤ 0 then "no AP"
               else if hero'.stunnedTurns > 0 then "stunned" else "used_this_round"))) ∧
    (∀ s : State, (enemyAct s).1.supportUsed = []) ∧
    (∀ (s : State) (j : Nat) (hero : Hero) (t : Target) (ai : Option Nat),
      getHero (enemyAct s).1 j = some hero → 0 < (enemyAct s).1.ap → hero.stunnedTurns = 0 →
      actionTypeOf hero (chosenAbility hero ai) = "support" →
      (heroId hero ∈ ["shalendra", "piter", "lumalia", "brer", "bjurganmyr", "miley", "kiefer"] →
        (playHeroAction (enemyAct s).1 j t ai).2.success = true) ∧
      (heroId hero = "willis" →
        ∀ (k : Nat) (tgt : Hero), getHero (enemyAct s).1 k = some tgt →
          (playHeroAction (enemyAct s).1 j (Target.idx k) ai).2.success = true)) := by
  refine ⟨?_, enemyAct_supportUsed, ?_⟩
  · intro s i t ai hero hh hty hok ops hops j t' ai' hero' hh' hid hty'
    obtain ⟨_, _, heq⟩ := playHeroAction_support_inv s i t ai hero hh hty hok
    have hm := (supportAction_marks s i hero t ai).1 (by rw [← heq]; exact hok)
    rw [← heq] at hm
    have hk := run_keepsMarks ops _ hops _ hm.2
    exact playHeroAction_gated _ j t' ai' hero' hh' hty' (by rw [hid]; exact hm.1)
      (by rw [hid]; exact hk)
  · intro s j hero t ai hh hap hst hty
    refine ⟨?_, ?_⟩
    · intro hid
      rw [playHeroAction_support _ j t ai hero hap hh hst hty]
      exact supportAction_accepts _ _ _ _ _ (enemyAct_supportUsed s) hid
    · intro hid k tgt hk
      rw [playHeroAction_support _ j (Target.idx k) ai hero hap hh hst hty]
      exact willis_accepts _ _ _ _ _ _ (enemyAct_supportUsed s) hid hk

/-- An instance of C15: piter's support succeeds; after a defend in the same round a further
support attempt by piter, with another target and ability index, is refused with
`used_this_round` and changes nothing; after a second defend has spent the last AP the
refusal reads `'no AP'`; after the enemy's turn piter's support succeeds again. -/
theorem support_gate_witness :
    (playHeroAction piterState 0 Target.none none).2.success = true ∧
    playHeroAction (run (playHeroAction piterState 0 Target.none none).1 [Op.defendHero 0])
        0 (Target.idx 0) (some 0) =
      (run (playHeroAction piterState 0 Target.none none).1 [Op.defendHero 0],
        Result.fail "used_this_round") ∧
    (playHeroAction (enemyAct (playHeroAction piterState 0 Target.none none).1).1
        0 Target.none none).2.success = true :=
  have h := support_gate.1 piterState 0 Target.none none
    { cardId := "piter", hp := 9, base := piter, tempHp := some 0, statusIcons := some [],
      instanceId := some 1 }
    (by decide) (by decide) (by decide) [Op.defendHero 0] (by decide) 0 (Target.idx 0) (some 0)
    { cardId := "piter", hp := 9, base := piter, tempHp := some 0,
      statusIcons := some [{ id := "help", source := "piter" }, { id := "defend", source := "player" }],
      instanceId := some 1, helped := true, helpSource := some "piter", defending := true }
    (by decide) (by decide) (by decide)
  ⟨by decide, h.trans (by decide),
    (support_gate.2.2 (playHeroAction piterState 0 Target.none none).1 0
      { cardId := "piter", hp := 9, base := piter, tempHp := some 0, statusIcons := some [],
        instanceId := some 1, helpSource := some "piter" }
      Target.none none (by decide) (by decide) (by decide) (by decide)).1 (by decide)⟩

/-- C15 fails on the code as worded: the test for AP comes before the gate. Piter's support
succeeds and leaves 2 AP; two defends spend them; the next support attempt by piter in the
same round fails with the reason `'no AP'`, not `used_this_round`. -/
theorem support_refused_without_ap :
    (playHeroAction piterState 0 Target.none none).2.success = true ∧
    (run (playHeroAction piterState 0 Target.none none).1
      [Op.defendHero 0, Op.defendHero 0]).ap = 0 ∧
    (playHeroAction (run (playHeroAction piterState 0 Target.none none).1
        [Op.defendHero 0, Op.defendHero 0]) 0 Target.none none).2 = Result.fail "no AP" ∧
    (playHeroAction (run (playHeroAction piterState 0 Target.none none).1
        [Op.defendHero 0, Op.defendHero 0]) 0 Target.none none).2 ≠
      Result.fail "used_this_round" := by
  decide

/-! ## C16: scout and the once-per-round gate -/

/-- C16 (as amended): scout's supports are subject to the once-per-round gate as well as to
their per-ability cooldowns. After a successful support by a hero of id `scout` (rally or
assist), every scout support attempt that reaches the support branch in the same round,
in particular an assist on an occupied target with the assist ability off cooldown, is
refused with `used_this_round` and changes nothing. -/
theorem scout_support_gated (s : State) (i : Nat) (t : Target) (ai : Option Nat) (hero : Hero)
    (hh : getHero s i = some hero) (hid : heroId hero = "scout")
    (hty : actionTypeOf hero (chosenAbility hero ai) = "support")
    (hok : (playHeroAction s i t ai).2.success = true)
    (ops : List Op) (hops : ∀ op ∈ ops, op ≠ Op.enemyAct)
    (j : Nat) (t' : Target) (ai' : Option Nat) (hero' : Hero)
    (hh' : getHero (run (playHeroAction s i t ai).1 ops) j = some hero')
    (hid' : heroId hero' = "scout")
    (hty' : actionTypeOf hero' (chosenAbility hero' ai') = "support")
    (hap : 0 < (run (playHeroAction s i t ai).1 ops).ap) (hst : hero'.stunnedTurns = 0) :
    playHeroAction (run (playHeroAction s i t ai).1 ops) j t' ai' =
      (run (playHeroAction s i t ai).1 ops, Result.fail "used_this_round") := by
  obtain ⟨_, _, heq⟩ := playHeroAction_support_inv s i t ai hero hh hty hok
  have hm := (supportAction_marks s i hero t ai).1 (by rw [← heq]; exact hok)
  rw [← heq, hid] at hm
  have hk := run_keepsMarks ops _ hops _ hm.2
  rw [playHeroAction_support _ j t' ai' hero' hap hh' hst hty']
  exact supportAction_gate _ j hero' t' ai' (by rw [hid']; decide) (by rw [hid']; exact hk)

theorem scout_support_gated_witness :
    playHeroAction (run (playHeroAction scoutState 0 Target.none none).1 []) 0 (Target.idx 1)
        (some 1) =
      (run (playHeroAction scoutState 0 Target.none none).1 [], Result.fail "used_this_round") :=
  scout_support_gated scoutState 0 Target.none none
    { cardId := "scout", hp := 8, base := scout, tempHp := some 0, statusIcons := some [],
      instanceId := some 1 }
    (by decide) (by decide) (by decide) (by decide) [] (by decide) 0 (Target.idx 1) (some 1)
    { cardId := "scout", hp := 8, base := scout, tempHp := some 0, statusIcons := some [],
      instanceId := some 1 }
    (by decide) (by decide) (by decide) (by decide) (by decide)

/-- C16 (counterexample to the claim as worded): the scout of `scoutState` rallies
successfully; in the same round, with AP left, the fighter standing in slot 1 and the
assist ability not on cooldown, its assist on slot 1 is rejected with `used_this_round`. -/
theorem scout_assist_after_rally_refused :
    (playHeroAction scoutState 0 Target.none none).2 =
      Result.support 0 "scout" (SupportInfo.rally 1 2 { inst := "scout", ai := some 0 }) ∧
    0 < (playHeroAction scoutState 0 Target.none none).1.ap ∧
    (getHero (playHeroAction scoutState 0 Target.none none).1 1).isSome = true ∧
    onCooldown (playHeroAction scoutState 0 Target.none none).1
      { inst := "scout", ai := some 1 } = false ∧
    playHeroAction (playHeroAction scoutState 0 Target.none none).1 0 (Target.idx 1) (some 1) =
      ((playHeroAction scoutState 0 Target.none none).1, Result.fail "used_this_round") := by
  decide

/-! ## C17: the rally cooldown -/

theorem dictGet_decCooldowns {κ : Type} [DecidableEq κ] (d : List (κ × Int)) (k : κ) :
    dictGet (decCooldowns d) k = (dictGet d k).map fun v => if v > 0 then v - 1 else v := by
  induction d with
  | nil => rfl
  | cons kv rest ih =>
    obtain ⟨k', v⟩ := kv
    rw [show decCooldowns ((k', v) :: rest) =
      (if v > 0 then (k', v - 1) else (k', v)) :: decCooldowns rest from rfl]
    by_cases hv : v > 0
    · rw [if_pos hv]
      by_cases hk : k' = k
      · simp [dictGet, hk, hv]
      · simp [dictGet, hk, ih]
    · rw [if_neg hv]
      by_cases hk : k' = k
      · simp [dictGet, hk, hv]
      · simp [dictGet, hk, ih]

theorem enemyAct_cooldowns (s : State) :
    (enemyAct s).1.abilityCooldowns = decCooldowns s.abilityCooldowns ∧
    (enemyAct s).1.summonCooldowns = decCooldowns s.summonCooldowns ∧
    (enemyAct s).1.summonUsed = s.summonUsed ∧
    (enemyAct s).1.ap = s.apPerTurn ∧
    (enemyAct s).1.apPerTurn = s.apPerTurn := by
  unfold enemyAct
  dsimp only
  split
  · exact ⟨rfl, rfl, rfl, rfl, rfl⟩
  · unfold housekeepingNormal resetRound
    dsimp only
    obtain ⟨_, _, _, _, h5, h6, h7, _⟩ := attackPhase_fields
      { s with turn := s.turn + 1,
               playfield := mapHeroes decBlind (mapHeroes decStunEnfeeble s.playfield),
               rng := (s.rng.int 2).2 }
    rw [h5, h6, h7, attackPhase_apPerTurn]
    exact ⟨rfl, rfl, rfl, rfl, rfl⟩

theorem enemyTurns_cooldown (k : Nat) (s : State) (key : AbilityKey) (c : Int)
    (hc : dictGet s.abilityCooldowns key = some c) (hk : (k : Int) ≤ c) :
    dictGet (enemyTurns k s).abilityCooldowns key = some (c - k) := by
  induction k generalizing s c with
  | zero => simpa [enemyTurns, run] using hc
  | succ k ih =>
    rw [enemyTurns_succ]
    have h1 : dictGet (enemyAct s).1.abilityCooldowns key = some (c - 1) := by
      rw [(enemyAct_cooldowns s).1, dictGet_decCooldowns, hc]
      have : c > 0 := by push_cast at hk; omega
      simp [this]
    have h2 := ih (enemyAct s).1 (c - 1) h1 (by push_cast at hk; omega)
    rw [h2]
    push_cast
    congr 1
    ring

theorem enemyTurns_supportUsed (k : Nat) (s : State) (hk : 1 ≤ k) :
    (enemyTurns k s).supportUsed = [] := by
  induction k generalizing s with
  | zero => omega
  | succ k ih =>
    rw [enemyTurns_succ]
    cases k with
    | zero => exact enemyAct_supportUsed s
    | succ k => exact ih _ (by omega)

theorem scoutSupport_rally (s : State) (i : Nat) (hero : Hero) (t : Target) (ai : Option Nat)
    (hr : isRallyAbility (chosenAbility hero ai) = true) :
    scoutSupport s i hero t ai =
      some (scoutRally s i (abilityKeyOf hero i ai) (rallyCooldown (chosenAbility hero ai))) := by
  unfold scoutSupport rallyCooldown
  dsimp only
  by_cases h1 : includes (scoutAbilityName (chosenAbility hero ai)) "rally" = true
  · rw [if_pos h1, if_pos h1]
  · have h2 : scoutAbilityName (chosenAbility hero ai) = "" := by
      simpa [isRallyAbility, h1] using hr
    rw [if_neg h1, if_neg h1, h2]
    have h3 : includes "" "assist" = false := by decide
    simp [h3]

theorem supportAction_rally (s : State) (i : Nat) (hero : Hero) (t : Target) (ai : Option Nat)
    (hid : heroId hero = "scout") (hr : isRallyAbility (chosenAbility hero ai) = true)
    (hg : dictGet s.supportUsed "scout" ≠ some true) :
    supportAction s i hero t ai =
      scoutRally s i (abilityKeyOf hero i ai) (rallyCooldown (chosenAbility hero ai)) := by
  unfold supportAction
  simp only [hid]
  rw [if_neg (by simp [truthyAt_unmarked _ "scout" (by decide) hg])]
  simp [earlySupport, scoutSupport_rally s i hero t ai hr]

/-- C17: a scout's rally that is let through (off cooldown, not yet used this round) grants
+1 AP and sets the cooldown counter of its ability key to `c`: the ability's `cooldown`
field, or 3 without one, for an ability matching `/rally/`, and 3 in the fallback for an
ability with neither name nor text. With `c ≥ 1`, and the scout still standing unstunned
under the same key with AP available, a rally after `k` enemy turns in a row fails with
`cooldown` and changes nothing for every `1 ≤ k < c`, and after exactly `c` enemy turns
succeeds again, granting +1 AP. -/
theorem rally_cooldown (s : State) (i : Nat) (t : Target) (ai : Option Nat) (hero : Hero)
    (hh : getHero s i = some hero) (hid : heroId hero = "scout")
    (hty : actionTypeOf hero (chosenAbility hero ai) = "support")
    (hr : isRallyAbility (chosenAbility hero ai) = true)
    (hap : 0 < s.ap) (hst : hero.stunnedTurns = 0)
    (hg : dictGet s.supportUsed "scout" ≠ some true)
    (hcd : onCooldown s (abilityKeyOf hero i ai) = false) :
    playHeroAction s i t ai =
      ({ s with ap := s.ap + 1, supportUsed := dictSet s.supportUsed "scout" true,
                abilityCooldowns := dictSet s.abilityCooldowns (abilityKeyOf hero i ai)
                  (rallyCooldown (chosenAbility hero ai)) },
        Result.support i "scout"
          (SupportInfo.rally 1 (rallyCooldown (chosenAbility hero ai)) (abilityKeyOf hero i ai))) ∧
    dictGet (playHeroAction s i t ai).1.abilityCooldowns (abilityKeyOf hero i ai) =
      some (rallyCooldown (chosenAbility hero ai)) ∧
    ∀ (k : Nat) (j : Nat) (t' : Target) (hero' : Hero), 1 ≤ k →
      getHero (enemyTurns k (playHeroAction s i t ai).1) j = some hero' →
      heroId hero' = "scout" → hero'.base = hero.base →
      abilityKeyOf hero' j ai = abilityKeyOf hero i ai →
      hero'.stunnedTurns = 0 → 0 < (enemyTurns k (playHeroAction s i t ai).1).ap →
      ((k : Int) < rallyCooldown (chosenAbility hero ai) →
        playHeroAction (enemyTurns k (playHeroAction s i t ai).1) j t' ai =
          (enemyTurns k (playHeroAction s i t ai).1, Result.fail "cooldown")) ∧
      ((k : Int) = rallyCooldown (chosenAbility hero ai) →
        (playHeroAction (enemyTurns k (playHeroAction s i t ai).1) j t' ai).2 =
          Result.support j "scout"
            (SupportInfo.rally 1 (rallyCooldown (chosenAbility hero ai))
              (abilityKeyOf hero i ai)) ∧
        (playHeroAction (enemyTurns k (playHeroAction s i t ai).1) j t' ai).1.ap =
          (enemyTurns k (playHeroAction s i t ai).1).ap + 1) := by
  have h0 : playHeroAction s i t ai =
      ({ s with ap := s.ap + 1, supportUsed := dictSet s.supportUsed "scout" true,
                abilityCooldowns := dictSet s.abilityCooldowns (abilityKeyOf hero i ai)
                  (rallyCooldown (chosenAbility hero ai)) },
        Result.support i "scout"
          (SupportInfo.rally 1 (rallyCooldown (chosenAbility hero ai))
            (abilityKeyOf hero i ai))) := by
    rw [playHeroAction_support s i t ai hero hap hh hst hty,
      supportAction_rally s i hero t ai hid hr hg]
    unfold scoutRally
    rw [hcd]
    rfl
  have h1 : dictGet (playHeroAction s i t ai).1.abilityCooldowns (abilityKeyOf hero i ai) =
      some (rallyCooldown (chosenAbility hero ai)) := by
    rw [h0]
    exact dictGet_dictSet_self _ _ _
  refine ⟨h0, h1, ?_⟩
  intro k j t' hero' hk hh' hid' hbase hkey hst' hap'
  have hch : chosenAbility hero' ai = chosenAbility hero ai := by
    unfold chosenAbility
    rw [hbase]
  have hty' : actionTypeOf hero' (chosenAbility hero' ai) = "support" := by
    rw [hch]
    unfold actionTypeOf at hty ⊢
    rw [hid']
    rw [hid] at hty
    exact hty
  have hsu := enemyTurns_supportUsed k (playHeroAction s i t ai).1 hk
  have hact : playHeroAction (enemyTurns k (playHeroAction s i t ai).1) j t' ai =
      scoutRally (enemyTurns k (playHeroAction s i t ai).1) j (abilityKeyOf hero i ai)
        (rallyCooldown (chosenAbility hero ai)) := by
    rw [playHeroAction_support _ j t' ai hero' hap' hh' hst' hty',
      supportAction_rally _ j hero' t' ai hid' (by rw [hch]; exact hr)
        (by rw [hsu]; simp [dictGet]), hkey, hch]
  constructor
  · intro hlt
    have hc := enemyTurns_cooldown k _ _ _ h1 (le_of_lt hlt)
    rw [hact]
    unfold scoutRally onCooldown
    rw [hc]
    have : rallyCooldown (chosenAbility hero ai) - (k : Int) > 0 := by omega
    simp [this]
  · intro heq
    have hc := enemyTurns_cooldown k _ _ _ h1 (le_of_eq heq)
    rw [hact]
    unfold scoutRally onCooldown
    rw [hc]
    have : ¬ rallyCooldown (chosenAbility hero ai) - (k : Int) > 0 := by omega
    simp [this]

theorem rally_cooldown_witness :
    (playHeroAction scoutState 0 Target.none none).1.ap = scoutState.ap + 1 ∧
    dictGet (playHeroAction scoutState 0 Target.none none).1.abilityCooldowns
      { inst := "scout", ai := some 0 } = some 2 ∧
    playHeroAction (enemyTurns 1 (playHeroAction scoutState 0 Target.none none).1) 0
        Target.none none =
      (enemyTurns 1 (playHeroAction scoutState 0 Target.none none).1, Result.fail "cooldown") ∧
    (playHeroAction (enemyTurns 2 (playHeroAction scoutState 0 Target.none none).1) 0
        Target.none none).2 =
      Result.support 0 "scout" (SupportInfo.rally 1 2 { inst := "scout", ai := some 0 }) ∧
    rallyCooldown (chosenAbility { cardId := "scout", hp := 8, base := namelessScout } none) = 3 :=
  have h := rally_cooldown scoutState 0 Target.none none
    { cardId := "scout", hp := 8, base := scout, tempHp := some 0, statusIcons := some [],
      instanceId := some 1 }
    (by decide) (by decide) (by decide) (by decide) (by decide) (by decide) (by decide)
    (by decide)
  ⟨congrArg (fun r => r.1.ap) h.1, h.2.1,
    (h.2.2 1 0 Target.none
      { cardId := "scout", hp := 8, base := scout, tempHp := some 0, statusIcons := some [],
        instanceId := some 1 }
      (by decide) (by decide) (by decide) (by decide) (by decide) (by decide) (by decide)).1
      (by decide),
    ((h.2.2 2 0 Target.none
      { cardId := "scout", hp := 8, base := scout, tempHp := some 0, statusIcons := some [],
        instanceId := some 1 }
      (by decide) (by decide) (by decide) (by decide) (by decide) (by decide) (by decide)).2
      (by decide)).1,
    by decide⟩

/-! ## C18: willis's protection -/

theorem shielded_congr {k : Nat} {v : Int × Option Int × Int} {s s' : State}
    (h : s'.playfield[k]? = s.playfield[k]?) (hs : Shielded k v s) : Shielded k v s' := by
  unfold Shielded getHero at hs ⊢
  rw [h]
  exact hs

theorem shielded_protected {k : Nat} {v : Int × Option Int × Int} {s : State} {h : Hero}
    (hs : Shielded k v s) (hg : getHero s k = some h) : protectedActive h = true := by
  obtain ⟨hpos, hv⟩ := hs
  rw [hg] at hv
  simp only [Option.map_some', vitals, Option.some.injEq, Prod.mk.injEq] at hv
  unfold protectedActive
  rw [hv.2.2]
  simpa using hpos

theorem damageHero_shielded (k : Nat) (v : Int × Option Int × Int) (s : State) (idx : Nat)
    (h : Hero) (dmg shown : Int) (ty : String) (ai : Nat) (nm : String)
    (hs : Shielded k v s) (hg : getHero s idx = some h) (hp : protectedActive h = false) :
    Shielded k v (damageHero s idx h dmg shown ty ai nm).1 ∧
    NoHarm k (damageHero s idx h dmg shown ty ai nm).2 := by
  have hne : k ≠ idx := by
    intro hk
    subst hk
    rw [shielded_protected hs hg] at hp
    cases hp
  have hsl := (damageHero_slots s idx h dmg shown ty ai nm (lt_length_of_getHero hg)).2.1 k hne
  refine ⟨shielded_congr hsl hs, ?_⟩
  intro hk
  exact absurd hk.symm hne

theorem resolveSingleTargetAttack_shields (k : Nat) (v : Int × Option Int × Int) (s : State)
    (dmg : Int) (ai : Nat) (nm : String) (hs : Shielded k v s) :
    Shields k v (resolveSingleTargetAttack s dmg ai nm) := by
  have hs1 : Shielded k v { s with rng := (_selectSingleTargetIndex s).2 } :=
    shielded_congr rfl hs
  unfold resolveSingleTargetAttack
  dsimp only
  split
  · exact ⟨hs1, fun e he => by cases he⟩
  · split
    · exact ⟨hs1, fun e he => by cases he⟩
    · rename_i idx _ _ h hg
      split
      · refine ⟨hs1, ?_⟩
        intro e he
        rw [List.mem_singleton] at he
        subst he
        intro _
        exact ⟨rfl, rfl, rfl, rfl, Or.inl ⟨rfl, rfl⟩⟩
      · rename_i hp
        have hd := damageHero_shielded k v _ idx h dmg dmg "single" ai nm hs1 hg
          (by simpa using hp)
        refine ⟨hd.1, ?_⟩
        intro e he
        rw [List.mem_singleton] at he
        subst he
        exact hd.2

theorem aoeStep_shields (k : Nat) (v : Int × Option Int × Int) (baseDmg : Int) (ai : Nat)
    (nm : String) (acc : State × List HitEvent) (i : Nat) (hs : Shields k v acc) :
    Shields k v (aoeStep baseDmg ai nm acc i) := by
  unfold aoeStep
  split
  · exact hs
  · split
    · exact hs
    · rename_i h hg
      split
      · refine ⟨hs.1, ?_⟩
        intro e he
        rcases List.mem_append.mp he with he | he
        · exact hs.2 e he
        · rw [List.mem_singleton] at he
          subst he
          intro _
          exact ⟨rfl, rfl, rfl, rfl, Or.inl ⟨rfl, rfl⟩⟩
      · rename_i hp
        dsimp only
        have hd := damageHero_shielded k v acc.1 i h
          (if h.defending = true then ceilHalf baseDmg else baseDmg) baseDmg "aoe" ai nm hs.1 hg
          (by simpa using hp)
        refine ⟨hd.1, ?_⟩
        intro e he
        rcases List.mem_append.mp he with he | he
        · exact hs.2 e he
        · rw [List.mem_singleton] at he
          subst he
          exact hd.2

theorem resolveAoEAttack_shields (k : Nat) (v : Int × Option Int × Int) (s : State)
    (baseDmg : Int) (ai : Nat) (nm : String) (hs : Shielded k v s) :
    Shields k v (resolveAoEAttack s baseDmg ai nm) := by
  unfold resolveAoEAttack
  have h0 : Shields k v ((s, []) : State × List HitEvent) := ⟨hs, fun e he => by cases he⟩
  generalize List.range s.playfield.length = l
  generalize ((s, []) : State × List HitEvent) = acc at h0
  induction l generalizing acc with
  | nil => exact h0
  | cons a l ih => exact ih _ (aoeStep_shields k v baseDmg ai nm acc a h0)

theorem critThenResolve_shields (k : Nat) (v : Int × Option Int × Int) (s : State) (atk : Attack)
    (baseDmg : Int) (ai : Nat) (nm ty : String) (hs : Shielded k v s) :
    Shields k v (critThenResolve s atk baseDmg ai nm ty) := by
  unfold critThenResolve
  dsimp only
  have hr := resolveSingleTargetAttack_shields k v
    { s with rng := (checkCrit s.rng atk.critChance).2 }
    (if (checkCrit s.rng atk.critChance).1 = true then baseDmg * 2 else baseDmg) ai nm
    (shielded_congr rfl hs)
  refine ⟨hr.1, ?_⟩
  intro e he
  obtain ⟨e0, he0, rfl⟩ := List.mem_map.mp he
  exact hr.2 e0 he0

theorem multiStep_shields (k : Nat) (v : Int × Option Int × Int) (atk : Attack)
    (baseDmg : Int) (ai : Nat) (nm : String) (acc : State × List HitEvent)
    (hs : Shields k v acc) : Shields k v (multiStep atk baseDmg ai nm acc) := by
  unfold multiStep
  dsimp only
  split
  · split
    · exact ⟨shielded_congr rfl hs.1, hs.2⟩
    · split
      · exact ⟨shielded_congr rfl hs.1, hs.2⟩
      · refine ⟨shielded_congr rfl hs.1, ?_⟩
        intro e he
        rcases List.mem_append.mp he with he | he
        · exact hs.2 e he
        · rw [List.mem_singleton] at he
          subst he
          intro _
          exact ⟨rfl, rfl, rfl, rfl, Or.inr ⟨rfl, rfl⟩⟩
  · have hr := critThenResolve_shields k v
      { acc.1 with rng := (checkHit acc.1.rng atk.hitChance).2 } atk baseDmg ai nm "multi"
      (shielded_congr rfl hs.1)
    refine ⟨hr.1, ?_⟩
    intro e he
    rcases List.mem_append.mp he with he | he
    · exact hs.2 e he
    · exact hr.2 e he

theorem singleAttack_shields (k : Nat) (v : Int × Option Int × Int) (s : State) (atk : Attack)
    (baseDmg : Int) (ai : Nat) (nm : String) (hs : Shielded k v s) :
    Shields k v (singleAttack s atk baseDmg ai nm) := by
  have hmiss : ∀ (idx : Nat) (h : Hero) (e : HitEvent),
      e ∈ [missedEvent idx h "single" ai nm] → NoHarm k e := by
    intro idx h e he
    rw [List.mem_singleton] at he
    subst he
    intro _
    exact ⟨rfl, rfl, rfl, rfl, Or.inr ⟨rfl, rfl⟩⟩
  unfold singleAttack
  dsimp only
  split
  · exact ⟨shielded_congr rfl hs, fun e he => by cases he⟩
  · split
    · exact ⟨shielded_congr rfl hs, fun e he => by cases he⟩
    · split
      · split
        · exact ⟨shielded_congr rfl hs, hmiss _ _⟩
        · exact critThenResolve_shields k v _ atk baseDmg ai nm "single" (shielded_congr rfl hs)
      · split
        · exact ⟨shielded_congr rfl hs, hmiss _ _⟩
        · exact critThenResolve_shields k v _ atk baseDmg ai nm "single" (shielded_congr rfl hs)

theorem effectStep_shielded (k : Nat) (v : Int × Option Int × Int) (eff : String)
    (acc : State × List Event) (ev : HitEvent) (hs : Shielded k v acc.1) :
    Shielded k v (effectStep eff acc ev).1 := by
  unfold effectStep
  split
  · split
    · exact hs
    · rename_i h hg
      dsimp only
      by_cases hk : ev.slot = k
      · obtain ⟨hpos, hv⟩ := hs
        refine ⟨hpos, ?_⟩
        rw [getHero_of_set k rfl (lt_length_of_getHero hg), if_pos hk]
        rw [← hk, hg] at hv
        rw [← hv]
        simp only [Slot.hero?, Option.map_some', vitals]
        repeat' split
        all_goals rfl
      · refine shielded_congr ?_ hs
        exact List.getElem?_set_ne hk
  · exact hs

theorem attackPhase_shields (k : Nat) (v : Int × Option Int × Int) (s : State)
    (hs : Shielded k v s) :
    Shielded k v (attackPhase s).1 ∧ ∀ e, Event.hit e ∈ (attackPhase s).2 → NoHarm k e := by
  unfold attackPhase
  split
  · dsimp only
    have hhits : ∀ (hits : State × List HitEvent) (e : Option String),
        Shields k v hits →
        Shielded k v (match e with
            | some e => hits.2.foldl (effectStep (lower e)) (hits.1, hits.2.map Event.hit)
            | none => (hits.1, hits.2.map Event.hit)).1 ∧
        ∀ ev, Event.hit ev ∈ (match e with
            | some e => hits.2.foldl (effectStep (lower e)) (hits.1, hits.2.map Event.hit)
            | none => (hits.1, hits.2.map Event.hit)).2 → NoHarm k ev := by
      intro hits e hh
      have hmap : ∀ e, Event.hit e ∈ hits.2.map Event.hit → NoHarm k e := by
        intro e he
        obtain ⟨e0, he0, heq⟩ := List.mem_map.mp he
        have h0 : e0 = e := Event.hit.inj heq
        subst h0
        exact hh.2 e0 he0
      cases e with
      | none => exact ⟨hh.1, hmap⟩
      | some eff =>
        refine ⟨foldl_inv (Shielded k v) (effectStep (lower eff))
          (fun acc ev h => effectStep_shielded k v _ acc ev h) hits.2 _ hh.1, ?_⟩
        obtain ⟨extra, hex, hno, _⟩ := foldl_quiet (effectStep (lower eff))
          (effectStep_quiet (lower eff)) hits.2 (hits.1, hits.2.map Event.hit)
        dsimp only
        rw [hex]
        intro e he
        rcases List.mem_append.mp he with he | he
        · exact hmap e he
        · exact absurd he (hno e)
    apply hhits
    split
    · exact resolveAoEAttack_shields k v _ _ _ _ (shielded_congr rfl hs)
    · split
      · exact multiStep_shields k v _ _ _ _ _
          (multiStep_shields k v _ _ _ _ _ ⟨shielded_congr rfl hs, fun e he => by cases he⟩)
      · exact singleAttack_shields k v _ _ _ _ _ (shielded_congr rfl hs)
  · exact ⟨hs, fun e he => by cases he⟩

theorem vitals_mapHeroes (f : Hero → Hero) (hf : ∀ h, vitals (f h) = vitals h) (k : Nat)
    (v : Int × Option Int × Int) (s s' : State) (hpf : s'.playfield = mapHeroes f s.playfield)
    (hs : Shielded k v s) : Shielded k v s' := by
  unfold Shielded getHero at hs ⊢
  rw [hpf, view_mapHeroes vitals f s.playfield k hf]
  exact hs

theorem prelude_shielded (k : Nat) (v : Int × Option Int × Int) (s s' : State)
    (hpf : s'.playfield = mapHeroes decBlind (mapHeroes decStunEnfeeble s.playfield))
    (hs : Shielded k v s) : Shielded k v s' := by
  unfold Shielded getHero at hs ⊢
  rw [hpf, view_mapHeroes vitals decBlind _ k (fun _ => rfl),
    view_mapHeroes vitals decStunEnfeeble _ k (fun _ => rfl)]
  exact hs

/-- The protection counter after the end-of-turn decrement. -/
theorem decProtection_view (pf : List Slot) (k : Nat) (v : Int × Option Int × Int)
    (hv : (pf[k]?.bind Slot.hero?).map vitals = some (v.1, v.2.1, some v.2.2)) :
    ((mapHeroes decProtection pf)[k]?.bind Slot.hero?).map vitals =
      some (v.1, v.2.1, if v.2.2 - 1 ≤ 0 then none else some (v.2.2 - 1)) := by
  obtain ⟨a, b, n⟩ := v
  dsimp only at hv ⊢
  unfold mapHeroes
  rw [List.getElem?_map]
  cases hk : pf[k]? with
  | none => rw [hk] at hv; simp at hv
  | some sl =>
    rw [hk] at hv
    cases sl with
    | null => simp [Slot.hero?] at hv
    | hole => simp [Slot.hero?] at hv
    | hero h =>
      have hv' : vitals h = (a, b, some n) := by simpa [Slot.hero?] using hv
      simp only [vitals, Prod.mk.injEq] at hv'
      obtain ⟨h1, h2, h3⟩ := hv'
      have hgoal : vitals (decProtection h) =
          (a, b, if n - 1 ≤ 0 then none else some (n - 1)) := by
        unfold decProtection
        rw [h3]
        dsimp only
        split <;> simp [vitals, h1, h2]
      simpa [Slot.hero?] using hgoal

theorem housekeeping_shielded (k : Nat) (v : Int × Option Int × Int) (s : State)
    (evs : List Event) (hs : Shielded k v s) :
    (getHero (housekeepingStunned s evs).1 k).map vitals =
      some (v.1, v.2.1, if v.2.2 - 1 ≤ 0 then none else some (v.2.2 - 1)) ∧
    (getHero (housekeepingNormal s evs).1 k).map vitals =
      some (v.1, v.2.1, if v.2.2 - 1 ≤ 0 then none else some (v.2.2 - 1)) := by
  have hreset : ((resetRound s).playfield[k]?.bind Slot.hero?).map vitals =
      some (v.1, v.2.1, some v.2.2) := by
    unfold resetRound
    dsimp only
    rw [view_mapHeroes, view_mapHeroes, view_mapHeroes]
    · exact hs.2
    all_goals (intro h; rfl)
  constructor
  · unfold housekeepingStunned getHero
    dsimp only
    rw [view_syncIconsFrom vitals (fun _ _ => rfl)]
    exact decProtection_view _ k v hreset
  · unfold housekeepingNormal getHero
    dsimp only
    rw [view_syncIconsFrom vitals (fun _ _ => rfl)]
    exact decProtection_view _ k v hreset

theorem housekeeping_hits (s : State) (evs : List Event) (e : HitEvent) :
    (Event.hit e ∈ (housekeepingStunned s evs).2 → Event.hit e ∈ evs) ∧
    (Event.hit e ∈ (housekeepingNormal s evs).2 → Event.hit e ∈ evs) := by
  constructor
  · unfold housekeepingStunned
    dsimp only
    obtain ⟨extra, hex, hno⟩ := pendingStunned_events (resetRound s).pendingEffects
      { enemyHp := (resetRound s).enemy.hp, events := evs, remaining := [] }
    rw [hex]
    intro he
    rcases List.mem_append.mp he with he | he
    · exact he
    · exact absurd he (hno e)
  · unfold housekeepingNormal
    dsimp only
    obtain ⟨extra, hex, hno⟩ := pendingNormal_events (resetRound s).pendingEffects
      { enemyHp := (resetRound s).enemy.hp, events := evs, remaining := [] }
    rw [hex]
    intro he
    rcases List.mem_append.mp he with he | he
    · exact he
    · exact absurd he (hno e)

theorem enemyAct_shields (k : Nat) (v : Int × Option Int × Int) (s : State)
    (hs : Shielded k v s) :
    (getHero (enemyAct s).1 k).map vitals =
      some (v.1, v.2.1, if v.2.2 - 1 ≤ 0 then none else some (v.2.2 - 1)) ∧
    ∀ e, Event.hit e ∈ (enemyAct s).2.events → NoHarm k e := by
  unfold enemyAct
  dsimp only
  split
  · refine ⟨(housekeeping_shielded k v _ [] (prelude_shielded k v s _ rfl hs)).1, ?_⟩
    intro e he
    rcases List.mem_cons.mp he with he | he
    · cases he
    · exact absurd ((housekeeping_hits _ [] e).1 he) (by simp)
  · have hp : Shielded k v
        { s with turn := s.turn + 1,
                 playfield := mapHeroes decBlind (mapHeroes decStunEnfeeble s.playfield),
                 rng := (s.rng.int 2).2 } := prelude_shielded k v s _ rfl hs
    have ha := attackPhase_shields k v _ hp
    refine ⟨(housekeeping_shielded k v _ _ ha.1).2, ?_⟩
    intro e he
    exact ha.2 e ((housekeeping_hits _ _ e).2 he)

/-- C18: willis's support, once it reaches its block (willis standing unstunned, AP left, not
yet used this round), fails with `target_required` and changes nothing unless the target
index names an occupied slot; on an occupied slot it succeeds, costs one AP and leaves the
target with `protected = {turns: 1}` and its hp and temp HP as they were. During an
`enemyAct` on any state in which slot `k` holds a hero with `protected.turns = 1`, the
hero's hp and temp HP do not change, every hit event for slot `k` has `dmg` 0 with nothing
taken and is either `protected: true` or a miss, and after that `enemyAct` the hero has no
protection left. -/
theorem willis_protection :
    (∀ (s : State) (i : Nat) (hero : Hero) (t : Target) (ai : Option Nat),
      getHero s i = some hero → heroId hero = "willis" → 0 < s.ap → hero.stunnedTurns = 0 →
      actionTypeOf hero (chosenAbility hero ai) = "support" →
      dictGet s.supportUsed "willis" ≠ some true →
      (∀ k, t = Target.idx k → getHero s k = none) →
      playHeroAction s i t ai = (s, Result.fail "target_required")) ∧
    (∀ (s : State) (i : Nat) (hero : Hero) (k : Nat) (tgt : Hero) (ai : Option Nat),
      getHero s i = some hero → heroId hero = "willis" → 0 < s.ap → hero.stunnedTurns = 0 →
      actionTypeOf hero (chosenAbility hero ai) = "support" →
      dictGet s.supportUsed "willis" ≠ some true →
      getHero s k = some tgt →
      (playHeroAction s i (Target.idx k) ai).2 =
        Result.support i "willis" (SupportInfo.target k) ∧
      (playHeroAction s i (Target.idx k) ai).1.ap = s.ap - 1 ∧
      (getHero (playHeroAction s i (Target.idx k) ai).1 k).map vitals =
        some (tgt.hp, tgt.tempHp, some 1)) ∧
    (∀ (s : State) (k : Nat) (h : Hero),
      getHero s k = some h → h.protectedTurns = some 1 →
      (getHero (enemyAct s).1 k).map vitals = some (h.hp, h.tempHp, none) ∧
      ∀ e, Event.hit e ∈ (enemyAct s).2.events → e.slot = k →
        e.dmg = 0 ∧ e.tempTaken = 0 ∧ e.hpTaken = 0 ∧ e.died = false ∧
        ((e.isProtected = true ∧ e.missed = false) ∨
          (e.missed = true ∧ e.isProtected = false))) := by
  refine ⟨?_, ?_, ?_⟩
  · intro s i hero t ai hh hid hap hst hty hg hno
    rw [playHeroAction_support s i t ai hero hap hh hst hty]
    unfold supportAction
    simp only [hid]
    rw [if_neg (by simp [truthyAt_unmarked _ "willis" (by decide) hg])]
    cases t with
    | idx k => simp [earlySupport, lateSupport, willisSupport, hno k rfl]
    | none => simp [earlySupport, lateSupport, willisSupport]
    | all => simp [earlySupport, lateSupport, willisSupport]
  · intro s i hero k tgt ai hh hid hap hst hty hg hk
    have hsa : supportAction s i hero (Target.idx k) ai = willisSupport s i (Target.idx k) := by
      unfold supportAction
      simp only [hid]
      rw [if_neg (by simp [truthyAt_unmarked _ "willis" (by decide) hg])]
      simp [earlySupport, lateSupport]
    rw [playHeroAction_support s i (Target.idx k) ai hero hap hh hst hty, hsa]
    have hlt := lt_length_of_getHero hk
    unfold willisSupport
    dsimp only
    rw [hk]
    dsimp only
    refine ⟨rfl, rfl, ?_⟩
    rw [getHero_of_set k rfl hlt, if_pos rfl]
    rfl
  · intro s k h hg hp
    have hs : Shielded k (h.hp, h.tempHp, 1) s := by
      refine ⟨Int.one_pos, ?_⟩
      rw [hg]
      simp [vitals, hp]
    obtain ⟨h1, h2⟩ := enemyAct_shields k (h.hp, h.tempHp, 1) s hs
    exact ⟨by simpa using h1, fun e he hk => h2 e he hk⟩

theorem willis_protection_witness :
    playHeroAction willisState 0 Target.none none =
      (willisState, Result.fail "target_required") ∧
    (getHero protectedState 1).map vitals = some (12, some 0, some 1) ∧
    (getHero (enemyAct protectedState).1 1).map vitals = some (12, some 0, none) ∧
    ((enemyAct protectedState).2.events.any fun ev =>
      match ev with
      | Event.hit e => decide (e.slot = 1) && e.isProtected && decide (e.dmg = 0)
      | _ => false) = true :=
  ⟨willis_protection.1 willisState 0
      { cardId := "willis", hp := 10, base := willis, tempHp := some 0, statusIcons := some [],
        instanceId := some 1 }
      Target.none none (by decide) (by decide) (by decide) (by decide) (by decide) (by decide)
      (fun k hk => by cases hk),
    (willis_protection.2.1
      { willisState with
          enemy := { hp := 30, attacks := some [{ name := some "Club", dmg := some 4 }] },
          rng := { rolls := [0, 1], ints := [0, 0, 1, 1] } }
      0
      { cardId := "willis", hp := 10, base := willis, tempHp := some 0, statusIcons := some [],
        instanceId := some 1 }
      1
      { cardId := "fighter", hp := 12, base := fighter, tempHp := some 0, statusIcons := some [],
        instanceId := some 2 }
      none (by decide) (by decide) (by decide) (by decide) (by decide) (by decide)
      (by decide)).2.2,
    (willis_protection.2.2 protectedState 1
      { cardId := "fighter", hp := 12, base := fighter, tempHp := some 0,
        statusIcons := some [{ id := "protected", source := "willis" }],
        instanceId := some 2, protectedTurns := some 1 }
      (by decide) (by decide)).1,
    by decide⟩

/-! ## C19: isFinished -/

theorem anyHero_iff (s : State) :
    s.playfield.any (fun sl => sl.hero?.isSome) = true ↔ ∃ i h, getHero s i = some h := by
  rw [List.any_eq_true]
  constructor
  · rintro ⟨sl, hmem, hsl⟩
    obtain ⟨i, hi⟩ := List.mem_iff_getElem?.mp hmem
    cases hh : sl.hero? with
    | none => rw [hh] at hsl; cases hsl
    | some h =>
      refine ⟨i, h, ?_⟩
      unfold getHero
      rw [hi]
      exact hh
  · rintro ⟨i, h, hg⟩
    unfold getHero at hg
    cases hsl : s.playfield[i]? with
    | none => rw [hsl] at hg; cases hg
    | some sl =>
      rw [hsl] at hg
      refine ⟨sl, List.mem_iff_getElem?.mpr ⟨i, hsl⟩, ?_⟩
      have : sl.hero? = some h := hg
      rw [this]
      rfl

/-- C19: the winner reported by `isFinished` is `player` whenever `enemy.hp ≤ 0`, whatever the
playfield; otherwise `enemy` when no slot of the playfield holds a hero and `turn > 0`;
otherwise null (a hero stands somewhere, or no enemy turn has elapsed). A freshly started
encounter against an enemy with positive hp is not finished. -/
theorem isFinished_spec :
    (∀ s : State, s.enemy.hp ≤ 0 → isFinished s = some "player") ∧
    (∀ s : State, 0 < s.enemy.hp → (∀ i, getHero s i = none) → 0 < s.turn →
      isFinished s = some "enemy") ∧
    (∀ s : State, 0 < s.enemy.hp → ((∃ i h, getHero s i = some h) ∨ s.turn = 0) →
      isFinished s = none) ∧
    (∀ (e : Enemy) (hand : Option (List Card)) (rng : Rng) (ap : Option Int), 0 < e.hp →
      isFinished (startEncounter e hand rng ap) = none) := by
  refine ⟨?_, ?_, ?_, ?_⟩
  · intro s h
    unfold isFinished
    rw [if_pos h]
  · intro s h hno ht
    have hany : ¬ s.playfield.any (fun sl => sl.hero?.isSome) = true := by
      rw [anyHero_iff]
      rintro ⟨i, h, hg⟩
      rw [hno i] at hg
      cases hg
    unfold isFinished
    rw [if_neg (not_le.mpr h), if_neg hany, if_pos ht]
  · intro s h hor
    unfold isFinished
    rw [if_neg (not_le.mpr h)]
    by_cases hany : s.playfield.any (fun sl => sl.hero?.isSome) = true
    · rw [if_pos hany]
    · rw [if_neg hany]
      rcases hor with hex | ht
      · exact absurd ((anyHero_iff s).mpr hex) hany
      · rw [if_neg (by omega)]
  · intro e hand rng ap h
    unfold isFinished startEncounter
    dsimp only
    rw [if_neg (not_le.mpr h)]
    rfl

theorem isFinished_spec_witness :
    isFinished { fighterState with enemy := { hp := 0 }, playfield := [Slot.null, Slot.null, Slot.null],
                                   turn := 2 } = some "player" ∧
    isFinished { fighterState with playfield := [Slot.null, Slot.null, Slot.null], turn := 2 } =
      some "enemy" ∧
    isFinished { fighterState with turn := 2 } = none ∧
    isFinished (startEncounter ogre (some [fighter]) { rolls := [], ints := [] } none) = none :=
  ⟨isFinished_spec.1 _ (by decide),
    isFinished_spec.2.1 _ (by decide)
      (fun i => by
        unfold getHero
        rcases i with _ | _ | _ | i <;> rfl)
      (by decide),
    isFinished_spec.2.2.1 _ (by decide)
      (Or.inl ⟨0, { cardId := "fighter", hp := 12, base := fighter, tempHp := some 0,
                    statusIcons := some [], instanceId := some 1 }, by decide⟩),
    isFinished_spec.2.2.2 ogre (some [fighter]) { rolls := [], ints := [] } none (by decide)⟩

/-! ## C20: once-per-encounter summons -/

theorem enemyTurns_summonUsed (k : Nat) (s : State) :
    (enemyTurns k s).summonUsed = s.summonUsed := by
  induction k generalizing s with
  | zero => rfl
  | succ k ih => rw [enemyTurns_succ, ih, (enemyAct_cooldowns s).2.2.1]

theorem useSummon_marks (s : State) (d : SummonDef) (t : Target)
    (hr : restrictionHas d "once per encounter" = true)
    (hok : (useSummon s (some d) t).2.success = true) :
    d.id ≠ "" ∧ dictGet (useSummon s (some d) t).1.summonUsed d.id = some true := by
  unfold useSummon at hok ⊢
  dsimp only at hok ⊢
  split at hok
  · simp [Result.success] at hok
  · rename_i hid
    rw [if_neg hid]
    refine ⟨hid, ?_⟩
    split at hok
    · simp [Result.success] at hok
    · rename_i hused
      rw [if_neg hused]
      split at hok
      · simp [Result.success] at hok
      · rename_i hcd
        rw [if_neg hcd]
        split at hok
        · simp [Result.success] at hok
        · dsimp only
          unfold markSummon
          rw [if_pos (Or.inl hr)]
          have hp : d.id ≠ "__proto__" := by
            intro e
            apply hused
            refine ⟨hr, ?_⟩
            unfold truthyAt
            rw [if_pos e]
          unfold objSet
          rw [if_neg hp]
          exact dictGet_dictSet_self _ _ _

/-- C20: after a successful `useSummon` of a summon whose restriction contains
"once per encounter", a `useSummon` with the same definition after any number `k ≥ 0`
of enemy turns, with any target, returns `success:false, reason:'used'` and leaves the
whole state as it was. -/
theorem summon_once_per_encounter (s : State) (d : SummonDef) (t : Target)
    (hr : restrictionHas d "once per encounter" = true)
    (hok : (useSummon s (some d) t).2.success = true) (k : Nat) (t' : Target) :
    useSummon (enemyTurns k (useSummon s (some d) t).1) (some d) t' =
      (enemyTurns k (useSummon s (some d) t).1, Result.fail "used") := by
  obtain ⟨hid, hm⟩ := useSummon_marks s d t hr hok
  have hm' : dictGet (enemyTurns k (useSummon s (some d) t).1).summonUsed d.id = some true := by
    rw [enemyTurns_summonUsed]
    exact hm
  generalize enemyTurns k (useSummon s (some d) t).1 = st at hm'
  unfold useSummon
  dsimp only
  rw [if_neg hid, if_pos ⟨hr, truthyAt_of_mark _ _ hm'⟩]

theorem summon_once_per_encounter_witness :
    (useSummon fighterState (some wave) Target.none).1.enemy.hp = 10 ∧
    useSummon (enemyTurns 2 (useSummon fighterState (some wave) Target.none).1) (some wave)
        (Target.idx 0) =
      (enemyTurns 2 (useSummon fighterState (some wave) Target.none).1, Result.fail "used") :=
  ⟨by decide,
    summon_once_per_encounter fighterState wave Target.none (by decide) (by decide) 2
      (Target.idx 0)⟩

/-! ## C21: heal resolution -/

theorem getHero_mapHeroes (f : Hero → Hero) (pf : List Slot) (j : Nat) :
    ((mapHeroes f pf)[j]?.bind Slot.hero?) = (pf[j]?.bind Slot.hero?).map f := by
  unfold mapHeroes
  rw [List.getElem?_map]
  cases pf[j]? with
  | none => rfl
  | some sl => cases sl <;> rfl

theorem healTarget_occupied (s : State) (i : Nat) (t : Target) (hero : Hero)
    (hh : getHero s i = some hero) : ∃ tgt, getHero s (healTarget s i t) = some tgt := by
  unfold healTarget
  cases t with
  | idx k =>
    dsimp only
    by_cases hk : occupied s k = true
    · rw [if_pos hk]
      unfold occupied at hk
      exact Option.isSome_iff_exists.mp hk
    · rw [if_neg hk]
      exact ⟨hero, hh⟩
  | none => exact ⟨hero, hh⟩
  | all => exact ⟨hero, hh⟩

theorem resolveHeal_spec (s : State) (i : Nat) (a : Nat) (t : Target) (hero : Hero)
    (hh : getHero s i = some hero) (ha : 0 < a) :
    (isPartyHeal hero t = true →
      (resolveHeal s i a t).1.ap = s.ap - 1 ∧
      (∀ j, getHero (resolveHeal s i a t).1 j =
        (getHero s j).map fun h => { h with hp := min h.base.hp (h.hp + a) }) ∧
      (resolveHeal s i a t).2 = Result.healParty a (healedSlotsFrom a s.playfield 0)) ∧
    (isPartyHeal hero t = false →
      ∃ tgt, getHero s (healTarget s i t) = some tgt ∧
        (resolveHeal s i a t).1.ap = s.ap - 1 ∧
        getHero (resolveHeal s i a t).1 (healTarget s i t) =
          some { tgt with hp := min tgt.base.hp (tgt.hp + a) } ∧
        (∀ j, j ≠ healTarget s i t → getHero (resolveHeal s i a t).1 j = getHero s j) ∧
        (resolveHeal s i a t).2 =
          Result.healSingle (min tgt.base.hp (tgt.hp + a) - tgt.hp) (healTarget s i t)
            (min tgt.base.hp (tgt.hp + a))) ∧
    (∀ h : Hero, min h.base.hp (h.hp + a) ≤ h.base.hp ∧
      (h.hp ≤ h.base.hp → h.hp ≤ min h.base.hp (h.hp + a))) := by
  have hne : a ≠ 0 := by omega
  refine ⟨?_, ?_, ?_⟩
  · intro hp
    unfold resolveHeal
    rw [hh]
    dsimp only
    rw [if_neg hne, if_pos hp]
    refine ⟨rfl, ?_, rfl⟩
    intro j
    unfold getHero
    dsimp only
    rw [getHero_mapHeroes]
    rfl
  · intro hp
    obtain ⟨tgt, ht⟩ := healTarget_occupied s i t hero hh
    refine ⟨tgt, ht, ?_⟩
    have hlt := lt_length_of_getHero ht
    have hres : resolveHeal s i a t =
        ({ s with playfield := s.playfield.set (healTarget s i t)
                    (Slot.hero { tgt with hp := healedHp tgt a }),
                  ap := s.ap - 1 },
          Result.healSingle (healedHp tgt a - tgt.hp) (healTarget s i t) (healedHp tgt a)) := by
      unfold resolveHeal
      rw [hh]
      dsimp only
      rw [if_neg hne]
      rw [if_neg (by simpa using hp)]
      unfold healTarget at ht ⊢
      rw [ht]
      rfl
    rw [hres]
    refine ⟨rfl, ?_, ?_, rfl⟩
    · rw [getHero_of_set _ rfl hlt, if_pos rfl]
      rfl
    · intro j hj
      rw [getHero_of_set j rfl hlt, if_neg (Ne.symm hj)]
  · intro h
    refine ⟨min_le_left _ _, fun hle => le_min hle ?_⟩
    omega

/-- C21: heal resolution by a hero standing in `slotIndex`, for a heal amount `a > 0`.
A party heal sets the hp of every hero on the playfield to `min(base.hp, hp + a)`, changes
nothing else of any hero, reports `healed = a` and charges one AP once. A single-target heal
lands on the target index if that names an occupied slot and on the caster otherwise; it
sets that hero's hp to `min(base.hp, hp + a)`, leaves every other slot as it was, reports
`healed = new hp - old hp`, the slot and the new hp, and charges one AP. In both cases a
healed hero's hp does not exceed `base.hp`, and does not drop below its previous hp when
that was at most `base.hp`. -/
theorem heal_resolution (s : State) (i : Nat) (a : Nat) (t : Target) (hero : Hero)
    (hh : getHero s i = some hero) (ha : 0 < a) :
    (isPartyHeal hero t = true →
      (resolveHeal s i a t).1.ap = s.ap - 1 ∧
      (∀ j, getHero (resolveHeal s i a t).1 j =
        (getHero s j).map fun h => { h with hp := min h.base.hp (h.hp + a) }) ∧
      (resolveHeal s i a t).2 = Result.healParty a (healedSlotsFrom a s.playfield 0)) ∧
    (isPartyHeal hero t = false →
      ∃ tgt, getHero s (healTarget s i t) = some tgt ∧
        (resolveHeal s i a t).1.ap = s.ap - 1 ∧
        getHero (resolveHeal s i a t).1 (healTarget s i t) =
          some { tgt with hp := min tgt.base.hp (tgt.hp + a) } ∧
        (∀ j, j ≠ healTarget s i t → getHero (resolveHeal s i a t).1 j = getHero s j) ∧
        (resolveHeal s i a t).2 =
          Result.healSingle (min tgt.base.hp (tgt.hp + a) - tgt.hp) (healTarget s i t)
            (min tgt.base.hp (tgt.hp + a))) ∧
    (∀ h : Hero, min h.base.hp (h.hp + a) ≤ h.base.hp ∧
      (h.hp ≤ h.base.hp → h.hp ≤ min h.base.hp (h.hp + a))) :=
  resolveHeal_spec s i a t hero hh ha

theorem heal_resolution_witness :
    (getHero (resolveHeal (wardState bard) 0 2 Target.none).1 1).map (fun h => h.hp) = some 12 ∧
    (resolveHeal (wardState bard) 0 2 Target.none).2 = Result.healParty 2 [(1, 2, 12)] ∧
    (resolveHeal (wardState cleric) 0 3 (Target.idx 1)).2 = Result.healSingle 3 1 13 ∧
    (resolveHeal (wardState cleric) 0 3 (Target.idx 2)).2 = Result.healSingle 0 0 9 :=
  have hb := heal_resolution (wardState bard) 0 2 Target.none
    { cardId := "bard", hp := 8, base := bard, tempHp := some 0, statusIcons := some [],
      instanceId := some 1 } (by decide) (by decide)
  ⟨by rw [(hb.1 (by decide)).2.1 1]; decide, by rw [(hb.1 (by decide)).2.2]; decide,
    by decide, by decide⟩

/-! ## C22: placing a hero -/

theorem placeHero_nextId (s : State) (i : Nat) (c : Option Card) :
    s.nextHeroInstanceId ≤ (placeHero s i c).1.nextHeroInstanceId := by
  unfold placeHero
  dsimp only
  repeat' split
  all_goals first
    | exact le_refl _
    | exact Nat.le_succ _

theorem replaceHero_nextId (s : State) (i : Nat) (c : Option Card) :
    s.nextHeroInstanceId ≤ (replaceHero s i c).1.nextHeroInstanceId := by
  unfold replaceHero
  dsimp only
  repeat' split
  all_goals first
    | exact le_refl _
    | exact Nat.le_succ _

theorem defendHero_nextId (s : State) (i : Nat) :
    (defendHero s i).1.nextHeroInstanceId = s.nextHeroInstanceId := by
  unfold defendHero
  dsimp only
  repeat' split
  all_goals rfl

theorem playHeroAttack_nextId (s : State) (i : Nat) (ai : Option Nat) :
    (playHeroAttack s i ai).1.nextHeroInstanceId = s.nextHeroInstanceId := by
  unfold playHeroAttack
  dsimp only
  repeat' split
  all_goals rfl

theorem resolveHeal_nextId (s : State) (i : Nat) (amount : Nat) (t : Target) :
    (resolveHeal s i amount t).1.nextHeroInstanceId = s.nextHeroInstanceId := by
  unfold resolveHeal
  dsimp only
  repeat' split
  all_goals rfl

theorem earlySupport_nextId (s : State) (i : Nat) (hero : Hero) (hid hname : String)
    (r : State × Result) (hr : earlySupport s i hero hid hname = some r) :
    r.1.nextHeroInstanceId = s.nextHeroInstanceId := by
  revert hr; unfold earlySupport; simp only
  repeat' split
  all_goals (intro hr; simp at hr; try subst hr)
  all_goals rfl

theorem scoutSupport_nextId (s : State) (i : Nat) (hero : Hero) (t : Target) (ai : Option Nat)
    (r : State × Result) (hr : scoutSupport s i hero t ai = some r) :
    r.1.nextHeroInstanceId = s.nextHeroInstanceId := by
  revert hr; unfold scoutSupport scoutRally scoutAssist; simp only
  repeat' split
  all_goals (intro hr; simp at hr; try subst hr)
  all_goals rfl

theorem lateSupport_nextId (s : State) (i : Nat) (hid hname : String) (t : Target) :
    (lateSupport s i hid hname t).1.nextHeroInstanceId = s.nextHeroInstanceId := by
  unfold lateSupport willisSupport delayedSupport kieferSupport
  dsimp only
  repeat' split
  all_goals rfl

theorem supportAction_nextId (s : State) (i : Nat) (hero : Hero) (t : Target) (ai : Option Nat) :
    (supportAction s i hero t ai).1.nextHeroInstanceId = s.nextHeroInstanceId := by
  unfold supportAction
  simp only
  split
  · rfl
  · split
    · rename_i r hr
      exact earlySupport_nextId _ _ _ _ _ _ hr
    · split
      · rename_i r hr
        split at hr
        · exact scoutSupport_nextId _ _ _ _ _ _ hr
        · simp at hr
      · exact lateSupport_nextId _ _ _ _ _

theorem playHeroAction_nextId (s : State) (i : Nat) (t : Target) (ai : Option Nat) :
    (playHeroAction s i t ai).1.nextHeroInstanceId = s.nextHeroInstanceId := by
  unfold playHeroAction
  dsimp only
  repeat' split
  all_goals first
    | rfl
    | exact supportAction_nextId _ _ _ _ _
    | exact playHeroAttack_nextId _ _ _
    | exact resolveHeal_nextId _ _ _ _

theorem useSummon_nextId (s : State) (d : Option SummonDef) (t : Target) :
    (useSummon s d t).1.nextHeroInstanceId = s.nextHeroInstanceId := by
  have hm : ∀ (s1 : State) (d : SummonDef),
      (markSummon s1 d).nextHeroInstanceId = s1.nextHeroInstanceId := by
    intro s1 d
    unfold markSummon
    repeat' split
    all_goals rfl
  have he : ∀ (d : SummonDef) (s1 : State), summonEffect s d t = some s1 →
      s1.nextHeroInstanceId = s.nextHeroInstanceId := by
    intro d s1 h
    revert h; unfold summonEffect
    dsimp only
    repeat' split
    all_goals (intro h; simp at h; try subst h)
    all_goals rfl
  unfold useSummon
  repeat' split
  all_goals first
    | rfl
    | (rename_i h
       exact (hm _ _).trans (he _ _ h))

theorem enemyAct_nextId (s : State) :
    (enemyAct s).1.nextHeroInstanceId = s.nextHeroInstanceId ∧ (enemyAct s).1.hand = s.hand := by
  unfold enemyAct
  dsimp only
  split
  · exact ⟨rfl, rfl⟩
  · unfold housekeepingNormal resetRound
    dsimp only
    obtain ⟨_, _, _, _, _, _, _, _, h9, h10, _⟩ := attackPhase_fields
      { s with turn := s.turn + 1,
               playfield := mapHeroes decBlind (mapHeroes decStunEnfeeble s.playfield),
               rng := (s.rng.int 2).2 }
    rw [h9, h10]
    exact ⟨rfl, rfl⟩

theorem step_nextId (s : State) (op : Op) :
    s.nextHeroInstanceId ≤ (step s op).nextHeroInstanceId := by
  cases op with
  | placeHero i c => exact placeHero_nextId s i c
  | replaceHero i c => exact replaceHero_nextId s i c
  | defendHero i => exact le_of_eq (defendHero_nextId s i).symm
  | playHeroAttack i ai => exact le_of_eq (playHeroAttack_nextId s i ai).symm
  | playHeroAction i t ai => exact le_of_eq (playHeroAction_nextId s i t ai).symm
  | useSummon d t => exact le_of_eq (useSummon_nextId s d t).symm
  | enemyAct => exact le_of_eq (enemyAct_nextId s).1.symm
  | setFormation f => exact le_refl _

theorem run_nextId (ops : List Op) (s : State) :
    s.nextHeroInstanceId ≤ (run s ops).nextHeroInstanceId := by
  induction ops generalizing s with
  | nil => exact le_refl _
  | cons op rest ih => exact le_trans (step_nextId s op) (ih (step s op))

theorem removeFirstById_absent (id : String) (l : List Card) (h : ∀ x ∈ l, x.id ≠ id) :
    removeFirstById id l = l := by
  induction l with
  | nil => rfl
  | cons c cs ih =>
    unfold removeFirstById
    rw [if_neg (h c (List.mem_cons_self _ _)),
      ih (fun x hx => h x (List.mem_cons_of_mem _ hx))]

theorem removeFirstById_first (id : String) (l1 l2 : List Card) (x : Card) (hx : x.id = id)
    (h : ∀ y ∈ l1, y.id ≠ id) : removeFirstById id (l1 ++ x :: l2) = l1 ++ l2 := by
  induction l1 with
  | nil =>
    unfold removeFirstById
    simp [hx]
  | cons c cs ih =>
    rw [List.cons_append]
    unfold removeFirstById
    rw [if_neg (h c (List.mem_cons_self _ _)),
      ih (fun y hy => h y (List.mem_cons_of_mem _ hy))]
    rfl

theorem placeHero_ok (s : State) (i : Nat) (c : Card) (hslot : s.playfield[i]? = some Slot.null) :
    placeHero s i (some c) =
      ({ s with nextHeroInstanceId := s.nextHeroInstanceId + 1,
                playfield := s.playfield.set i
                  (Slot.hero { cardId := c.id, hp := c.hp, base := c, tempHp := some 0,
                               statusIcons := some [],
                               instanceId := some s.nextHeroInstanceId }),
                hand := s.hand.map (removeFirstById c.id) },
        Result.placed i) := by
  have hlt : i < s.playfield.length := by
    by_contra hge
    rw [List.getElem?_eq_none (not_lt.mp hge)] at hslot
    cases hslot
  unfold placeHero
  dsimp only
  rw [if_neg (not_le.mpr hlt), if_neg (by simp [hslot])]

/-- C22: `placeHero` with a non-null card on a slot holding `null` returns
`{success:true, slot:i}`. Slot `i` then holds a hero with `cardId = card.id`, `base = card`,
`hp = card.hp`, `tempHp = 0`, empty `statusIcons` and the `_instanceId` drawn from the
counter `_nextHeroInstanceId`; the other slots, `ap` and the enemy are unchanged; the hand
loses exactly the first card with a matching id (`l1 ++ x :: l2` becomes `l1 ++ l2`) and is
unchanged without one. The counter never decreases under any call, so the id given now
differs from the id given by any earlier placement in the encounter. -/
theorem placeHero_success :
    (∀ (s : State) (i : Nat) (c : Card), s.playfield[i]? = some Slot.null →
      (placeHero s i (some c)).2 = Result.placed i ∧
      getHero (placeHero s i (some c)).1 i =
        some { cardId := c.id, hp := c.hp, base := c, tempHp := some 0, statusIcons := some [],
               instanceId := some s.nextHeroInstanceId } ∧
      (∀ j, j ≠ i → (placeHero s i (some c)).1.playfield[j]? = s.playfield[j]?) ∧
      (placeHero s i (some c)).1.playfield.length = s.playfield.length ∧
      (placeHero s i (some c)).1.ap = s.ap ∧
      (placeHero s i (some c)).1.enemy = s.enemy ∧
      (placeHero s i (some c)).1.hand = s.hand.map (removeFirstById c.id) ∧
      (placeHero s i (some c)).1.nextHeroInstanceId = s.nextHeroInstanceId + 1) ∧
    (∀ (id : String) (l : List Card), (∀ x ∈ l, x.id ≠ id) → removeFirstById id l = l) ∧
    (∀ (id : String) (l1 l2 : List Card) (x : Card), x.id = id → (∀ y ∈ l1, y.id ≠ id) →
      removeFirstById id (l1 ++ x :: l2) = l1 ++ l2) ∧
    (∀ (s0 : State) (i0 : Nat) (c0 : Card) (ops : List Op) (i : Nat) (c : Card) (h0 h : Hero),
      s0.playfield[i0]? = some Slot.null →
      getHero (placeHero s0 i0 (some c0)).1 i0 = some h0 →
      (run (placeHero s0 i0 (some c0)).1 ops).playfield[i]? = some Slot.null →
      getHero (placeHero (run (placeHero s0 i0 (some c0)).1 ops) i (some c)).1 i = some h →
      h.instanceId.isSome = true ∧ h.instanceId ≠ h0.instanceId) := by
  have hmain : ∀ (s : State) (i : Nat) (c : Card), s.playfield[i]? = some Slot.null →
      getHero (placeHero s i (some c)).1 i =
        some { cardId := c.id, hp := c.hp, base := c, tempHp := some 0, statusIcons := some [],
               instanceId := some s.nextHeroInstanceId } := by
    intro s i c hslot
    have hlt : i < s.playfield.length := by
      by_contra hge
      rw [List.getElem?_eq_none (not_lt.mp hge)] at hslot
      cases hslot
    rw [placeHero_ok s i c hslot, getHero_of_set i rfl hlt, if_pos rfl]
    rfl
  refine ⟨?_, removeFirstById_absent, removeFirstById_first, ?_⟩
  · intro s i c hslot
    refine ⟨?_, hmain s i c hslot, ?_, ?_, ?_, ?_, ?_, ?_⟩
    all_goals rw [placeHero_ok s i c hslot]
    · intro j hj
      exact List.getElem?_set_ne (Ne.symm hj)
    · exact List.length_set _ _ _
  · intro s0 i0 c0 ops i c h0 h hs0 hh0 hs hh
    rw [hmain s0 i0 c0 hs0] at hh0
    rw [hmain _ i c hs] at hh
    cases hh0
    cases hh
    refine ⟨rfl, ?_⟩
    dsimp only
    have hmono := run_nextId ops (placeHero s0 i0 (some c0)).1
    have hnext : (placeHero s0 i0 (some c0)).1.nextHeroInstanceId =
        s0.nextHeroInstanceId + 1 := by
      rw [placeHero_ok s0 i0 c0 hs0]
    rw [hnext] at hmono
    intro heq
    have := Option.some.inj heq
    omega

theorem placeHero_success_witness :
    getHero (placeHero (startEncounter ogre (some [rogue, fighter, fighter])
        { rolls := [], ints := [] } none) 1 (some fighter)).1 1 =
      some { cardId := "fighter", hp := 12, base := fighter, tempHp := some 0,
             statusIcons := some [], instanceId := some 1 } ∧
    (placeHero (startEncounter ogre (some [rogue, fighter, fighter])
        { rolls := [], ints := [] } none) 1 (some fighter)).1.hand = some [rogue, fighter] :=
  have h := placeHero_success.1 (startEncounter ogre (some [rogue, fighter, fighter])
    { rolls := [], ints := [] } none) 1 fighter (by decide)
  ⟨h.2.1, h.2.2.2.2.2.2.1.trans (by decide)⟩

/-! ## C23: the failures of placeHero -/

theorem rat_of_den_one (q : ℚ) (hd : q.den = 1) (h0 : 0 ≤ q) : q = ((q.num.toNat : Nat) : ℚ) := by
  have h1 : (q.num : ℚ) = q := Rat.coe_int_num_of_den_eq_one hd
  have h2 : 0 ≤ q.num := Rat.num_nonneg.mpr h0
  have h3 : ((q.num.toNat : Nat) : Int) = q.num := Int.toNat_of_nonneg h2
  rw [← h1]
  simp only [Rat.num_intCast]
  exact_mod_cast h3.symm

theorem placeHeroArg_nat (s : State) (i : Nat) (c : Option Card) :
    placeHeroArg s (SlotArg.num (i : ℚ)) c = placeHero s i c := by
  cases c with
  | none => rfl
  | some c =>
    unfold placeHeroArg
    dsimp only
    by_cases hge : s.playfield.length ≤ i
    · have h1 : ((i : ℚ) < 0 ∨ (i : ℚ) ≥ (s.playfield.length : ℚ)) :=
        Or.inr (by exact_mod_cast hge)
      rw [if_pos h1]
      unfold placeHero
      dsimp only
      rw [if_pos hge]
    · have h1 : ¬ ((i : ℚ) < 0 ∨ (i : ℚ) ≥ (s.playfield.length : ℚ)) := by
        rintro (h | h)
        · have : (0 : ℚ) ≤ (i : ℚ) := Nat.cast_nonneg i
          exact absurd h (not_lt.mpr this)
        · exact hge (by exact_mod_cast h)
      rw [if_neg h1, if_neg (by simp)]
      simp

/-- C23 (as amended): `placeHero` fails exactly when the card is null (reason `'no card'`),
else when the slot index is not a number, is negative or is not below `playfield.length`
(reason `'invalid slot'`), else when `playfield[slotIndex]` is not `null`, which is the case
of a slot holding a hero, of a hole of a grown playfield, and of an index that is `NaN` or
not an integer (reason `'slot occupied'`); the checks are made in this order and the state
is left unchanged. For every other input, an integer index of a slot holding `null`, it
succeeds. A playfield from `startEncounter` has three slots, so there the range of the
slot index is `[0,3)`. -/
theorem placeHero_failures (s : State) :
    (∀ a : SlotArg, placeHeroArg s a none = (s, Result.fail "no card")) ∧
    (∀ c : Card,
      placeHeroArg s SlotArg.notNumber (some c) = (s, Result.fail "invalid slot") ∧
      placeHeroArg s SlotArg.posInf (some c) = (s, Result.fail "invalid slot") ∧
      placeHeroArg s SlotArg.negInf (some c) = (s, Result.fail "invalid slot")) ∧
    (∀ (c : Card) (q : ℚ), q < 0 ∨ (s.playfield.length : ℚ) ≤ q →
      placeHeroArg s (SlotArg.num q) (some c) = (s, Result.fail "invalid slot")) ∧
    (∀ c : Card, placeHeroArg s SlotArg.nan (some c) = (s, Result.fail "slot occupied")) ∧
    (∀ (c : Card) (q : ℚ), 0 ≤ q → q < (s.playfield.length : ℚ) → q.den ≠ 1 →
      placeHeroArg s (SlotArg.num q) (some c) = (s, Result.fail "slot occupied")) ∧
    (∀ (c : Card) (i : Nat), i < s.playfield.length → s.playfield[i]? ≠ some Slot.null →
      placeHeroArg s (SlotArg.num (i : ℚ)) (some c) = (s, Result.fail "slot occupied")) ∧
    (∀ (c : Card) (i : Nat), s.playfield[i]? = some Slot.null →
      (placeHeroArg s (SlotArg.num (i : ℚ)) (some c)).2 = Result.placed i) ∧
    (∀ (a : SlotArg) (c : Option Card), (placeHeroArg s a c).2.failed = true ↔
      (c = none ∨
        ¬ ∃ i : Nat, a = SlotArg.num (i : ℚ) ∧ s.playfield[i]? = some Slot.null)) ∧
    (∀ (i : Nat) (c : Option Card), placeHero s i c = placeHeroArg s (SlotArg.num (i : ℚ)) c) ∧
    (∀ (e : Enemy) (hand : Option (List Card)) (rng : Rng) (ap : Option Int),
      (startEncounter e hand rng ap).playfield.length = 3) := by
  have h3 : ∀ (c : Card) (q : ℚ), q < 0 ∨ (s.playfield.length : ℚ) ≤ q →
      placeHeroArg s (SlotArg.num q) (some c) = (s, Result.fail "invalid slot") := by
    intro c q hq
    unfold placeHeroArg
    dsimp only
    rw [if_pos hq]
  have h5 : ∀ (c : Card) (q : ℚ), 0 ≤ q → q < (s.playfield.length : ℚ) → q.den ≠ 1 →
      placeHeroArg s (SlotArg.num q) (some c) = (s, Result.fail "slot occupied") := by
    intro c q h0 hlt hden
    unfold placeHeroArg
    dsimp only
    rw [if_neg (by rintro (h | h); exact absurd h (not_lt.mpr h0); exact absurd hlt (not_lt.mpr h)),
      if_pos hden]
  have h6 : ∀ (c : Card) (i : Nat), i < s.playfield.length →
      s.playfield[i]? ≠ some Slot.null →
      placeHeroArg s (SlotArg.num (i : ℚ)) (some c) = (s, Result.fail "slot occupied") := by
    intro c i hlt hocc
    rw [placeHeroArg_nat]
    unfold placeHero
    dsimp only
    rw [if_neg (not_le.mpr hlt), if_pos hocc]
  have h7 : ∀ (c : Card) (i : Nat), s.playfield[i]? = some Slot.null →
      (placeHeroArg s (SlotArg.num (i : ℚ)) (some c)).2 = Result.placed i := by
    intro c i hslot
    rw [placeHeroArg_nat, placeHero_ok s i c hslot]
  refine ⟨fun _ => rfl, fun _ => ⟨rfl, rfl, rfl⟩, h3, fun _ => rfl, h5, h6, h7, ?_,
    fun i c => (placeHeroArg_nat s i c).symm, fun _ _ _ _ => rfl⟩
  intro a c
  cases c with
  | none => exact ⟨fun _ => Or.inl rfl, fun _ => rfl⟩
  | some c =>
    have hno : ∀ a' : SlotArg, (∀ q, a' ≠ SlotArg.num q) →
        ¬ ∃ i : Nat, a' = SlotArg.num (i : ℚ) ∧ s.playfield[i]? = some Slot.null := by
      rintro a' ha ⟨i, hi, _⟩
      exact ha _ hi
    cases a with
    | notNumber => exact ⟨fun _ => Or.inr (hno _ (fun _ h => by cases h)), fun _ => rfl⟩
    | posInf => exact ⟨fun _ => Or.inr (hno _ (fun _ h => by cases h)), fun _ => rfl⟩
    | negInf => exact ⟨fun _ => Or.inr (hno _ (fun _ h => by cases h)), fun _ => rfl⟩
    | nan => exact ⟨fun _ => Or.inr (hno _ (fun _ h => by cases h)), fun _ => rfl⟩
    | num q =>
      by_cases hq : q < 0 ∨ (s.playfield.length : ℚ) ≤ q
      · rw [h3 c q hq]
        refine ⟨fun _ => Or.inr ?_, fun _ => rfl⟩
        rintro ⟨i, hi, hslot⟩
        have hqi : q = (i : ℚ) := SlotArg.num.inj hi
        have hlt : i < s.playfield.length := by
          by_contra hge
          rw [List.getElem?_eq_none (not_lt.mp hge)] at hslot
          cases hslot
        rcases hq with h | h
        · rw [hqi] at h
          exact absurd h (not_lt.mpr (Nat.cast_nonneg i))
        · rw [hqi] at h
          have : s.playfield.length ≤ i := by exact_mod_cast h
          omega
      · have h0 : 0 ≤ q := not_lt.mp (fun h => hq (Or.inl h))
        have hlt : q < (s.playfield.length : ℚ) := not_le.mp (fun h => hq (Or.inr h))
        by_cases hden : q.den = 1
        · have hqi := rat_of_den_one q hden h0
          have hlt' : q.num.toNat < s.playfield.length := by
            rw [hqi] at hlt
            exact_mod_cast hlt
          by_cases hslot : s.playfield[q.num.toNat]? = some Slot.null
          · have hok := h7 c q.num.toNat hslot
            rw [← hqi] at hok
            rw [hok]
            constructor
            · intro h
              cases h
            · rintro (h | h)
              · cases h
              · exact absurd ⟨q.num.toNat, by rw [← hqi], hslot⟩ h
          · have hf := h6 c q.num.toNat hlt' hslot
            rw [← hqi] at hf
            rw [hf]
            refine ⟨fun _ => Or.inr ?_, fun _ => rfl⟩
            rintro ⟨i, hi, hs⟩
            have hqi' : q = (i : ℚ) := SlotArg.num.inj hi
            have : q.num.toNat = i := by
              rw [hqi']
              simp
            rw [this] at hslot
            exact hslot hs
        · rw [h5 c q h0 hlt hden]
          refine ⟨fun _ => Or.inr ?_, fun _ => rfl⟩
          rintro ⟨i, hi, _⟩
          have hqi' : q = (i : ℚ) := SlotArg.num.inj hi
          apply hden
          rw [hqi']
          simp

/-- Instances of C23 on the encounter with the fighter in slot 0: index 3 and index -1 are
invalid slots, slot 0 and the fractional index 1/2 are occupied, and slot 1 takes the
rogue. -/
theorem placeHero_failures_witness :
    placeHeroArg fighterState (SlotArg.num 3) (some rogue) =
      (fighterState, Result.fail "invalid slot") ∧
    placeHeroArg fighterState (SlotArg.num (-1)) (some rogue) =
      (fighterState, Result.fail "invalid slot") ∧
    placeHeroArg fighterState (SlotArg.num ((0 : Nat) : ℚ)) (some rogue) =
      (fighterState, Result.fail "slot occupied") ∧
    placeHeroArg fighterState (SlotArg.num (1 / 2)) (some rogue) =
      (fighterState, Result.fail "slot occupied") ∧
    (placeHeroArg fighterState (SlotArg.num ((1 : Nat) : ℚ)) (some rogue)).2 =
      Result.placed 1 :=
  ⟨(placeHero_failures fighterState).2.2.1 rogue 3 (Or.inr (by with_unfolding_all decide)),
    (placeHero_failures fighterState).2.2.1 rogue (-1) (Or.inl (by with_unfolding_all decide)),
    (placeHero_failures fighterState).2.2.2.2.2.1 rogue 0 (by decide) (by decide),
    (placeHero_failures fighterState).2.2.2.2.1 rogue (1 / 2) (by with_unfolding_all decide)
      (by with_unfolding_all decide) (by with_unfolding_all decide),
    (placeHero_failures fighterState).2.2.2.2.2.2.1 rogue 1 (by decide)⟩

/-- C23 (counterexample to the claim as worded): the reason codes of the three failures
are `'invalid slot'`, `'slot occupied'` and `'no card'`, not `invalid_slot`, `slot_occupied`
and `no_card`. And the valid indices are those below `playfield.length`, not those of
`[0,3)`: after `replaceHero(state, 5, fighter)` and a dragon's breath that kills the
fighter, slot 5 of the playfield holds `null`, and `placeHero(state, 5, rogue)` succeeds. -/
theorem placeHero_reason_codes :
    (placeHero fighterState 3 (some rogue)).2 = Result.fail "invalid slot" ∧
    (placeHero fighterState 3 (some rogue)).2 ≠ Result.fail "invalid_slot" ∧
    (placeHero fighterState 0 (some rogue)).2 = Result.fail "slot occupied" ∧
    (placeHero fighterState 0 (some rogue)).2 ≠ Result.fail "slot_occupied" ∧
    (placeHero fighterState 1 none).2 = Result.fail "no card" ∧
    (placeHero fighterState 1 none).2 ≠ Result.fail "no_card" ∧
    scorchedField.playfield =
      [Slot.null, Slot.null, Slot.null, Slot.hole, Slot.hole, Slot.null] ∧
    (placeHero scorchedField 5 (some rogue)).2 = Result.placed 5 := by
  decide

/-! ## C24: replaceHero on an empty slot -/

/-- C24 fails on the code. On a fresh encounter with the fighter in hand and slot 1 empty,
`replaceHero(state, 1, fighter)` and `placeHero(state, 1, fighter)` both report
`{success:true, slot:1}` and charge no AP, but leave different states: the hero written by
`replaceHero` has no `tempHp`, no `statusIcons` and no `_instanceId`, the instance counter
is not advanced and the fighter stays in the hand. With the out-of-range index 5
`replaceHero` succeeds and grows the playfield to six slots where `placeHero` fails with
`'invalid slot'`, and with a null card it throws where `placeHero` fails with `'no card'`. -/
theorem replaceHero_empty_differs :
    (replaceHero emptyField 1 (some fighter)).2 = Result.placed 1 ∧
    (placeHero emptyField 1 (some fighter)).2 = Result.placed 1 ∧
    (replaceHero emptyField 1 (some fighter)).1.ap = emptyField.ap ∧
    getHero (replaceHero emptyField 1 (some fighter)).1 1 =
      some { cardId := "fighter", hp := 12, base := fighter, tempHp := none,
             statusIcons := none, instanceId := none } ∧
    getHero (placeHero emptyField 1 (some fighter)).1 1 =
      some { cardId := "fighter", hp := 12, base := fighter, tempHp := some 0,
             statusIcons := some [], instanceId := some 1 } ∧
    (replaceHero emptyField 1 (some fighter)).1.hand = some [fighter, rogue] ∧
    (placeHero emptyField 1 (some fighter)).1.hand = some [rogue] ∧
    (replaceHero emptyField 1 (some fighter)).1.nextHeroInstanceId = 1 ∧
    (placeHero emptyField 1 (some fighter)).1.nextHeroInstanceId = 2 ∧
    (replaceHero emptyField 5 (some fighter)).2 = Result.placed 5 ∧
    (replaceHero emptyField 5 (some fighter)).1.playfield.length = 6 ∧
    placeHero emptyField 5 (some fighter) = (emptyField, Result.fail "invalid slot") ∧
    replaceHero emptyField 1 none = (emptyField, Result.threw) ∧
    placeHero emptyField 1 none = (emptyField, Result.fail "no card") := by
  decide

/-- What the empty-slot branch of `replaceHero` does: with a non-null card it
charges no AP and returns `{success:true, slot:i}` after writing the bare hero
`{cardId, hp, base}` to `playfield[i]`: no `tempHp`, `statusIcons` or `_instanceId`, the
hand and the instance counter untouched, everything else unchanged. It validates nothing:
an index beyond the playfield grows it to `i + 1` slots, and a null card makes it throw.
On a slot holding `null` it agrees with `placeHero` on the result, and the state left by
`placeHero` differs from it exactly in the hero's `tempHp`, `statusIcons` and `_instanceId`,
the advanced counter and the card removed from the hand. -/
theorem replaceHero_bare_write (s : State) (i : Nat) (c : Card) (hempty : getHero s i = none) :
    replaceHero s i (some c) =
      ({ s with playfield := setSlot s.playfield i
                  (Slot.hero { cardId := c.id, hp := c.hp, base := c }) },
        Result.placed i) ∧
    (replaceHero s i (some c)).1.ap = s.ap ∧
    (replaceHero s i (some c)).1.hand = s.hand ∧
    (replaceHero s i (some c)).1.nextHeroInstanceId = s.nextHeroInstanceId ∧
    (i < s.playfield.length →
      getHero (replaceHero s i (some c)).1 i =
        some { cardId := c.id, hp := c.hp, base := c, tempHp := none, statusIcons := none,
               instanceId := none } ∧
      ∀ j, j ≠ i → (replaceHero s i (some c)).1.playfield[j]? = s.playfield[j]?) ∧
    (s.playfield.length ≤ i → (replaceHero s i (some c)).1.playfield.length = i + 1) ∧
    replaceHero s i none = (s, Result.threw) ∧
    (s.playfield[i]? = some Slot.null →
      (placeHero s i (some c)).2 = (replaceHero s i (some c)).2 ∧
      (placeHero s i (some c)).1 =
        { (replaceHero s i (some c)).1 with
            nextHeroInstanceId := s.nextHeroInstanceId + 1,
            hand := s.hand.map (removeFirstById c.id),
            playfield := s.playfield.set i
              (Slot.hero { cardId := c.id, hp := c.hp, base := c, tempHp := some 0,
                           statusIcons := some [],
                           instanceId := some s.nextHeroInstanceId }) }) := by
  have hres : replaceHero s i (some c) =
      ({ s with playfield := setSlot s.playfield i
                  (Slot.hero { cardId := c.id, hp := c.hp, base := c }) },
        Result.placed i) := by
    unfold replaceHero
    rw [hempty]
  have hnone : replaceHero s i none = (s, Result.threw) := by
    unfold replaceHero
    rw [hempty]
  refine ⟨hres, ?_, ?_, ?_, ?_, ?_, hnone, ?_⟩
  · rw [hres]
  · rw [hres]
  · rw [hres]
  · intro hlt
    rw [hres]
    have hset : setSlot s.playfield i (Slot.hero { cardId := c.id, hp := c.hp, base := c }) =
        s.playfield.set i (Slot.hero { cardId := c.id, hp := c.hp, base := c }) := by
      unfold setSlot
      rw [if_pos hlt]
    refine ⟨?_, ?_⟩
    · rw [getHero_of_set i hset hlt, if_pos rfl]
      rfl
    · intro j hj
      dsimp only
      rw [hset]
      exact List.getElem?_set_ne (Ne.symm hj)
  · intro hge
    rw [hres]
    dsimp only
    unfold setSlot
    rw [if_neg (not_lt.mpr hge)]
    simp
    omega
  · intro hslot
    rw [placeHero_ok s i c hslot, hres]
    exact ⟨rfl, rfl⟩

/-! ## C25: replaceHero on an occupied slot -/

theorem replaceHero_ok (s : State) (i : Nat) (c : Card) (old : Hero)
    (hold : getHero s i = some old) (hap : 0 < s.ap) :
    replaceHero s i (some c) =
      ({ s with hand := s.hand.map fun hd => hd ++ [{ old.base with hp := old.hp }],
                nextHeroInstanceId := s.nextHeroInstanceId + 1,
                playfield := s.playfield.set i
                  (Slot.hero { cardId := c.id, hp := c.hp, base := c, statusIcons := some [],
                               instanceId := some s.nextHeroInstanceId }),
                ap := s.ap - 1 },
        Result.ok) := by
  unfold replaceHero
  rw [hold]
  dsimp only
  rw [if_neg (not_le.mpr hap)]

/-- C25: `replaceHero` on a slot holding the hero `old`. With `ap ≤ 0` it fails with
`'no AP'` and changes nothing. Otherwise, for a non-null card, it succeeds: the hand (when
there is one) gains at its end a copy of `old.base` whose `hp` is `old.hp`; the slot holds a
fresh instance of the new card with `hp = newCard.hp`, empty `statusIcons`, every status
flag and counter at its default and the `_instanceId` drawn from the counter, which is
advanced; exactly one AP is charged; the other slots, the enemy and `exhaustedThisEncounter`
are unchanged. As the counter never decreases, the id differs from the one given by any
earlier `placeHero` or `replaceHero` of the encounter. -/
theorem replaceHero_occupied :
    (∀ (s : State) (i : Nat) (c : Option Card) (old : Hero),
      getHero s i = some old → s.ap ≤ 0 → replaceHero s i c = (s, Result.fail "no AP")) ∧
    (∀ (s : State) (i : Nat) (c : Card) (old : Hero),
      getHero s i = some old → 0 < s.ap →
      (replaceHero s i (some c)).2 = Result.ok ∧
      (replaceHero s i (some c)).1.hand =
        s.hand.map (fun hd => hd ++ [{ old.base with hp := old.hp }]) ∧
      getHero (replaceHero s i (some c)).1 i =
        some { cardId := c.id, hp := c.hp, base := c, tempHp := none, statusIcons := some [],
               instanceId := some s.nextHeroInstanceId, defending := false, helped := false,
               helpSource := none, protectedTurns := none, stunnedTurns := 0,
               enfeebledTurns := 0, blindedTurns := 0, hitBonus := 0 } ∧
      (replaceHero s i (some c)).1.nextHeroInstanceId = s.nextHeroInstanceId + 1 ∧
      (replaceHero s i (some c)).1.ap = s.ap - 1 ∧
      (∀ j, j ≠ i → (replaceHero s i (some c)).1.playfield[j]? = s.playfield[j]?) ∧
      (replaceHero s i (some c)).1.enemy = s.enemy ∧
      (replaceHero s i (some c)).1.exhaustedThisEncounter = s.exhaustedThisEncounter) ∧
    (∀ (s0 : State) (op : Op) (ops : List Op) (i : Nat) (c : Card) (old : Hero),
      (step s0 op).nextHeroInstanceId = s0.nextHeroInstanceId + 1 →
      getHero (run (step s0 op) ops) i = some old → 0 < (run (step s0 op) ops).ap →
      (getHero (replaceHero (run (step s0 op) ops) i (some c)).1 i).bind (fun h => h.instanceId) ≠
        some s0.nextHeroInstanceId) := by
  refine ⟨?_, ?_, ?_⟩
  · intro s i c old hold hap
    unfold replaceHero
    rw [hold]
    dsimp only
    rw [if_pos hap]
  · intro s i c old hold hap
    have hlt := lt_length_of_getHero hold
    refine ⟨?_, ?_, ?_, ?_, ?_, ?_, ?_, ?_⟩
    all_goals rw [replaceHero_ok s i c old hold hap]
    · rw [getHero_of_set i rfl hlt, if_pos rfl]
      rfl
    · intro j hj
      exact List.getElem?_set_ne (Ne.symm hj)
  · intro s0 op ops i c old hnext hold hap
    have hlt := lt_length_of_getHero hold
    have hmono := run_nextId ops (step s0 op)
    rw [hnext] at hmono
    rw [replaceHero_ok _ i c old hold hap, getHero_of_set i rfl hlt, if_pos rfl]
    simp only [Slot.hero?, Option.bind_some, Option.some_bind]
    intro heq
    have := Option.some.inj heq
    omega

theorem replaceHero_occupied_witness :
    (replaceHero (wardState cleric) 1 (some rogue)).1.hand = some [{ tank with hp := 10 }] ∧
    (replaceHero (wardState cleric) 1 (some rogue)).1.ap = (wardState cleric).ap - 1 ∧
    replaceHero { wardState cleric with ap := 0 } 1 (some rogue) =
      ({ wardState cleric with ap := 0 }, Result.fail "no AP") :=
  have h := replaceHero_occupied.2.1 (wardState cleric) 1 rogue hurtTank (by decide) (by decide)
  ⟨h.2.1.trans (by decide), h.2.2.2.2.1,
    replaceHero_occupied.1 { wardState cleric with ap := 0 } 1 (some rogue) hurtTank
      (by decide) (by decide)⟩

/-! ## C26: the dispatch of playHeroAction -/

theorem actionTypeOf_spec (hero : Hero) (a : Ability) :
    (heroId hero = "bjurganmyr" ∨ heroId hero = "miley" → actionTypeOf hero a = "support") ∧
    (heroId hero ≠ "bjurganmyr" → heroId hero ≠ "miley" →
      (∀ ty, a.actionType = some ty → ty ≠ "" → actionTypeOf hero a = lower ty) ∧
      (a.actionType = none ∨ a.actionType = some "" → actionTypeOf hero a = inferredType a)) := by
  refine ⟨?_, ?_⟩
  · intro h
    unfold actionTypeOf
    dsimp only
    rw [if_pos]
    refine ⟨?_, h⟩
    rcases h with h | h <;> rw [h] <;> decide
  · intro h1 h2
    have hno : ¬ (heroId hero ≠ "" ∧ (heroId hero = "bjurganmyr" ∨ heroId hero = "miley")) := by
      rintro ⟨_, h | h⟩
      · exact h1 h
      · exact h2 h
    refine ⟨?_, ?_⟩
    · intro ty hty hne
      unfold actionTypeOf
      dsimp only
      rw [if_neg hno, hty]
      dsimp only
      rw [if_neg hne]
    · intro hty
      unfold actionTypeOf inferredType
      dsimp only
      rw [if_neg hno]
      rcases hty with hty | hty <;> rw [hty] <;> rfl

theorem supportAction_unknown (s : State) (i : Nat) (hero : Hero) (t : Target) (ai : Option Nat)
    (hid : heroId hero ∉ supportIds)
    (hg : truthyAt s.supportUsed (heroId hero) = false) :
    supportAction s i hero t ai = (s, Result.fail "no support action") := by
  simp only [supportIds, List.mem_cons, List.mem_singleton, List.not_mem_nil, or_false,
    not_or] at hid
  obtain ⟨h1, h2, h3, h4, h5, h6, h7, h8, h9⟩ := hid
  unfold supportAction
  simp only
  rw [if_neg (by simp [hg])]
  simp [earlySupport, lateSupport, h1, h2, h3, h4, h5, h6, h7, h8, h9]

/-- C26 (as amended): for a state passing the AP, hero and stun checks, the action type of
the chosen ability is `support` for the hero ids `bjurganmyr` and `miley`; otherwise the
ability's explicit `actionType`, lower-cased, when it has a non-empty one, and else `healer`
when the lower-cased ability text contains heal, cure, restore or regen, and `dps` if not.
On `dps`/`attack` the call returns exactly what `playHeroAttack` returns, on
`healer`/`heal` exactly what `resolveHeal` returns for the parsed amount and the target, on
`support` the outcome of the support branch. There a hero id without a support block fails
with reason `'no support action'`, unless the once-per-round gate answers first: it answers
`used_this_round` for an id marked used and for an id that names a property every object
inherits (such as `constructor`), which reads as truthy from the table of used supports.
Every other action type fails with reason `'unsupported actionType'`. -/
theorem playHeroAction_dispatch (s : State) (i : Nat) (t : Target) (ai : Option Nat)
    (hero : Hero) (hap : 0 < s.ap) (hh : getHero s i = some hero)
    (hst : hero.stunnedTurns = 0) :
    ((heroId hero = "bjurganmyr" ∨ heroId hero = "miley" →
        actionTypeOf hero (chosenAbility hero ai) = "support") ∧
      (heroId hero ≠ "bjurganmyr" → heroId hero ≠ "miley" →
        (∀ ty, (chosenAbility hero ai).actionType = some ty → ty ≠ "" →
          actionTypeOf hero (chosenAbility hero ai) = lower ty) ∧
        ((chosenAbility hero ai).actionType = none ∨
            (chosenAbility hero ai).actionType = some "" →
          actionTypeOf hero (chosenAbility hero ai) = inferredType (chosenAbility hero ai)))) ∧
    (actionTypeOf hero (chosenAbility hero ai) = "dps" ∨
        actionTypeOf hero (chosenAbility hero ai) = "attack" →
      playHeroAction s i t ai = playHeroAttack s i ai) ∧
    (actionTypeOf hero (chosenAbility hero ai) = "healer" ∨
        actionTypeOf hero (chosenAbility hero ai) = "heal" →
      playHeroAction s i t ai =
        resolveHeal s i (parseDamageFromAbility (chosenAbility hero ai)) t) ∧
    (actionTypeOf hero (chosenAbility hero ai) = "support" →
      playHeroAction s i t ai = supportAction s i hero t ai ∧
      (heroId hero ∉ supportIds → heroId hero ∉ protoKeys →
        dictGet s.supportUsed (heroId hero) ≠ some true →
        playHeroAction s i t ai = (s, Result.fail "no support action")) ∧
      (heroId hero ≠ "" → dictGet s.supportUsed (heroId hero) = some true →
        playHeroAction s i t ai = (s, Result.fail "used_this_round")) ∧
      (heroId hero ∈ protoKeys →
        dictGet s.supportUsed (heroId hero) = none ∨ heroId hero = "__proto__" →
        playHeroAction s i t ai = (s, Result.fail "used_this_round"))) ∧
    (actionTypeOf hero (chosenAbility hero ai) ∉ ["dps", "attack", "healer", "heal", "support"] →
      playHeroAction s i t ai = (s, Result.fail "unsupported actionType")) := by
  have hap' : ¬ s.ap ≤ 0 := not_le.mpr hap
  refine ⟨actionTypeOf_spec hero (chosenAbility hero ai), ?_, ?_, ?_, ?_⟩
  · intro hty
    unfold playHeroAction
    rw [if_neg hap', hh]
    dsimp only
    rw [if_neg (by omega), if_pos hty]
  · intro hty
    have hnd : ¬ (actionTypeOf hero (chosenAbility hero ai) = "dps" ∨
        actionTypeOf hero (chosenAbility hero ai) = "attack") := by
      rcases hty with h | h <;> rw [h] <;> decide
    unfold playHeroAction
    rw [if_neg hap', hh]
    dsimp only
    rw [if_neg (by omega), if_neg hnd, if_pos hty]
  · intro hty
    have h := playHeroAction_support s i t ai hero hap hh hst hty
    refine ⟨h, ?_, ?_, ?_⟩
    · intro hid hp hg
      rw [h]
      exact supportAction_unknown s i hero t ai hid (truthyAt_unmarked _ _ hp hg)
    · intro hne hm
      rw [h]
      exact supportAction_gate s i hero t ai hne hm
    · intro hp hd
      have hne : heroId hero ≠ "" := by
        intro e
        rw [e] at hp
        exact absurd hp (by decide)
      rw [h]
      apply supportAction_gate_truthy s i hero t ai hne
      rcases hd with hd | hd
      · exact truthyAt_proto _ _ hp hd
      · unfold truthyAt
        rw [if_pos hd]
  · intro hty
    simp only [List.mem_cons, List.mem_singleton, List.not_mem_nil, or_false, not_or] at hty
    obtain ⟨h1, h2, h3, h4, h5⟩ := hty
    unfold playHeroAction
    rw [if_neg hap', hh]
    dsimp only
    rw [if_neg (by omega), if_neg (by simp [h1, h2]), if_neg (by simp [h3, h4]), if_neg h5]

/-- Instances of C26: the cleric's heal is what `resolveHeal` returns; the herald, whose id
has no support block, gets `'no support action'`; the sentinel's action type `tank` gets
`'unsupported actionType'`; the shouter's action type `ATTAC` followed by the Kelvin sign
lower-cases to `attack` and attacks; and a support hero with the id `constructor` is refused
with `used_this_round` on a fresh round. -/
theorem playHeroAction_dispatch_witness :
    playHeroAction (wardState cleric) 0 (Target.idx 1) none =
      resolveHeal (wardState cleric) 0 3 (Target.idx 1) ∧
    playHeroAction (wardState herald) 0 Target.none none =
      (wardState herald, Result.fail "no support action") ∧
    playHeroAction (wardState sentinel) 0 Target.none none =
      (wardState sentinel, Result.fail "unsupported actionType") ∧
    playHeroAction (wardState shouter) 0 Target.none none =
      playHeroAttack (wardState shouter) 0 none ∧
    playHeroAction (wardState builder) 0 Target.none none =
      (wardState builder, Result.fail "used_this_round") :=
  ⟨(playHeroAction_dispatch (wardState cleric) 0 (Target.idx 1) none
      { cardId := "cleric", hp := 9, base := cleric, tempHp := some 0, statusIcons := some [],
        instanceId := some 1 } (by decide) (by decide) (by decide)).2.2.1 (by decide),
    ((playHeroAction_dispatch (wardState herald) 0 Target.none none
      { cardId := "herald", hp := 10, base := herald, tempHp := some 0, statusIcons := some [],
        instanceId := some 1 } (by decide) (by decide) (by decide)).2.2.2.1 (by decide)).2.1
      (by decide) (by decide) (by decide),
    (playHeroAction_dispatch (wardState sentinel) 0 Target.none none
      { cardId := "sentinel", hp := 10, base := sentinel, tempHp := some 0,
        statusIcons := some [], instanceId := some 1 } (by decide) (by decide)
      (by decide)).2.2.2.2 (by decide),
    (playHeroAction_dispatch (wardState shouter) 0 Target.none none
      { cardId := "shouter", hp := 10, base := shouter, tempHp := some 0,
        statusIcons := some [], instanceId := some 1 } (by decide) (by decide)
      (by decide)).2.1 (Or.inr (by decide)),
    ((playHeroAction_dispatch (wardState builder) 0 Target.none none
      { cardId := "constructor", hp := 10, base := builder, tempHp := some 0,
        statusIcons := some [], instanceId := some 1 } (by decide) (by decide)
      (by decide)).2.2.2.1 (by decide)).2.2.2 (by decide) (Or.inl (by decide))⟩

/-- C26 (counterexample to the claim as worded): the two failure reasons of the dispatch
are `'no support action'` and `'unsupported actionType'`, not `no_support_action` and
`unsupported_action_type`. -/
theorem dispatch_reason_codes :
    (playHeroAction (wardState herald) 0 Target.none none).2 =
      Result.fail "no support action" ∧
    (playHeroAction (wardState herald) 0 Target.none none).2 ≠
      Result.fail "no_support_action" ∧
    (playHeroAction (wardState sentinel) 0 Target.none none).2 =
      Result.fail "unsupported actionType" ∧
    (playHeroAction (wardState sentinel) 0 Target.none none).2 ≠
      Result.fail "unsupported_action_type" := by
  decide

/-! ## C27: magnitude parsing -/

theorem scanDigits_digit (c : Char) (cs : List Char) (cur last : Option Nat)
    (hc : c.isDigit = true) :
    scanDigits (c :: cs) cur last =
      scanDigits cs (some (cur.getD 0 * 10 + (c.toNat - 48))) last := by
  rw [scanDigits, if_pos hc]

theorem scanDigits_other (c : Char) (cs : List Char) (cur last : Option Nat)
    (hc : c.isDigit = false) :
    scanDigits (c :: cs) cur last = scanDigits cs none (if cur.isSome then cur else last) := by
  rw [scanDigits, if_neg (by simp [hc])]

theorem scanDigits_noDigits (post : List Char) (hpost : ∀ c ∈ post, c.isDigit = false)
    (cur last : Option Nat) :
    scanDigits post cur last = if cur.isSome then cur else last := by
  induction post generalizing cur last with
  | nil => rfl
  | cons c cs ih =>
    rw [scanDigits_other c cs cur last (hpost c (List.mem_cons_self _ _)),
      ih (fun x hx => hpost x (List.mem_cons_of_mem _ hx))]
    rfl

theorem scanDigits_run (run rest : List Char) (hrun : ∀ c ∈ run, c.isDigit = true)
    (hne : run ≠ []) (cur last : Option Nat) :
    scanDigits (run ++ rest) cur last =
      scanDigits rest (some (run.foldl (fun n c => n * 10 + (c.toNat - 48)) (cur.getD 0))) last := by
  induction run generalizing cur with
  | nil => exact absurd rfl hne
  | cons c cs ih =>
    rw [List.cons_append, scanDigits_digit c _ cur last (hrun c (List.mem_cons_self _ _))]
    by_cases hcs : cs = []
    · subst hcs
      rfl
    · rw [ih (fun x hx => hrun x (List.mem_cons_of_mem _ hx)) hcs]
      rfl

theorem scanDigits_skip (pre : List Char) (c : Char) (hc : c.isDigit = false)
    (rest : List Char) (cur last : Option Nat) :
    ∃ last', scanDigits (pre ++ c :: rest) cur last = scanDigits rest none last' := by
  induction pre generalizing cur last with
  | nil =>
    refine ⟨if cur.isSome then cur else last, ?_⟩
    rw [List.nil_append, scanDigits_other c rest cur last hc]
  | cons d ds ih =>
    rw [List.cons_append]
    by_cases hd : d.isDigit = true
    · rw [scanDigits_digit d _ cur last hd]
      exact ih _ _
    · rw [scanDigits_other d _ cur last (by simpa using hd)]
      exact ih _ _

theorem bitLength_zero (fuel : Nat) : bitLength fuel 0 = 0 := by
  cases fuel <;> rfl

theorem bitLength_succ (fuel n : Nat) (hn : n ≠ 0) :
    bitLength (fuel + 1) n = bitLength fuel (n / 2) + 1 := by
  rw [bitLength, if_neg hn]

theorem bitLength_spec (fuel : Nat) :
    ∀ n, n ≠ 0 → n ≤ fuel →
      ∃ b, bitLength fuel n = b + 1 ∧ 2 ^ b ≤ n ∧ n < 2 ^ (b + 1) := by
  induction fuel with
  | zero =>
    intro n hn hle
    omega
  | succ f ih =>
    intro n hn hle
    rw [bitLength_succ f n hn]
    by_cases h2 : n / 2 = 0
    · rw [h2, bitLength_zero]
      refine ⟨0, rfl, ?_, ?_⟩
      · simp; omega
      · simp; omega
    · obtain ⟨b, hb, hlo, hhi⟩ := ih (n / 2) h2 (by omega)
      refine ⟨b + 1, by rw [hb], ?_, ?_⟩
      · rw [pow_succ]; omega
      · rw [pow_succ]; omega

theorem round_core (n u : Nat) (hu : 0 < u) :
    ∃ m, (if 2 * (n % u) < u then n / u else if u < 2 * (n % u) then n / u + 1
          else if n / u % 2 = 0 then n / u else n / u + 1) = m ∧
      2 * (m * u - n) ≤ u ∧ 2 * (n - m * u) ≤ u ∧
      ((2 * (m * u - n) = u ∨ 2 * (n - m * u) = u) → m % 2 = 0) := by
  have hdm := Nat.div_add_mod n u
  have hr := Nat.mod_lt n hu
  generalize n / u = f at hdm
  generalize n % u = r at hdm hr
  by_cases h1 : 2 * r < u
  · rw [if_pos h1]
    refine ⟨f, rfl, ?_, ?_, ?_⟩
    · rw [Nat.mul_comm f u]; omega
    · rw [Nat.mul_comm f u]; omega
    · rw [Nat.mul_comm f u]; omega
  · rw [if_neg h1]
    by_cases h2 : u < 2 * r
    · rw [if_pos h2]
      refine ⟨f + 1, rfl, ?_, ?_, ?_⟩
      · rw [Nat.mul_comm (f + 1) u, Nat.mul_add]; omega
      · rw [Nat.mul_comm (f + 1) u, Nat.mul_add]; omega
      · rw [Nat.mul_comm (f + 1) u, Nat.mul_add]; omega
    · rw [if_neg h2]
      by_cases h3 : f % 2 = 0
      · rw [if_pos h3]
        exact ⟨f, rfl, by rw [Nat.mul_comm f u]; omega,
          by rw [Nat.mul_comm f u]; omega, fun _ => h3⟩
      · rw [if_neg h3]
        refine ⟨f + 1, rfl, ?_, ?_, fun _ => by omega⟩
        · rw [Nat.mul_comm (f + 1) u, Nat.mul_add]; omega
        · rw [Nat.mul_comm (f + 1) u, Nat.mul_add]; omega

/-- The rounding of `Number`: from `2^53` on the result is a multiple `m * 2^k` of the
spacing `2^k` of the doubles around `n`, at distance at most half that spacing from `n`,
with `m` even on a tie. -/
theorem roundDoubleNat_spec (n : Nat) (h : 2 ^ 53 ≤ n) :
    ∃ k m, 2 ^ (k + 52) ≤ n ∧ n < 2 ^ (k + 53) ∧ roundDoubleNat n = m * 2 ^ k ∧
      2 * (roundDoubleNat n - n) ≤ 2 ^ k ∧ 2 * (n - roundDoubleNat n) ≤ 2 ^ k ∧
      ((2 * (roundDoubleNat n - n) = 2 ^ k ∨ 2 * (n - roundDoubleNat n) = 2 ^ k) →
        m % 2 = 0) := by
  have hn : n ≠ 0 := by
    intro e
    rw [e] at h
    exact absurd h (by decide)
  obtain ⟨b, hb, hlo, hhi⟩ := bitLength_spec n n hn le_rfl
  have hb53 : 53 ≤ b := by
    by_contra hlt
    have : 2 ^ (b + 1) ≤ 2 ^ 53 := Nat.pow_le_pow_right (by decide) (by omega)
    omega
  obtain ⟨k, rfl⟩ : ∃ k, b = k + 52 := ⟨b - 52, by omega⟩
  have hk : bitLength n n - 53 = k := by omega
  have hu : 0 < 2 ^ k := Nat.pow_pos (by decide)
  obtain ⟨m, hm, h1, h2, h3⟩ := round_core n (2 ^ k) hu
  have hval : roundDoubleNat n = m * 2 ^ k := by
    unfold roundDoubleNat
    rw [if_neg (by omega)]
    simp only [hk]
    rw [hm]
  rw [hval]
  exact ⟨k, m, hlo, hhi, rfl, h1, h2, h3⟩

theorem roundDoubleNat_small (n : Nat) (h : n < 2 ^ 53) : roundDoubleNat n = n := by
  unfold roundDoubleNat
  rw [if_pos h]

/-- C27 (as amended): `parseDamageFromAbility` returns `Number` of the last maximal run of
decimal digits of the ability text: whenever the text reads `pre ++ run ++ post` with `run`
a non-empty run of digits, `post` free of digits and `pre` empty or ending in a non-digit,
the result is the base-ten value of `run` when that is below `2^53`, and from there on (as
long as it stays finite) the double nearest to it: a multiple `m * 2^k` of the spacing
`2^k` of the doubles around the value, at most half a spacing away from it, with `m` even
on a tie. It returns 0 when the text contains no digit and when the ability has no text. -/
theorem parseDamage_last_number :
    (∀ (a : Ability) (pre run post : List Char),
      a.ability = some (String.mk (pre ++ run ++ post)) →
      run ≠ [] → (∀ c ∈ run, c.isDigit = true) → (∀ c ∈ post, c.isDigit = false) →
      (∀ c, pre.getLast? = some c → c.isDigit = false) →
      (digitsValue run < 2 ^ 53 → parseDamageFromAbility a = digitsValue run) ∧
      (2 ^ 53 ≤ digitsValue run → digitsValue run < 2 ^ 1024 - 2 ^ 970 →
        ∃ k m, 2 ^ (k + 52) ≤ digitsValue run ∧ digitsValue run < 2 ^ (k + 53) ∧
          parseDamageFromAbility a = m * 2 ^ k ∧
          2 * (parseDamageFromAbility a - digitsValue run) ≤ 2 ^ k ∧
          2 * (digitsValue run - parseDamageFromAbility a) ≤ 2 ^ k ∧
          ((2 * (parseDamageFromAbility a - digitsValue run) = 2 ^ k ∨
            2 * (digitsValue run - parseDamageFromAbility a) = 2 ^ k) → m % 2 = 0))) ∧
    (∀ (a : Ability) (text : String), a.ability = some text →
      (∀ c ∈ text.toList, c.isDigit = false) → parseDamageFromAbility a = 0) ∧
    (∀ a : Ability, a.ability = none → parseDamageFromAbility a = 0) := by
  refine ⟨?_, ?_, ?_⟩
  · intro a pre run post ha hne hrun hpost hpre
    have hval : parseDamageFromAbility a = roundDoubleNat (digitsValue run) := by
      unfold parseDamageFromAbility digitsValue
      rw [ha]
      show roundDoubleNat ((scanDigits (pre ++ run ++ post) none none).getD 0) = _
      have htail : ∀ last, scanDigits (run ++ post) none last =
          some (run.foldl (fun n c => n * 10 + (c.toNat - 48)) 0) := by
        intro last
        rw [scanDigits_run run post hrun hne none last, scanDigits_noDigits post hpost]
        rfl
      rcases List.eq_nil_or_concat pre with hnil | ⟨ds, d, hd⟩
      · subst hnil
        rw [List.nil_append, htail]
        rfl
      · have hdig : d.isDigit = false := by
          apply hpre d
          rw [hd]
          simp
        have hshape : pre ++ run ++ post = ds ++ d :: (run ++ post) := by
          rw [hd]
          simp
        obtain ⟨last', hl⟩ := scanDigits_skip ds d hdig (run ++ post) none none
        rw [hshape, hl, htail]
        rfl
    rw [hval]
    exact ⟨fun hs => roundDoubleNat_small _ hs, fun hb _ => roundDoubleNat_spec _ hb⟩
  · intro a text ha hno
    unfold parseDamageFromAbility
    rw [ha]
    show roundDoubleNat ((scanDigits text.toList none none).getD 0) = 0
    rw [scanDigits_noDigits _ hno]
    rfl
  · intro a ha
    unfold parseDamageFromAbility
    rw [ha]
    rfl

theorem parseDamage_last_number_witness :
    parseDamageFromAbility { ability := some "Cure Wounds (4th level): Restore 5 HP" } = 5 ∧
    parseDamageFromAbility { ability := some "Strike twice for 12" } = 12 ∧
    parseDamageFromAbility { ability := some "Mend a wound" } = 0 :=
  ⟨(parseDamage_last_number.1 { ability := some "Cure Wounds (4th level): Restore 5 HP" }
      "Cure Wounds (4th level): Restore ".toList ['5'] " HP".toList
      (by decide) (by decide) (by decide) (by decide) (by decide)).1 (by decide),
    (parseDamage_last_number.1 { ability := some "Strike twice for 12" }
      "Strike twice for ".toList ['1', '2'] [] (by decide) (by decide) (by decide) (by decide)
      (by decide)).1 (by decide),
    parseDamage_last_number.2.1 { ability := some "Mend a wound" } "Mend a wound" rfl
      (by decide)⟩

/-- C27 fails on the code for a long run of digits: the last integer literal of
"Deal 9007199254740993 damage" has the value 9007199254740993 = 2^53 + 1, and
`parseDamageFromAbility` returns `Number` of it, the double 9007199254740992. -/
theorem parseDamage_rounds_long_run :
    digitsValue "9007199254740993".toList = 9007199254740993 ∧
    parseDamageFromAbility { ability := some "Deal 9007199254740993 damage" } =
      9007199254740992 := by
  refine ⟨by decide, by decide⟩

/-! ## C29: the replace/place round trip -/

/-- C29: `replaceHero` on an occupied slot (AP available, a hand present) appends to the hand
the outgoing hero's base definition with `hp` overwritten by its current hit points `h`.
Placing that returned card on an empty slot creates an instance with `hp = h` and
`base.hp = h`, so the round trip does not preserve `base.hp`: for a hero with
`h < base.hp` the maximum is lowered. From then on, in every state reached through the
public operations, a hero whose base is the returned card has `hp ≤ h`, and a heal by any
amount leaves a hero at `hp = h` there. -/
theorem replace_place_round_trip :
    (∀ (s : State) (i : Nat) (c : Card) (old : Hero) (hd : List Card),
      getHero s i = some old → 0 < s.ap → s.hand = some hd →
      (replaceHero s i (some c)).1.hand = some (hd ++ [returnedCard old])) ∧
    (∀ (old : Hero) (s2 : State) (j : Nat), s2.playfield[j]? = some Slot.null →
      ∃ h', getHero (placeHero s2 j (some (returnedCard old))).1 j = some h' ∧
        h'.hp = old.hp ∧ h'.base.hp = old.hp ∧ h'.base = returnedCard old ∧
        (old.hp < old.base.hp → h'.base.hp < old.base.hp)) ∧
    (∀ (old : Hero) (s3 : State) (ops : List Op) (k : Nat) (h'' : Hero),
      PartyOk s3.playfield → (∀ op ∈ ops, op.cardsOk = true) →
      getHero (run s3 ops) k = some h'' → h''.base = returnedCard old →
      h''.hp ≤ old.hp ∧ ∀ a : Int, h''.hp = old.hp → 0 ≤ a → healedHp h'' a = old.hp) := by
  refine ⟨?_, ?_, ?_⟩
  · intro s i c old hd hold hap hhand
    rw [replaceHero_ok s i c old hold hap]
    dsimp only
    rw [hhand]
    rfl
  · intro old s2 j hslot
    have hlt : j < s2.playfield.length := by
      by_contra hge
      rw [List.getElem?_eq_none (not_lt.mp hge)] at hslot
      cases hslot
    refine ⟨{ cardId := (returnedCard old).id, hp := (returnedCard old).hp,
              base := returnedCard old, tempHp := some 0, statusIcons := some [],
              instanceId := some s2.nextHeroInstanceId }, ?_, rfl, rfl, rfl, fun h => h⟩
    rw [placeHero_ok s2 j _ hslot, getHero_of_set j rfl hlt, if_pos rfl]
    rfl
  · intro old s3 ops k h'' hp hc hg hbase
    have hok := PartyOk.hero_of_get (run_partyOk ops s3 hc hp) hg
    have hle : h''.hp ≤ old.hp := by
      have := hok.2
      rw [hbase] at this
      exact this
    refine ⟨hle, ?_⟩
    intro a heq ha
    unfold healedHp
    rw [hbase, heq]
    show min old.hp (old.hp + a) = old.hp
    exact min_eq_left (by omega)

theorem replace_place_round_trip_witness :
    (replaceHero (wardState cleric) 1 (some rogue)).1.hand = some [returnedCard hurtTank] ∧
    (getHero roundTripState 2).map (fun h => (h.hp, h.base.hp)) = some (10, 10) ∧
    (getHero (run roundTripState [Op.playHeroAction 0 (Target.idx 2) none]) 2).map
      (fun h => h.hp) = some 10 :=
  ⟨replace_place_round_trip.1 (wardState cleric) 1 rogue hurtTank [] (by decide) (by decide)
      (by decide),
    by decide, by decide⟩

/-! ## C30: a heal of parsed magnitude 0 heals 1 -/

/-- C30: when the chosen ability of a standing, unstunned hero has action type `healer` (or
`heal`) and its text yields the parsed magnitude 0, `playHeroAction` with AP available
heals with the amount 1: it returns exactly what heal resolution returns for the amount 1,
charges one AP, and every healed hero below its maximum gains exactly 1 hp (the single
target of a single-target heal, every hero of the party in a party heal). -/
theorem zero_heal_heals_one (s : State) (i : Nat) (t : Target) (ai : Option Nat) (hero : Hero)
    (hap : 0 < s.ap) (hh : getHero s i = some hero) (hst : hero.stunnedTurns = 0)
    (hty : actionTypeOf hero (chosenAbility hero ai) = "healer" ∨
      actionTypeOf hero (chosenAbility hero ai) = "heal")
    (hz : parseDamageFromAbility (chosenAbility hero ai) = 0) :
    playHeroAction s i t ai = resolveHeal s i 1 t ∧
    (playHeroAction s i t ai).1.ap = s.ap - 1 ∧
    (isPartyHeal hero t = false →
      ∃ tgt, getHero s (healTarget s i t) = some tgt ∧
        (tgt.hp < tgt.base.hp →
          getHero (playHeroAction s i t ai).1 (healTarget s i t) =
            some { tgt with hp := tgt.hp + 1 } ∧
          (playHeroAction s i t ai).2 =
            Result.healSingle 1 (healTarget s i t) (tgt.hp + 1))) ∧
    (isPartyHeal hero t = true →
      (playHeroAction s i t ai).2 = Result.healParty 1 (healedSlotsFrom 1 s.playfield 0) ∧
      ∀ j h, getHero s j = some h → h.hp < h.base.hp →
        getHero (playHeroAction s i t ai).1 j = some { h with hp := h.hp + 1 }) := by
  have hnd : ¬ (actionTypeOf hero (chosenAbility hero ai) = "dps" ∨
      actionTypeOf hero (chosenAbility hero ai) = "attack") := by
    rcases hty with h | h <;> rw [h] <;> decide
  have h0 : playHeroAction s i t ai = resolveHeal s i 1 t := by
    unfold playHeroAction
    rw [if_neg (not_le.mpr hap), hh]
    dsimp only
    rw [if_neg (by omega), if_neg hnd, if_pos hty, hz]
    rfl
  obtain ⟨hparty, hsingle, _⟩ := resolveHeal_spec s i 1 t hero hh Nat.one_pos
  refine ⟨h0, ?_, ?_, ?_⟩
  · rw [h0]
    by_cases hp : isPartyHeal hero t = true
    · exact (hparty hp).1
    · obtain ⟨_, _, h, _⟩ := hsingle (by simpa using hp)
      exact h
  · intro hp
    obtain ⟨tgt, ht, _, hnew, _, hres⟩ := hsingle hp
    refine ⟨tgt, ht, ?_⟩
    intro hlow
    have hmin : min tgt.base.hp (tgt.hp + ((1 : Nat) : Int)) = tgt.hp + 1 := by
      rw [min_eq_right]
      · rfl
      · push_cast; omega
    rw [h0, hnew, hres, hmin]
    refine ⟨rfl, ?_⟩
    congr 1
    omega
  · intro hp
    obtain ⟨_, hall, hres⟩ := hparty hp
    rw [h0]
    refine ⟨hres, ?_⟩
    intro j h hj hlow
    have hmin : min h.base.hp (h.hp + ((1 : Nat) : Int)) = h.hp + 1 := by
      rw [min_eq_right]
      · rfl
      · push_cast; omega
    rw [hall j, hj]
    simp only [Option.map_some', hmin]

theorem zero_heal_heals_one_witness :
    parseDamageFromAbility (chosenAbility
      { cardId := "acolyte", hp := 7, base := acolyte, tempHp := some 0, statusIcons := some [],
        instanceId := some 1 } none) = 0 ∧
    (playHeroAction (wardState acolyte) 0 (Target.idx 1) none).2 = Result.healSingle 1 1 11 ∧
    (playHeroAction (wardState acolyte) 0 (Target.idx 1) none).1.ap = (wardState acolyte).ap - 1 :=
  have h := zero_heal_heals_one (wardState acolyte) 0 (Target.idx 1) none
    { cardId := "acolyte", hp := 7, base := acolyte, tempHp := some 0, statusIcons := some [],
      instanceId := some 1 } (by decide) (by decide) (by decide) (by decide) (by decide)
  ⟨by decide, h.1 ▸ (by decide), h.2.1⟩

/-! ## C28: the status effects of enemy attacks -/

theorem absorbDamage_counters (h : Hero) (d : Int) :
    counters (absorbDamage h d).1 = counters h := by
  unfold absorbDamage
  dsimp only
  repeat' split
  all_goals rfl

theorem keeps_refl (a : State) : Keeps a a := fun _ h' hg => ⟨h', hg, rfl⟩

theorem keeps_trans {a b c : State} (h1 : Keeps a b) (h2 : Keeps b c) : Keeps a c := by
  intro k h' hg
  obtain ⟨h, hb, e1⟩ := h2 k h' hg
  obtain ⟨h0, ha, e2⟩ := h1 k h hb
  exact ⟨h0, ha, e1.trans e2⟩

theorem keeps_of_playfield {a b : State} (h : b.playfield = a.playfield) : Keeps a b := by
  intro k h' hg
  refine ⟨h', ?_, rfl⟩
  unfold getHero at hg ⊢
  rw [← h]
  exact hg

theorem keeps_pre {a a' b : State} (h : Keeps a' b) (hp : a'.playfield = a.playfield) :
    Keeps a b :=
  keeps_trans (keeps_of_playfield hp) h

theorem damageHero_keeps (s : State) (idx : Nat) (h : Hero) (dmg shown : Int) (ty : String)
    (ai : Nat) (nm : String) (hg : getHero s idx = some h) :
    Keeps s (damageHero s idx h dmg shown ty ai nm).1 := by
  have hlt := lt_length_of_getHero hg
  intro k h' hk
  unfold damageHero at hk
  dsimp only at hk
  split at hk
  · rw [getHero_of_set k rfl hlt] at hk
    by_cases hik : idx = k
    · rw [if_pos hik] at hk
      cases hk
    · rw [if_neg hik] at hk
      exact ⟨h', hk, rfl⟩
  · rw [getHero_of_set k rfl hlt] at hk
    by_cases hik : idx = k
    · rw [if_pos hik] at hk
      subst hik
      have : h' = (absorbDamage h dmg).1 := (Option.some.inj hk).symm
      subst this
      exact ⟨h, hg, absorbDamage_counters h dmg⟩
    · rw [if_neg hik] at hk
      exact ⟨h', hk, rfl⟩

theorem resolveSingleTargetAttack_keeps (s : State) (dmg : Int) (ai : Nat) (nm : String) :
    Keeps s (resolveSingleTargetAttack s dmg ai nm).1 := by
  unfold resolveSingleTargetAttack
  dsimp only
  split
  · exact keeps_of_playfield rfl
  · split
    · exact keeps_of_playfield rfl
    · rename_i h hg
      split
      · exact keeps_of_playfield rfl
      · dsimp only
        exact keeps_pre (damageHero_keeps _ _ h dmg dmg "single" ai nm hg) rfl

theorem aoeStep_keeps (d : Int) (ai : Nat) (nm : String) (acc : State × List HitEvent)
    (i : Nat) : Keeps acc.1 (aoeStep d ai nm acc i).1 := by
  unfold aoeStep
  split
  · exact keeps_refl _
  · split
    · exact keeps_refl _
    · rename_i h hg
      split
      · exact keeps_refl _
      · dsimp only
        exact damageHero_keeps _ _ h _ _ _ _ _ hg

theorem foldl_keeps {α β : Type} (f : State × β → α → State × β)
    (hf : ∀ acc a, Keeps acc.1 (f acc a).1) (l : List α) (acc : State × β) :
    Keeps acc.1 (l.foldl f acc).1 := by
  induction l generalizing acc with
  | nil => exact keeps_refl _
  | cons a l ih => exact keeps_trans (hf acc a) (ih (f acc a))

theorem resolveAoEAttack_keeps (s : State) (d : Int) (ai : Nat) (nm : String) :
    Keeps s (resolveAoEAttack s d ai nm).1 :=
  foldl_keeps _ (aoeStep_keeps d ai nm) _ (s, [])

theorem critThenResolve_keeps (s : State) (atk : Attack) (d : Int) (ai : Nat) (nm ty : String) :
    Keeps s (critThenResolve s atk d ai nm ty).1 := by
  unfold critThenResolve
  dsimp only
  exact keeps_pre (resolveSingleTargetAttack_keeps _ _ _ _) rfl

theorem multiStep_keeps (atk : Attack) (d : Int) (ai : Nat) (nm : String)
    (acc : State × List HitEvent) : Keeps acc.1 (multiStep atk d ai nm acc).1 := by
  unfold multiStep
  dsimp only
  split
  · split
    · exact keeps_of_playfield rfl
    · split <;> exact keeps_of_playfield rfl
  · dsimp only
    exact keeps_pre (critThenResolve_keeps _ _ _ _ _ _) rfl

theorem singleAttack_keeps (s : State) (atk : Attack) (d : Int) (ai : Nat) (nm : String) :
    Keeps s (singleAttack s atk d ai nm).1 := by
  unfold singleAttack
  dsimp only
  split
  · exact keeps_of_playfield rfl
  · split
    · exact keeps_of_playfield rfl
    · split
      · split
        · exact keeps_of_playfield rfl
        · exact keeps_pre (critThenResolve_keeps _ _ _ _ _ _) rfl
      · split
        · exact keeps_of_playfield rfl
        · exact keeps_pre (critThenResolve_keeps _ _ _ _ _ _) rfl

theorem raised_idem (eff : String) (c : Nat × Nat × Nat) :
    raised eff (raised eff c) = raised eff c := by
  unfold raised
  dsimp only
  refine Prod.ext ?_ (Prod.ext ?_ ?_) <;> dsimp only <;> split <;> simp

theorem option_map_id_if {α : Type} (o : Option α) (b : Bool) (f : α → α)
    (hb : b = false) : o.map (fun c => if b = true then f c else c) = o := by
  subst hb
  simp

theorem effectStep_spec (eff : String) (acc : State × List Event) (ev : HitEvent) :
    (effectStep eff acc ev).2 =
      acc.2 ++ (if qualifies ev then
        match nview acc.1 ev.slot with
        | some nm => statusEvent eff ev.slot nm
        | none => []
      else []) ∧
    (∀ k, cview (effectStep eff acc ev).1 k =
      (cview acc.1 k).map fun c =>
        if (decide (ev.slot = k) && qualifies ev) = true then raised eff c else c) ∧
    (∀ k, nview (effectStep eff acc ev).1 k = nview acc.1 k) := by
  by_cases hq : qualifies ev = true
  · have hcond : ¬ ev.missed = true ∧ (ev.hpTaken > 0 ∨ ev.tempTaken > 0) := by
      simpa [qualifies] using hq
    cases hg : getHero acc.1 ev.slot with
    | none =>
      have hres : effectStep eff acc ev = acc := by
        unfold effectStep
        rw [if_pos hcond, hg]
      rw [hres]
      refine ⟨?_, ?_, fun _ => rfl⟩
      · simp [hq, nview, hg]
      · intro k
        by_cases hk : ev.slot = k
        · subst hk
          simp [cview, hg]
        · rw [option_map_id_if]
          simp [hk]
    | some h =>
      have hlt := lt_length_of_getHero hg
      unfold effectStep
      rw [if_pos hcond, hg]
      dsimp only
      refine ⟨?_, ?_, ?_⟩
      · rw [if_pos hq]
        simp only [nview, hg, Option.map_some']
        congr 1
        unfold statusEvent
        by_cases h1 : eff = "stun" <;> by_cases h2 : eff = "enfeeble" <;>
          by_cases h3 : eff = "blind" <;> simp [h1, h2, h3]
      · intro k
        unfold cview
        rw [getHero_of_set k rfl hlt]
        by_cases hk : ev.slot = k
        · subst hk
          rw [if_pos rfl, hg]
          simp only [Slot.hero?, Option.map_some', hq, decide_True, Bool.and_self, if_true]
          congr 1
          unfold raised counters pushIcon
          by_cases h1 : eff = "stun" <;> by_cases h2 : eff = "enfeeble" <;>
            by_cases h3 : eff = "blind" <;> simp [h1, h2, h3]
        · rw [if_neg hk, option_map_id_if]
          simp [hk]
      · intro k
        unfold nview
        rw [getHero_of_set k rfl hlt]
        by_cases hk : ev.slot = k
        · subst hk
          rw [if_pos rfl, hg]
          simp only [Slot.hero?, Option.map_some']
          congr 1
          unfold pushIcon
          by_cases h1 : eff = "stun" <;> by_cases h2 : eff = "enfeeble" <;>
            by_cases h3 : eff = "blind" <;> simp [h1, h2, h3]
        · rw [if_neg hk]
  · have hcond : ¬ (¬ ev.missed = true ∧ (ev.hpTaken > 0 ∨ ev.tempTaken > 0)) := by
      intro hc
      apply hq
      simpa [qualifies] using hc
    have hres : effectStep eff acc ev = acc := by
      unfold effectStep
      rw [if_neg hcond]
    rw [hres]
    have hqf : qualifies ev = false := by simpa using hq
    refine ⟨by simp [hqf], ?_, fun _ => rfl⟩
    intro k
    rw [option_map_id_if]
    simp [hqf]

theorem effectFold_spec (eff : String) (evs : List HitEvent) (acc : State × List Event) :
    (evs.foldl (effectStep eff) acc).2 = acc.2 ++ statusEventsFor eff (nview acc.1) evs ∧
    (∀ k, cview (evs.foldl (effectStep eff) acc).1 k =
      (cview acc.1 k).map fun c => if struckH k evs = true then raised eff c else c) ∧
    (∀ k, nview (evs.foldl (effectStep eff) acc).1 k = nview acc.1 k) := by
  induction evs generalizing acc with
  | nil =>
    refine ⟨by simp [statusEventsFor], ?_, fun _ => rfl⟩
    intro k
    simp [struckH]
  | cons ev rest ih =>
    obtain ⟨e1, c1, n1⟩ := effectStep_spec eff acc ev
    obtain ⟨e2, c2, n2⟩ := ih (effectStep eff acc ev)
    have hn : nview (effectStep eff acc ev).1 = nview acc.1 := funext n1
    rw [List.foldl_cons]
    refine ⟨?_, ?_, ?_⟩
    · rw [e2, e1, hn, List.append_assoc]
      rfl
    · intro k
      rw [c2 k, c1 k, Option.map_map]
      congr 1
      funext c
      have hs : struckH k (ev :: rest) =
          ((decide (ev.slot = k) && qualifies ev) || struckH k rest) := by
        simp [struckH]
      rw [hs]
      dsimp only [Function.comp]
      cases hb1 : (decide (ev.slot = k) && qualifies ev) <;> cases hb2 : struckH k rest <;>
        simp [raised_idem]
    · intro k
      rw [n2 k, n1 k]

theorem attackPhase_effects (s : State) (a : Attack) (rest : List Attack) (e : String)
    (hatt : s.enemy.attacks = some (a :: rest))
    (heff : truthyName ((a :: rest)[(s.rng.int (a :: rest).length).1]?.getD {}).effect = some e) :
    ∃ (m : State) (hits : List HitEvent), Keeps s m ∧
      (attackPhase s).2 = hits.map Event.hit ++ statusEventsFor (lower e) (nview m) hits ∧
      (∀ k, cview (attackPhase s).1 k =
        (cview m k).map fun c => if struckH k hits = true then raised (lower e) c else c) ∧
      (∀ k, nview (attackPhase s).1 k = nview m k) := by
  have key : ∀ H : State × List HitEvent, Keeps s H.1 →
      ∃ (m : State) (hits : List HitEvent), Keeps s m ∧
        (H.2.foldl (effectStep (lower e)) (H.1, H.2.map Event.hit)).2 =
          hits.map Event.hit ++ statusEventsFor (lower e) (nview m) hits ∧
        (∀ k, cview (H.2.foldl (effectStep (lower e)) (H.1, H.2.map Event.hit)).1 k =
          (cview m k).map fun c => if struckH k hits = true then raised (lower e) c else c) ∧
        (∀ k, nview (H.2.foldl (effectStep (lower e)) (H.1, H.2.map Event.hit)).1 k =
          nview m k) := by
    intro H hk
    obtain ⟨h1, h2, h3⟩ := effectFold_spec (lower e) H.2 (H.1, H.2.map Event.hit)
    exact ⟨H.1, H.2, hk, h1, h2, h3⟩
  unfold attackPhase
  rw [hatt]
  dsimp only
  rw [heff]
  dsimp only
  apply key
  split
  · exact keeps_pre (resolveAoEAttack_keeps _ _ _ _) rfl
  · split
    · exact keeps_pre (keeps_trans (multiStep_keeps _ _ _ _ _) (multiStep_keeps _ _ _ _ _)) rfl
    · exact keeps_pre (singleAttack_keeps _ _ _ _ _) rfl

theorem attackPhase_plain (s : State)
    (hno : ∀ (a : Attack) (rest : List Attack), s.enemy.attacks = some (a :: rest) →
      truthyName ((a :: rest)[(s.rng.int (a :: rest).length).1]?.getD {}).effect = none) :
    Keeps s (attackPhase s).1 := by
  unfold attackPhase
  split
  · rename_i a rest hatt
    dsimp only
    rw [hno a rest hatt]
    dsimp only
    split
    · exact keeps_pre (resolveAoEAttack_keeps _ _ _ _) rfl
    · split
      · exact keeps_pre (keeps_trans (multiStep_keeps _ _ _ _ _) (multiStep_keeps _ _ _ _ _)) rfl
      · exact keeps_pre (singleAttack_keeps _ _ _ _ _) rfl
  · exact keeps_refl _

theorem pendingNormal_kinds (l : List PendingEffect) (acc : PendingAcc) :
    ∃ extra, (l.foldl pendingStepNormal acc).events = acc.events ++ extra ∧
      ∀ e ∈ extra, e.isEnemyDamage = true := by
  induction l generalizing acc with
  | nil => exact ⟨[], by simp, fun e he => by cases he⟩
  | cons eff l ih =>
    obtain ⟨x2, h2, q2⟩ := ih (pendingStepNormal acc eff)
    have h1 : ∃ x1, (pendingStepNormal acc eff).events = acc.events ++ x1 ∧
        ∀ e ∈ x1, e.isEnemyDamage = true := by
      unfold pendingStepNormal
      split
      · split
        · refine ⟨_, rfl, ?_⟩
          intro e he
          simp only [List.mem_singleton] at he
          rw [he]; rfl
        · exact ⟨[], by simp, fun e he => by cases he⟩
      · exact ⟨[], by simp, fun e he => by cases he⟩
    obtain ⟨x1, h1, q1⟩ := h1
    refine ⟨x1 ++ x2, by rw [List.foldl_cons, h2, h1, List.append_assoc], ?_⟩
    intro e he
    rcases List.mem_append.mp he with h | h
    · exact q1 e h
    · exact q2 e h

theorem decProtection_counters (h : Hero) :
    counters (decProtection h) = counters h ∧
    truthyName (decProtection h).base.name = truthyName h.base.name := by
  unfold decProtection
  repeat' split
  all_goals exact ⟨rfl, rfl⟩

theorem resetRound_counters (s : State) (k : Nat) :
    ((resetRound s).playfield[k]?.bind Slot.hero?).map counters =
      (s.playfield[k]?.bind Slot.hero?).map counters ∧
    ((resetRound s).playfield[k]?.bind Slot.hero?).map (fun h => truthyName h.base.name) =
      (s.playfield[k]?.bind Slot.hero?).map (fun h => truthyName h.base.name) := by
  unfold resetRound
  dsimp only
  constructor
  · rw [view_mapHeroes, view_mapHeroes, view_mapHeroes]
    all_goals (intro h; rfl)
  · rw [view_mapHeroes, view_mapHeroes, view_mapHeroes]
    all_goals (intro h; rfl)

theorem housekeepingNormal_counters (s : State) (evs : List Event) (k : Nat) :
    cview (housekeepingNormal s evs).1 k = cview s k ∧
    nview (housekeepingNormal s evs).1 k = nview s k := by
  unfold cview nview housekeepingNormal getHero
  dsimp only
  constructor
  · rw [view_syncIconsFrom counters (fun _ _ => rfl),
      view_mapHeroes counters decProtection _ k (fun h => (decProtection_counters h).1),
      (resetRound_counters s k).1]
  · rw [view_syncIconsFrom (fun h => truthyName h.base.name) (fun _ _ => rfl),
      view_mapHeroes (fun h => truthyName h.base.name) decProtection _ k
        (fun h => (decProtection_counters h).2),
      (resetRound_counters s k).2]

theorem housekeepingStunned_counters (s : State) (evs : List Event) (k : Nat) :
    cview (housekeepingStunned s evs).1 k = cview s k := by
  unfold cview housekeepingStunned getHero
  dsimp only
  rw [view_syncIconsFrom counters (fun _ _ => rfl),
    view_mapHeroes counters decProtection _ k (fun h => (decProtection_counters h).1),
    (resetRound_counters s k).1]

theorem prelude_getHero (pf : List Slot) (k : Nat) :
    ((mapHeroes decBlind (mapHeroes decStunEnfeeble pf))[k]?.bind Slot.hero?) =
      (pf[k]?.bind Slot.hero?).map fun h => decBlind (decStunEnfeeble h) := by
  rw [getHero_mapHeroes, getHero_mapHeroes, Option.map_map]
  rfl

theorem enemyAct_normal (s : State) (hns : s.enemy.stunnedTurns = 0) :
    ∃ s1 : State, s1.enemy.attacks = s.enemy.attacks ∧ s1.rng = (s.rng.int 2).2 ∧
      s1.playfield = mapHeroes decBlind (mapHeroes decStunEnfeeble s.playfield) ∧
      enemyAct s =
        ((housekeepingNormal (attackPhase s1).1 (attackPhase s1).2).1,
          { did := "enemyAct",
            events := (housekeepingNormal (attackPhase s1).1 (attackPhase s1).2).2 }) := by
  refine ⟨{ s with turn := s.turn + 1,
                   playfield := mapHeroes decBlind (mapHeroes decStunEnfeeble s.playfield),
                   rng := (s.rng.int 2).2 }, rfl, rfl, rfl, ?_⟩
  unfold enemyAct
  dsimp only
  rw [if_neg (by omega)]

theorem enemyAct_effects (s : State) (atk : Attack) (e : String)
    (hns : s.enemy.stunnedTurns = 0) (hatk : chosenAttack s = some atk)
    (heff : truthyName atk.effect = some e) :
    ∃ (hits : List HitEvent) (extra : List Event),
      (enemyAct s).2.events =
        hits.map Event.hit ++ statusEventsFor (lower e) (nview (enemyAct s).1) hits ++ extra ∧
      (∀ x ∈ extra, x.isEnemyDamage = true) ∧
      ∀ k h', getHero (enemyAct s).1 k = some h' →
        ∃ h, getHero s k = some h ∧
          counters h' = if struckH k hits = true then raised (lower e) (lowered (counters h))
            else lowered (counters h) := by
  obtain ⟨a, rest, hatt, hpick⟩ : ∃ a rest, s.enemy.attacks = some (a :: rest) ∧
      atk = (a :: rest)[((s.rng.int 2).2.int (a :: rest).length).1]?.getD {} := by
    unfold chosenAttack at hatk
    split at hatk
    · rename_i a rest hatt
      exact ⟨a, rest, hatt, (Option.some.inj hatk).symm⟩
    · cases hatk
  subst hpick
  obtain ⟨s1, hatt1', hrng1, hpf1, hbranch⟩ := enemyAct_normal s hns
  have hatt1 : s1.enemy.attacks = some (a :: rest) := hatt1'.trans hatt
  obtain ⟨m, hits, hkeep, hev, hcv, hnv⟩ :=
    attackPhase_effects s1 a rest e hatt1 (by rw [hrng1]; exact heff)
  obtain ⟨extra, hex, hkind⟩ := pendingNormal_kinds (resetRound (attackPhase s1).1).pendingEffects
    { enemyHp := (resetRound (attackPhase s1).1).enemy.hp, events := (attackPhase s1).2,
      remaining := [] }
  have hfin : ∀ k, nview (enemyAct s).1 k = nview m k := by
    intro k
    rw [hbranch]
    exact ((housekeepingNormal_counters _ _ k).2).trans (hnv k)
  refine ⟨hits, extra, ?_, hkind, ?_⟩
  · rw [funext hfin, ← hev]
    rw [hbranch]
    exact hex
  · intro k h' hg
    have hc : cview (enemyAct s).1 k = some (counters h') := by
      unfold cview
      rw [hg]
      rfl
    rw [hbranch] at hc
    rw [(housekeepingNormal_counters _ _ k).1, hcv k] at hc
    cases hm : getHero m k with
    | none =>
      unfold cview at hc
      rw [hm] at hc
      cases hc
    | some hm' =>
      obtain ⟨h1, hg1, hc1⟩ := hkeep k hm' hm
      unfold getHero at hg1
      rw [hpf1, prelude_getHero] at hg1
      cases hs : s.playfield[k]?.bind Slot.hero? with
      | none => rw [hs] at hg1; cases hg1
      | some h =>
        rw [hs] at hg1
        have h1eq : h1 = decBlind (decStunEnfeeble h) := (Option.some.inj hg1).symm
        refine ⟨h, hs, ?_⟩
        unfold cview at hc
        rw [hm] at hc
        have hc' := Option.some.inj hc
        rw [← hc', hc1, h1eq]
        rfl

theorem csame_refl (s : State) : CSame s s := fun _ => rfl

theorem csame_trans {a b c : State} (h1 : CSame a b) (h2 : CSame b c) : CSame a c :=
  fun k => (h2 k).trans (h1 k)

theorem csame_of_playfield {s s' : State} (h : s'.playfield = s.playfield) : CSame s s' := by
  intro k
  unfold cview getHero
  rw [h]

theorem csame_set {s s' : State} {i : Nat} {h0 h' : Hero}
    (hpf : s'.playfield = s.playfield.set i (Slot.hero h')) (hg : getHero s i = some h0)
    (hc : counters h' = counters h0) : CSame s s' := by
  intro k
  unfold cview
  rw [getHero_of_set k hpf (lt_length_of_getHero hg)]
  by_cases hik : i = k
  · subst hik
    rw [if_pos rfl, hg]
    simp [Slot.hero?, hc]
  · rw [if_neg hik]

theorem csame_map {s s' : State} (f : Hero → Hero)
    (hpf : s'.playfield = mapHeroes f s.playfield) (hf : ∀ h, counters (f h) = counters h) :
    CSame s s' := by
  intro k
  unfold cview getHero
  rw [hpf]
  exact view_mapHeroes counters f s.playfield k hf

theorem defendHero_csame (s : State) (i : Nat) : CSame s (defendHero s i).1 := by
  unfold defendHero
  split
  · exact csame_refl _
  · split
    · exact csame_refl _
    · rename_i hero hg
      split
      · exact csame_refl _
      · exact csame_set rfl hg rfl

theorem resolveHeal_csame (s : State) (i : Nat) (amount : Nat) (t : Target) :
    CSame s (resolveHeal s i amount t).1 := by
  cases hh : getHero s i with
  | none =>
    unfold resolveHeal
    rw [hh]
    exact csame_refl _
  | some hero =>
    unfold resolveHeal
    rw [hh]
    dsimp only
    split
    · exact csame_map _ rfl (fun _ => rfl)
    · obtain ⟨tgt, ht⟩ := healTarget_occupied s i t hero hh
      unfold healTarget at ht
      refine csame_set rfl ht ?_
      rw [ht]
      rfl

theorem scoutAssist_csame (s : State) (i : Nat) (key : AbilityKey) (c : Ability) (t : Target) :
    CSame s (scoutAssist s i key c t).1 := by
  unfold scoutAssist
  split
  · split
    · rename_i tgt hg
      exact csame_set rfl hg rfl
    · exact csame_refl _
  · exact csame_refl _

theorem earlySupport_csame (s : State) (i : Nat) (hero : Hero) (hid hname : String)
    (r : State × Result) (hr : earlySupport s i hero hid hname = some r)
    (hh : getHero s i = some hero) : CSame s r.1 := by
  revert hr; unfold earlySupport; simp only
  repeat' split
  all_goals (intro hr; simp at hr; try subst hr)
  · exact csame_of_playfield rfl
  · exact csame_set rfl hh rfl
  · exact csame_set rfl hh rfl

theorem scoutSupport_csame (s : State) (i : Nat) (hero : Hero) (t : Target) (ai : Option Nat)
    (r : State × Result) (hr : scoutSupport s i hero t ai = some r) : CSame s r.1 := by
  revert hr; unfold scoutSupport; simp only
  repeat' split
  all_goals (intro hr; simp at hr; try subst hr)
  · exact csame_of_playfield (scoutRally_playfield _ _ _ _)
  · exact scoutAssist_csame _ _ _ _ _
  · exact csame_of_playfield (scoutRally_playfield _ _ _ _)

theorem willisSupport_csame (s : State) (i : Nat) (t : Target) :
    CSame s (willisSupport s i t).1 := by
  unfold willisSupport
  split
  · split
    · rename_i tgt hg
      exact csame_set rfl hg rfl
    · exact csame_refl _
  · exact csame_refl _

theorem lateSupport_csame (s : State) (i : Nat) (hid hname : String) (t : Target) :
    CSame s (lateSupport s i hid hname t).1 := by
  unfold lateSupport
  split
  · exact willisSupport_csame _ _ _
  · unfold delayedSupport kieferSupport
    dsimp only
    repeat' split
    all_goals exact csame_of_playfield rfl

theorem supportAction_csame (s : State) (i : Nat) (hero : Hero) (t : Target) (ai : Option Nat)
    (hh : getHero s i = some hero) : CSame s (supportAction s i hero t ai).1 := by
  unfold supportAction
  simp only
  split
  · exact csame_refl _
  · split
    · rename_i r hr
      exact earlySupport_csame _ _ _ _ _ _ hr hh
    · split
      · rename_i r hr
        split at hr
        · exact scoutSupport_csame _ _ _ _ _ _ hr
        · simp at hr
      · exact lateSupport_csame _ _ _ _ _

theorem playHeroAction_csame (s : State) (i : Nat) (t : Target) (ai : Option Nat) :
    CSame s (playHeroAction s i t ai).1 := by
  unfold playHeroAction
  split
  · exact csame_refl _
  · split
    · exact csame_refl _
    · rename_i hero hg
      split
      · exact csame_refl _
      · simp only
        split
        · exact csame_of_playfield (playHeroAttack_playfield _ _ _)
        · split
          · exact resolveHeal_csame s i _ t
          · split
            · exact supportAction_csame _ _ _ _ _ hg
            · exact csame_refl _

theorem lowestHpFrom_get (pf : List Slot) (i : Nat) (best : Option (Nat × Hero)) (j : Nat)
    (h : Hero) (hl : lowestHpFrom pf i best = some (j, h)) :
    (i ≤ j ∧ pf[j - i]? = some (Slot.hero h)) ∨ best = some (j, h) := by
  induction pf generalizing i best with
  | nil => exact Or.inr hl
  | cons sl rest ih =>
    cases sl with
    | hero h0 =>
      unfold lowestHpFrom at hl
      split at hl
      · rcases ih _ _ hl with ⟨hle, hget⟩ | hb
        · left
          refine ⟨by omega, ?_⟩
          have : j - i = (j - (i + 1)) + 1 := by omega
          rw [this, List.getElem?_cons_succ]
          exact hget
        · left
          simp only [Option.some.injEq, Prod.mk.injEq] at hb
          obtain ⟨h1, h2⟩ := hb
          subst h1; subst h2
          simp
      · rcases ih _ _ hl with ⟨hle, hget⟩ | hb
        · left
          refine ⟨by omega, ?_⟩
          have : j - i = (j - (i + 1)) + 1 := by omega
          rw [this, List.getElem?_cons_succ]
          exact hget
        · split at hb
          · exact Or.inr hb
          · left
            simp only [Option.some.injEq, Prod.mk.injEq] at hb
            obtain ⟨h1, h2⟩ := hb
            subst h1; subst h2
            simp
    | null =>
      unfold lowestHpFrom at hl
      rcases ih _ _ hl with ⟨hle, hget⟩ | hb
      · left
        refine ⟨by omega, ?_⟩
        have : j - i = (j - (i + 1)) + 1 := by omega
        rw [this, List.getElem?_cons_succ]
        exact hget
      · exact Or.inr hb
    | hole =>
      unfold lowestHpFrom at hl
      rcases ih _ _ hl with ⟨hle, hget⟩ | hb
      · left
        refine ⟨by omega, ?_⟩
        have : j - i = (j - (i + 1)) + 1 := by omega
        rw [this, List.getElem?_cons_succ]
        exact hget
      · exact Or.inr hb

theorem summonEffect_csame (s : State) (d : SummonDef) (t : Target) (s1 : State)
    (h : summonEffect s d t = some s1) : CSame s s1 := by
  revert h; unfold summonEffect
  split
  · intro h; simp at h; subst h
    exact csame_map _ rfl (fun _ => rfl)
  · split
    · intro h; simp at h; subst h; exact csame_of_playfield rfl
    · split
      · dsimp only
        split
        · rename_i i hero hch
          intro h; simp at h; subst h
          have hin : getHero s i = some hero := by
            split at hch
            · rename_i p hex
              simp only [Option.some.injEq] at hch
              subst hch
              split at hex
              · rename_i tt
                cases hg : getHero s tt with
                | none => simp [hg] at hex
                | some hh =>
                  simp [hg] at hex
                  rw [← hex.1, ← hex.2]
                  exact hg
              · simp at hex
            · rcases lowestHpFrom_get _ _ _ _ _ hch with ⟨_, hget⟩ | hb
              · rw [getHero_eq_some_iff]
                simpa using hget
              · simp at hb
          exact csame_set rfl hin rfl
        · intro h; simp at h
      · split
        · intro h; simp at h; subst h; exact csame_of_playfield rfl
        · split
          · intro h; simp at h; subst h; exact csame_of_playfield rfl
          · split
            · split
              · intro h; simp at h; subst h; exact csame_refl _
              · intro h; simp at h; subst h
                exact csame_map _ rfl (fun _ => rfl)
            · intro h; simp at h; subst h; exact csame_refl _

theorem useSummon_csame (s : State) (d : Option SummonDef) (t : Target) :
    CSame s (useSummon s d t).1 := by
  unfold useSummon
  repeat' split
  all_goals first
    | exact csame_refl _
    | (rename_i h
       exact csame_trans (summonEffect_csame _ _ _ _ h)
         (csame_of_playfield (markSummon_playfield _ _)))

theorem placeHero_holds (s : State) (i : Nat) (c : Option Card) (k : Nat) (h : Hero)
    (hg : getHero s k = some h) : getHero (placeHero s i c).1 k = some h := by
  unfold placeHero
  split
  · exact hg
  · split
    · exact hg
    · split
      · exact hg
      · rename_i hlt hnull
        have hnull' : s.playfield[i]? = some Slot.null := by simpa using hnull
        have hne : i ≠ k := by
          intro hik
          subst hik
          unfold getHero at hg
          rw [hnull'] at hg
          cases hg
        dsimp only
        rw [getHero_of_set k rfl (by omega), if_neg hne]
        exact hg

theorem getHero_setSlot_ne (pf : List Slot) (i k : Nat) (v : Slot) (hne : i ≠ k)
    (h : Hero) (hg : pf[k]?.bind Slot.hero? = some h) :
    (setSlot pf i v)[k]?.bind Slot.hero? = some h := by
  have hk : k < pf.length := by
    by_contra hge
    rw [List.getElem?_eq_none (not_lt.mp hge)] at hg
    cases hg
  unfold setSlot
  split
  · rw [List.getElem?_set_ne hne]
    exact hg
  · rw [List.append_assoc, List.getElem?_append_left hk]
    exact hg

theorem replaceHero_holds (s : State) (i : Nat) (c : Option Card) (k : Nat) (h : Hero)
    (hne : i ≠ k) (hg : getHero s k = some h) : getHero (replaceHero s i c).1 k = some h := by
  unfold replaceHero
  split
  · split
    · exact hg
    · exact getHero_setSlot_ne _ _ _ _ hne h hg
  · rename_i old hold
    split
    · exact hg
    · split
      · exact hg
      · dsimp only
        rw [getHero_of_set k rfl (lt_length_of_getHero hold), if_neg hne]
        exact hg

theorem holds_of_csame {s s' : State} (hc : CSame s s') (k : Nat) (h : Hero)
    (hg : getHero s k = some h) : ∃ h2, getHero s' k = some h2 ∧ counters h2 = counters h := by
  have := hc k
  unfold cview at this
  rw [hg] at this
  cases h2 : getHero s' k with
  | none => rw [h2] at this; cases this
  | some x =>
    rw [h2] at this
    exact ⟨x, rfl, Option.some.inj this⟩

theorem step_holds (s : State) (op : Op) (k : Nat) (h : Hero) (hop : op.spares k = true)
    (hg : getHero s k = some h) :
    ∃ h2, getHero (step s op) k = some h2 ∧ counters h2 = counters h := by
  cases op with
  | placeHero i c => exact ⟨h, placeHero_holds s i c k h hg, rfl⟩
  | replaceHero i c =>
    exact ⟨h, replaceHero_holds s i c k h (by simpa [Op.spares] using hop) hg, rfl⟩
  | defendHero i => exact holds_of_csame (defendHero_csame s i) k h hg
  | playHeroAttack i ai =>
    exact holds_of_csame (csame_of_playfield (playHeroAttack_playfield s i ai)) k h hg
  | playHeroAction i t ai => exact holds_of_csame (playHeroAction_csame s i t ai) k h hg
  | useSummon d t => exact holds_of_csame (useSummon_csame s d t) k h hg
  | enemyAct => simp [Op.spares] at hop
  | setFormation f => exact ⟨h, hg, rfl⟩

theorem run_holds (ops : List Op) (s : State) (k : Nat) (h : Hero)
    (hops : ∀ op ∈ ops, op.spares k = true) (hg : getHero s k = some h) :
    ∃ h2, getHero (run s ops) k = some h2 ∧ counters h2 = counters h := by
  induction ops generalizing s h with
  | nil => exact ⟨h, hg, rfl⟩
  | cons op rest ih =>
    obtain ⟨h1, hg1, hc1⟩ := step_holds s op k h (hops op (List.mem_cons_self _ _)) hg
    obtain ⟨h2, hg2, hc2⟩ := ih (step s op) h1 (fun o ho => hops o (List.mem_cons_of_mem _ ho)) hg1
    exact ⟨h2, hg2, hc2.trans hc1⟩

theorem stunned_refused (s : State) (k : Nat) (h : Hero) (hg : getHero s k = some h)
    (hst : 0 < h.stunnedTurns) (hap : 0 < s.ap) :
    (∀ ai, playHeroAttack s k ai = (s, Result.fail "stunned")) ∧
    (∀ t ai, playHeroAction s k t ai = (s, Result.fail "stunned")) ∧
    defendHero s k = (s, Result.fail "stunned") := by
  have hap' : ¬ s.ap ≤ 0 := not_le.mpr hap
  refine ⟨?_, ?_, ?_⟩
  · intro ai
    unfold playHeroAttack
    rw [if_neg hap', hg]
    dsimp only
    rw [if_pos hst]
  · intro t ai
    unfold playHeroAction
    rw [if_neg hap', hg]
    dsimp only
    rw [if_pos hst]
  · unfold defendHero
    rw [if_neg hap', hg]
    dsimp only
    rw [if_pos hst]

theorem attackPhase_counters (s1 : State) :
    ∃ m, Keeps s1 m ∧ ∀ k, cview (attackPhase s1).1 k = cview m k ∨
      ∃ eff, cview (attackPhase s1).1 k = (cview m k).map (raised eff) := by
  cases hatt : s1.enemy.attacks with
  | none =>
    refine ⟨(attackPhase s1).1, attackPhase_plain s1 ?_, fun k => Or.inl rfl⟩
    intro a rest h
    rw [hatt] at h
    cases h
  | some l =>
    cases l with
    | nil =>
      refine ⟨(attackPhase s1).1, attackPhase_plain s1 ?_, fun k => Or.inl rfl⟩
      intro a rest h
      rw [hatt] at h
      cases h
    | cons a rest =>
      cases heff : truthyName ((a :: rest)[(s1.rng.int (a :: rest).length).1]?.getD {}).effect with
      | none =>
        refine ⟨(attackPhase s1).1, attackPhase_plain s1 ?_, fun k => Or.inl rfl⟩
        intro a' rest' h
        rw [hatt] at h
        cases h
        exact heff
      | some e =>
        obtain ⟨m, hits, hkeep, _, hcv, _⟩ := attackPhase_effects s1 a rest e hatt heff
        refine ⟨m, hkeep, ?_⟩
        intro k
        rw [hcv k]
        cases hs : struckH k hits
        · left
          simp
        · right
          exact ⟨lower e, by simp⟩

theorem enemyAct_counters (s : State) (k : Nat) (h' : Hero)
    (hg : getHero (enemyAct s).1 k = some h') :
    ∃ h, getHero s k = some h ∧
      (counters h' = lowered (counters h) ∨
        ∃ eff, counters h' = raised eff (lowered (counters h))) := by
  have hc : cview (enemyAct s).1 k = some (counters h') := by
    unfold cview
    rw [hg]
    rfl
  have hpre : ∀ (s1 : State) (c : Nat × Nat × Nat),
      s1.playfield = mapHeroes decBlind (mapHeroes decStunEnfeeble s.playfield) →
      cview s1 k = some c → ∃ h, getHero s k = some h ∧ c = lowered (counters h) := by
    intro s1 c hpf hc1
    unfold cview getHero at hc1
    rw [hpf, prelude_getHero] at hc1
    cases hs : s.playfield[k]?.bind Slot.hero? with
    | none => rw [hs] at hc1; cases hc1
    | some h =>
      rw [hs] at hc1
      exact ⟨h, hs, (Option.some.inj hc1).symm⟩
  by_cases hns : s.enemy.stunnedTurns = 0
  · obtain ⟨s1, _, _, hpf1, hbranch⟩ := enemyAct_normal s hns
    rw [hbranch] at hc
    rw [(housekeepingNormal_counters _ _ k).1] at hc
    obtain ⟨m, hkeep, hcv⟩ := attackPhase_counters s1
    have hkeep' : ∀ c, cview m k = some c → ∃ h, getHero s k = some h ∧
        c = lowered (counters h) := by
      intro c hm
      unfold cview at hm
      cases hgm : getHero m k with
      | none => rw [hgm] at hm; cases hm
      | some hm' =>
        rw [hgm] at hm
        obtain ⟨h1, hg1, hc1⟩ := hkeep k hm' hgm
        have : cview s1 k = some c := by
          unfold cview
          rw [hg1]
          simp only [Option.map_some']
          rw [← hc1]
          exact hm
        exact hpre s1 c hpf1 this
    rcases hcv k with h1 | ⟨eff, h1⟩
    · rw [h1] at hc
      obtain ⟨h, hgs, hcl⟩ := hkeep' _ hc
      exact ⟨h, hgs, Or.inl hcl⟩
    · rw [h1] at hc
      cases hm : cview m k with
      | none => rw [hm] at hc; cases hc
      | some c =>
        rw [hm] at hc
        obtain ⟨h, hgs, hcl⟩ := hkeep' c hm
        refine ⟨h, hgs, Or.inr ⟨eff, ?_⟩⟩
        rw [← hcl]
        exact (Option.some.inj hc).symm
  · have hbranch : (enemyAct s).1 =
        (housekeepingStunned
          { s with turn := s.turn + 1,
                   playfield := mapHeroes decBlind (mapHeroes decStunEnfeeble s.playfield),
                   enemy := { s.enemy with stunnedTurns := s.enemy.stunnedTurns - 1 } } []).1 := by
      unfold enemyAct
      dsimp only
      rw [if_pos (by omega)]
    rw [hbranch, housekeepingStunned_counters] at hc
    obtain ⟨h, hgs, hcl⟩ := hpre _ _ rfl hc
    exact ⟨h, hgs, Or.inl hcl⟩

theorem getHero_setSlot_other (pf : List Slot) (i k : Nat) (v : Slot) (hne : i ≠ k) :
    (setSlot pf i v)[k]?.bind Slot.hero? = pf[k]?.bind Slot.hero? := by
  unfold setSlot
  split
  · rw [List.getElem?_set_ne hne]
  · rename_i hge
    by_cases hk : k < pf.length
    · rw [List.append_assoc, List.getElem?_append_left hk]
    · rw [List.getElem?_eq_none (not_lt.mp hk)]
      rw [List.append_assoc, List.getElem?_append_right (not_lt.mp hk)]
      by_cases hk2 : k - pf.length < i - pf.length
      · rw [List.getElem?_append_left (by simpa using hk2)]
        simp [List.getElem?_replicate, hk2, Slot.hero?]
      · rw [List.getElem?_append_right (by simpa using hk2)]
        have : k - pf.length - (List.replicate (i - pf.length) Slot.hole).length ≠ 0 := by
          simp
          omega
        cases hidx : k - pf.length - (List.replicate (i - pf.length) Slot.hole).length with
        | zero => exact absurd hidx this
        | succ n => simp

theorem setSlot_get_self (pf : List Slot) (i : Nat) (v : Slot) :
    (setSlot pf i v)[i]? = some v := by
  unfold setSlot
  split
  · rename_i hlt
    simp [hlt]
  · rename_i hge
    have hlen : (pf ++ List.replicate (i - pf.length) Slot.hole).length = i := by
      simp
      omega
    rw [List.getElem?_append_right (by rw [hlen]), hlen]
    simp

theorem countersOk_of_csame {s s' : State} (hc : CSame s s') (h : CountersOk s) :
    CountersOk s' := by
  intro k h' hg
  have := hc k
  unfold cview at this
  rw [hg] at this
  cases hs : getHero s k with
  | none => rw [hs] at this; cases this
  | some h0 =>
    rw [hs] at this
    have heq : counters h' = counters h0 := Option.some.inj this
    have h0ok := h k h0 hs
    simp only [counters, Prod.mk.injEq] at heq
    obtain ⟨e1, e2, e3⟩ := heq
    rw [e1, e2, e3]
    exact h0ok

theorem placeHero_countersOk (s : State) (i : Nat) (c : Option Card) (h : CountersOk s) :
    CountersOk (placeHero s i c).1 := by
  unfold placeHero
  split
  · exact h
  · split
    · exact h
    · split
      · exact h
      · rename_i hlt _
        intro k h' hg
        dsimp only at hg
        rw [getHero_of_set k rfl (by omega)] at hg
        by_cases hik : i = k
        · rw [if_pos hik] at hg
          cases hg
          exact ⟨Nat.zero_le _, Nat.zero_le _, Nat.zero_le _⟩
        · rw [if_neg hik] at hg
          exact h k h' hg

theorem replaceHero_countersOk (s : State) (i : Nat) (c : Option Card) (h : CountersOk s) :
    CountersOk (replaceHero s i c).1 := by
  unfold replaceHero
  split
  · split
    · exact h
    · intro k h' hg
      unfold getHero at hg
      dsimp only at hg
      by_cases hik : i = k
      · subst hik
        rw [setSlot_get_self] at hg
        cases hg
        exact ⟨Nat.zero_le _, Nat.zero_le _, Nat.zero_le _⟩
      · rw [getHero_setSlot_other _ _ _ _ hik] at hg
        exact h k h' hg
  · rename_i old hold
    split
    · exact h
    · split
      · exact h
      · intro k h' hg
        dsimp only at hg
        rw [getHero_of_set k rfl (lt_length_of_getHero hold)] at hg
        by_cases hik : i = k
        · rw [if_pos hik] at hg
          cases hg
          exact ⟨Nat.zero_le _, Nat.zero_le _, Nat.zero_le _⟩
        · rw [if_neg hik] at hg
          exact h k h' hg

theorem enemyAct_countersOk (s : State) (h : CountersOk s) : CountersOk (enemyAct s).1 := by
  intro k h' hg
  obtain ⟨h0, hg0, hc⟩ := enemyAct_counters s k h' hg
  obtain ⟨a1, a2, a3⟩ := h k h0 hg0
  rcases hc with hc | ⟨eff, hc⟩
  · simp only [counters, lowered, Prod.mk.injEq] at hc
    obtain ⟨e1, e2, e3⟩ := hc
    omega
  · simp only [counters, lowered, raised, Prod.mk.injEq] at hc
    obtain ⟨e1, e2, e3⟩ := hc
    refine ⟨?_, ?_, ?_⟩
    · rw [e1]; split <;> omega
    · rw [e2]; split <;> omega
    · rw [e3]; split <;> omega

theorem step_countersOk (s : State) (op : Op) (h : CountersOk s) : CountersOk (step s op) := by
  cases op with
  | placeHero i c => exact placeHero_countersOk s i c h
  | replaceHero i c => exact replaceHero_countersOk s i c h
  | defendHero i => exact countersOk_of_csame (defendHero_csame s i) h
  | playHeroAttack i ai =>
    exact countersOk_of_csame (csame_of_playfield (playHeroAttack_playfield s i ai)) h
  | playHeroAction i t ai => exact countersOk_of_csame (playHeroAction_csame s i t ai) h
  | useSummon d t => exact countersOk_of_csame (useSummon_csame s d t) h
  | enemyAct => exact enemyAct_countersOk s h
  | setFormation f => exact h

theorem run_countersOk (ops : List Op) (s : State) (h : CountersOk s) :
    CountersOk (run s ops) := by
  induction ops generalizing s with
  | nil => exact h
  | cons op rest ih => exact ih (step s op) (step_countersOk s op h)

/-- C28: on a turn in which the enemy is not stunned and the attack it picks carries an
effect `e`, the events of `enemyAct` are the hit events, then one status event per
qualifying hit (not missed, with `hpTaken > 0` or `tempTaken > 0`) whose slot still holds a
hero, then only `enemyDamage` events; and every hero standing at the end of the turn has
its counters lowered by the initial decrement and, exactly when its slot has a qualifying
hit, the counter matching the lower-cased effect (`stun`, `enfeeble`, `blind`) raised to at
least 1, so that missed, dodged and protected heroes are unaffected. No call of the
player's turn that spares the hero's slot changes its counters, so while
`stunnedTurns > 0` its `playHeroAttack`, `playHeroAction` and `defendHero` fail with
`'stunned'` whenever AP is left; the next `enemyAct` lowers each counter by one before any
new effect. In every state reached from `startEncounter` the counters are at most 1, so
there a status lasts one turn: raised to exactly 1 and back to 0 at the next decrement. -/
theorem enemy_attack_effects :
    (∀ (s : State) (atk : Attack) (e : String),
      s.enemy.stunnedTurns = 0 → chosenAttack s = some atk → truthyName atk.effect = some e →
      ∃ (hits : List HitEvent) (extra : List Event),
        (enemyAct s).2.events =
          hits.map Event.hit ++ statusEventsFor (lower e) (nview (enemyAct s).1) hits ++ extra ∧
        (∀ x ∈ extra, x.isEnemyDamage = true) ∧
        ∀ k h', getHero (enemyAct s).1 k = some h' →
          ∃ h, getHero s k = some h ∧
            counters h' =
              if struckH k hits = true then raised (lower e) (lowered (counters h))
              else lowered (counters h)) ∧
    (∀ (st : State) (k : Nat) (h : Hero) (ops : List Op),
      getHero st k = some h → 0 < h.stunnedTurns → (∀ op ∈ ops, op.spares k = true) →
      ∃ h2, getHero (run st ops) k = some h2 ∧ counters h2 = counters h ∧
        (0 < (run st ops).ap →
          (∀ ai, playHeroAttack (run st ops) k ai = (run st ops, Result.fail "stunned")) ∧
          (∀ t ai, playHeroAction (run st ops) k t ai = (run st ops, Result.fail "stunned")) ∧
          defendHero (run st ops) k = (run st ops, Result.fail "stunned"))) ∧
    (∀ (s : State) (k : Nat) (h' : Hero), getHero (enemyAct s).1 k = some h' →
      ∃ h, getHero s k = some h ∧
        (counters h' = lowered (counters h) ∨
          ∃ eff, counters h' = raised eff (lowered (counters h)))) ∧
    (∀ (enemyDef : Enemy) (hand : Option (List Card)) (rng : Rng) (apPerTurn : Option Int)
      (ops : List Op) (k : Nat) (h : Hero),
      getHero (run (startEncounter enemyDef hand rng apPerTurn) ops) k = some h →
      h.stunnedTurns ≤ 1 ∧ h.enfeebledTurns ≤ 1 ∧ h.blindedTurns ≤ 1) ∧
    (∀ c : Nat × Nat × Nat,
      raised "stun" c = (max 1 c.1, c.2.1, c.2.2) ∧
      raised "enfeeble" c = (c.1, max 1 c.2.1, c.2.2) ∧
      raised "blind" c = (c.1, c.2.1, max 1 c.2.2) ∧
      lowered c = (c.1 - 1, c.2.1 - 1, c.2.2 - 1)) := by
  refine ⟨enemyAct_effects, ?_, enemyAct_counters, ?_, ?_⟩
  · intro st k h ops hg hst hops
    obtain ⟨h2, hg2, hc2⟩ := run_holds ops st k h hops hg
    refine ⟨h2, hg2, hc2, ?_⟩
    intro hap
    have hst2 : 0 < h2.stunnedTurns := by
      have : h2.stunnedTurns = h.stunnedTurns := congrArg Prod.fst hc2
      omega
    exact stunned_refused _ k h2 hg2 hst2 hap
  · intro enemyDef hand rng apPerTurn ops k h hg
    have hstart : CountersOk (startEncounter enemyDef hand rng apPerTurn) := by
      intro k' h' hg'
      unfold getHero startEncounter at hg'
      dsimp only at hg'
      rcases k' with _ | _ | _ | k' <;> simp [Slot.hero?] at hg'
    exact run_countersOk ops _ hstart k h hg
  · intro c
    exact ⟨rfl, rfl, rfl, rfl⟩

theorem enemy_attack_effects_witness :
    (getHero (enemyAct stunFight).1 0).map counters = some (1, 0, 0) ∧
    (enemyAct stunFight).2.events.contains (Event.heroStunned 0 (some "Fighter")) = true ∧
    playHeroAttack (enemyAct stunFight).1 0 none =
      ((enemyAct stunFight).1, Result.fail "stunned") ∧
    defendHero (enemyAct stunFight).1 0 = ((enemyAct stunFight).1, Result.fail "stunned") :=
  have h := enemy_attack_effects.2.1 (enemyAct stunFight).1 0
    { cardId := "fighter", hp := 7, base := fighter, tempHp := some 0,
      statusIcons := some [{ id := "stunned", source := "ogre" }], instanceId := some 1,
      stunnedTurns := 1 }
    [] (by decide) (by decide) (fun _ hop => by cases hop)
  ⟨by decide, by decide,
    h.elim fun _ hh => (hh.2.2 (by decide)).1 none,
    h.elim fun _ hh => (hh.2.2 (by decide)).2.2⟩

/-! ## C13: the two copies of the housekeeping -/

theorem requeueAll_mem (l : List PendingEffect) (e : PendingEffect) (he : e ∈ requeueAll l) :
    ∃ e0 ∈ l, e.type = e0.type ∧ e.trigger = e0.trigger := by
  induction l with
  | nil => cases he
  | cons a rest ih =>
    simp only [requeueAll, List.mem_append] at he
    rcases he with h | h
    · refine ⟨a, List.mem_cons_self _ _, ?_⟩
      unfold requeue at h
      split at h
      · split at h
        · simp only [List.mem_singleton] at h
          rw [h]
          exact ⟨rfl, rfl⟩
        · cases h
      · cases h
    · obtain ⟨e0, h0, h1⟩ := ih h
      exact ⟨e0, List.mem_cons_of_mem _ h0, h1⟩

theorem pendingOk_of_eq {s s' : State} (h : s'.pendingEffects = s.pendingEffects)
    (hp : PendingOk s) : PendingOk s' := by
  unfold PendingOk
  rw [h]
  exact hp

theorem pendingOk_push {s s' : State} (e : PendingEffect)
    (h : s'.pendingEffects = s.pendingEffects ++ [e])
    (he : e.type = "delayedDamage" ∧ e.trigger = "afterEnemy")
    (hp : PendingOk s) : PendingOk s' := by
  unfold PendingOk
  rw [h]
  intro x hx
  simp only [List.mem_append, List.mem_singleton] at hx
  rcases hx with hx | hx
  · exact hp x hx
  · rw [hx]
    exact he

theorem enemyAct_pendingOk (s : State) (hp : PendingOk s) : PendingOk (enemyAct s).1 := by
  intro e he
  rw [(enemyAct_pending s hp).2] at he
  obtain ⟨e0, h0, h1, h2⟩ := requeueAll_mem _ _ he
  rw [h1, h2]
  exact hp e0 h0

theorem placeHero_pending (s : State) (i : Nat) (c : Option Card) :
    (placeHero s i c).1.pendingEffects = s.pendingEffects := by
  unfold placeHero
  dsimp only
  repeat' split
  all_goals rfl

theorem replaceHero_pending (s : State) (i : Nat) (c : Option Card) :
    (replaceHero s i c).1.pendingEffects = s.pendingEffects := by
  unfold replaceHero
  dsimp only
  repeat' split
  all_goals rfl

theorem defendHero_pending (s : State) (i : Nat) :
    (defendHero s i).1.pendingEffects = s.pendingEffects := by
  unfold defendHero
  dsimp only
  repeat' split
  all_goals rfl

theorem playHeroAttack_pending (s : State) (i : Nat) (ai : Option Nat) :
    (playHeroAttack s i ai).1.pendingEffects = s.pendingEffects := by
  unfold playHeroAttack
  dsimp only
  repeat' split
  all_goals rfl

theorem resolveHeal_pending (s : State) (i : Nat) (amount : Nat) (t : Target) :
    (resolveHeal s i amount t).1.pendingEffects = s.pendingEffects := by
  unfold resolveHeal
  dsimp only
  repeat' split
  all_goals rfl

theorem earlySupport_pendingOk (s : State) (i : Nat) (hero : Hero) (hid hname : String)
    (r : State × Result) (hr : earlySupport s i hero hid hname = some r)
    (hp : PendingOk s) : PendingOk r.1 := by
  revert hr; unfold earlySupport; simp only
  repeat' split
  all_goals (intro hr; simp at hr; try subst hr)
  · exact pendingOk_of_eq rfl hp
  · exact pendingOk_of_eq rfl hp
  · exact pendingOk_push (delayedDamage "lumalia" i 6 none hname) rfl ⟨rfl, rfl⟩ hp

theorem scoutSupport_pending (s : State) (i : Nat) (hero : Hero) (t : Target) (ai : Option Nat)
    (r : State × Result) (hr : scoutSupport s i hero t ai = some r) :
    r.1.pendingEffects = s.pendingEffects := by
  revert hr; unfold scoutSupport scoutRally scoutAssist; simp only
  repeat' split
  all_goals (intro hr; simp at hr; try subst hr)
  all_goals rfl

theorem lateSupport_pendingOk (s : State) (i : Nat) (hid hname : String) (t : Target)
    (hp : PendingOk s) : PendingOk (lateSupport s i hid hname t).1 := by
  unfold lateSupport
  split
  · refine pendingOk_of_eq ?_ hp
    unfold willisSupport
    repeat' split
    all_goals rfl
  · split
    · exact pendingOk_of_eq rfl hp
    · split
      · exact pendingOk_push (delayedDamage "bjurganmyr" i 8 (some 2) hname) rfl ⟨rfl, rfl⟩ hp
      · split
        · exact pendingOk_push (delayedDamage "miley" i 8 (some 2) hname) rfl ⟨rfl, rfl⟩ hp
        · split
          · refine pendingOk_of_eq ?_ hp
            unfold kieferSupport
            dsimp only
            split <;> rfl
          · exact hp

theorem supportAction_pendingOk (s : State) (i : Nat) (hero : Hero) (t : Target)
    (ai : Option Nat) (hp : PendingOk s) : PendingOk (supportAction s i hero t ai).1 := by
  unfold supportAction
  simp only
  split
  · exact hp
  · split
    · rename_i r hr
      exact earlySupport_pendingOk _ _ _ _ _ _ hr hp
    · split
      · rename_i r hr
        split at hr
        · exact pendingOk_of_eq (scoutSupport_pending _ _ _ _ _ _ hr) hp
        · simp at hr
      · exact lateSupport_pendingOk _ _ _ _ _ hp

theorem playHeroAction_pendingOk (s : State) (i : Nat) (t : Target) (ai : Option Nat)
    (hp : PendingOk s) : PendingOk (playHeroAction s i t ai).1 := by
  unfold playHeroAction
  split
  · exact hp
  · split
    · exact hp
    · split
      · exact hp
      · simp only
        split
        · exact pendingOk_of_eq (playHeroAttack_pending _ _ _) hp
        · split
          · exact pendingOk_of_eq (resolveHeal_pending _ _ _ _) hp
          · split
            · exact supportAction_pendingOk _ _ _ _ _ hp
            · exact hp

theorem useSummon_pending (s : State) (d : Option SummonDef) (t : Target) :
    (useSummon s d t).1.pendingEffects = s.pendingEffects := by
  have hm : ∀ (s1 : State) (d : SummonDef),
      (markSummon s1 d).pendingEffects = s1.pendingEffects := by
    intro s1 d
    unfold markSummon
    repeat' split
    all_goals rfl
  have he : ∀ (d : SummonDef) (s1 : State), summonEffect s d t = some s1 →
      s1.pendingEffects = s.pendingEffects := by
    intro d s1 h
    revert h; unfold summonEffect
    dsimp only
    repeat' split
    all_goals (intro h; simp at h; try subst h)
    all_goals rfl
  unfold useSummon
  repeat' split
  all_goals first
    | rfl
    | (rename_i h
       exact (hm _ _).trans (he _ _ h))

theorem step_pendingOk (s : State) (op : Op) (hp : PendingOk s) : PendingOk (step s op) := by
  cases op with
  | placeHero i c => exact pendingOk_of_eq (placeHero_pending s i c) hp
  | replaceHero i c => exact pendingOk_of_eq (replaceHero_pending s i c) hp
  | defendHero i => exact pendingOk_of_eq (defendHero_pending s i) hp
  | playHeroAttack i ai => exact pendingOk_of_eq (playHeroAttack_pending s i ai) hp
  | playHeroAction i t ai => exact playHeroAction_pendingOk s i t ai hp
  | useSummon d t => exact pendingOk_of_eq (useSummon_pending s d t) hp
  | enemyAct => exact enemyAct_pendingOk s hp
  | setFormation f => exact hp

theorem run_pendingOk (ops : List Op) (s : State) (hp : PendingOk s) :
    PendingOk (run s ops) := by
  induction ops generalizing s with
  | nil => exact hp
  | cons op ops ih => exact ih (step s op) (step_pendingOk s op hp)

theorem IconsOk.icons_of_get {s : State} {i : Nat} {h : Hero} (hp : IconsOk s.playfield)
    (hg : getHero s i = some h) : Plain h := by
  unfold getHero at hg
  cases hs : s.playfield[i]? with
  | none => simp [hs] at hg
  | some sl =>
    rw [hs] at hg
    cases sl with
    | null => simp [Slot.hero?] at hg
    | hole => simp [Slot.hero?] at hg
    | hero h' =>
      simp [Slot.hero?] at hg
      subst hg
      exact hp h' (List.mem_iff_getElem?.mpr ⟨i, hs⟩)

theorem IconsOk.icons_set {pf : List Slot} {h : Hero} (hp : IconsOk pf) (hh : Plain h) (i : Nat) :
    IconsOk (pf.set i (.hero h)) := by
  intro h' hm
  rcases List.mem_or_eq_of_mem_set hm with hm | he
  · exact hp h' hm
  · cases he; exact hh

theorem IconsOk.icons_set_null {pf : List Slot} (hp : IconsOk pf) (i : Nat) :
    IconsOk (pf.set i Slot.null) := by
  intro h' hm
  rcases List.mem_or_eq_of_mem_set hm with hm | he
  · exact hp h' hm
  · cases he

theorem IconsOk.icons_setSlot {pf : List Slot} {h : Hero} (hp : IconsOk pf) (hh : Plain h) (i : Nat) :
    IconsOk (setSlot pf i (.hero h)) := by
  unfold Encounter.setSlot
  split
  · exact hp.icons_set hh i
  · intro h' hm
    simp only [List.mem_append, List.mem_replicate, List.mem_singleton] at hm
    rcases hm with (hm | ⟨_, he⟩) | he
    · exact hp h' hm
    · cases he
    · cases he; exact hh

theorem IconsOk.icons_mapHeroes {pf : List Slot} {f : Hero → Hero} (hf : ∀ h, Plain h → Plain (f h))
    (hp : IconsOk pf) : IconsOk (mapHeroes f pf) := by
  intro h' hm
  unfold Encounter.mapHeroes at hm
  rw [List.mem_map] at hm
  obtain ⟨sl, hsl, he⟩ := hm
  cases sl with
  | null => cases he
  | hole => cases he
  | hero h =>
    simp only [Slot.hero.injEq] at he
    subst he
    exact hf h (hp h hsl)

theorem plain_filter (h : Hero) (hh : Plain h) (p : StatusIcon → Bool) :
    Plain { h with statusIcons := h.statusIcons.map fun icons => icons.filter p } := by
  intro si hsi
  cases hi : h.statusIcons with
  | none =>
    rw [show ({ h with statusIcons := h.statusIcons.map fun icons => icons.filter p } :
      Hero).statusIcons = h.statusIcons.map fun icons => icons.filter p from rfl, hi] at hsi
    cases hsi
  | some icons =>
    rw [show ({ h with statusIcons := h.statusIcons.map fun icons => icons.filter p } :
      Hero).statusIcons = h.statusIcons.map fun icons => icons.filter p from rfl, hi] at hsi
    simp only [Option.map_some', Option.getD_some, List.mem_filter] at hsi
    apply hh si
    rw [hi]
    exact hsi.1

theorem plain_push (h : Hero) (hh : Plain h) (icon : StatusIcon) (hi : icon.persistent = false) :
    Plain (pushIcon h icon) := by
  intro si hsi
  unfold pushIcon at hsi
  simp only [Option.getD_some, List.mem_append, List.mem_singleton] at hsi
  rcases hsi with h1 | h1
  · exact hh si h1
  · rw [h1]
    exact hi

theorem IconsOk.icons_syncIconsFrom {pf : List Slot} (keep : Nat → Hero → StatusIcon → Bool) (i : Nat)
    (hp : IconsOk pf) : IconsOk (syncIconsFrom keep pf i) := by
  induction pf generalizing i with
  | nil => intro h' hm; cases hm
  | cons sl rest ih =>
    have hrest : IconsOk rest := fun h hm => hp h (List.mem_cons_of_mem _ hm)
    cases sl with
    | null =>
      intro h' hm
      simp only [Encounter.syncIconsFrom, List.mem_cons] at hm
      rcases hm with he | hm
      · cases he
      · exact ih (i + 1) hrest h' hm
    | hole =>
      intro h' hm
      simp only [Encounter.syncIconsFrom, List.mem_cons] at hm
      rcases hm with he | hm
      · cases he
      · exact ih (i + 1) hrest h' hm
    | hero h =>
      intro h' hm
      simp only [Encounter.syncIconsFrom, List.mem_cons] at hm
      rcases hm with he | hm
      · simp only [Slot.hero.injEq] at he
        subst he
        exact plain_filter h (hp h (List.mem_cons_self _ _)) _
      · exact ih (i + 1) hrest h' hm

theorem absorbDamage_icons (h : Hero) (dmg : Int) :
    (absorbDamage h dmg).1.statusIcons = h.statusIcons := by
  unfold absorbDamage
  dsimp only
  repeat' split
  all_goals rfl

theorem damageHero_iconsOk (s : State) (idx : Nat) (h : Hero) (dmg shown : Int) (ty : String)
    (ai : Nat) (nm : String) (hp : IconsOk s.playfield) (hh : Plain h) :
    IconsOk (damageHero s idx h dmg shown ty ai nm).1.playfield := by
  unfold damageHero
  dsimp only
  by_cases hd : (absorbDamage h dmg).1.hp ≤ 0
  · simp only [hd, decide_True, if_true]
    exact hp.icons_set_null idx
  · simp only [hd, decide_False, Bool.false_eq_true, if_false]
    refine hp.icons_set ?_ idx
    unfold Plain
    rw [absorbDamage_icons]
    exact hh

theorem resolveSingleTargetAttack_iconsOk (s : State) (dmg : Int) (ai : Nat) (nm : String)
    (hp : IconsOk s.playfield) : IconsOk (resolveSingleTargetAttack s dmg ai nm).1.playfield := by
  unfold resolveSingleTargetAttack
  dsimp only
  split
  · exact hp
  · split
    · exact hp
    · rename_i hg
      split
      · exact hp
      · dsimp only
        exact damageHero_iconsOk _ _ _ _ _ _ _ _ hp (IconsOk.icons_of_get hp hg)

theorem aoeStep_iconsOk (d : Int) (ai : Nat) (nm : String) (acc : State × List HitEvent)
    (i : Nat) (hp : IconsOk acc.1.playfield) : IconsOk (aoeStep d ai nm acc i).1.playfield := by
  unfold aoeStep
  split
  · exact hp
  · split
    · exact hp
    · rename_i hg
      split
      · exact hp
      · dsimp only
        exact damageHero_iconsOk _ _ _ _ _ _ _ _ hp (IconsOk.icons_of_get hp hg)

theorem resolveAoEAttack_iconsOk (s : State) (d : Int) (ai : Nat) (nm : String)
    (hp : IconsOk s.playfield) : IconsOk (resolveAoEAttack s d ai nm).1.playfield :=
  foldl_inv (fun s => IconsOk s.playfield) _ (aoeStep_iconsOk d ai nm) _ (s, []) hp

theorem critThenResolve_iconsOk (s : State) (atk : Attack) (d : Int) (ai : Nat) (nm ty : String)
    (hp : IconsOk s.playfield) : IconsOk (critThenResolve s atk d ai nm ty).1.playfield := by
  unfold critThenResolve
  dsimp only
  exact resolveSingleTargetAttack_iconsOk _ _ _ _ hp

theorem multiStep_iconsOk (atk : Attack) (d : Int) (ai : Nat) (nm : String)
    (acc : State × List HitEvent) (hp : IconsOk acc.1.playfield) :
    IconsOk (multiStep atk d ai nm acc).1.playfield := by
  unfold multiStep
  dsimp only
  split
  · split
    · exact hp
    · split <;> exact hp
  · dsimp only
    exact critThenResolve_iconsOk _ _ _ _ _ _ hp

theorem singleAttack_iconsOk (s : State) (atk : Attack) (d : Int) (ai : Nat) (nm : String)
    (hp : IconsOk s.playfield) : IconsOk (singleAttack s atk d ai nm).1.playfield := by
  unfold singleAttack
  dsimp only
  split
  · exact hp
  · split
    · exact hp
    · split
      · split
        · exact hp
        · exact critThenResolve_iconsOk _ _ _ _ _ _ hp
      · split
        · exact hp
        · exact critThenResolve_iconsOk _ _ _ _ _ _ hp

theorem effectStep_iconsOk (eff : String) (acc : State × List Event) (ev : HitEvent)
    (hp : IconsOk acc.1.playfield) : IconsOk (effectStep eff acc ev).1.playfield := by
  unfold effectStep
  split
  · split
    · exact hp
    · rename_i h hg
      have hh : Plain h := IconsOk.icons_of_get hp hg
      dsimp only
      refine hp.icons_set ?_ _
      have h1 : Plain (if eff = "stun" then
          (pushIcon { h with stunnedTurns := max 1 h.stunnedTurns }
              { id := "stunned", source := enemySource acc.1.enemy },
            [Event.heroStunned ev.slot (truthyName h.base.name)])
          else (h, [])).1 := by
        split
        · exact plain_push _ hh _ rfl
        · exact hh
      generalize (if eff = "stun" then
          (pushIcon { h with stunnedTurns := max 1 h.stunnedTurns }
              { id := "stunned", source := enemySource acc.1.enemy },
            [Event.heroStunned ev.slot (truthyName h.base.name)])
          else (h, [])) = r1 at h1 ⊢
      have h2 : Plain (if eff = "enfeeble" then
          (pushIcon { r1.1 with enfeebledTurns := max 1 r1.1.enfeebledTurns }
              { id := "enfeebled", source := enemySource acc.1.enemy },
            r1.2 ++ [Event.heroEnfeebled ev.slot (truthyName h.base.name)])
          else r1).1 := by
        split
        · exact plain_push _ h1 _ rfl
        · exact h1
      generalize (if eff = "enfeeble" then
          (pushIcon { r1.1 with enfeebledTurns := max 1 r1.1.enfeebledTurns }
              { id := "enfeebled", source := enemySource acc.1.enemy },
            r1.2 ++ [Event.heroEnfeebled ev.slot (truthyName h.base.name)])
          else r1) = r2 at h2 ⊢
      split
      · exact plain_push _ h2 _ rfl
      · exact h2
  · exact hp

theorem attackPhase_iconsOk (s : State) (hp : IconsOk s.playfield) :
    IconsOk (attackPhase s).1.playfield := by
  unfold attackPhase
  split
  · dsimp only
    have hhits : ∀ (hits : State × List HitEvent) (e : Option String),
        IconsOk hits.1.playfield →
        IconsOk (match e with
            | some e => hits.2.foldl (effectStep (lower e)) (hits.1, hits.2.map Event.hit)
            | none => (hits.1, hits.2.map Event.hit)).1.playfield := by
      intro hits e hh
      cases e with
      | none => exact hh
      | some e =>
        exact foldl_inv (fun s => IconsOk s.playfield) _ (effectStep_iconsOk _) _ _ hh
    apply hhits
    split
    · exact resolveAoEAttack_iconsOk _ _ _ _ hp
    · split
      · exact multiStep_iconsOk _ _ _ _ _ (multiStep_iconsOk _ _ _ _ _ hp)
      · exact singleAttack_iconsOk _ _ _ _ _ hp
  · exact hp

theorem decProtection_plain (h : Hero) (hh : Plain h) : Plain (decProtection h) := by
  unfold decProtection
  repeat' split
  all_goals exact hh

theorem resetRound_iconsOk (s : State) (hp : IconsOk s.playfield) :
    IconsOk (resetRound s).playfield := by
  unfold resetRound
  exact IconsOk.icons_mapHeroes (fun _ hh => hh)
    (IconsOk.icons_mapHeroes (fun _ hh => hh) (IconsOk.icons_mapHeroes (fun _ hh => hh) hp))

theorem housekeepingStunned_iconsOk (s : State) (evs : List Event) (hp : IconsOk s.playfield) :
    IconsOk (housekeepingStunned s evs).1.playfield := by
  unfold housekeepingStunned
  exact IconsOk.icons_syncIconsFrom _ _ (IconsOk.icons_mapHeroes decProtection_plain (resetRound_iconsOk s hp))

theorem housekeepingNormal_iconsOk (s : State) (evs : List Event) (hp : IconsOk s.playfield) :
    IconsOk (housekeepingNormal s evs).1.playfield := by
  unfold housekeepingNormal
  exact IconsOk.icons_syncIconsFrom _ _ (IconsOk.icons_mapHeroes decProtection_plain (resetRound_iconsOk s hp))

theorem enemyAct_iconsOk (s : State) (hp : IconsOk s.playfield) :
    IconsOk (enemyAct s).1.playfield := by
  have h1 : IconsOk (mapHeroes decBlind (mapHeroes decStunEnfeeble s.playfield)) :=
    IconsOk.icons_mapHeroes (fun _ hh => hh) (IconsOk.icons_mapHeroes (fun _ hh => hh) hp)
  unfold enemyAct
  dsimp only
  split
  · exact housekeepingStunned_iconsOk _ _ h1
  · exact housekeepingNormal_iconsOk _ _ (attackPhase_iconsOk _ h1)

theorem plain_fresh (c : Card) (icons : Option (List StatusIcon)) (id : Option Nat)
    (t : Option Int) (hi : icons = none ∨ icons = some []) :
    Plain { cardId := c.id, hp := c.hp, base := c, tempHp := t, statusIcons := icons,
            instanceId := id } := by
  intro si hsi
  rcases hi with hi | hi <;> subst hi <;> cases hsi

theorem placeHero_iconsOk (s : State) (i : Nat) (c : Option Card) (hp : IconsOk s.playfield) :
    IconsOk (placeHero s i c).1.playfield := by
  unfold placeHero
  cases c with
  | none => exact hp
  | some c =>
    dsimp only
    repeat' split
    · exact hp
    · exact hp
    · exact hp.icons_set (plain_fresh c _ _ _ (Or.inr rfl)) i

theorem replaceHero_iconsOk (s : State) (i : Nat) (c : Option Card) (hp : IconsOk s.playfield) :
    IconsOk (replaceHero s i c).1.playfield := by
  unfold replaceHero
  cases c with
  | none =>
    dsimp only
    repeat' split
    all_goals exact hp
  | some c =>
    dsimp only
    repeat' split
    · exact hp.icons_setSlot (plain_fresh c _ _ _ (Or.inl rfl)) i
    · exact hp
    · exact hp.icons_set (plain_fresh c _ _ _ (Or.inr rfl)) i

theorem defendHero_iconsOk (s : State) (i : Nat) (hp : IconsOk s.playfield) :
    IconsOk (defendHero s i).1.playfield := by
  unfold defendHero
  split
  · exact hp
  · split
    · exact hp
    · rename_i hero hg
      split
      · exact hp
      · dsimp only
        have hh : Plain hero := IconsOk.icons_of_get hp hg
        refine hp.icons_set ?_ i
        apply plain_push
        · exact hh
        · rfl

theorem resolveHeal_iconsOk (s : State) (i : Nat) (amount : Nat) (t : Target)
    (hp : IconsOk s.playfield) : IconsOk (resolveHeal s i amount t).1.playfield := by
  unfold resolveHeal
  split
  · exact hp
  · rename_i hero hg
    dsimp only
    split
    · exact IconsOk.icons_mapHeroes (fun h hh => hh) hp
    · have htgt : ∀ k, Plain ((getHero s k).getD hero) := by
        intro k
        cases hq : getHero s k with
        | none => exact IconsOk.icons_of_get hp hg
        | some x => exact IconsOk.icons_of_get hp hq
      refine hp.icons_set ?_ _
      exact htgt _

theorem scoutAssist_iconsOk (s : State) (i : Nat) (key : AbilityKey) (c : Ability) (t : Target)
    (hp : IconsOk s.playfield) : IconsOk (scoutAssist s i key c t).1.playfield := by
  unfold scoutAssist
  split
  · split
    · rename_i tgt hg
      dsimp only [chargeSupport]
      have hh : Plain tgt := IconsOk.icons_of_get hp hg
      refine hp.icons_set ?_ _
      apply plain_push
      · exact hh
      · rfl
    · exact hp
  · exact hp

theorem earlySupport_iconsOk (s : State) (i : Nat) (hero : Hero) (hid hname : String)
    (r : State × Result) (hr : earlySupport s i hero hid hname = some r)
    (hh : Plain hero) (hp : IconsOk s.playfield) : IconsOk r.1.playfield := by
  revert hr; unfold earlySupport; simp only
  repeat' split
  all_goals (intro hr; simp at hr; try subst hr)
  · exact hp
  · dsimp only [chargeSupport]
    refine hp.icons_set ?_ i
    apply plain_push
    · exact hh
    · rfl
  · dsimp only [chargeSupport]
    refine hp.icons_set ?_ i
    apply plain_push
    · exact hh
    · rfl

theorem scoutSupport_iconsOk (s : State) (i : Nat) (hero : Hero) (t : Target) (ai : Option Nat)
    (r : State × Result) (hr : scoutSupport s i hero t ai = some r)
    (hp : IconsOk s.playfield) : IconsOk r.1.playfield := by
  revert hr; unfold scoutSupport; simp only
  repeat' split
  all_goals (intro hr; simp at hr; try subst hr)
  · rw [scoutRally_playfield]; exact hp
  · exact scoutAssist_iconsOk _ _ _ _ _ hp
  · rw [scoutRally_playfield]; exact hp

theorem willisSupport_iconsOk (s : State) (i : Nat) (t : Target)
    (hp : IconsOk s.playfield) : IconsOk (willisSupport s i t).1.playfield := by
  unfold willisSupport
  split
  · split
    · rename_i tgt hg
      dsimp only [chargeSupport]
      have hh : Plain tgt := IconsOk.icons_of_get hp hg
      refine hp.icons_set ?_ _
      apply plain_push
      · exact hh
      · rfl
    · exact hp
  · exact hp

theorem lateSupport_iconsOk (s : State) (i : Nat) (hid hname : String) (t : Target)
    (hp : IconsOk s.playfield) : IconsOk (lateSupport s i hid hname t).1.playfield := by
  unfold lateSupport
  split
  · exact willisSupport_iconsOk _ _ _ hp
  · unfold delayedSupport kieferSupport
    dsimp only
    repeat' split
    all_goals exact hp

theorem supportAction_iconsOk (s : State) (i : Nat) (hero : Hero) (t : Target)
    (ai : Option Nat) (hh : Plain hero) (hp : IconsOk s.playfield) :
    IconsOk (supportAction s i hero t ai).1.playfield := by
  unfold supportAction
  simp only
  split
  · exact hp
  · split
    · rename_i r hr
      exact earlySupport_iconsOk _ _ _ _ _ _ hr hh hp
    · split
      · rename_i r hr
        split at hr
        · exact scoutSupport_iconsOk _ _ _ _ _ _ hr hp
        · simp at hr
      · exact lateSupport_iconsOk _ _ _ _ _ hp

theorem playHeroAction_iconsOk (s : State) (i : Nat) (t : Target) (ai : Option Nat)
    (hp : IconsOk s.playfield) : IconsOk (playHeroAction s i t ai).1.playfield := by
  unfold playHeroAction
  split
  · exact hp
  · split
    · exact hp
    · rename_i hero hg
      split
      · exact hp
      · simp only
        split
        · rw [playHeroAttack_playfield]; exact hp
        · split
          · exact resolveHeal_iconsOk s i _ t hp
          · split
            · exact supportAction_iconsOk _ _ _ _ _ (IconsOk.icons_of_get hp hg) hp
            · exact hp

theorem healAll_iconsOk (v : Int) (pf : List Slot) (hp : IconsOk pf) :
    IconsOk (healAll v pf) :=
  IconsOk.icons_mapHeroes (fun h hh => hh) hp

theorem summonEffect_iconsOk (s : State) (d : SummonDef) (t : Target) (s1 : State)
    (h : summonEffect s d t = some s1) (hp : IconsOk s.playfield) : IconsOk s1.playfield := by
  revert h; unfold summonEffect
  split
  · intro h; simp at h; subst h
    exact healAll_iconsOk 1 _ hp
  · split
    · intro h; simp at h; subst h; exact hp
    · split
      · dsimp only
        split
        · rename_i i hero hch
          intro h; simp at h; subst h
          refine hp.icons_set ?_ i
          have hin : Plain hero := by
            split at hch
            · rename_i p hex
              simp only [Option.some.injEq] at hch
              subst hch
              split at hex
              · rename_i tt
                cases hg : getHero s tt with
                | none => simp [hg] at hex
                | some hh =>
                  simp [hg] at hex
                  rw [← hex.2]
                  exact IconsOk.icons_of_get hp hg
              · simp at hex
            · rcases lowestHpFrom_mem _ _ _ _ _ hch with hm | ⟨_, hb⟩
              · exact hp _ hm
              · simp at hb
          exact hin
        · intro h; simp at h
      · split
        · intro h; simp at h; subst h; exact hp
        · split
          · intro h; simp at h; subst h; exact hp
          · split
            · rename_i v hv
              split
              · intro h; simp at h; subst h; exact hp
              · rename_i hv0
                intro h; simp at h; subst h
                exact healAll_iconsOk _ _ hp
            · intro h; simp at h; subst h; exact hp

theorem useSummon_iconsOk (s : State) (d : Option SummonDef) (t : Target)
    (hp : IconsOk s.playfield) : IconsOk (useSummon s d t).1.playfield := by
  unfold useSummon
  repeat' split
  all_goals first
    | exact hp
    | (rename_i h
       dsimp only
       rw [markSummon_playfield]
       exact summonEffect_iconsOk _ _ _ _ h hp)

theorem step_iconsOk (s : State) (op : Op) (hp : IconsOk s.playfield) :
    IconsOk (step s op).playfield := by
  cases op with
  | placeHero i c => exact placeHero_iconsOk s i c hp
  | replaceHero i c => exact replaceHero_iconsOk s i c hp
  | defendHero i => exact defendHero_iconsOk s i hp
  | playHeroAttack i ai =>
    show IconsOk (playHeroAttack s i ai).1.playfield
    rw [playHeroAttack_playfield]; exact hp
  | playHeroAction i t ai => exact playHeroAction_iconsOk s i t ai hp
  | useSummon d t => exact useSummon_iconsOk s d t hp
  | enemyAct => exact enemyAct_iconsOk s hp
  | setFormation f => exact hp

theorem run_iconsOk (ops : List Op) (s : State) (hp : IconsOk s.playfield) :
    IconsOk (run s ops).playfield := by
  induction ops generalizing s with
  | nil => exact hp
  | cons op ops ih => exact ih (step s op) (step_iconsOk s op hp)

theorem pendingStep_agree (acc : PendingAcc) (e : PendingEffect)
    (he : e.trigger = "afterEnemy" → e.type = "delayedDamage") :
    pendingStepStunned acc e = pendingStepNormal acc e := by
  unfold pendingStepStunned pendingStepNormal
  by_cases ht : e.trigger = "afterEnemy"
  · rw [if_pos ht, if_pos ht, if_pos (he ht), if_pos (he ht)]
  · rw [if_neg ht, if_neg ht]

theorem pendingFold_agree (l : List PendingEffect)
    (hl : ∀ e ∈ l, e.trigger = "afterEnemy" → e.type = "delayedDamage") (acc : PendingAcc) :
    l.foldl pendingStepStunned acc = l.foldl pendingStepNormal acc := by
  induction l generalizing acc with
  | nil => rfl
  | cons e rest ih =>
    rw [List.foldl_cons, List.foldl_cons, pendingStep_agree acc e (hl e (List.mem_cons_self _ _))]
    exact ih (fun x hx => hl x (List.mem_cons_of_mem _ hx)) _

theorem pendingFold_outcome (l : List PendingEffect) (a b : PendingAcc)
    (h1 : a.enemyHp = b.enemyHp) (h2 : a.events = b.events) :
    (l.foldl pendingStepStunned a).enemyHp = (l.foldl pendingStepNormal b).enemyHp ∧
    (l.foldl pendingStepStunned a).events = (l.foldl pendingStepNormal b).events := by
  induction l generalizing a b with
  | nil => exact ⟨h1, h2⟩
  | cons e rest ih =>
    rw [List.foldl_cons, List.foldl_cons]
    apply ih
    · unfold pendingStepStunned pendingStepNormal
      by_cases ht : e.trigger = "afterEnemy"
      · rw [if_pos ht, if_pos ht]
        by_cases hy : e.type = "delayedDamage"
        · rw [if_pos hy, if_pos hy, h1]
        · rw [if_neg hy, if_neg hy]
          exact h1
      · rw [if_neg ht, if_neg ht]
        exact h1
    · unfold pendingStepStunned pendingStepNormal
      by_cases ht : e.trigger = "afterEnemy"
      · rw [if_pos ht, if_pos ht]
        by_cases hy : e.type = "delayedDamage"
        · rw [if_pos hy, if_pos hy, h1, h2]
        · rw [if_neg hy, if_neg hy]
          exact h2
      · rw [if_neg ht, if_neg ht]
        exact h2

theorem keepIcon_agree (pending : List PendingEffect) (i : Nat) (h : Hero) (si : StatusIcon)
    (hb : (si.id = "blind" ∨ si.id = "blinded") → si.persistent = decide (h.blindedTurns > 0)) :
    keepIconStunned pending i h si = keepIconNormal pending i h si := by
  unfold keepIconStunned keepIconNormal
  by_cases hid : si.id = "blind" ∨ si.id = "blinded"
  · have hp := hb hid
    rcases hid with hid | hid
    · simp [hid, hp]
    · simp [hid, hp]
  · rw [if_neg hid]

theorem syncIcons_congr (k1 k2 : Nat → Hero → StatusIcon → Bool) (pf : List Slot) (i : Nat)
    (hk : ∀ j h, pf[j]? = some (Slot.hero h) → ∀ si ∈ h.statusIcons.getD [],
      k1 (i + j) h si = k2 (i + j) h si) :
    syncIconsFrom k1 pf i = syncIconsFrom k2 pf i := by
  induction pf generalizing i with
  | nil => rfl
  | cons sl rest ih =>
    have hrest : syncIconsFrom k1 rest (i + 1) = syncIconsFrom k2 rest (i + 1) := by
      apply ih
      intro j h hj si hsi
      have := hk (j + 1) h (by simpa using hj) si hsi
      rw [show i + 1 + j = i + (j + 1) by omega]
      exact this
    cases sl with
    | null => simp only [syncIconsFrom, hrest]
    | hole => simp only [syncIconsFrom, hrest]
    | hero h =>
      have h0 := hk 0 h (by simp)
      have hmap : (h.statusIcons.map fun icons => icons.filter (k1 i h)) =
          (h.statusIcons.map fun icons => icons.filter (k2 i h)) := by
        cases hi : h.statusIcons with
        | none => rfl
        | some icons =>
          rw [hi] at h0
          simp only [Option.map_some', Option.some.injEq]
          apply List.filter_congr
          intro si hsi
          exact h0 si hsi
      simp only [syncIconsFrom, hrest, hmap]

theorem housekeeping_view {α : Type} (g : Hero → α) (x : State) (j : Nat)
    (h1 : ∀ h, g (decProtection h) = g h)
    (h2 : ∀ (h : Hero) (b : Bool), g { h with defending := b } = g h)
    (h3 : ∀ (h : Hero) (b : Bool), g { h with helped := b } = g h)
    (h4 : ∀ (h : Hero) (q : ℚ), g { h with hitBonus := q } = g h) :
    ((mapHeroes decProtection (resetRound x).playfield)[j]?.bind Slot.hero?).map g =
      (getHero x j).map g := by
  unfold resetRound getHero
  dsimp only
  rw [view_mapHeroes g _ _ j h1, view_mapHeroes g _ _ j (fun h => h4 h 0),
    view_mapHeroes g _ _ j (fun h => h3 h false), view_mapHeroes g _ _ j (fun h => h2 h false)]

theorem decProtection_icons (h : Hero) :
    (decProtection h).statusIcons = h.statusIcons ∧
    (decProtection h).blindedTurns = h.blindedTurns := by
  unfold decProtection
  repeat' split
  all_goals exact ⟨rfl, rfl⟩

theorem housekeeping_agree_on (x : State) (evs : List Event) (hr : Receivable x) :
    housekeepingStunned x evs = housekeepingNormal x evs := by
  have hfold := pendingFold_agree (resetRound x).pendingEffects hr.1
    { enemyHp := (resetRound x).enemy.hp, events := evs, remaining := [] }
  have hsync : ∀ R : List PendingEffect,
      syncIconsFrom (keepIconStunned R) (mapHeroes decProtection (resetRound x).playfield) 0 =
        syncIconsFrom (keepIconNormal R) (mapHeroes decProtection (resetRound x).playfield) 0 := by
    intro R
    apply syncIcons_congr
    intro j h hj si hsi
    apply keepIcon_agree
    intro hb
    have hv := housekeeping_view (fun h => (h.statusIcons, h.blindedTurns)) x j
      (fun h => by
        show ((decProtection h).statusIcons, (decProtection h).blindedTurns) = _
        rw [(decProtection_icons h).1, (decProtection_icons h).2])
      (fun _ _ => rfl) (fun _ _ => rfl) (fun _ _ => rfl)
    rw [hj] at hv
    cases hg : getHero x j with
    | none =>
      rw [hg] at hv
      cases hv
    | some h0 =>
      rw [hg] at hv
      simp only [Option.some_bind, Slot.hero?, Option.map_some', Option.some.injEq,
        Prod.mk.injEq] at hv
      rw [hv.2]
      apply hr.2 j h0 hg si
      · rw [← hv.1]
        exact hsi
      · exact hb
  unfold housekeepingStunned housekeepingNormal
  dsimp only
  rw [hfold, hsync]

theorem housekeeping_common (x : State) (evs : List Event) :
    (housekeepingStunned x evs).1.ap = (housekeepingNormal x evs).1.ap ∧
    (housekeepingStunned x evs).1.summonCooldowns = (housekeepingNormal x evs).1.summonCooldowns ∧
    (housekeepingStunned x evs).1.abilityCooldowns =
      (housekeepingNormal x evs).1.abilityCooldowns ∧
    (housekeepingStunned x evs).1.enemy = (housekeepingNormal x evs).1.enemy ∧
    (housekeepingStunned x evs).1.supportUsed = (housekeepingNormal x evs).1.supportUsed ∧
    (housekeepingStunned x evs).2 = (housekeepingNormal x evs).2 ∧
    (∀ k, (getHero (housekeepingStunned x evs).1 k).map flags =
      (getHero (housekeepingNormal x evs).1 k).map flags) := by
  obtain ⟨f1, f2⟩ := pendingFold_outcome (resetRound x).pendingEffects
    { enemyHp := (resetRound x).enemy.hp, events := evs, remaining := [] }
    { enemyHp := (resetRound x).enemy.hp, events := evs, remaining := [] } rfl rfl
  refine ⟨rfl, rfl, rfl, ?_, rfl, ?_, ?_⟩
  · unfold housekeepingStunned housekeepingNormal
    dsimp only
    rw [f1]
  · unfold housekeepingStunned housekeepingNormal
    dsimp only
    exact f2
  · intro k
    unfold housekeepingStunned housekeepingNormal getHero
    dsimp only
    rw [view_syncIconsFrom flags (fun _ _ => rfl), view_syncIconsFrom flags (fun _ _ => rfl)]

theorem stunnedInput_receivable (s : State) (hp : PendingOk s) (hi : IconsOk s.playfield)
    (hc : CountersOk s) : Receivable (stunnedInput s) := by
  refine ⟨fun e he _ => (hp e he).1, ?_⟩
  intro k h hg si hsi _
  have hpre := prelude_getHero s.playfield k
  have hg' : (mapHeroes decBlind (mapHeroes decStunEnfeeble s.playfield))[k]?.bind Slot.hero? =
      some h := hg
  rw [hg'] at hpre
  cases hg0 : getHero s k with
  | none =>
    unfold getHero at hg0
    rw [hg0] at hpre
    cases hpre
  | some h0 =>
    have hg1 := hg0
    unfold getHero at hg1
    rw [hg1] at hpre
    simp only [Option.map_some', Option.some.injEq] at hpre
    have hb : h.blindedTurns = 0 := by
      rw [hpre]
      have := (hc k h0 hg0).2.2
      show h0.blindedTurns - 1 = 0
      omega
    have hplain : Plain h0 := IconsOk.icons_of_get hi hg0
    have hsi' : si ∈ h0.statusIcons.getD [] := by
      rw [hpre] at hsi
      exact hsi
    rw [hplain si hsi', hb]
    rfl

theorem startEncounter_ready (e : Enemy) (hand : Option (List Card)) (rng : Rng)
    (ap : Option Int) :
    PendingOk (startEncounter e hand rng ap) ∧
    IconsOk (startEncounter e hand rng ap).playfield ∧
    CountersOk (startEncounter e hand rng ap) := by
  refine ⟨?_, ?_, ?_⟩
  · intro x hx
    cases hx
  · intro h hm
    simp [startEncounter] at hm
  · intro k h hg
    have hlt := lt_length_of_getHero hg
    have hcase : k = 0 ∨ k = 1 ∨ k = 2 := by
      have : (startEncounter e hand rng ap).playfield.length = 3 := rfl
      omega
    rcases hcase with rfl | rfl | rfl <;> cases hg

/-- C13: the end-of-turn housekeeping of `enemyAct` is the same on the stunned branch and on
the normal branch. The stunned branch runs its copy on the state `stunnedInput s`, the
normal branch runs its copy on the outcome of the attack. Applied to the same state, the two
copies yield, for every state whatever, the same `ap`, summon and ability cooldowns, enemy
(so the same enemy hp), `supportUsed`, events, and per hero the same `defending`, `helped`,
`hitBonus` and protection. They yield the same state altogether, `pendingEffects` and
`statusIcons` included, on every state whose pending effects triggering after the enemy's
turn are delayed damage and whose `blind` icons are marked persistent exactly on blinded
heroes; and every state the stunned branch hands to its copy, in any encounter played from
`startEncounter` through the public operations, is of that kind. So in every such encounter
the stunned branch's housekeeping returns exactly what the normal branch's copy returns on
the same state. -/
theorem housekeeping_branches_agree :
    (∀ s : State, 0 < s.enemy.stunnedTurns →
      enemyAct s =
        ((housekeepingStunned (stunnedInput s) []).1,
          { did := "enemyStunned",
            events := Event.stunned :: (housekeepingStunned (stunnedInput s) []).2 })) ∧
    (∀ s : State, s.enemy.stunnedTurns = 0 →
      enemyAct s =
        ((housekeepingNormal (normalInput s).1 (normalInput s).2).1,
          { did := "enemyAct",
            events := (housekeepingNormal (normalInput s).1 (normalInput s).2).2 })) ∧
    (∀ (x : State) (evs : List Event),
      (housekeepingStunned x evs).1.ap = (housekeepingNormal x evs).1.ap ∧
      (housekeepingStunned x evs).1.summonCooldowns =
        (housekeepingNormal x evs).1.summonCooldowns ∧
      (housekeepingStunned x evs).1.abilityCooldowns =
        (housekeepingNormal x evs).1.abilityCooldowns ∧
      (housekeepingStunned x evs).1.enemy = (housekeepingNormal x evs).1.enemy ∧
      (housekeepingStunned x evs).1.supportUsed = (housekeepingNormal x evs).1.supportUsed ∧
      (housekeepingStunned x evs).2 = (housekeepingNormal x evs).2 ∧
      (∀ k, (getHero (housekeepingStunned x evs).1 k).map flags =
        (getHero (housekeepingNormal x evs).1 k).map flags)) ∧
    (∀ (x : State) (evs : List Event), Receivable x →
      housekeepingStunned x evs = housekeepingNormal x evs) ∧
    (∀ (enemyDef : Enemy) (hand : Option (List Card)) (rng : Rng) (apPerTurn : Option Int)
      (ops : List Op),
      Receivable (stunnedInput (run (startEncounter enemyDef hand rng apPerTurn) ops)) ∧
      ∀ evs : List Event,
        housekeepingStunned (stunnedInput (run (startEncounter enemyDef hand rng apPerTurn) ops))
            evs =
          housekeepingNormal (stunnedInput (run (startEncounter enemyDef hand rng apPerTurn) ops))
            evs) := by
  refine ⟨?_, ?_, housekeeping_common, housekeeping_agree_on, ?_⟩
  · intro s hs
    unfold enemyAct
    dsimp only
    rw [if_pos hs]
    rfl
  · intro s hs
    unfold enemyAct
    dsimp only
    rw [if_neg (by omega)]
    rfl
  · intro e hand rng ap ops
    obtain ⟨h1, h2, h3⟩ := startEncounter_ready e hand rng ap
    have hr := stunnedInput_receivable _ (run_pendingOk ops _ h1) (run_iconsOk ops _ h2)
      (run_countersOk ops _ h3)
    exact ⟨hr, fun evs => housekeeping_agree_on _ evs hr⟩

/-- An instance of C13: with lumalia's delayed damage pending, the fighter defending and the
enemy stunned by whelm, the stunned branch's housekeeping and the normal branch's copy
return the same state and events on the state the stunned branch hands over; the turn takes
the 6 delayed damage from the enemy's 30 hit points and clears the defend icon. -/
theorem housekeeping_branches_agree_witness :
    0 < stunnedRound.enemy.stunnedTurns ∧
    housekeepingStunned (stunnedInput stunnedRound) [] =
      housekeepingNormal (stunnedInput stunnedRound) [] ∧
    (enemyAct stunnedRound).1 = (housekeepingNormal (stunnedInput stunnedRound) []).1 ∧
    (enemyAct stunnedRound).1.enemy.hp = 24 ∧
    (getHero (enemyAct stunnedRound).1 1).map (fun h => h.statusIcons) = some (some []) :=
  have hr := (housekeeping_branches_agree.2.2.2.2 ogre (some [lumalia, fighter])
    { rolls := [], ints := [] } none
    [Op.placeHero 0 (some lumalia), Op.placeHero 1 (some fighter),
     Op.playHeroAction 0 Target.none none, Op.defendHero 1,
     Op.useSummon (some { id := "whelm" }) Target.none]).1
  have he := housekeeping_branches_agree.2.2.2.1 (stunnedInput stunnedRound) [] hr
  ⟨by decide, he,
    (congrArg Prod.fst (housekeeping_branches_agree.1 stunnedRound (by decide))).trans
      (congrArg Prod.fst he),
    by decide, by decide⟩

end Encounter
